import Mathlib

/-!
# greenery: layered configuration resolution

A shallow embedding of the configuration loader of `woodensquares/greenery`
(`parseTags` of `binding.go`, `conversions.go`, `loader.go`, `runWrapper` of
`misc.go`) together with the parts of the Go standard library, `spf13/cast`,
`spf13/pflag` and `spf13/viper` that decide what the loader does.  Go strings are
Lean strings; the string helpers below work on the list of characters of a
string.  Go functions with several results return tuples, the error last, `none`
standing for `nil`.
-/

namespace Greenery

/-! ## Go string helpers (package `strings`) -/

/-- Go `unicode.IsSpace`: the white space code points. -/
def isSpace (c : Char) : Bool :=
  let n := c.toNat
  n == 0x20 || (0x09 ≤ n && n ≤ 0x0D) || n == 0x85 || n == 0xA0 || n == 0x1680 ||
    (0x2000 ≤ n && n ≤ 0x200A) || n == 0x2028 || n == 0x2029 || n == 0x202F ||
    n == 0x205F || n == 0x3000

/-- Go `strings.Split(s, sep)` for a one-character separator, on character lists. -/
def splitChars (sep : Char) : List Char → List (List Char)
  | [] => [[]]
  | c :: cs =>
    if c = sep then [] :: splitChars sep cs
    else
      match splitChars sep cs with
      | [] => [[c]]
      | p :: ps => (c :: p) :: ps

/-- Go `strings.Split(s, sep)` for a one-character separator. -/
def strSplit (s : String) (sep : Char) : List String :=
  (splitChars sep s.data).map String.mk

/-- Go `strings.TrimSpace`. -/
def trimSpace (s : String) : String :=
  String.mk (((s.data.dropWhile isSpace).reverse.dropWhile isSpace).reverse)

/-- Go `strings.TrimLeft(s, cutset)` for a one-character cutset. -/
def trimLeft (s : String) (c : Char) : String :=
  String.mk (s.data.dropWhile (fun x => x == c))

/-- Go `strings.HasPrefix(s, p)` for a one-character prefix. -/
def hasPrefixChar (s : String) (c : Char) : Bool :=
  match s.data with
  | [] => false
  | x :: _ => x == c

/-- Go `strings.Contains(s, sub)` for a one-character substring. -/
def containsChar (s : String) (c : Char) : Bool :=
  s.data.contains c

/-- Go `strings.Count(s, sub)` for a one-character substring. -/
def countChar (s : String) (c : Char) : Nat :=
  s.data.count c

/-- Go `strings.HasSuffix`. -/
def hasSuffix (s suffix : String) : Bool :=
  suffix.data.reverse.isPrefixOf s.data.reverse

/-- Go `strings.Join`. -/
def strJoin (xs : List String) (sep : String) : String :=
  sep.intercalate xs

/-! ## Decimal rendering (`%d`, `%v` of an integer, `strconv.Itoa`) -/

/-- The character of a decimal digit. -/
def digitChar (d : Nat) : Char := Char.ofNat (48 + d)

/-- Digits of `n`, most significant first, in front of `acc`; `fuel` bounds the
number of digits. -/
def formatNatAux : Nat → Nat → List Char → List Char
  | 0, _, acc => acc
  | fuel + 1, n, acc =>
    if n < 10 then digitChar n :: acc
    else formatNatAux fuel (n / 10) (digitChar (n % 10) :: acc)

/-- Decimal digits of a natural number. -/
def formatNat (n : Nat) : List Char := formatNatAux (n + 1) n []

/-- Go `strconv.FormatInt(v, 10)`: what `%d` and `%v` print for an integer. -/
def formatInt (v : Int) : String :=
  if v < 0 then String.mk ('-' :: formatNat v.natAbs) else String.mk (formatNat v.natAbs)

/-! ## Field tags (`misc.go`, `binding.go`) -/

/-- The constant `sepKeyParts` of `misc.go`. -/
def sepKeyParts : Char := '.'
/-- The constant `sepCmdParts` of `misc.go`. -/
def sepCmdParts : Char := '|'
/-- The constant `sepTag` of `misc.go`. -/
def sepTag : Char := ','
/-- The constant `sepMultipleCmds` of `misc.go`. -/
def sepMultipleCmds : Char := '&'

/-- The four results of `parseTags`: command-line part, configuration key,
environment suffix and the error (`none` for `nil`). -/
structure Tags where
  cobra : String
  vipername : String
  viperenv : String
  err : Option String
  deriving DecidableEq, Repr

/-- The function `parseTags` of `binding.go`, for a struct field called `name` whose
`greenery` tag is `tag` (the empty string when the field has no such tag). -/
def parseTags (name tag : String) : Tags :=
  if tag = "" then
    ⟨"", "", "", some ("could not find a greenery tag for " ++ name)⟩
  else
    let tags := strSplit tag sepTag
    if tags.length ≠ 3 then
      ⟨"", "", "", some ("Invalid tag for " ++ name ++ ", found " ++
        formatInt (tags.length : Nat) ++ " parts instead of 3 in " ++ tag)⟩
    else
      let vipername := trimSpace (tags.getD 1 "")
      if vipername ≠ "" then
        if !hasPrefixChar vipername sepKeyParts && !containsChar vipername sepKeyParts then
          ⟨"", "", "", some ("Invalid config file tag for '" ++ name ++ "', no " ++
            String.singleton sepKeyParts ++ " present in '" ++ vipername ++ "'")⟩
        else
          let vipername :=
            if hasPrefixChar vipername sepKeyParts then trimLeft vipername sepKeyParts
            else vipername
          if countChar vipername sepKeyParts > 1 then
            ⟨"", "", "", some ("Invalid config file tag for '" ++ name ++ "', more than two " ++
              String.singleton sepKeyParts ++ " present in '" ++ String.singleton sepKeyParts ++
              vipername ++ "'")⟩
          else
            ⟨trimSpace (tags.getD 0 ""), vipername, trimSpace (tags.getD 2 ""), none⟩
      else
        ⟨trimSpace (tags.getD 0 ""), vipername, trimSpace (tags.getD 2 ""), none⟩

/-! ## Dynamic values and errors -/

/-- A Go `interface{}` value as it reaches the conversion functions: `nil`, a
`bool`, an `int64` (what the TOML decoder yields for an integer), a `string`
(what the environment and the command line yield), or a value of a type the
integer conversions of `cast` do not handle (a `time.Time`, a table, ...), given
by its type name and its `%v` text.  Floating point values are outside the
model. -/
inductive GoVal where
  | nil
  | bool (b : Bool)
  | int (v : Int)
  | str (s : String)
  | other (ty : String) (text : String)
  deriving DecidableEq, Repr

/-- What `%v` prints for a value. -/
def GoVal.fmtV : GoVal → String
  | .nil => "<nil>"
  | .bool b => if b then "true" else "false"
  | .int v => formatInt v
  | .str s => s
  | .other _ text => text

/-- Errors made by `spf13/cast`; their text is produced by that library. -/
inductive CastErr where
  /-- `unable to cast <v> ... to <ty>`. -/
  | unable (v : GoVal) (ty : String)
  /-- The value `errNegativeNotAllowed`. -/
  | negative
  deriving DecidableEq, Repr

/-- Errors of `viper.ReadInConfig`, by dynamic type. -/
inductive ReadErr where
  /-- A `viper.ConfigFileNotFoundError`. -/
  | configFileNotFound
  /-- An `*os.PathError`; `notExist` tells whether the cause is that the file does
  not exist (`ENOENT`) rather than, say, a permission or an is-a-directory error. -/
  | pathError (notExist : Bool)
  /-- Any other error, for instance a TOML syntax error. -/
  | other (msg : String)
  deriving DecidableEq, Repr

/-- Go `error` values met by the loader. -/
inductive GoErr where
  /-- An error made with `fmt.Errorf`, with its message. -/
  | errorf (msg : String)
  /-- An error of `cast`. -/
  | cast (e : CastErr)
  /-- An error of reading the configuration file. -/
  | read (e : ReadErr)
  /-- An error returned by application code: a `Set` or `UnmarshalText` method or
  the extension parser. -/
  | app (msg : String)
  /-- The result of `errors.WithMessage(inner, msg)`. -/
  | withMessage (inner : GoErr) (msg : String)
  /-- A run-time panic (a nil pointer dereference): the call does not return. -/
  | panicked (msg : String)
  deriving DecidableEq, Repr

/-- The method `Error()`; `libText` gives the text of the errors made by the
libraries (`cast`, `viper`, `os`). -/
def GoErr.Error (libText : GoErr → String) : GoErr → String
  | .errorf msg => msg
  | .app msg => msg
  | .withMessage inner msg => msg ++ ": " ++ inner.Error libText
  | e => libText e

/-! ## `strconv.ParseUint` and `strconv.ParseInt` -/

/-- The errors of `strconv`: `ErrSyntax`, `ErrRange`, and the errors for a base or a
bit size that is not valid. -/
inductive NumErr where
  | syntaxErr
  | rangeErr
  | baseErr
  | bitSizeErr
  deriving DecidableEq, Repr

/-- The constant `strconv.IntSize` on a 64-bit platform. -/
def intSize : Nat := 64

/-- The constant `maxUint64`. -/
def maxUint64 : Nat := 2 ^ 64 - 1

/-- The value of a digit character in `ParseUint`: `0`-`9`, `a`-`z`, `A`-`Z`. -/
def digitVal (c : Char) : Option Nat :=
  let n := c.toNat
  if 48 ≤ n ∧ n ≤ 57 then some (n - 48)
  else if 97 ≤ n ∧ n ≤ 122 then some (n - 97 + 10)
  else if 65 ≤ n ∧ n ≤ 90 then some (n - 65 + 10)
  else none

/-- Whether `lower(c)` of `strconv` is the lower-case letter `l`. -/
def lowerIs (c l : Char) : Bool := c == l || c == l.toUpper

/-- Whether a character is a digit of the number proper in `underscoreOK`: a decimal
digit, or with `hex` a letter up to `f`. -/
def underscoreDigit (hex : Bool) (c : Char) : Bool :=
  (decide ('0' ≤ c) && decide (c ≤ '9')) ||
    (hex && ((decide ('a' ≤ c) && decide (c ≤ 'f')) || (decide ('A' ≤ c) && decide (c ≤ 'F'))))

/-- The loop of `underscoreOK` over the number proper; `saw` is the variable of the
source, one of the characters `^`, `0`, `_` and `!`. -/
def underscoreLoop (hex : Bool) : List Char → Char → Bool
  | [], saw => saw != '_'
  | c :: cs, saw =>
    if underscoreDigit hex c then underscoreLoop hex cs '0'
    else if c = '_' then
      if saw != '0' then false else underscoreLoop hex cs '_'
    else if saw = '_' then false
    else underscoreLoop hex cs '!'

/-- The function `underscoreOK` of `strconv`: whether the underscores of `s` are
placed as in a Go literal. -/
def underscoreOK (s : List Char) : Bool :=
  let s := match s with
    | c :: rest => if c = '-' ∨ c = '+' then rest else s
    | [] => s
  match s with
  | c0 :: c1 :: rest =>
    if c0 = '0' ∧ (lowerIs c1 'b' ∨ lowerIs c1 'o' ∨ lowerIs c1 'x') then
      underscoreLoop (lowerIs c1 'x') rest '0'
    else underscoreLoop false s '^'
  | _ => underscoreLoop false s '^'

/-- The digit loop of `ParseUint`, from the accumulated value `n`; `base0` tells
whether the base was given as 0 and `underscores` whether an underscore was met. -/
def parseUintLoop (base0 : Bool) (base cutoff maxVal : Nat) :
    List Char → Nat → Bool → Nat × Option NumErr × Bool
  | [], n, underscores => (n, none, underscores)
  | c :: cs, n, underscores =>
    if c = '_' ∧ base0 = true then parseUintLoop base0 base cutoff maxVal cs n true
    else
      match digitVal c with
      | none => (0, some .syntaxErr, underscores)
      | some v =>
        if v ≥ base then (0, some .syntaxErr, underscores)
        else if n ≥ cutoff then (maxVal, some .rangeErr, underscores)
        else if n * base + v > maxUint64 ∨ n * base + v > maxVal then
          (maxVal, some .rangeErr, underscores)
        else parseUintLoop base0 base cutoff maxVal cs (n * base + v) underscores

/-- The base and the digits that `ParseUint` takes from a string `s` that is not empty
when the base is given as 0: the prefixes `0b`, `0o` and `0x` select the bases 2, 8
and 16 when a character follows them, another leading `0` the base 8. -/
def basePrefix (s : List Char) : Nat × List Char :=
  match s with
  | '0' :: rest =>
    match rest with
    | c1 :: _ :: _ =>
      if lowerIs c1 'b' then (2, rest.drop 1)
      else if lowerIs c1 'o' then (8, rest.drop 1)
      else if lowerIs c1 'x' then (16, rest.drop 1)
      else (8, rest)
    | _ => (8, rest)
  | _ => (10, s)

/-- Go `strconv.ParseUint(s, base, bitSize)` on the characters of `s`, as in the Go
releases from 1.13 on: with base 0 the prefixes `0b`, `0o` and `0x` and a leading `0`
select the base, and underscores may separate the digits. -/
def parseUintChars (s : List Char) (base bitSize : Nat) : Nat × Option NumErr :=
  match s with
  | [] => (0, some .syntaxErr)
  | _ :: _ =>
    let base0 : Bool := decide (base = 0)
    let chosen : Option (Nat × List Char) :=
      if 2 ≤ base ∧ base ≤ 36 then some (base, s)
      else if base = 0 then some (basePrefix s)
      else none
    match chosen with
    | none => (0, some .baseErr)
    | some (base, digits) =>
      if bitSize > 64 then (0, some .bitSizeErr)
      else
        let bitSize := if bitSize = 0 then intSize else bitSize
        match parseUintLoop base0 base (maxUint64 / base + 1) (2 ^ bitSize - 1) digits 0 false with
        | (n, some err, _) => (n, some err)
        | (n, none, underscores) =>
          if underscores ∧ ¬ underscoreOK s then (0, some .syntaxErr) else (n, none)

/-- Go `strconv.ParseInt(s, base, bitSize)` on the characters of `s`. -/
def parseIntChars (s : List Char) (base bitSize : Nat) : Int × Option NumErr :=
  let bitSize' := if bitSize = 0 then intSize else bitSize
  match s with
  | [] => (0, some .syntaxErr)
  | c0 :: rest =>
    let neg := c0 = '-'
    let body := if c0 = '+' ∨ c0 = '-' then rest else s
    match parseUintChars body base bitSize with
    | (un, none) | (un, some .rangeErr) =>
      let cutoff : Nat := 2 ^ (bitSize' - 1)
      if ¬ neg ∧ un ≥ cutoff then ((cutoff : Int) - 1, some .rangeErr)
      else if neg ∧ un > cutoff then (-(cutoff : Int), some .rangeErr)
      else (if neg then -(un : Int) else (un : Int), none)
    | (_, some err) => (0, some err)

/-- Go `strconv.ParseInt`. -/
def parseInt (s : String) (base bitSize : Nat) : Int × Option NumErr :=
  parseIntChars s.data base bitSize

/-- Go `strconv.ParseUint`. -/
def parseUint (s : String) (base bitSize : Nat) : Nat × Option NumErr :=
  parseUintChars s.data base bitSize


/-! ## Integer conversions of `spf13/cast` (release 1.3) -/

/-- The Go conversion `intN(v)` of an integer: the value wraps around. -/
def wrapInt (bits : Nat) (v : Int) : Int :=
  (v + 2 ^ (bits - 1)) % 2 ^ bits - 2 ^ (bits - 1)

/-- The Go conversion `uintN(v)` of an integer: the value wraps around. -/
def wrapUint (bits : Nat) (v : Int) : Int :=
  v % 2 ^ bits

/-- The functions `cast.ToInt8E`, `cast.ToInt16E`, `cast.ToInt32E` and
`cast.ToInt64E` (`bits` is 8, 16, 32 or 64, `ty` the name of the type): an integer
is converted with `intN(s)`, a string is read with `strconv.ParseInt(s, 0, 0)` and
then converted with `intN(v)`. -/
def toIntNE (bits : Nat) (ty : String) : GoVal → Int × Option CastErr
  | .int v => (wrapInt bits v, none)
  | .str s =>
    match parseInt s 0 0 with
    | (v, none) => (wrapInt bits v, none)
    | (_, some _) => (0, some (.unable (.str s) ty))
  | .bool b => (if b then 1 else 0, none)
  | .nil => (0, none)
  | .other t x => (0, some (.unable (.other t x) ty))

/-- `cast.ToInt8E`. -/
def toInt8E : GoVal → Int × Option CastErr := toIntNE 8 "int8"
/-- `cast.ToInt16E`. -/
def toInt16E : GoVal → Int × Option CastErr := toIntNE 16 "int16"
/-- `cast.ToInt32E`. -/
def toInt32E : GoVal → Int × Option CastErr := toIntNE 32 "int32"
/-- `cast.ToInt64E`. -/
def toInt64E : GoVal → Int × Option CastErr := toIntNE 64 "int64"
/-- `cast.ToIntE` (`int` has 64 bits). -/
def toIntE : GoVal → Int × Option CastErr := toIntNE 64 "int"
/-- `cast.ToInt64`: the value of `ToInt64E`, the error dropped. -/
def toInt64 (v : GoVal) : Int := (toInt64E v).1

/-- The functions `cast.ToUint8E`, `cast.ToUint16E`, `cast.ToUint32E` and
`cast.ToUint64E`: a negative integer is refused, another integer is converted with
`uintN(s)`, a string is read with `strconv.ParseUint(s, 0, bits)`. -/
def toUintNE (bits : Nat) (ty : String) : GoVal → Int × Option CastErr
  | .int v => if v < 0 then (0, some .negative) else (wrapUint bits v, none)
  | .str s =>
    match parseUint s 0 bits with
    | (v, none) => (wrapUint bits v, none)
    | (_, some _) => (0, some (.unable (.str s) ty))
  | .bool b => (if b then 1 else 0, none)
  | .nil => (0, none)
  | .other t x => (0, some (.unable (.other t x) ty))

/-- `cast.ToUint8E`. -/
def toUint8E : GoVal → Int × Option CastErr := toUintNE 8 "uint8"
/-- `cast.ToUint16E`. -/
def toUint16E : GoVal → Int × Option CastErr := toUintNE 16 "uint16"
/-- `cast.ToUint32E`. -/
def toUint32E : GoVal → Int × Option CastErr := toUintNE 32 "uint32"
/-- `cast.ToUint64E`. -/
def toUint64E : GoVal → Int × Option CastErr := toUintNE 64 "uint64"
/-- `cast.ToUintE` (`uint` has 64 bits; strings are read with bit size 0). -/
def toUintE : GoVal → Int × Option CastErr := toUintNE 64 "uint"
/-- `cast.ToUint64`: the value of `ToUint64E`, the error dropped. -/
def toUint64 (v : GoVal) : Int := (toUint64E v).1

/-! ## Overflow-checked conversions (`conversions.go`) -/

/-- The function `withErr` of `conversions.go`. -/
def withErr (vipername : String) (err : GoErr) : GoErr :=
  .withMessage err ("Cannot convert flag value " ++ vipername)

/-- The function `checkIntOverflow` of `conversions.go`; `vc` is the converted
value, `v` the value it was converted from. -/
def checkIntOverflow (err : Option CastErr) (vipername : String) (which : Nat)
    (vc : Int) (v : GoVal) : Option GoErr :=
  match err with
  | some e => some (withErr vipername (.cast e))
  | none =>
    let val64 := toInt64 v
    let valc := toInt64 (.int vc)
    if val64 ≠ valc then
      some (withErr vipername (.errorf (v.fmtV ++ " would overflow an int" ++ formatInt which)))
    else none

/-- The function `checkUIntOverflow` of `conversions.go`. -/
def checkUIntOverflow (err : Option CastErr) (vipername : String) (which : Nat)
    (vc : Int) (v : GoVal) : Option GoErr :=
  match err with
  | some e => some (withErr vipername (.cast e))
  | none =>
    let val64 := toUint64 v
    let valc := toUint64 (.int vc)
    if val64 ≠ valc then
      some (withErr vipername (.errorf (v.fmtV ++ " would overflow an uint" ++ formatInt which)))
    else none

/-- The function `getInt8` of `conversions.go`. -/
def getInt8 (vipername : String) (v : GoVal) : Int × Option GoErr :=
  let (val, err) := toInt8E v
  (val, checkIntOverflow err vipername 8 val v)

/-- The function `getInt16` of `conversions.go`. -/
def getInt16 (vipername : String) (v : GoVal) : Int × Option GoErr :=
  let (val, err) := toInt16E v
  (val, checkIntOverflow err vipername 16 val v)

/-- The function `getInt32` of `conversions.go`. -/
def getInt32 (vipername : String) (v : GoVal) : Int × Option GoErr :=
  let (val, err) := toInt32E v
  (val, checkIntOverflow err vipername 32 val v)

/-- The function `getInt64` of `conversions.go`. -/
def getInt64 (vipername : String) (v : GoVal) : Int × Option GoErr :=
  let (val, err) := toInt64E v
  (val, err.map (fun e => withErr vipername (.cast e)))

/-- The function `getInt` of `conversions.go`. -/
def getInt (vipername : String) (v : GoVal) : Int × Option GoErr :=
  let (val, err) := toIntE v
  (val, err.map (fun e => withErr vipername (.cast e)))

/-- The function `getUint8` of `conversions.go`. -/
def getUint8 (vipername : String) (v : GoVal) : Int × Option GoErr :=
  let (val, err) := toUint8E v
  (val, checkUIntOverflow err vipername 8 val v)

/-- The function `getUint16` of `conversions.go`. -/
def getUint16 (vipername : String) (v : GoVal) : Int × Option GoErr :=
  let (val, err) := toUint16E v
  (val, checkUIntOverflow err vipername 16 val v)

/-- The function `getUint32` of `conversions.go`. -/
def getUint32 (vipername : String) (v : GoVal) : Int × Option GoErr :=
  let (val, err) := toUint32E v
  (val, checkUIntOverflow err vipername 32 val v)

/-- The function `getUint64` of `conversions.go`. -/
def getUint64 (vipername : String) (v : GoVal) : Int × Option GoErr :=
  let (val, err) := toUint64E v
  (val, err.map (fun e => withErr vipername (.cast e)))

/-- The function `getUint` of `conversions.go`. -/
def getUint (vipername : String) (v : GoVal) : Int × Option GoErr :=
  let (val, err) := toUintE v
  (val, err.map (fun e => withErr vipername (.cast e)))

/-! ## Other conversions of `spf13/cast` and of the standard library -/

/-- Behaviour of the libraries that is not modelled in detail: Unicode classes,
floating point and slice conversions, and `path.Dir`. -/
structure External where
  /-- Go `unicode.IsUpper`. -/
  isUpper : Char → Bool
  /-- Whether `cast.ToStringE` renders the values of the type of this name (a
  `fmt.Stringer`, an `error`, a byte slice). -/
  isStringer : String → Bool
  /-- `cast.ToFloat32E`. -/
  toFloat32E : GoVal → GoVal × Option CastErr
  /-- `cast.ToFloat64E`. -/
  toFloat64E : GoVal → GoVal × Option CastErr
  /-- Whether `math.Abs(cast.ToFloat64(v)) > math.MaxFloat32`. -/
  float32Overflow : GoVal → Bool
  /-- `cast.ToIntSliceE`. -/
  toIntSliceE : GoVal → GoVal × Option CastErr
  /-- `cast.ToStringSliceE`. -/
  toStringSliceE : GoVal → GoVal × Option CastErr
  /-- Go `path.Dir`. -/
  pathDir : String → String

/-- `cast.ToStringE`. -/
def toStringE (ext : External) : GoVal → String × Option CastErr
  | .str s => (s, none)
  | .bool b => (if b then "true" else "false", none)
  | .int v => (formatInt v, none)
  | .nil => ("", none)
  | .other t x => if ext.isStringer t then (x, none) else ("", some (.unable (.other t x) "string"))

/-- `cast.ToString`: the value of `ToStringE`, the error dropped. -/
def castToString (ext : External) (v : GoVal) : String := (toStringE ext v).1

/-- Go `strconv.ParseBool`. -/
def parseBool (s : String) : Option Bool :=
  if s ∈ ["1", "t", "T", "TRUE", "true", "True"] then some true
  else if s ∈ ["0", "f", "F", "FALSE", "false", "False"] then some false
  else none

/-- `cast.ToBoolE`: of the integer types only `int` is accepted, not the `int64`
of this model. -/
def toBoolE : GoVal → Bool × Option CastErr
  | .bool b => (b, none)
  | .nil => (false, none)
  | .str s =>
    match parseBool s with
    | some b => (b, none)
    | none => (false, some (.unable (.str s) "bool"))
  | v => (false, some (.unable v "bool"))

/-- `cast.ToBool`: the value of `ToBoolE`, the error dropped. -/
def toBool (v : GoVal) : Bool := (toBoolE v).1

/-- The type name `reflect.TypeOf(v)` of a dynamic value (empty for `nil`). -/
def GoVal.typeName : GoVal → String
  | .nil => ""
  | .bool _ => "bool"
  | .int _ => "int64"
  | .str _ => "string"
  | .other t _ => t

/-- The string held by a field of type `string`. -/
def GoVal.asString : GoVal → String
  | .str s => s
  | _ => ""

/-- The boolean held by a field of type `bool`. -/
def GoVal.asBool : GoVal → Bool
  | .bool b => b
  | _ => false

/-! ## Association lists (Go maps and struct values) -/

/-- Lookup of a key in an association list. -/
def assocGet {β : Type} : List (String × β) → String → Option β
  | [], _ => none
  | (k', v) :: rest, k => if k' = k then some v else assocGet rest k

/-- The assignment `m[k] = v` of a Go map held as an association list. -/
def assocSet {β : Type} : List (String × β) → String → β → List (String × β)
  | [], k, v => [(k, v)]
  | (k', v') :: rest, k, v => if k' = k then (k, v) :: rest else (k', v') :: assocSet rest k v

/-- The values of the fields of a struct, by field name. -/
abbrev Struct := List (String × GoVal)

/-- The value of the field `name` (`v.FieldByName(name)`). -/
def Struct.get (s : Struct) (name : String) : GoVal := (assocGet s name).getD .nil

/-- The struct after `v.FieldByName(name).Set(x)`.  A struct value lists every
field of its type, so the field is there and is replaced. -/
def Struct.set (s : Struct) (name : String) (x : GoVal) : Struct := assocSet s name x

/-! ## The process environment -/

/-- The environment variables of the process. -/
abbrev OsEnv := List (String × String)

/-- Go `os.Getenv`: the empty string for a variable that is not set. -/
def OsEnv.getenv (env : OsEnv) (name : String) : String := (assocGet env name).getD ""

/-- Go `os.Setenv`. -/
def OsEnv.setenv (env : OsEnv) (name value : String) : OsEnv := assocSet env name value

/-! ## Command-line flags (`spf13/pflag`) and the store (`spf13/viper`) -/

/-- A `pflag.Flag` as the loader and the store see it. -/
structure Flag where
  /-- The long name of the flag. -/
  Name : String
  /-- Whether the user set the flag on the command line. -/
  Changed : Bool
  /-- The text `Value.String()`. -/
  Value : String
  /-- The text `Value.Type()`. -/
  ValueType : String
  /-- The annotation `Annotations["greeneryVar"][0]` put by `createBindings`. -/
  greeneryVar : Option String
  deriving DecidableEq, Repr

/-- The layers of a `viper.Viper` that greenery uses.  Viper lowers the case of
every key it is given with `strings.ToLower`, which maps each character with
`unicode.ToLower`; the store holds that function as `toLower`.  The configuration
file is held flattened, one entry for each dotted key. -/
structure Viper where
  /-- Flags bound with `BindPFlag`. -/
  pflags : List (String × Flag)
  /-- Environment variable names bound with `BindEnv`. -/
  env : List (String × String)
  /-- The contents of the configuration file read by `ReadInConfig`. -/
  config : List (String × GoVal)
  /-- Defaults set with `SetDefault`. -/
  defaults : List (String × GoVal)
  /-- Go `unicode.ToLower`. -/
  toLower : Char → Char

/-- Go `strings.ToLower(key)`, as viper applies it to a key. -/
def Viper.lower (vp : Viper) (key : String) : String := String.mk (key.data.map vp.toLower)

/-- `viper.BindPFlag`: the key is held in lower case; a later binding of the same key
replaces the earlier one. -/
def Viper.BindPFlag (vp : Viper) (key : String) (flag : Flag) : Viper :=
  { vp with pflags := assocSet vp.pflags (vp.lower key) flag }

/-- `viper.BindEnv(key, name)`: the key is held in lower case, the name of the variable
as it is given. -/
def Viper.BindEnv (vp : Viper) (key name : String) : Viper :=
  { vp with env := assocSet vp.env (vp.lower key) name }

/-- `viper.SetDefault`: the key is held in lower case. -/
def Viper.SetDefault (vp : Viper) (key : String) (value : GoVal) : Viper :=
  { vp with defaults := assocSet vp.defaults (vp.lower key) value }

/-- The map that `viper.ReadInConfig` keeps of the entries of a configuration file:
the keys are put in lower case (`insensitiviseMap`).  Of two entries of the file whose
keys differ only in case the map keeps one, here the first. -/
def Viper.setConfig (vp : Viper) (entries : List (String × GoVal)) : Viper :=
  { vp with config := entries.map (fun kv => (vp.lower kv.1, kv.2)) }

/-- The value viper takes from a bound flag: the switch on `flag.ValueType()` in
`find` (the case `stringSlice`, a flag type greenery never registers, is left
out). -/
def flagValue (f : Flag) : GoVal :=
  if f.ValueType ∈ ["int", "int8", "int16", "int32", "int64"] then
    .int (toIntE (.str f.Value)).1
  else if f.ValueType = "bool" then .bool (toBool (.str f.Value))
  else .str f.Value

/-- `viper.Get` (the method `find` on the key in lower case): a changed flag, then a
non-empty bound environment variable, then the configuration file, then the default,
then the value of an unchanged flag; `nil` when the key is nowhere.  Overrides,
aliases, the key/value store and `AutomaticEnv`, which greenery does not use, are left
out. -/
def Viper.Get (vp : Viper) (env : OsEnv) (key : String) : GoVal :=
  let key := vp.lower key
  let fromFlagDefault : GoVal :=
    match assocGet vp.pflags key with
    | some f => flagValue f
    | none => .nil
  let fromDefaults : GoVal :=
    match assocGet vp.defaults key with
    | some v => if v ≠ .nil then v else fromFlagDefault
    | none => fromFlagDefault
  let fromConfig : GoVal :=
    match assocGet vp.config key with
    | some v => if v ≠ .nil then v else fromDefaults
    | none => fromDefaults
  let fromEnv : GoVal :=
    match assocGet vp.env key with
    | some name => if env.getenv name ≠ "" then .str (env.getenv name) else fromConfig
    | none => fromConfig
  match assocGet vp.pflags key with
  | some f => if f.Changed then flagValue f else fromEnv
  | none => fromEnv

/-- `viper.GetString`. -/
def Viper.GetString (ext : External) (vp : Viper) (env : OsEnv) (key : String) : String :=
  castToString ext (vp.Get env key)

/-- `viper.AllKeys`: the keys of every layer, in lower case as the layers hold them,
each once (the order of the Go map iteration is not specified; shadowing of a key by a
shorter dotted path is not modelled). -/
def Viper.AllKeys (vp : Viper) : List String :=
  (vp.pflags.map Prod.fst ++ vp.env.map Prod.fst ++ vp.config.map Prod.fst ++
    vp.defaults.map Prod.fst).eraseDups

/-! ## Struct fields (`reflect`) -/

/-- The `reflect.Kind` of a field, with the element kind of a slice. -/
inductive Kind where
  | string | bool | float32 | float64
  | uint | uint8 | uint16 | uint32 | uint64
  | int | int8 | int16 | int32 | int64
  | struct | ptr
  | sliceInt | sliceString | sliceOther
  | other (name : String)
  deriving DecidableEq, Repr

/-- A method taking a string (`Set`, or `UnmarshalText` on the bytes of a string):
from the value held by the receiver and the argument to the value held afterwards
and the message of the error returned (`none` for `nil`). -/
abbrev Method := GoVal → String → GoVal × Option String

/-- The type of a struct field as the loader inspects it. -/
structure FieldType where
  /-- The kind `field.Kind()`. -/
  kind : Kind
  /-- The text of the type (`Type.String()`: `int64`, `time.Duration`,
  `*greenery.IntValue`), by which `field.Type()` is compared with `reflect.TypeOf(v)`
  and with the predeclared types, and printed. -/
  name : String
  /-- For a pointer, the name of the type pointed to. -/
  elemName : String
  /-- Whether the type is `*BaseConfig` (`x.Type == basePType`). -/
  isBasePtr : Bool
  /-- The method `Set` when the type (or its pointer) implements `flag.Value`:
  the first result of `getSetterStringer`. -/
  set : Option Method
  /-- The method `UnmarshalText` when the type (or its pointer) has it. -/
  unmarshalText : Option Method

/-- A `reflect.StructField`. -/
structure StructField where
  /-- The name of the field. -/
  Name : String
  /-- The value of the `greenery` key of the tag (`x.Tag.Get("greenery")`). -/
  Tag : String
  /-- The type of the field (`x.Type`). -/
  Typ : FieldType

/-- The struct type of the user configuration and the struct type `BaseConfig`
(the variable `baseType` of `binding.go`). -/
structure Schema where
  /-- The fields of the user struct, the embedded `*BaseConfig` among them. -/
  userType : List StructField
  /-- The fields of `BaseConfig`. -/
  baseType : List StructField

/-- The values held by a configuration: the fields of the user struct and those
of the `BaseConfig` it embeds by pointer. -/
structure Cfg where
  user : Struct
  base : Struct
  deriving DecidableEq, Repr

/-- The type `additionalStruct` of `binding.go`. -/
structure additionalStruct where
  Name : String
  Command : String
  Cmdline : String
  Viper : String
  Env : String
  deriving DecidableEq, Repr

/-- The extension parser registered by the application: it receives the
configuration and the keys routed to it, may assign fields of the configuration,
and returns the keys it processed and an error, given by its message. -/
abbrev ExtraParser := Cfg → List (String × GoVal) → Cfg × List String × Option String

/-- The unexported fields of `BaseConfig` that the loader uses. -/
structure BaseInternals where
  s_appName : String
  s_ucAppName : String
  s_extraWanted : List String
  s_additionalEnv : List additionalStruct
  s_env : List (String × String)
  s_extraParser : Option ExtraParser
  s_usedConf : String
  s_loaded : Bool
  s_cfgDir : String

/-! ## Assigning a field (`conversions.go`) -/

/-- The function `getString` of `conversions.go`. -/
def getString (ext : External) (vipername : String) (v : GoVal) : String × Option GoErr :=
  let (val, err) := toStringE ext v
  (val, err.map (fun e => withErr vipername (.cast e)))

/-- The function `getBool` of `conversions.go`. -/
def getBool (vipername : String) (v : GoVal) : Bool × Option GoErr :=
  let (val, err) := toBoolE v
  (val, err.map (fun e => withErr vipername (.cast e)))

/-- The function `getFloat32` of `conversions.go`. -/
def getFloat32 (ext : External) (vipername : String) (v : GoVal) : GoVal × Option GoErr :=
  let (val, err) := ext.toFloat32E v
  let err := err.map (fun e => withErr vipername (.cast e))
  if ext.float32Overflow v then
    (val, some (withErr vipername (.errorf (v.fmtV ++
      " would overflow a float32 (max 3.4028234663852886e+38)"))))
  else (val, err)

/-- The function `getFloat64` of `conversions.go`. -/
def getFloat64 (ext : External) (vipername : String) (v : GoVal) : GoVal × Option GoErr :=
  let (val, err) := ext.toFloat64E v
  (val, err.map (fun e => withErr vipername (.cast e)))

/-- The function `getIntSlice` of `conversions.go`. -/
def getIntSlice (ext : External) (vipername : String) (v : GoVal) : GoVal × Option GoErr :=
  let (val, err) := ext.toIntSliceE v
  (val, err.map (fun e => withErr vipername (.cast e)))

/-- The function `getStringSlice` of `conversions.go`. -/
def getStringSlice (ext : External) (vipername : String) (v : GoVal) : GoVal × Option GoErr :=
  let (val, err) := ext.toStringSliceE v
  (val, err.map (fun e => withErr vipername (.cast e)))

/-- The end of `setField`: the call of `UnmarshalText` chosen for a struct or a
pointer. -/
def callUnmarshal (setter : Method) (cur v : GoVal) (vipername : String) :
    GoVal × Option GoErr :=
  match v with
  | .str vvs =>
    match setter cur vvs with
    | (nv, some rerr) =>
      (nv, some (.withMessage (.app rerr) "Cannot convert flag value via unmarshaling"))
    | (nv, none) => (nv, none)
  | _ => (cur, some (.errorf ("Unsupported value " ++ v.fmtV ++ " for " ++ vipername ++
      " cannot unmarshal")))

/-- The function `setField` of `conversions.go` for a field of type `ft` holding
`cur`: the value held afterwards and the error.  With a store, the value assigned
is the one the store has for `vipername`. -/
def setField (ext : External) (env : OsEnv) (ft : FieldType) (cur : GoVal)
    (vp : Option Viper) (v : GoVal) (vipername : String) : GoVal × Option GoErr :=
  let v := match vp with
    | some vp => vp.Get env vipername
    | none => v
  let ofInt (r : Int × Option GoErr) : GoVal × Option GoErr :=
    match r.2 with
    | some e => (cur, some e)
    | none => (.int r.1, none)
  let ofVal (r : GoVal × Option GoErr) : GoVal × Option GoErr :=
    match r.2 with
    | some e => (cur, some e)
    | none => (r.1, none)
  let unsupportedStruct : GoVal × Option GoErr :=
    (cur, some (.errorf ("Unsupported struct type " ++ ft.name ++ " for " ++ vipername ++
      ", custom flag/environment requiring custom deserialization?")))
  match ft.kind with
  | .string =>
    match getString ext vipername v with
    | (_, some e) => (cur, some e)
    | (vs, none) => (.str vs, none)
  | .bool =>
    match getBool vipername v with
    | (_, some e) => (cur, some e)
    | (vs, none) => (.bool vs, none)
  | .float32 => ofVal (getFloat32 ext vipername v)
  | .float64 => ofVal (getFloat64 ext vipername v)
  | .uint => ofInt (getUint vipername v)
  | .uint8 => ofInt (getUint8 vipername v)
  | .uint16 => ofInt (getUint16 vipername v)
  | .uint32 => ofInt (getUint32 vipername v)
  | .uint64 => ofInt (getUint64 vipername v)
  | .int => ofInt (getInt vipername v)
  | .int8 => ofInt (getInt8 vipername v)
  | .int16 => ofInt (getInt16 vipername v)
  | .int32 => ofInt (getInt32 vipername v)
  | .int64 => ofInt (getInt64 vipername v)
  | .struct =>
    if ft.name = v.typeName then (v, none)
    else
      match ft.unmarshalText with
      | some setter => callUnmarshal setter cur v vipername
      | none => unsupportedStruct
  | .ptr =>
    if ft.name = v.typeName then (v, none)
    else if ft.elemName = v.typeName then (v, none)
    else
      match ft.unmarshalText with
      | some setter => callUnmarshal setter cur v vipername
      | none => unsupportedStruct
  | .sliceInt => ofVal (getIntSlice ext vipername v)
  | .sliceString => ofVal (getStringSlice ext vipername v)
  | .sliceOther =>
    match vp with
    | some vp => (cur, some (.errorf ("Only int and string slices are supported, field " ++
        vipername ++ " with value " ++ (vp.Get env vipername).fmtV)))
    | none => (cur, some (.panicked "nil pointer dereference"))
  | .other kindName =>
    match vp with
    | some vp => (cur, some (.errorf ("Unsupported type " ++ kindName ++ " for " ++ vipername ++
        ", custom flag requiring custom deserialization?: " ++ (vp.Get env vipername).fmtV)))
    | none => (cur, some (.panicked "nil pointer dereference"))

/-! ## The loader (`loader.go`) -/

/-- What the loader takes from outside the program: the library behaviour that is
not modelled, and the outcome of `vp.ReadInConfig()` for the configuration file
name given to `vp.SetConfigFile` (the flattened contents of the file, with the keys
as the file spells them, or the error). -/
structure World where
  ext : External
  readInConfig : String → Except ReadErr (List (String × GoVal))

/-- The field of this name of a struct type (`FieldByName`). -/
def findField (fields : List StructField) (k : String) : Option StructField :=
  fields.find? (fun x => x.Name = k)

/-- Whether the name of a field starts with an upper case letter: the test made
with `utf8.DecodeRuneInString` and `unicode.IsUpper`. -/
def isExported (ext : External) (name : String) : Bool :=
  match name.data with
  | [] => false
  | r :: _ => ext.isUpper r

/-- The assignment made by `setString` to the field `x` holding `cur`: the `Set`
method of the field when it has one, `setField` without a store otherwise. -/
def assignFromString (ext : External) (env : OsEnv) (x : StructField) (cur : GoVal)
    (k v : String) : GoVal × Option GoErr :=
  match x.Typ.set with
  | some setter =>
    let r := setter cur v
    (r.1, r.2.map GoErr.app)
  | none => setField ext env x.Typ cur none (.str v) k

/-- The method `setString` of `loader.go`: sets the field `k` from the string `v`.
A field of `BaseConfig` is reached through the embedded pointer. -/
def setString (ext : External) (env : OsEnv) (sch : Schema) (cfg : Cfg) (k v : String) :
    Cfg × Option GoErr :=
  match findField sch.userType k with
  | some x =>
    let r := assignFromString ext env x (cfg.user.get k) k v
    ({ cfg with user := cfg.user.set k r.1 }, r.2)
  | none =>
    match findField sch.baseType k with
    | some x =>
      let r := assignFromString ext env x (cfg.base.get k) k v
      ({ cfg with base := cfg.base.set k r.1 }, r.2)
    | none =>
      (cfg, some (.errorf ("Internal error, cannot find field " ++ k ++ " (setting value " ++
        v ++ ")")))

/-- The assignment made by `loadHelper` to the field `x` holding `cur` from the
value the store has for `vipername`: the `Set` method of the field when it has
one, `setField` with the store otherwise. -/
def assignFromStore (ext : External) (env : OsEnv) (vp : Viper) (x : StructField)
    (cur : GoVal) (vipername : String) : GoVal × Option GoErr :=
  match x.Typ.set with
  | some setter =>
    let vs := vp.GetString ext env vipername
    let r := setter cur vs
    (r.1, r.2.map GoErr.app)
  | none =>
    if ¬ isExported ext x.Name then
      (cur, some (.errorf ("Trying to set value " ++ (vp.Get env vipername).fmtV ++
        " to a non-exported field " ++ x.Name)))
    else setField ext env x.Typ cur (some vp) .nil vipername

/-- The value `loadHelper` leaves in the field `x` that held `cur`: the value
assigned from the store when the field has a configuration key, is not marked
`custom` and the store has a value for the key, and `cur` otherwise. -/
def helperValue (ext : External) (env : OsEnv) (vp : Viper) (x : StructField) (cur : GoVal) :
    GoVal :=
  let t := parseTags x.Name x.Tag
  if t.vipername ≠ "" ∧ ¬ hasSuffix t.cobra (String.singleton sepCmdParts ++ "custom") then
    if vp.Get env t.vipername = .nil then cur
    else (assignFromStore ext env vp x cur t.vipername).1
  else cur

/-- The function `loadHelper` of `loader.go` for the field `x` of the struct value
`v`: the struct value afterwards, the configuration keys seen so far
(`viperKeys`) and the error. -/
def loadHelper (ext : External) (env : OsEnv) (vp : Viper) (viperKeys : List String)
    (x : StructField) (v : Struct) : Struct × List String × Option GoErr :=
  let t := parseTags x.Name x.Tag
  if t.vipername ≠ "" ∧ ¬ hasSuffix t.cobra (String.singleton sepCmdParts ++ "custom") then
    if vp.Get env t.vipername = .nil then (v, viperKeys, none)
    else
      let r := assignFromStore ext env vp x (v.get x.Name) t.vipername
      (v.set x.Name r.1, t.vipername :: viperKeys, r.2)
  else (v, viperKeys, none)

/-- The map `noclobber` of `load`: for every changed flag of the running command
that carries the annotation `greeneryVar`, the annotated field name and the text
of the flag value. -/
def noclobberOf : List Flag → List (String × String)
  | [] => []
  | fl :: rest =>
    let m := noclobberOf rest
    if fl.Changed then
      match fl.greeneryVar with
      | some ann => assocSet m ann fl.Value
      | none => m
    else m

/-- The first part of `load`: locating and reading the configuration file.  The
results are the final value of the local variable `noCfg`, the store, the
internals and the error with which `load` returns at this point, if any. -/
def readConfigFile (w : World) (bcfg : BaseInternals) (cfgFile : String) (noCfg : Bool)
    (defaultCfgFileName : String) (vp : Viper) : Bool × Viper × BaseInternals × Option GoErr :=
  if noCfg then (true, vp, bcfg, none)
  else
    let file := if cfgFile = "" then defaultCfgFileName else cfgFile
    match w.readInConfig file with
    | .ok config =>
      (false, vp.setConfig config,
        { bcfg with s_usedConf := file, s_loaded := true, s_cfgDir := w.ext.pathDir file }, none)
    | .error e =>
      let viperNotFound : Bool := match e with
        | .configFileNotFound => true
        | _ => false
      let golangNotFound : Bool := match e with
        | .pathError _ => true
        | _ => false
      if viperNotFound || golangNotFound then
        if cfgFile ≠ "" then
          (false, vp, bcfg, some (.withMessage (.read e) "Could not load config file."))
        else (true, vp, bcfg, none)
      else
        (false, vp, bcfg,
          some (.withMessage (.read e) ("Could not parse config file " ++ cfgFile)))

/-- The store as `load` uses it once the configuration file was read, or was not. -/
def storeAfterRead (w : World) (bcfg : BaseInternals) (cfg : Cfg) (defaultCfgFileName : String)
    (vp : Viper) : Viper :=
  (readConfigFile w bcfg (cfg.base.get "ConfFile").asString (cfg.base.get "NoCfg").asBool
    defaultCfgFileName vp).2.1

/-- The inner loop of `load` over the fields of `BaseConfig`; `outerName` is the
name of the embedded field of the user struct, which is the name the loop looks
up in `noclobber`. -/
def loadBaseFields (ext : External) (env : OsEnv) (vp : Viper)
    (noclobber : List (String × String)) (outerName : String) :
    List StructField → Struct → List String → Struct × List String × Option GoErr
  | [], v2, viperKeys => (v2, viperKeys, none)
  | x2 :: rest, v2, viperKeys =>
    if (assocGet noclobber outerName).isSome then
      let t := parseTags x2.Name x2.Tag
      loadBaseFields ext env vp noclobber outerName rest v2
        (if t.vipername ≠ "" then t.vipername :: viperKeys else viperKeys)
    else
      match loadHelper ext env vp viperKeys x2 v2 with
      | (v2', viperKeys', some err) => (v2', viperKeys', some err)
      | (v2', viperKeys', none) =>
        loadBaseFields ext env vp noclobber outerName rest v2' viperKeys'

/-- The main loop of `load` over the fields of the user struct. -/
def loadFields (ext : External) (env : OsEnv) (vp : Viper) (baseType : List StructField)
    (noclobber : List (String × String)) :
    List StructField → Cfg → List String → Cfg × List String × Option GoErr
  | [], cfg, viperKeys => (cfg, viperKeys, none)
  | x :: rest, cfg, viperKeys =>
    if x.Typ.isBasePtr then
      match loadBaseFields ext env vp noclobber x.Name baseType cfg.base viperKeys with
      | (b, viperKeys', some err) => ({ cfg with base := b }, viperKeys', some err)
      | (b, viperKeys', none) =>
        loadFields ext env vp baseType noclobber rest { cfg with base := b } viperKeys'
    else if (assocGet noclobber x.Name).isSome then
      let t := parseTags x.Name x.Tag
      loadFields ext env vp baseType noclobber rest cfg
        (if t.vipername ≠ "" then t.vipername :: viperKeys else viperKeys)
    else
      match loadHelper ext env vp viperKeys x cfg.user with
      | (u, viperKeys', some err) => ({ cfg with user := u }, viperKeys', some err)
      | (u, viperKeys', none) =>
        loadFields ext env vp baseType noclobber rest { cfg with user := u } viperKeys'

/-- The loop of `load` over `s_additionalEnv`: the environment overrides of the
fields that are not reached through the store.  The results are the
configuration, the map `s_env` and the error. -/
def loadAdditional (ext : External) (env : OsEnv) (sch : Schema) (ucAppName : String)
    (noclobber : List (String × String)) :
    List additionalStruct → Cfg → List (String × String) →
      Cfg × List (String × String) × Option GoErr
  | [], cfg, sEnv => (cfg, sEnv, none)
  | vv :: rest, cfg, sEnv =>
    let ename := ucAppName ++ "_" ++ vv.Env
    let evalue := if vv.Env ≠ "" then env.getenv ename else ""
    let sEnv := if vv.Env ≠ "" ∧ evalue ≠ "" then assocSet sEnv ename evalue else sEnv
    if vv.Cmdline = "" then
      if evalue ≠ "" ∧ (assocGet noclobber vv.Name).isNone then
        match setString ext env sch cfg vv.Name evalue with
        | (cfg', some err) => (cfg', sEnv, some err)
        | (cfg', none) => loadAdditional ext env sch ucAppName noclobber rest cfg' sEnv
      else loadAdditional ext env sch ucAppName noclobber rest cfg sEnv
    else if vv.Viper = "" then
      if evalue ≠ "" ∧ (assocGet noclobber vv.Name).isNone then
        match setString ext env sch cfg vv.Name evalue with
        | (cfg', some err) => (cfg', sEnv, some err)
        | (cfg', none) => loadAdditional ext env sch ucAppName noclobber rest cfg' sEnv
      else loadAdditional ext env sch ucAppName noclobber rest cfg sEnv
    else
      (cfg, sEnv, some (.errorf ("Internal error, cmd & env both not empty for " ++ vv.Name ++
        ": " ++ vv.Cmdline ++ ", " ++ vv.Viper)))

/-- The loop of `load` over the keys of the store: the keys routed to the
extension parser (`otherKeys`, with their values), or the first key that is
neither a key seen while merging nor a key wanted by the parser. -/
def checkKeys (env : OsEnv) (vp : Viper) (viperKeys extraKeys : List String) :
    List String → List (String × GoVal) → Except String (List (String × GoVal))
  | [], otherKeys => .ok otherKeys
  | v :: rest, otherKeys =>
    if v ∉ viperKeys ∧ v ≠ "" then
      if v ∈ extraKeys then
        checkKeys env vp viperKeys extraKeys rest (assocSet otherKeys v (vp.Get env v))
      else .error v
    else checkKeys env vp viperKeys extraKeys rest otherKeys

/-- The keys of `otherKeys` that the parser did not report (`upk`). -/
def unprocessedKeys (otherKeys : List (String × GoVal)) (processed : List String) :
    List String :=
  (otherKeys.map Prod.fst).filter (fun pk => pk ∉ processed)

/-- The error made at the end of `load` when keys are left unprocessed. -/
def unprocessedErr (upk processed : List String) : GoErr :=
  .errorf ("Unprocessed key(s) in the configuration file, needed custom processing for " ++
    strJoin upk "," ++ ". The parser has processed: " ++ strJoin processed ",")

/-- The last part of `load`: handing `otherKeys` to the extension parser. -/
def runExtraParser (parser : Option ExtraParser) (cfg : Cfg)
    (otherKeys : List (String × GoVal)) : Cfg × Option GoErr :=
  if otherKeys.length ≠ 0 then
    match parser with
    | some parse =>
      match parse cfg otherKeys with
      | (cfg', processed, err) =>
        if err.isSome ∨ processed.length = otherKeys.length then (cfg', err.map GoErr.app)
        else (cfg', some (unprocessedErr (unprocessedKeys otherKeys processed) processed))
    | none => (cfg, some (unprocessedErr (unprocessedKeys otherKeys []) []))
  else (cfg, none)

/-- What `load` leaves behind: the configuration, the internals of `BaseConfig`,
the store and the error returned (`none` for `nil`). -/
structure LoadResult where
  cfg : Cfg
  bcfg : BaseInternals
  vp : Viper
  err : Option GoErr

/-- The method `load` of `loader.go`, called for the configuration `cfg` with the
flags `ccmdFlags` of the running command (`ccmd.Flags()`).  The receiver and the
`*BaseConfig` embedded in `cfg` are the same object, as in `runWrapper`; the
search paths given to the store do not matter once `SetConfigFile` names the
file. -/
def load (w : World) (sch : Schema) (env : OsEnv) (bcfg : BaseInternals) (cfg : Cfg)
    (defaultCfgFileName : String) (ccmdFlags : List Flag) (vp : Viper) : LoadResult :=
  let cfgFile := (cfg.base.get "ConfFile").asString
  let noCfg := (cfg.base.get "NoCfg").asBool
  match readConfigFile w bcfg cfgFile noCfg defaultCfgFileName vp with
  | (_, vp, bcfg, some err) => ⟨cfg, bcfg, vp, some err⟩
  | (noCfg, vp, bcfg, none) =>
    let noclobber := noclobberOf ccmdFlags
    match loadFields w.ext env vp sch.baseType noclobber sch.userType cfg [] with
    | (cfg, _, some err) => ⟨cfg, bcfg, vp, some err⟩
    | (cfg, viperKeys, none) =>
      if ¬ sch.userType.any (fun x => x.Typ.isBasePtr) then
        ⟨cfg, bcfg, vp, some (.panicked "nil pointer dereference")⟩
      else
        let extraKeys := bcfg.s_extraWanted
        match loadAdditional w.ext env sch bcfg.s_ucAppName noclobber bcfg.s_additionalEnv cfg
            bcfg.s_env with
        | (cfg, sEnv, some err) => ⟨cfg, { bcfg with s_env := sEnv }, vp, some err⟩
        | (cfg, sEnv, none) =>
          let bcfg := { bcfg with s_env := sEnv }
          if noCfg then ⟨cfg, bcfg, vp, none⟩
          else
            match checkKeys env vp viperKeys extraKeys vp.AllKeys [] with
            | .error v =>
              ⟨cfg, bcfg, vp,
                some (.errorf ("Invalid key(s) in the configuration file: " ++ v))⟩
            | .ok otherKeys =>
              match runExtraParser bcfg.s_extraParser cfg otherKeys with
              | (cfg, err) => ⟨cfg, bcfg, vp, err⟩

/-! ## Running a command (`misc.go`) -/

/-- Whether `os.Setenv(name, "")` fails: the name is empty or holds `=` or NUL. -/
def setenvFails (name : String) : Bool :=
  name = "" || name.data.contains '=' || name.data.contains (Char.ofNat 0)

/-- The loop of `runWrapper` that clears the variables recorded in `s_env`. -/
def clearEnv : List (String × String) → OsEnv → OsEnv × Option GoErr
  | [], env => (env, none)
  | (k, _) :: rest, env =>
    if setenvFails k then (env, some (.app "setenv: invalid argument"))
    else clearEnv rest (env.setenv k "")

/-- The function `runWrapper` of `misc.go` up to the call of `load`, whose result
is the configuration that the pre-exec handler and the command then receive
(`next` stands for `process`, the handler and the command).  The results are
the environment, what `load` left and the error returned. -/
def runWrapper (w : World) (sch : Schema) (env : OsEnv) (bcfg : BaseInternals) (cfg : Cfg)
    (ccmdFlags : List Flag) (vp : Viper) (next : LoadResult → Option GoErr) :
    OsEnv × Option LoadResult × Option GoErr :=
  let cleared : OsEnv × Option GoErr :=
    if (cfg.base.get "NoEnv").asBool then clearEnv bcfg.s_env env else (env, none)
  match cleared with
  | (env, some err) => (env, none, some err)
  | (env, none) =>
    let r := load w sch env bcfg cfg (bcfg.s_appName ++ ".toml") ccmdFlags vp
    match r.err with
    | some err => (env, some r, some err)
    | none => (env, some r, next r)

/-! ## Flag types of `flags.go` used in the scenarios -/

/-- Go `strconv.Atoi`. -/
def atoi (s : String) : Int × Option NumErr := parseInt s 10 0

/-- The method `Set` of `IntValue` (`flags.go`) for a flag called `name` with the
bounds `min` and `max`: the text is read with `strconv.Atoi` and stored by `SetInt`
when it lies within the bounds. -/
def intValueSet (name : String) (min max : Int) : Method := fun cur s =>
  match atoi s with
  | (_, some _) =>
    (cur, some ("Variable " ++ name ++ ", " ++ s ++ ", cannot be converted to a number"))
  | (d, none) =>
    if d < min ∨ d > max then
      (cur, some ("Invalid value " ++ formatInt d ++ " for variable " ++ name ++
        ", should be between " ++ formatInt min ++ " and " ++ formatInt max))
    else (.int d, none)

/-! ## The flag types of `flags.go` -/

/-- The struct `IntValue` of `flags.go`: an integer with a minimum and a maximum. -/
structure IntValue where
  Value : Int
  min : Int
  max : Int
  name : String
  deriving DecidableEq, Repr

/-- The function `NewIntValue`: the value is set to `min`. -/
def NewIntValue (name : String) (min max : Int) : IntValue := ⟨min, min, max, name⟩

/-- The method `SetInt` of `IntValue`: the flag afterwards and the error. -/
def IntValue.SetInt (i : IntValue) (d : Int) : IntValue × Option GoErr :=
  if d < i.min ∨ d > i.max then
    (i, some (.errorf ("Invalid value " ++ formatInt d ++ " for variable " ++ i.name ++
      ", should be between " ++ formatInt i.min ++ " and " ++ formatInt i.max)))
  else ({ i with Value := d }, none)

/-- The method `Set` of `IntValue`. -/
def IntValue.Set (i : IntValue) (s : String) : IntValue × Option GoErr :=
  match atoi s with
  | (_, some _) =>
    (i, some (.errorf ("Variable " ++ i.name ++ ", " ++ s ++ ", cannot be converted to a number")))
  | (d, none) => i.SetInt d

/-- The function `NewDefaultIntValue`; `.error msg` is the panic with the value `msg`. -/
def NewDefaultIntValue (libText : GoErr → String) (name : String) (set min max : Int) :
    Except String IntValue :=
  match (NewIntValue name min max).SetInt set with
  | (_, some err) => .error (err.Error libText)
  | (v, none) => .ok v

/-- The arbitrary data (`interface{}`) kept in a `CustomStringValue`: `nil`, a
slice of strings, or a value of another type, given by its text. -/
inductive FlagData where
  | nil
  | strings (l : List String)
  | other (text : String)
  deriving DecidableEq, Repr

/-- The type `CustomStringHandler`: from the name of the flag, the value to set and
the data of the flag to the value that is stored and the error. -/
abbrev CustomStringHandler := String → String → FlagData → String × Option GoErr

/-- The struct `CustomStringValue` of `flags.go`; `handler` is `none` for a nil
function. -/
structure CustomStringValue where
  Value : String
  handler : Option CustomStringHandler
  name : String
  data : FlagData

/-- The function `NewDefaultCustomStringValue`; `.error msg` is the panic with the
value `msg`. -/
def NewDefaultCustomStringValue (libText : GoErr → String) (name set : String)
    (validate : Option CustomStringHandler) (data : FlagData) : Except String CustomStringValue :=
  match validate with
  | some h =>
    match h name set data with
    | (_, some err) =>
      .error ("While creating variable " ++ name ++ ", error " ++ err.Error libText)
    | (set', none) => .ok ⟨set', validate, name, data⟩
  | none => .ok ⟨set, validate, name, data⟩

/-- The function `NewCustomStringValue`. -/
def NewCustomStringValue (libText : GoErr → String) (name : String)
    (validate : Option CustomStringHandler) (data : FlagData) : Except String CustomStringValue :=
  NewDefaultCustomStringValue libText name "" validate data

/-- The method `Set` of `CustomStringValue`: the flag afterwards and the error.
Calling a nil handler panics. -/
def CustomStringValue.Set (c : CustomStringValue) (s : String) :
    CustomStringValue × Option GoErr :=
  match c.handler with
  | none => (c, some (.panicked "invalid memory address or nil pointer dereference"))
  | some h =>
    match h c.name s c.data with
    | (s', none) => ({ c with Value := s' }, none)
    | (_, some err) => (c, some err)

/-- The method `UnmarshalText` of `CustomStringValue`; the bytes are those of `text`. -/
def CustomStringValue.UnmarshalText (c : CustomStringValue) (text : String) :
    CustomStringValue × Option GoErr :=
  c.Set text

/-- The text that `validateEnum` builds from the valid values: `a, b, c.`. -/
def enumText : List String → String
  | [] => ""
  | [l] => l ++ "."
  | l :: rest => l ++ ", " ++ enumText rest

/-- The function `validateEnum` of `flags.go`.  The type assertion `data.([]string)`
panics for data of another type. -/
def validateEnum : CustomStringHandler := fun name s data =>
  match data with
  | .strings enum =>
    if s ∈ enum then (s, none)
    else ("", some (.errorf ("Invalid value " ++ s ++ " for variable " ++ name ++
      ", should be one of " ++ enumText enum)))
  | _ => ("", some (.panicked "interface conversion: interface is not []string"))

/-- The struct `EnumValue` of `flags.go`, which embeds a `*CustomStringValue`. -/
structure EnumValue extends CustomStringValue

/-- The function `NewEnumValue`; `.error msg` is the panic with the value `msg`. -/
def NewEnumValue (libText : GoErr → String) (name : String) (valid : List String) :
    Except String EnumValue :=
  match valid with
  | [] => .error ("Flag " ++ name ++ " has no valid values")
  | first :: _ =>
    (NewDefaultCustomStringValue libText name first (some validateEnum) (.strings valid)).map
      EnumValue.mk

/-- The function `NewDefaultEnumValue`; `.error msg` is the panic with the value `msg`. -/
def NewDefaultEnumValue (libText : GoErr → String) (name set : String) (valid : List String) :
    Except String EnumValue :=
  match valid with
  | [] => .error ("Flag " ++ name ++ " has no valid values")
  | _ :: _ =>
    (NewDefaultCustomStringValue libText name set (some validateEnum) (.strings valid)).map
      EnumValue.mk

/-- The method `Set` that `EnumValue` takes from the embedded `CustomStringValue`. -/
def EnumValue.Set (e : EnumValue) (s : String) : EnumValue × Option GoErr :=
  ((⟨(e.toCustomStringValue.Set s).1⟩ : EnumValue), (e.toCustomStringValue.Set s).2)

/-- The method `UnmarshalText` that `EnumValue` takes from the embedded
`CustomStringValue`. -/
def EnumValue.UnmarshalText (e : EnumValue) (text : String) : EnumValue × Option GoErr :=
  ((⟨(e.toCustomStringValue.UnmarshalText text).1⟩ : EnumValue),
    (e.toCustomStringValue.UnmarshalText text).2)

/-- The type `PortValue` of `flags.go`, a `uint16`. -/
structure PortValue where
  val : Int
  deriving DecidableEq, Repr

/-- The function `NewPortValue`. -/
def NewPortValue : PortValue := ⟨0⟩

/-- The method `SetInt` of `PortValue`: the conversion `PortValue(i)` is assigned
whether or not the error is set. -/
def PortValue.SetInt (_p : PortValue) (i : Int) : PortValue × Option GoErr :=
  let err : Option GoErr :=
    if i < 0 ∨ i > 65535 then
      some (.errorf ("Invalid port " ++ formatInt i ++ ", must be an integer between 0 and 65535"))
    else none
  (⟨wrapUint 16 i⟩, err)

/-- The method `Set` of `PortValue`. -/
def PortValue.Set (p : PortValue) (e : String) : PortValue × Option GoErr :=
  let r : Int × Option NumErr := if e = "" then (0, none) else atoi e
  match r.2 with
  | some _ => (p, some (.errorf (e ++ ", cannot be converted to a port")))
  | none => p.SetInt r.1

/-- The method `UnmarshalText` of `PortValue`. -/
def PortValue.UnmarshalText (p : PortValue) (text : String) : PortValue × Option GoErr :=
  p.Set text

/-- The validation function `UcFirstAndUpcase` of `testhelper/test_configs.go`, for
ASCII letters. -/
def UcFirstAndUpcase : CustomStringHandler := fun name s _ =>
  let upper : Bool := match s.data with
    | [] => false
    | r :: _ => r.isUpper
  if ¬ upper then
    ("", some (.errorf ("Invalid string value " ++ s ++ " for variable " ++ name ++
      ", must have an uppercase first letter")))
  else (String.mk (s.data.map Char.toUpper), none)

/-! ## Binding the fields to flags and to the store (`binding.go`) -/

/-- What `%v` prints for a `reflect.Kind`. -/
def Kind.text : Kind → String
  | .string => "string" | .bool => "bool" | .float32 => "float32" | .float64 => "float64"
  | .uint => "uint" | .uint8 => "uint8" | .uint16 => "uint16" | .uint32 => "uint32"
  | .uint64 => "uint64"
  | .int => "int" | .int8 => "int8" | .int16 => "int16" | .int32 => "int32" | .int64 => "int64"
  | .struct => "struct" | .ptr => "ptr"
  | .sliceInt => "slice" | .sliceString => "slice" | .sliceOther => "slice"
  | .other name => name

/-- The kinds listed in the `switch` statements of `binding.go`: string, bool, the
floats and the integers.  The result is the text `Type()` of the flag that `pflag`
makes for the kind, `none` for the other kinds. -/
def scalarFlagType : Kind → Option String
  | .string => some "string" | .bool => some "bool"
  | .float32 => some "float32" | .float64 => some "float64"
  | .uint => some "uint" | .uint8 => some "uint8" | .uint16 => some "uint16"
  | .uint32 => some "uint32" | .uint64 => some "uint64"
  | .int => some "int" | .int8 => some "int8" | .int16 => some "int16"
  | .int32 => some "int32" | .int64 => some "int64"
  | _ => none

/-- A field as `createBindings` and `doBind` inspect it: the `reflect.StructField`
and what they ask of its type beyond what the loader asks. -/
structure BindField where
  field : StructField
  /-- Whether the type (or its pointer) implements `encoding.TextMarshaler`
  (`marshalInterface`). -/
  marshalText : Bool
  /-- The method `String` of a type that implements `flag.Value`: the text of the
  value held. -/
  stringer : GoVal → String
  /-- The text `Type()` when the `flag.Value` is a `pflag.Value` as well. -/
  flagType : Option String

/-- A flag registered in a flag set of `pflag`. -/
structure PFlag where
  flag : Flag
  Shorthand : String
  Usage : String
  Hidden : Bool
  deriving DecidableEq, Repr

/-- A `cobra.Command` as `createBindings` uses it: its name, which is the name of
its set of persistent flags, the flags of that set in the order of definition
(`formal`), and the one-byte shorthands in use with the name of their flag. -/
structure Command where
  name : String
  formal : List PFlag
  shorthands : List (String × String)
  deriving DecidableEq, Repr

/-- The values with which `FlagSet.AddFlag` of `pflag` panics. -/
inductive PflagPanic where
  /-- `<set> flag redefined: <name>`. -/
  | redefined (set name : String)
  /-- `<shorthand> shorthand is more than one ASCII character`. -/
  | shorthandTooLong (shorthand : String)
  /-- `unable to redefine <c> shorthand in <set> flagset: it's already used for <used> flag`. -/
  | shorthandUsed (c set used : String)
  deriving DecidableEq, Repr

/-- A hexadecimal digit in lower case. -/
def hexDigit (n : Nat) : Char := if n < 10 then Char.ofNat (48 + n) else Char.ofNat (87 + n)

/-- The verb `%q` of a byte below 128 (`strconv.QuoteRune`): the character between
single quotes, with a backslash before a single quote and a backslash, and the escape
of a character that cannot be printed. -/
def quoteByte (c : Char) : String :=
  let n := c.toNat
  let q := String.singleton (Char.ofNat 39)
  let bs := String.singleton (Char.ofNat 92)
  let body : String :=
    if n = 39 ∨ n = 92 then bs ++ String.singleton c
    else if 32 ≤ n ∧ n < 127 then String.singleton c
    else if n = 7 then bs ++ "a"
    else if n = 8 then bs ++ "b"
    else if n = 12 then bs ++ "f"
    else if n = 10 then bs ++ "n"
    else if n = 13 then bs ++ "r"
    else if n = 9 then bs ++ "t"
    else if n = 11 then bs ++ "v"
    else bs ++ "x" ++ String.mk [hexDigit (n / 16), hexDigit (n % 16)]
  q ++ body ++ q

/-- The text of a panic value of `pflag`; `quote` is the verb `%q` of a string.  The
shorthand in use is printed as the byte `flag.Shorthand[0]`, with `%q` of a byte. -/
def PflagPanic.text (quote : String → String) : PflagPanic → String
  | .redefined set name => set ++ " flag redefined: " ++ name
  | .shorthandTooLong s => quote s ++ " shorthand is more than one ASCII character"
  | .shorthandUsed c set used =>
    "unable to redefine " ++ quoteByte (c.data.headD (Char.ofNat 0)) ++ " shorthand in " ++
      quote set ++ " flagset: it's already used for " ++ quote used ++ " flag"

/-- The method `FlagSet.AddFlag` of `pflag` on the persistent flags of a command:
the command afterwards and the panic, if any.  The flag is in the set before the
shorthand is looked at. -/
def addFlag (cmd : Command) (fl : PFlag) : Command × Option PflagPanic :=
  if cmd.formal.any (fun g => g.flag.Name = fl.flag.Name) then
    (cmd, some (.redefined cmd.name fl.flag.Name))
  else
    let cmd := { cmd with formal := cmd.formal ++ [fl] }
    if fl.Shorthand = "" then (cmd, none)
    else if fl.Shorthand.utf8ByteSize > 1 then (cmd, some (.shorthandTooLong fl.Shorthand))
    else
      match assocGet cmd.shorthands fl.Shorthand with
      | some used => (cmd, some (.shorthandUsed fl.Shorthand cmd.name used))
      | none => ({ cmd with shorthands := assocSet cmd.shorthands fl.Shorthand fl.flag.Name }, none)

/-- The method `FlagSet.MarkHidden` for a flag that is in the set. -/
def markHidden (cmd : Command) (name : String) : Command :=
  { cmd with formal := cmd.formal.map (fun g => if g.flag.Name = name then { g with Hidden := true } else g) }

/-- The method `FlagSet.Lookup`. -/
def Command.Lookup (cmd : Command) (name : String) : Option PFlag :=
  cmd.formal.find? (fun g => g.flag.Name = name)

/-- The function `doBind` of `binding.go` for the field `bf` holding `cur`: the
store, the command, the map `env` and the error.  A panic is recovered into an error:
a panic of `pflag`, and the panic of the type assertion `field.Addr().Interface().(*T)`
of a `case` of the `switch`, which holds only when the type of the field is the
predeclared type `T` itself and fails for a type defined from it, such as
`time.Duration` in the case of `int64`. -/
def doBind (quote : String → String) (osenv : OsEnv) (v : Viper) (cmd : Command)
    (bf : BindField) (cur : GoVal) (vipername viperenv varname name short : String)
    (env docs : List (String × String)) (appname : String) :
    Viper × Command × List (String × String) × Option GoErr :=
  let hidden : Bool := short = "hidden"
  let short := if hidden then "" else short
  match assocGet docs varname with
  | none =>
    (v, cmd, env, some (.errorf ("No documentation for command line parameter " ++ name ++
      " (variable " ++ varname ++ ")")))
  | some doc =>
    let made : Except GoErr PFlag :=
      match bf.field.Typ.set with
      | some _ =>
        match bf.flagType with
        | some ty => .ok ⟨⟨name, false, bf.stringer cur, ty, none⟩, short, doc, false⟩
        | none => .error (.errorf "Internal error in doBind, cannot cast the flag")
      | none =>
        match scalarFlagType bf.field.Typ.kind with
        | some ty =>
          if bf.field.Typ.name = ty then .ok ⟨⟨name, false, cur.fmtV, ty, none⟩, short, doc, false⟩
          else
            .error (.errorf ("Error while creating flag for variable " ++ varname ++
              ": interface conversion: interface \x7b\x7d is *" ++ bf.field.Typ.name ++
              ", not *" ++ ty))
        | none =>
          .error (.errorf ("Cannot create a flag for " ++ varname ++ "/" ++
            bf.field.Typ.kind.text ++ ", unsupported type"))
    match made with
    | .error e => (v, cmd, env, some e)
    | .ok fl =>
      match addFlag cmd fl with
      | (cmd, some panic) =>
        (v, cmd, env, some (.errorf ("Error while creating flag for variable " ++ varname ++
          ": " ++ panic.text quote)))
      | (cmd, none) =>
        let cmd := if hidden then markHidden cmd name else cmd
        if vipername ≠ "" then
          match cmd.Lookup name with
          | none =>
            (v, cmd, env, some (.errorf ("Internal error, could not find cmdline flag " ++
              name ++ " in " ++ varname)))
          | some f =>
            let v := v.BindPFlag vipername f.flag
            let v := v.SetDefault vipername
              (if bf.field.Typ.set.isSome then .str (bf.stringer cur) else cur)
            if viperenv ≠ "" then
              let ename := appname ++ "_" ++ viperenv
              (v.BindEnv vipername ename, cmd, assocSet env ename (osenv.getenv ename), none)
            else (v, cmd, env, none)
        else (v, cmd, env, none)

/-- The first `switch` of `createBindings`, for a field with an environment
variable: a scalar kind, or a type (or pointer type) with `Set` or with
`UnmarshalText`. -/
def envKindOk (ft : FieldType) : Bool :=
  (scalarFlagType ft.kind).isSome || ft.set.isSome || ft.unmarshalText.isSome

/-- The second `switch` of `createBindings`, for a field marked `none` with a
configuration key or an environment variable: a scalar kind, a slice of `int` or of
`string`, or a struct or pointer with `Set` or with both `UnmarshalText` and
`MarshalText`. -/
def cfgKindOk (bf : BindField) : Bool :=
  match bf.field.Typ.kind with
  | .sliceInt => true
  | .sliceString => true
  | .sliceOther => false
  | .struct => (bf.field.Typ.unmarshalText.isSome && bf.marshalText) || bf.field.Typ.set.isSome
  | .ptr => bf.field.Typ.set.isSome || (bf.field.Typ.unmarshalText.isSome && bf.marshalText)
  | .other _ => false
  | k => (scalarFlagType k).isSome

/-- What `createBindings` works on: the store, the commands by name (the map `p`),
the map `env` and the list `additional`. -/
structure BindState where
  vp : Viper
  p : List (String × Command)
  env : List (String × String)
  additional : List additionalStruct

/-- The annotation `greeneryVar` that `createBindings` puts on the flag `name` of a
command once `doBind` has made it; the store holds the same flag. -/
def annotate (st : BindState) (cmdName name vipername varname : String) : BindState :=
  match assocGet st.p cmdName with
  | none => st
  | some cmd =>
    let cmd' : Command :=
      { cmd with formal := cmd.formal.map (fun g =>
          if g.flag.Name = name then { g with flag := { g.flag with greeneryVar := some varname } }
          else g) }
    let vp' : Viper :=
      if vipername ≠ "" then
        match assocGet st.vp.pflags (st.vp.lower vipername) with
        | some f => st.vp.BindPFlag vipername { f with greeneryVar := some varname }
        | none => st.vp
      else st.vp
    { st with p := assocSet st.p cmdName cmd', vp := vp' }

/-- The inner loop of `createBindings` over the stanzas `cc` of the command-line
part of the tag of the field `bf`, from the stanza of index `ic`. -/
def bindStanzas (quote : String → String) (osenv : OsEnv) (docs : List (String × String))
    (appname : String) (bf : BindField) (cur : GoVal) (viperenv : String) :
    List String → Nat → String → Bool → BindState → BindState × Option GoErr
  | [], _, _, _, st => (st, none)
  | cc :: rest, ic, vipername, checked, st =>
    let vipername := if ic > 0 ∧ vipername ≠ "" then "" else vipername
    let ccobra := strSplit cc sepCmdParts
    if ccobra.length ≠ 3 then
      (st, some (.errorf ("Internal error, malformed cmdline tag " ++ cc)))
    else
      let c0 := ccobra.getD 0 ""
      let c1 := ccobra.getD 1 ""
      let c2 := ccobra.getD 2 ""
      let record : additionalStruct := ⟨bf.field.Name, "", "", vipername, viperenv⟩
      if c2 = "none" ∨ c2 = "custom" then
        if vipername ≠ "" ∨ viperenv ≠ "" then
          if ¬ checked ∧ c2 ≠ "custom" then
            if cfgKindOk bf then
              bindStanzas quote osenv docs appname bf cur viperenv rest (ic + 1) vipername true
                { st with additional := st.additional ++ [record] }
            else
              (st, some (.errorf ("Cannot create configuration file variable " ++ bf.field.Name ++
                ", unsupported type " ++ bf.field.Typ.name)))
          else
            bindStanzas quote osenv docs appname bf cur viperenv rest (ic + 1) vipername checked
              { st with additional := st.additional ++ [record] }
        else
          bindStanzas quote osenv docs appname bf cur viperenv rest (ic + 1) vipername checked st
      else if c1 = "" then
        (st, some (.errorf ("Flag " ++ bf.field.Name ++
          " has empty commandline name but is not set as none/custom")))
      else
        let st : BindState :=
          if vipername = "" ∧ viperenv ≠ "" then
            { st with additional := st.additional ++ [⟨bf.field.Name, c0, c1, "", viperenv⟩] }
          else st
        match assocGet st.p c0 with
        | none =>
          (st, some (.errorf ("Internal error, cannot find cmd for " ++ c0 ++ " (" ++ c1 ++ ", " ++
            bf.field.Name ++ ")")))
        | some cmd =>
          match doBind quote osenv st.vp cmd bf cur vipername viperenv bf.field.Name c1 c2 st.env
              docs appname with
          | (v, cmd', env', some err) =>
            ({ st with vp := v, p := assocSet st.p c0 cmd', env := env' }, some err)
          | (v, cmd', env', none) =>
            bindStanzas quote osenv docs appname bf cur viperenv rest (ic + 1) vipername checked
              (annotate { st with vp := v, p := assocSet st.p c0 cmd', env := env' } c0 c1
                vipername bf.field.Name)

/-- The body of the loop of `createBindings` for one field, after the collision
check. -/
def bindField (ext : External) (quote : String → String) (osenv : OsEnv)
    (docs : List (String × String)) (appname : String) (bf : BindField) (cur : GoVal)
    (st : BindState) : BindState × Option GoErr :=
  if bf.field.Typ.isBasePtr then (st, none)
  else if ¬ isExported ext bf.field.Name then (st, none)
  else
    let t := parseTags bf.field.Name bf.field.Tag
    match t.err with
    | some msg => (st, some (.errorf msg))
    | none =>
      if t.viperenv ≠ "" ∧ ¬ envKindOk bf.field.Typ then
        (st, some (.errorf ("Cannot create flag " ++ bf.field.Name ++ ", has environment " ++
          t.viperenv ++
          " but would not be able to be deserialized since it has no Set or UnmarshalText")))
      else if t.cobra = "" ∧ (t.vipername ≠ "" ∨ t.viperenv ≠ "") then
        ({ st with additional :=
            st.additional ++ [⟨bf.field.Name, "", "", t.vipername, t.viperenv⟩] }, none)
      else
        bindStanzas quote osenv docs appname bf cur t.viperenv
          (strSplit t.cobra sepMultipleCmds) 0 t.vipername false st

/-- The loop of `createBindings` over the fields of the struct; `values` holds the
values of the fields and `seenFields` the names recorded so far. -/
def bindFields (ext : External) (quote : String → String) (osenv : OsEnv)
    (docs : List (String × String)) (appname : String) (values : Struct) :
    List BindField → List String → BindState → BindState × List String × Option GoErr
  | [], seenFields, st => (st, seenFields, none)
  | bf :: rest, seenFields, st =>
    if bf.field.Name ∈ seenFields then
      (st, seenFields, some (.errorf ("Field collision on field " ++ bf.field.Name ++
        ", user configurations cannot shadow base configuration fields")))
    else
      match bindField ext quote osenv docs appname bf (values.get bf.field.Name) st with
      | (st, some err) => (st, bf.field.Name :: seenFields, some err)
      | (st, none) =>
        bindFields ext quote osenv docs appname values rest (bf.field.Name :: seenFields) st

/-- What `createBindings` returns and leaves behind: the list `additional` (empty
with an error), the error, and the store, the commands, the map `env` and the map
`seenFields` as they are afterwards. -/
structure BindResult where
  additional : List additionalStruct
  err : Option GoErr
  vp : Viper
  p : List (String × Command)
  env : List (String × String)
  seenFields : List String

/-- The function `createBindings` of `binding.go` for a configuration whose struct
type has the fields `fields` with the values `values`; `implementsConfig` tells
whether the type implements the interface `Config`. -/
def createBindings (ext : External) (quote : String → String) (osenv : OsEnv)
    (implementsConfig : Bool) (fields : List BindField) (values : Struct) (vp : Viper)
    (p : List (String × Command)) (env docs : List (String × String)) (appname : String)
    (seenFields : List String) : BindResult :=
  if ¬ implementsConfig then
    ⟨[], some (.errorf "Internal error: eindings should be called only for config objects"),
      vp, p, env, seenFields⟩
  else
    match bindFields ext quote osenv docs appname values fields seenFields ⟨vp, p, env, []⟩ with
    | (st, seen, some err) => ⟨[], some err, st.vp, st.p, st.env, seen⟩
    | (st, seen, none) => ⟨st.additional, none, st.vp, st.p, st.env, seen⟩

/-- The kinds for which `doBind` makes a flag of `pflag`. -/
def flagKinds : List Kind :=
  [.string, .bool, .float32, .float64, .int, .int8, .int16, .int32, .int64,
   .uint, .uint8, .uint16, .uint32, .uint64]

/-- The error of `createBindings` for a field whose name is already recorded. -/
def collisionErr (name : String) : GoErr :=
  .errorf ("Field collision on field " ++ name ++
    ", user configurations cannot shadow base configuration fields")

/-! ## The last two branches of `setField` -/

/-- The kinds for which `setField` takes one of its last two branches: a slice
whose elements are neither `int` nor `string`, and a kind without a case. -/
def defensiveKind : Kind → Bool
  | .sliceOther => true
  | .other _ => true
  | _ => false

/-- Whether an error is one of those that the last two branches of `setField` make:
`Only int and string slices are supported, ...`, `Unsupported type ...`, or the panic of
`vp.Get` on a nil store while the message is built. -/
def defensiveErr : GoErr → Bool
  | .errorf msg =>
    "Only int and string slices are supported, field ".data.isPrefixOf msg.data ||
      "Unsupported type ".data.isPrefixOf msg.data
  | .panicked _ => true
  | _ => false

/-- Whether the command-line part of a tag is one for which `createBindings` records
a field that has a configuration key without looking at its type: the part is empty,
or the third element of its first stanza is `custom`. -/
def uncheckedCobra (cobra : String) : Bool :=
  cobra = "" ||
    (strSplit ((strSplit cobra sepMultipleCmds).headD "") sepCmdParts).getD 2 "" = "custom"

/-! ## Documentation given as a list of strings (`help.go`, `internal/doc/list.go`) -/

/-- The constant `doc.BaseDelimiter`. -/
def BaseDelimiter : String := "------ DELIMITER:BASE ------"
/-- The constant `doc.HelpDelimiter`. -/
def HelpDelimiter : String := "------ DELIMITER:HELP ------"
/-- The constant `doc.UsageDelimiter`. -/
def UsageDelimiter : String := "------ DELIMITER:USAGE ------"
/-- The constant `doc.CmdlineDelimiter`. -/
def CmdlineDelimiter : String := "------ DELIMITER:COMMANDLINE ------"
/-- The constant `doc.ConfigDelimiter`. -/
def ConfigDelimiter : String := "------ DELIMITER:CONFIG ------"
/-- The constant `doc.CustomDelimiter`. -/
def CustomDelimiter : String := "------ DELIMITER:CUSTOM ------"
/-- The constant `errText` of `help.go`. -/
def errText : String := "Documentation parse error:"

/-- How a call of the parser of `help.go` ends when it has no result: with the error
it returns, with the run-time panic of an index outside the slice, or because the
bound that the embedding puts on the number of iterations is used up. -/
inductive DocErr where
  | errorf (msg : String)
  | indexOutOfRange (i len : Nat)
  | outOfFuel
  deriving DecidableEq, Repr

/-- The expression `docs[i]`, which panics when `i` is not below `len(docs)`. -/
def lineAt (docs : List String) (i : Nat) : Except DocErr String :=
  match docs[i]? with
  | some s => .ok s
  | none => .error (.indexOutOfRange i docs.length)

/-- The struct `HelpStrings`: the fields that `helperHelp` assigns. -/
structure HelpStrings where
  Usage : String
  Aliases : String
  Examples : String
  AvailableCommands : String
  Flags : String
  GlobalFlags : String
  AdditionalHelpTopics : String
  ProvidesMoreInformationAboutACommand : String
  deriving DecidableEq, Repr

/-- The struct `CmdHelp`: the fields that `usageHelp` assigns. -/
structure CmdHelp where
  Use : String
  Short : String
  Long : String
  Example : String
  deriving DecidableEq, Repr

/-- The struct `DocSet`: the fields that `ConvertDocs` and `getDocset` use.  A nil
pointer and a nil map are `none`; a map is held as an association list, and the
values of `Usage` are pointers to `CmdHelp`. -/
structure DocSet where
  Use : String
  Short : String
  Long : String
  Example : String
  HelpFlag : String
  CmdFlags : String
  ConfigEnvMsg1 : String
  ConfigEnvMsg2 : String
  ConfigEnvMsg3 : String
  Help : Option HelpStrings
  CmdLine : Option (List (String × String))
  ConfigFile : Option (List (String × String))
  Usage : Option (List (String × Option CmdHelp))
  Custom : Option (List (String × String))
  deriving DecidableEq, Repr

/-- The value `&DocSet{}`. -/
def DocSet.empty : DocSet := ⟨"", "", "", "", "", "", "", "", "", none, none, none, none, none⟩

/-- The value `&HelpStrings{}`. -/
def HelpStrings.empty : HelpStrings := ⟨"", "", "", "", "", "", "", ""⟩

/-- The names of the `case` labels of `helperBaseCmd`: `doc.Use`, `doc.Short`, ... -/
def baseKeys : List String :=
  ["Use", "Short", "Long", "Example", "HelpFlag", "ConfigEnvMsg1", "ConfigEnvMsg2",
   "ConfigEnvMsg3", "CmdFlags"]

/-- The names of the `case` labels of `helperHelp`: `doc.Usage`, `doc.Aliases`, ... -/
def helpKeys : List String :=
  ["Usage", "Aliases", "Examples", "AvailableCommands", "Flags", "GlobalFlags",
   "AdditionalHelpTopics", "ProvidesMoreInformationAboutACommand"]

/-- The assignment that the `case` of `helperBaseCmd` for `key` makes. -/
def DocSet.setBase (d : DocSet) (key value : String) : DocSet :=
  if key = "Use" then { d with Use := value }
  else if key = "Short" then { d with Short := value }
  else if key = "Long" then { d with Long := value }
  else if key = "Example" then { d with Example := value }
  else if key = "HelpFlag" then { d with HelpFlag := value }
  else if key = "ConfigEnvMsg1" then { d with ConfigEnvMsg1 := value }
  else if key = "ConfigEnvMsg2" then { d with ConfigEnvMsg2 := value }
  else if key = "ConfigEnvMsg3" then { d with ConfigEnvMsg3 := value }
  else if key = "CmdFlags" then { d with CmdFlags := value }
  else d

/-- The assignment that the `case` of `helperHelp` for `key` makes. -/
def HelpStrings.set (h : HelpStrings) (key value : String) : HelpStrings :=
  if key = "Usage" then { h with Usage := value }
  else if key = "Aliases" then { h with Aliases := value }
  else if key = "Examples" then { h with Examples := value }
  else if key = "AvailableCommands" then { h with AvailableCommands := value }
  else if key = "Flags" then { h with Flags := value }
  else if key = "GlobalFlags" then { h with GlobalFlags := value }
  else if key = "AdditionalHelpTopics" then { h with AdditionalHelpTopics := value }
  else if key = "ProvidesMoreInformationAboutACommand" then
    { h with ProvidesMoreInformationAboutACommand := value }
  else h

/-- What `%v` prints for a slice of strings. -/
def fmtStrings (docs : List String) : String := "[" ++ strJoin docs " " ++ "]"

/-- The text of an error for a name declared twice in a section. -/
def duplicateText (name : String) (i previous : Nat) : String :=
  errText ++ " duplicate " ++ name ++ " declaration at line " ++ formatInt (i : Nat) ++
    " (previously line " ++ formatInt (previous : Nat) ++ ")"

/-- The loop of `helperBaseCmd` from the index `i`.  The nine variables `foundUse`,
`foundShort`, ... are held in `found`, by the name of the `case` (0 when absent).
The first argument bounds the number of iterations. -/
def helperBaseLoop (docs : List String) (l : Nat) :
    Nat → Nat → List (String × Nat) → DocSet → Except DocErr (DocSet × Nat)
  | 0, _, _, _ => .error .outOfFuel
  | fuel + 1, i, found, langDoc =>
    if i < l then
      match lineAt docs i with
      | .error e => .error e
      | .ok name =>
        if name = BaseDelimiter then .ok (langDoc, i + 1)
        else if i = l - 1 then .error (.errorf (errText ++ " odd number of base section lines"))
        else if name ∈ baseKeys then
          if (assocGet found name).getD 0 > 0 then
            .error (.errorf (duplicateText name i ((assocGet found name).getD 0)))
          else
            match lineAt docs (i + 1) with
            | .error e => .error e
            | .ok value =>
              helperBaseLoop docs l fuel (i + 2) (assocSet found name i)
                (langDoc.setBase name value)
        else
          .error (.errorf (errText ++ " internal parse error, unknown base variable " ++ name ++
            " at line " ++ formatInt (i : Nat) ++ " " ++ fmtStrings docs))
    else .ok (langDoc, i)

/-- The function `helperBaseCmd`: the document set with the fields of the base
section assigned, and the index after the section. -/
def helperBaseCmd (langDoc : DocSet) (docs : List String) (idx l : Nat) :
    Except DocErr (DocSet × Nat) :=
  helperBaseLoop docs l (l + 1) idx [] langDoc

/-- The loop of `helperHelp` from the index `i`; `found` is as in `helperBaseLoop`. -/
def helperHelpLoop (docs : List String) (l : Nat) :
    Nat → Nat → List (String × Nat) → HelpStrings → Except DocErr (HelpStrings × Nat)
  | 0, _, _, _ => .error .outOfFuel
  | fuel + 1, i, found, hStrings =>
    if i < l then
      match lineAt docs i with
      | .error e => .error e
      | .ok name =>
        if name = HelpDelimiter then .ok (hStrings, i + 1)
        else if i = l - 1 then .error (.errorf (errText ++ " odd number of help section lines"))
        else if name ∈ helpKeys then
          if (assocGet found name).getD 0 > 0 then
            .error (.errorf (duplicateText name i ((assocGet found name).getD 0)))
          else
            match lineAt docs (i + 1) with
            | .error e => .error e
            | .ok value =>
              helperHelpLoop docs l fuel (i + 2) (assocSet found name i) (hStrings.set name value)
        else
          .error (.errorf (errText ++ " internal parse error, unknown help variable " ++ name ++
            " at line " ++ formatInt (i : Nat)))
    else .ok (hStrings, i)

/-- The function `helperHelp`. -/
def helperHelp (docs : List String) (idx l : Nat) : Except DocErr (HelpStrings × Nat) :=
  helperHelpLoop docs l (l + 1) idx [] HelpStrings.empty

/-- The loop of `usageHelp` from the index `i`, with the maps `cmds` and `seen`.
The test `i >= l-4` of the source is on integers, so it is written `i + 4 ≥ l`. -/
def usageHelpLoop (docs : List String) (l : Nat) :
    Nat → Nat → List (String × Nat) → List (String × Option CmdHelp) →
      Except DocErr (List (String × Option CmdHelp) × Nat)
  | 0, _, _, _ => .error .outOfFuel
  | fuel + 1, i, seen, cmds =>
    if i < l then
      match lineAt docs i with
      | .error e => .error e
      | .ok name =>
        if name = UsageDelimiter then .ok (cmds, i + 1)
        else
          match assocGet seen name with
          | some previous => .error (.errorf (duplicateText name i previous))
          | none =>
            if i + 4 ≥ l then
              .error (.errorf (errText ++
                " number of section lines not divisible by 4 in the Usage section " ++
                formatInt (i : Nat) ++ " / " ++ formatInt (l : Nat) ++ ", " ++ fmtStrings docs))
            else
              match lineAt docs (i + 1) with
              | .error e => .error e
              | .ok use =>
                match lineAt docs (i + 2) with
                | .error e => .error e
                | .ok short =>
                  match lineAt docs (i + 3) with
                  | .error e => .error e
                  | .ok long =>
                    match lineAt docs (i + 4) with
                    | .error e => .error e
                    | .ok exmpl =>
                      usageHelpLoop docs l fuel (i + 5) (assocSet seen name i)
                        (assocSet cmds name (some ⟨use, short, long, exmpl⟩))
    else .ok (cmds, i)

/-- The function `usageHelp`. -/
def usageHelp (docs : List String) (idx l : Nat) :
    Except DocErr (List (String × Option CmdHelp) × Nat) :=
  usageHelpLoop docs l (l + 1) idx [] []

/-- The loop of `mapMap` from the index `i`, with the maps `mStrings` and `seen`. -/
def mapMapLoop (docs : List String) (l : Nat) (what : String) :
    Nat → Nat → List (String × Nat) → List (String × String) →
      Except DocErr (List (String × String) × Nat)
  | 0, _, _, _ => .error .outOfFuel
  | fuel + 1, i, seen, mStrings =>
    if i < l then
      match lineAt docs i with
      | .error e => .error e
      | .ok name =>
        if what = "cmd" ∧ name = CmdlineDelimiter then .ok (mStrings, i + 1)
        else if what = "config" ∧ name = ConfigDelimiter then .ok (mStrings, i + 1)
        else if what = "custom" ∧ name = CustomDelimiter then .ok (mStrings, i + 1)
        else if name = "" then
          .error (.errorf (errText ++ " empty variable name on line " ++ formatInt (i : Nat)))
        else
          match assocGet seen name with
          | some previous => .error (.errorf (duplicateText name i previous))
          | none =>
            if i = l - 1 then
              .error (.errorf (errText ++ " odd number of " ++ what ++ " section lines " ++
                formatInt (i : Nat) ++ " / " ++ formatInt (l : Nat)))
            else
              match lineAt docs (i + 1) with
              | .error e => .error e
              | .ok value =>
                mapMapLoop docs l what fuel (i + 2) (assocSet seen name i)
                  (assocSet mStrings name value)
    else .ok (mStrings, i)

/-- The function `mapMap`. -/
def mapMap (docs : List String) (idx l : Nat) (what : String) :
    Except DocErr (List (String × String) × Nat) :=
  mapMapLoop docs l what (l + 1) idx [] []

/-- The flags `foundBase`, `foundHelp`, ... of `ConvertDocs`. -/
structure FoundSections where
  foundBase : Bool
  foundHelp : Bool
  foundUsage : Bool
  foundCmd : Bool
  foundCfg : Bool
  foundCustom : Bool
  deriving DecidableEq, Repr

/-- The text of the error of `ConvertDocs` for a section met twice. -/
def duplicateSection (what : String) (i : Nat) : String :=
  errText ++ " duplicate " ++ what ++ " section at line " ++ formatInt (i : Nat)

/-- The loop of `ConvertDocs` from the index `i`.  The first argument bounds the
number of iterations. -/
def convertLoop (udoc : List String) (l : Nat) :
    Nat → Nat → FoundSections → DocSet → Except DocErr DocSet
  | 0, _, _, _ => .error .outOfFuel
  | fuel + 1, i, found, langDoc =>
    if i ≥ l then .ok langDoc
    else
      match lineAt udoc i with
      | .error e => .error e
      | .ok line =>
        if i = 0 then
          if line ≠ "1.0" then .error (.errorf ("Unsupported document format: " ++ line))
          else convertLoop udoc l fuel (i + 1) found langDoc
        else if line = BaseDelimiter then
          if found.foundBase then .error (.errorf (duplicateSection "base" i))
          else
            match helperBaseCmd langDoc udoc (i + 1) l with
            | .error err => .error err
            | .ok (langDoc, idx) =>
              convertLoop udoc l fuel idx { found with foundBase := true } langDoc
        else if line = HelpDelimiter then
          if found.foundHelp then .error (.errorf (duplicateSection "help" i))
          else
            match helperHelp udoc (i + 1) l with
            | .error err => .error err
            | .ok (r, idx) =>
              convertLoop udoc l fuel idx { found with foundHelp := true }
                { langDoc with Help := some r }
        else if line = UsageDelimiter then
          if found.foundUsage then .error (.errorf (duplicateSection "usage" i))
          else
            match usageHelp udoc (i + 1) l with
            | .error err => .error err
            | .ok (r, idx) =>
              convertLoop udoc l fuel idx { found with foundUsage := true }
                { langDoc with Usage := some r }
        else if line = CmdlineDelimiter then
          if found.foundCmd then .error (.errorf (duplicateSection "commandline" i))
          else
            match mapMap udoc (i + 1) l "cmd" with
            | .error err => .error err
            | .ok (r, idx) =>
              convertLoop udoc l fuel idx { found with foundCmd := true }
                { langDoc with CmdLine := some r }
        else if line = ConfigDelimiter then
          if found.foundCfg then .error (.errorf (duplicateSection "config" i))
          else
            match mapMap udoc (i + 1) l "config" with
            | .error err => .error err
            | .ok (r, idx) =>
              convertLoop udoc l fuel idx { found with foundCfg := true }
                { langDoc with ConfigFile := some r }
        else if line = CustomDelimiter then
          if found.foundCustom then .error (.errorf (duplicateSection "custom" i))
          else
            match mapMap udoc (i + 1) l "custom" with
            | .error err => .error err
            | .ok (r, idx) =>
              convertLoop udoc l fuel idx { found with foundCustom := true }
                { langDoc with Custom := some r }
        else
          .error (.errorf (errText ++ " unknown section " ++ line ++ " at line " ++
            formatInt (i : Nat)))

/-- The function `ConvertDocs` of `help.go`: the document set, or how the call ends
otherwise.  The loop is given `len(udoc) + 1` iterations. -/
def ConvertDocs (udoc : List String) : Except DocErr DocSet :=
  convertLoop udoc udoc.length (udoc.length + 1) 0 ⟨false, false, false, false, false, false⟩
    DocSet.empty

/-! ## Sections of a documentation list -/

/-- The lines of a section body made of names, each followed by its value. -/
def flattenPairs : List (String × String) → List String
  | [] => []
  | (k, v) :: rest => k :: v :: flattenPairs rest

/-- The lines of the body of a usage section: for each command its identifier and
the four texts `Use`, `Short`, `Long` and `Example`. -/
def flattenUsage : List (String × CmdHelp) → List String
  | [] => []
  | (k, c) :: rest => k :: c.Use :: c.Short :: c.Long :: c.Example :: flattenUsage rest

/-- The six kinds of section of a documentation list. -/
inductive SectionKind where
  | base
  | help
  | usage
  | cmdline
  | config
  | custom
  deriving DecidableEq, Repr

/-- The delimiter that opens and closes a section of the kind. -/
def SectionKind.delimiter : SectionKind → String
  | .base => BaseDelimiter
  | .help => HelpDelimiter
  | .usage => UsageDelimiter
  | .cmdline => CmdlineDelimiter
  | .config => ConfigDelimiter
  | .custom => CustomDelimiter

/-- The name of the kind in the error of `ConvertDocs` for a section met twice. -/
def SectionKind.text : SectionKind → String
  | .base => "base"
  | .help => "help"
  | .usage => "usage"
  | .cmdline => "commandline"
  | .config => "config"
  | .custom => "custom"

/-- The flag of `ConvertDocs` for the kind. -/
def FoundSections.has (f : FoundSections) : SectionKind → Bool
  | .base => f.foundBase
  | .help => f.foundHelp
  | .usage => f.foundUsage
  | .cmdline => f.foundCmd
  | .config => f.foundCfg
  | .custom => f.foundCustom

/-- The flags after the flag of the kind is set. -/
def FoundSections.mark (f : FoundSections) : SectionKind → FoundSections
  | .base => { f with foundBase := true }
  | .help => { f with foundHelp := true }
  | .usage => { f with foundUsage := true }
  | .cmdline => { f with foundCmd := true }
  | .config => { f with foundCfg := true }
  | .custom => { f with foundCustom := true }

/-- A section of a documentation list, by what stands between its two delimiters:
names with their values, and for a usage section the commands with their four
texts. -/
inductive DocSection where
  | base (pairs : List (String × String))
  | help (pairs : List (String × String))
  | usage (entries : List (String × CmdHelp))
  | cmdline (pairs : List (String × String))
  | config (pairs : List (String × String))
  | custom (pairs : List (String × String))
  deriving DecidableEq, Repr

/-- The kind of a section. -/
def DocSection.kind : DocSection → SectionKind
  | .base _ => .base
  | .help _ => .help
  | .usage _ => .usage
  | .cmdline _ => .cmdline
  | .config _ => .config
  | .custom _ => .custom

/-- The lines between the delimiters of a section. -/
def DocSection.body : DocSection → List String
  | .base pairs => flattenPairs pairs
  | .help pairs => flattenPairs pairs
  | .usage entries => flattenUsage entries
  | .cmdline pairs => flattenPairs pairs
  | .config pairs => flattenPairs pairs
  | .custom pairs => flattenPairs pairs

/-- The lines of a section closed by its delimiter. -/
def DocSection.lines (s : DocSection) : List String :=
  s.kind.delimiter :: (s.body ++ [s.kind.delimiter])

/-- The lines of a list of sections, one after the other. -/
def sectionLines : List DocSection → List String
  | [] => []
  | s :: rest => s.lines ++ sectionLines rest

/-- The documentation list made of the version line and the sections. -/
def docLines (secs : List DocSection) : List String := "1.0" :: sectionLines secs

/-- A section is well formed when no name is given twice, and
* in a base section and in a help section every name is one of the names of the section,
* in a usage section no command has the text of the delimiter as its identifier,
* in the other sections no name is empty or the text of the delimiter. -/
def DocSection.wellFormed : DocSection → Bool
  | .base pairs => decide (pairs.map Prod.fst).Nodup && pairs.all fun p => decide (p.1 ∈ baseKeys)
  | .help pairs => decide (pairs.map Prod.fst).Nodup && pairs.all fun p => decide (p.1 ∈ helpKeys)
  | .usage entries =>
    decide (entries.map Prod.fst).Nodup && entries.all fun e => decide (e.1 ≠ UsageDelimiter)
  | .cmdline pairs =>
    decide (pairs.map Prod.fst).Nodup &&
      pairs.all fun p => decide (p.1 ≠ "") && decide (p.1 ≠ CmdlineDelimiter)
  | .config pairs =>
    decide (pairs.map Prod.fst).Nodup &&
      pairs.all fun p => decide (p.1 ≠ "") && decide (p.1 ≠ ConfigDelimiter)
  | .custom pairs =>
    decide (pairs.map Prod.fst).Nodup &&
      pairs.all fun p => decide (p.1 ≠ "") && decide (p.1 ≠ CustomDelimiter)

/-- The pairs of a base section. -/
def DocSection.basePairs : DocSection → Option (List (String × String))
  | .base pairs => some pairs
  | _ => none

/-- The pairs of a help section. -/
def DocSection.helpPairs : DocSection → Option (List (String × String))
  | .help pairs => some pairs
  | _ => none

/-- The commands of a usage section. -/
def DocSection.usageEntries : DocSection → Option (List (String × CmdHelp))
  | .usage entries => some entries
  | _ => none

/-- The pairs of a command-line section. -/
def DocSection.cmdlinePairs : DocSection → Option (List (String × String))
  | .cmdline pairs => some pairs
  | _ => none

/-- The pairs of a config section. -/
def DocSection.configPairs : DocSection → Option (List (String × String))
  | .config pairs => some pairs
  | _ => none

/-- The pairs of a custom section. -/
def DocSection.customPairs : DocSection → Option (List (String × String))
  | .custom pairs => some pairs
  | _ => none

/-- The value listed for a name, and the second argument when the name is not listed. -/
def listedOr (pairs : List (String × String)) (name dflt : String) : String :=
  (assocGet pairs name).getD dflt

/-- The document set `d` with what the sections list: a text of the base section
replaces the field of its name, and each other section replaces the field of its kind
(a help section by its texts, the fields it does not list being empty, a usage section
by its commands, the other sections by their pairs). -/
def mergeSections (d : DocSet) (secs : List DocSection) : DocSet where
  Use := listedOr ((secs.findSome? DocSection.basePairs).getD []) "Use" d.Use
  Short := listedOr ((secs.findSome? DocSection.basePairs).getD []) "Short" d.Short
  Long := listedOr ((secs.findSome? DocSection.basePairs).getD []) "Long" d.Long
  Example := listedOr ((secs.findSome? DocSection.basePairs).getD []) "Example" d.Example
  HelpFlag := listedOr ((secs.findSome? DocSection.basePairs).getD []) "HelpFlag" d.HelpFlag
  CmdFlags := listedOr ((secs.findSome? DocSection.basePairs).getD []) "CmdFlags" d.CmdFlags
  ConfigEnvMsg1 :=
    listedOr ((secs.findSome? DocSection.basePairs).getD []) "ConfigEnvMsg1" d.ConfigEnvMsg1
  ConfigEnvMsg2 :=
    listedOr ((secs.findSome? DocSection.basePairs).getD []) "ConfigEnvMsg2" d.ConfigEnvMsg2
  ConfigEnvMsg3 :=
    listedOr ((secs.findSome? DocSection.basePairs).getD []) "ConfigEnvMsg3" d.ConfigEnvMsg3
  Help :=
    match secs.findSome? DocSection.helpPairs with
    | some p =>
      some ⟨listedOr p "Usage" "", listedOr p "Aliases" "", listedOr p "Examples" "",
        listedOr p "AvailableCommands" "", listedOr p "Flags" "", listedOr p "GlobalFlags" "",
        listedOr p "AdditionalHelpTopics" "",
        listedOr p "ProvidesMoreInformationAboutACommand" ""⟩
    | none => d.Help
  CmdLine :=
    match secs.findSome? DocSection.cmdlinePairs with
    | some p => some p
    | none => d.CmdLine
  ConfigFile :=
    match secs.findSome? DocSection.configPairs with
    | some p => some p
    | none => d.ConfigFile
  Usage :=
    match secs.findSome? DocSection.usageEntries with
    | some es => some (es.map fun e => (e.1, some e.2))
    | none => d.Usage
  Custom :=
    match secs.findSome? DocSection.customPairs with
    | some p => some p
    | none => d.Custom

/-- The document set that a list of sections describes: the texts of the base section
in the fields of their names, the texts of the help section in `Help`, the commands
of the usage section in `Usage`, the pairs of the command-line, config and custom
sections in `CmdLine`, `ConfigFile` and `Custom`; a text that is not listed is empty,
and the field of a section that is not given is nil. -/
def docSetOf (secs : List DocSection) : DocSet := mergeSections DocSet.empty secs

/-- What `ConvertDocs` does with a section that it parses without error. -/
def applySection (d : DocSet) : DocSection → DocSet
  | .base pairs => pairs.foldl (fun d p => d.setBase p.1 p.2) d
  | .help pairs => { d with Help := some (pairs.foldl (fun h p => h.set p.1 p.2) HelpStrings.empty) }
  | .usage entries =>
    { d with Usage := some (entries.foldl (fun m e => assocSet m e.1 (some e.2)) []) }
  | .cmdline pairs => { d with CmdLine := some (pairs.foldl (fun m p => assocSet m p.1 p.2) []) }
  | .config pairs => { d with ConfigFile := some (pairs.foldl (fun m p => assocSet m p.1 p.2) []) }
  | .custom pairs => { d with Custom := some (pairs.foldl (fun m p => assocSet m p.1 p.2) []) }

/-- Whether a call of the parser ends with a result or with an error that it
returns: not with a panic, and not for want of iterations. -/
def endsNormally {α : Type} : Except DocErr α → Bool
  | .ok _ => true
  | .error (.errorf _) => true
  | .error _ => false

/-! ## The base logger (`baselogging.go`) -/

/-- The constant `debugLevel`. -/
def debugLevel : Nat := 0
/-- The constant `infoLevel`. -/
def infoLevel : Nat := 1
/-- The constant `warnLevel`. -/
def warnLevel : Nat := 2
/-- The constant `errorLevel`. -/
def errorLevel : Nat := 3

/-- The struct `baseLogger`.  The writer `w` is held as the list of the texts written
to it, one for each call of `fmt.Fprintf`; `pfx` is the field `prefix`. -/
structure baseLogger where
  w : List String
  level : Nat
  pfx : String
  deriving DecidableEq, Repr

/-- The method `doPrint`; `lf` holds the fields as `getValues` renders them. -/
def baseLogger.doPrint (l : baseLogger) (s : String) (lf : List String) : baseLogger :=
  if lf.length = 0 then { l with w := l.w ++ [l.pfx ++ s ++ "\n"] }
  else { l with w := l.w ++ [l.pfx ++ s ++ " " ++ strJoin lf " " ++ "\n"] }

/-- The method `DebugStructured`. -/
def baseLogger.DebugStructured (l : baseLogger) (s : String) (lf : List String) : baseLogger :=
  if l.level ≠ debugLevel then l else l.doPrint s lf

/-- The method `InfoStructured`. -/
def baseLogger.InfoStructured (l : baseLogger) (s : String) (lf : List String) : baseLogger :=
  if l.level > debugLevel then l else l.doPrint s lf

/-- The method `WarnStructured`. -/
def baseLogger.WarnStructured (l : baseLogger) (s : String) (lf : List String) : baseLogger :=
  if l.level > infoLevel then l else l.doPrint s lf

/-- The method `ErrorStructured`. -/
def baseLogger.ErrorStructured (l : baseLogger) (s : String) (lf : List String) : baseLogger :=
  l.doPrint s lf

/-- The function `logValueFromString`, with `strings.ToLower` on ASCII letters;
`.error msg` is the panic with the value `msg`. -/
def logValueFromString (e : String) : Except String Nat :=
  let lower := String.mk (e.data.map Char.toLower)
  if lower = "error" then .ok errorLevel
  else if lower = "warn" then .ok warnLevel
  else if lower = "info" then .ok infoLevel
  else if lower = "debug" then .ok debugLevel
  else .error ("Invalid log level " ++ e ++ ", only error, warn, info and debug are supported")

/-- The function `BasePrettyLogger`; the configuration is not used. -/
def BasePrettyLogger (l : String) (w : List String) : Except String baseLogger :=
  (logValueFromString l).map fun level => ⟨w, level, ""⟩

/-- The function `BaseStructuredLogger`. -/
def BaseStructuredLogger (l : String) (w : List String) : Except String baseLogger :=
  BasePrettyLogger l w

/-! ## The name of the configuration file to create (`generate.go`) -/

/-- The constant `os.PathSeparator` (on Unix). -/
def pathSeparator : Char := '/'

/-- What `fileName` takes from the system: the result of `os.Getwd`, the function
`path.Join` for two elements, and the path of the first folder that
`configdir.New(vendor, app).QueryFolders` gives for `configdir.Global` and for
`configdir.System`. -/
structure FolderEnv where
  getwd : String × Option GoErr
  pathJoin : String → String → String
  globalFolder : String → String → String
  systemFolder : String → String → String

/-- The function `fileName` of `generate.go`: the results `wanted` and `err`. -/
def fileName (fe : FolderEnv) (dname name location : String) : String × Option GoErr :=
  let name := if name = "" then dname ++ ".toml" else name
  if ¬ containsChar name pathSeparator then
    if location = "cwd" then
      match fe.getwd with
      | (wanted, some err) => (wanted, some (.withMessage err "Cannot access the current directory"))
      | (wanted, none) => (fe.pathJoin wanted (dname ++ ".toml"), none)
    else if location = "user" then (fe.globalFolder dname name, none)
    else if location = "system" then (fe.systemFolder dname name, none)
    else ("", none)
  else ("", none)

/-- Whether a record of an additional variable has an empty `Cmdline` or an empty
`Viper`, so that the loop of `load` over these records does not come to its last
branch for it. -/
def additionalStruct.oneSided (vv : additionalStruct) : Bool :=
  decide (vv.Cmdline = "") || decide (vv.Viper = "")

/-! ## Choosing the documentation of a language (`getDocset`) -/

/-- The loop of `getDocset` over `docs.Usage`: the copy of the map, or the name of
an entry that is nil.  The loop of the source goes through the map in no fixed order;
here the entries are taken in the order of the list, so with several nil entries the
name is that of the first. -/
def copyUsage : List (String × Option CmdHelp) →
    Except String (List (String × Option CmdHelp))
  | [] => .ok []
  | (k, none) :: _ => .error k
  | (k, some h) :: rest =>
    match copyUsage rest with
    | .ok usage => .ok ((k, some h) :: usage)
    | .error k' => .error k'

/-- The number of bytes of a character in UTF-8, the encoding of a Go string. -/
def utf8Len (c : Char) : Nat :=
  let n := c.toNat
  if n < 128 then 1 else if n < 2048 then 2 else if n < 65536 then 3 else 4

/-- Go `len(s)`: the number of bytes of the string. -/
def byteLen (s : String) : Nat := (s.data.map utf8Len).sum

/-- The slice `lang[:2]` of a string of at least two bytes, when the two bytes are
whole characters: two characters of one byte each, or one character of two bytes.
Otherwise the slice ends inside a character and is not the encoding of a sequence of
characters, so it is equal to no string held here: `none`. -/
def firstTwoBytes (lang : String) : Option String :=
  match lang.data with
  | [] => none
  | a :: rest =>
    if utf8Len a = 2 then some (String.mk [a])
    else if utf8Len a = 1 then
      match rest with
      | b :: _ => if utf8Len b = 1 then some (String.mk [a, b]) else none
      | [] => none
    else none

/-- The function `getDocset` of `help.go`.  The map `documentation` holds pointers,
`none` for nil.  A Go string is a sequence of bytes, and `len(lang)` and `lang[:2]`
count bytes: the test is on `byteLen` and the key looked up is `firstTwoBytes`.  The
keys of `documentation` are strings of characters, so a slice `lang[:2]` that ends
inside a character is not among them and the look-up fails.  The loops that copy a map
of strings entry by entry give a map with the same entries, held as the same
association list. -/
def getDocset (documentation : List (String × Option DocSet)) (lang defLang : String) :
    DocSet × String × Option GoErr :=
  let found : Option DocSet × String :=
    if lang ≠ "" then
      match assocGet documentation lang with
      | some exact => (exact, lang)
      | none =>
        if byteLen lang > 1 then
          match firstTwoBytes lang with
          | some cLanguage =>
            match assocGet documentation cLanguage with
            | some sub => (sub, cLanguage)
            | none => (none, "")
          | none => (none, "")
        else (none, "")
    else (none, "")
  let chosen : Option (Option DocSet × String) :=
    if found.2 = "" then
      match assocGet documentation defLang with
      | some docs => some (docs, defLang)
      | none => none
    else some found
  match chosen with
  | none =>
    (DocSet.empty, "", some (.errorf ("No docset present for the default language: " ++ defLang)))
  | some (none, _) =>
    (DocSet.empty, "", some (.panicked "invalid memory address or nil pointer dereference"))
  | some (some docs, foundLanguage) =>
    let hs : HelpStrings := docs.Help.getD HelpStrings.empty
    let cmds := docs.CmdLine.getD []
    let cf := docs.ConfigFile.getD []
    let custom := docs.Custom.getD []
    match copyUsage (docs.Usage.getD []) with
    | .error k =>
      (DocSet.empty, "",
        some (.errorf ("Nil CmdHelp entry for command " ++ k ++ " in language " ++ foundLanguage)))
    | .ok usage =>
      (⟨docs.Use, docs.Short, docs.Long, docs.Example, docs.HelpFlag, docs.CmdFlags,
        docs.ConfigEnvMsg1, docs.ConfigEnvMsg2, docs.ConfigEnvMsg3, some hs, some cmds,
        some cf, some usage, some custom⟩, foundLanguage, none)

/-- The first two characters of a string, in the words of the claim. -/
def firstTwoChars (lang : String) : String := String.mk (lang.data.take 2)

/-- The key of the documentation that the claim says `getDocset` uses: `lang` when
it is not empty and registered; otherwise the first two characters of `lang` when
`lang` has at least two characters and they are registered; otherwise the default
language when it is registered. -/
def docsetKey (documentation : List (String × Option DocSet)) (lang defLang : String) :
    Option String :=
  if lang ≠ "" ∧ (assocGet documentation lang).isSome then some lang
  else if lang.length ≥ 2 ∧ (assocGet documentation (firstTwoChars lang)).isSome then
    some (firstTwoChars lang)
  else if (assocGet documentation defLang).isSome then some defLang
  else none

/-- Whether the first two characters of a string, or its only character, are ASCII
characters, of one byte each. -/
def asciiStart (lang : String) : Bool := (lang.data.take 2).all (fun c => decide (c.toNat < 128))

/-- The copy of a document set that `getDocset` returns: the same texts and the same
entries, with an empty `HelpStrings` for a nil `Help` and an empty map for a nil
map. -/
def DocSet.copy (d : DocSet) : DocSet :=
  { d with
    Help := some (d.Help.getD HelpStrings.empty)
    CmdLine := some (d.CmdLine.getD [])
    ConfigFile := some (d.ConfigFile.getD [])
    Usage := some (d.Usage.getD [])
    Custom := some (d.Custom.getD []) }

/-- The name of the first entry of a map of commands that is nil. -/
def firstNil : List (String × Option CmdHelp) → Option String
  | [] => none
  | (k, none) :: _ => some k
  | (_, some _) :: rest => firstNil rest

/-! ## The text of a new configuration file (`generate.go`) -/

/-- The constant `doc.ConfigHeader`. -/
def ConfigHeader : String := "."

/-- Go `strings.TrimSuffix(s, "\n")`. -/
def trimSuffixNewline (s : String) : String :=
  match s.data.reverse with
  | '\n' :: rest => String.mk rest.reverse
  | _ => s

/-- The function `commentify` of `generate.go`. -/
def commentify (s comment : String) : String :=
  if s = "" then ""
  else (strSplit (trimSuffixNewline s) '\n').foldl (fun o l => o ++ comment ++ l ++ "\n") ""

/-- The struct `cfgLine`. -/
structure cfgLine where
  parent : String
  doc : String
  value : String
  child : String
  skipvalue : Bool
  deriving DecidableEq, Repr

/-- The variables of the last loop of `fileContents`: `cparent`, the maps `seen` and
`seenDoc`, and the text `confText` made so far. -/
structure EmitState where
  cparent : String
  seen : List (String × String)
  seenDoc : List (String × String)
  confText : String
  deriving DecidableEq, Repr

/-- The key of the maps `seen` and `seenDoc` for a line. -/
def cfgLine.cand (v : cfgLine) : String := v.parent ++ "!" ++ v.child

/-- The error of `fileContents` for two variables with different defaults. -/
def defaultsErr (v : cfgLine) (pValue : String) : GoErr :=
  .errorf ("More than one configuration variable corresponds to config file variable " ++
    (v.parent ++ "." ++ v.child) ++ " with different defaults: " ++ v.value ++ " and " ++
    pValue ++ " for example")

/-- The error of `fileContents` for two variables with different documentation. -/
def docLinesErr (v : cfgLine) (pDoc : String) : GoErr :=
  .errorf ("More than one configuration variable corresponds to config file variable " ++
    (v.parent ++ "." ++ v.child) ++ " with different doc lines: \"" ++ v.doc ++ "\" and \"" ++
    pDoc ++ "\" for example")

/-- What the last loop of `fileContents` appends for a line that is not skipped. -/
def emitLine (docs : List (String × String)) (v : cfgLine) (st : EmitState) : EmitState :=
  let st : EmitState :=
    { st with seen := assocSet st.seen v.cand v.value, seenDoc := assocSet st.seenDoc v.cand v.doc }
  let st : EmitState :=
    if st.cparent ≠ v.parent then
      { st with
        cparent := v.parent
        confText := st.confText ++ "\n" ++
          (match assocGet docs (v.parent ++ String.singleton sepKeyParts) with
            | some t => commentify t "# "
            | none => "") ++
          "[" ++ v.parent ++ "]\n" }
    else st
  if v.skipvalue then { st with confText := st.confText ++ commentify v.doc "" }
  else
    { st with confText := st.confText ++ commentify v.doc "# " ++ v.child ++ " = " ++ v.value ++
        "\n" }

/-- The last loop of `fileContents` (lines 283 to 320) over the sorted lines: the
variables when the loop ends, and the error with which it ends. -/
def emitLines (docs : List (String × String)) : List cfgLine → EmitState →
    EmitState × Option GoErr
  | [], st => (st, none)
  | v :: rest, st =>
    match assocGet st.seen v.cand with
    | some pValue =>
      if pValue ≠ v.value then (st, some (defaultsErr v pValue))
      else if (assocGet st.seenDoc v.cand).getD "" ≠ v.doc then
        (st, some (docLinesErr v ((assocGet st.seenDoc v.cand).getD "")))
      else emitLines docs rest st
    | none => emitLines docs rest (emitLine docs v st)

/-- The variables of `fileContents` before its last loop: `confText` holds the header
of the file when the documentation has one. -/
def emitStart (docs : List (String × String)) : EmitState :=
  ⟨"", [], [],
    match assocGet docs ConfigHeader with
    | some t => commentify t "# " ++ "\n"
    | none => ""⟩

/-- The function `fileContents` of `generate.go`, from the lines that the calls of
`paramHelper` give for the fields of the configuration, in the order of the fields
(a call that fails ends `fileContents` before the part embedded here); `docs` is the
map `ConfigFile` of the documentation.  The function `sort.Slice` is a parameter: it
reorders the lines, in an order that its comparison function does not fix for lines
that compare alike. -/
def fileContents (sortSlice : List cfgLine → List cfgLine) (docs : List (String × String))
    (cfgVars : List cfgLine) : String × Option GoErr :=
  let r := emitLines docs (sortSlice cfgVars) (emitStart docs)
  (r.1.confText, r.2)

/-- Whether two lines are for the same key of the configuration file. -/
def cfgLine.sameKey (x y : cfgLine) : Bool :=
  decide (x.parent = y.parent) && decide (x.child = y.child)

/-! ## Scenarios

Concrete configurations, taken from the tests of the repository, on which the
loader is run. -/

/-- Library behaviour used in the scenarios: ASCII upper case letters, no
stringers, and conversions of floats and slices that keep the value. -/
def scenarioExt : External where
  isUpper := Char.isUpper
  isStringer := fun _ => false
  toFloat32E := fun v => (v, none)
  toFloat64E := fun v => (v, none)
  float32Overflow := fun _ => false
  toIntSliceE := fun v => (v, none)
  toStringSliceE := fun v => (v, none)
  pathDir := fun s => s

/-- The new store of the scenarios (`viper.New()`): nothing is bound, and
`unicode.ToLower` is the lower case of the ASCII letters, the only letters in the keys
of the scenarios. -/
def Viper.new : Viper := ⟨[], [], [], [], Char.toLower⟩

/-- The type `string`. -/
def stringType : FieldType := ⟨.string, "string", "", false, none, none⟩
/-- The type `bool`. -/
def boolType : FieldType := ⟨.bool, "bool", "", false, none, none⟩
/-- The type `*BaseConfig` of the embedded field. -/
def basePtrType : FieldType :=
  ⟨.ptr, "*greenery.BaseConfig", "greenery.BaseConfig", true, none, none⟩
/-- The type `*IntValue` of a flag called `name` with bounds `min` and `max`. -/
def intValueType (name : String) (min max : Int) : FieldType :=
  ⟨.ptr, "*greenery.IntValue", "greenery.IntValue", false, some (intValueSet name min max),
    some (intValueSet name min max)⟩

/-- The embedded field of a user struct. -/
def baseField : StructField := ⟨"BaseConfig", "", basePtrType⟩

/-- The values of the fields of `BaseConfig` that `load` and `runWrapper` read. -/
def baseValues (confFile : String) (noCfg noEnv : Bool) : Struct :=
  [("ConfFile", .str confFile), ("NoCfg", .bool noCfg), ("NoEnv", .bool noEnv)]

/-- The internals of a `BaseConfig` for the application `appName`. -/
def internalsOf (appName ucAppName : String) (extraWanted : List String)
    (additional : List additionalStruct) (parser : Option ExtraParser) : BaseInternals :=
  ⟨appName, ucAppName, extraWanted, additional, [], parser, "", false, ""⟩

/-- What `doBind` does to the store for a flag bound to `key` with the default
`dflt` and the environment variable `ename`: `BindPFlag`, `SetDefault`, `BindEnv`. -/
def bindInStore (vp : Viper) (key : String) (flag : Flag) (dflt : GoVal) (ename : String) :
    Viper :=
  ((vp.BindPFlag key flag).SetDefault key dflt).BindEnv key ename

/-! ### Three fields sharing one configuration key (`TestSharing`) -/

/-- The fields `Single1EnvCfg`, `Single2EnvCfg` and `Single3EnvCfg` of `sharingConfig`
in `user_additional_test.go`. -/
def sharingSchema : Schema where
  userType := [baseField,
    ⟨"Single1EnvCfg", "apple|single1envcfg|,                   .singleenvcfg, CMDENVCFGSINGLE",
      stringType⟩,
    ⟨"Single2EnvCfg", "apple|single2envcfg|,                   .singleenvcfg, CMDENVCFGSINGLE",
      stringType⟩,
    ⟨"Single3EnvCfg", "apple|single3envcfg|,                   .singleenvcfg, CMDENVCFGSINGLE",
      stringType⟩]
  baseType := []

/-- The flags of the command `apple` after `apple --single3envcfg cmd`. -/
def sharingFlags : List Flag :=
  [⟨"single1envcfg", false, "", "string", some "Single1EnvCfg"⟩,
   ⟨"single2envcfg", false, "", "string", some "Single2EnvCfg"⟩,
   ⟨"single3envcfg", true, "cmd", "string", some "Single3EnvCfg"⟩]

/-- The store after `createBindings` bound the three fields in the order of the
struct, each with `doBind`.  The store holds the flags themselves, so it sees the
state they have once the command line is parsed. -/
def sharingStore : Viper :=
  sharingFlags.foldl
    (fun vp fl => bindInStore vp "singleenvcfg" fl (.str "") "SHARING_CMDENVCFGSINGLE") Viper.new

/-- The configuration when `load` starts: pflag has stored `cmd` in `Single3EnvCfg`. -/
def sharingCfg : Cfg where
  user := [("Single1EnvCfg", .str ""), ("Single2EnvCfg", .str ""), ("Single3EnvCfg", .str "cmd")]
  base := baseValues "" false false

/-- The configuration file holds `singleenvcfg = "cfg"`. -/
def sharingWorld : World := ⟨scenarioExt, fun _ => .ok [("singleenvcfg", .str "cfg")]⟩

/-- The result of `load` after `apple --single3envcfg cmd`, no environment variable set. -/
def sharingResult : LoadResult :=
  load sharingWorld sharingSchema [] (internalsOf "sharing" "SHARING" [] [] none) sharingCfg
    "sharing.toml" sharingFlags sharingStore

/-! ### A user field bound to the configuration key of a base field -/

/-- The field `Verbosity` of `BaseConfig` (flag `-v, --verbosity`, key `verbosity`,
variable `<APP>_VERBOSITY`, bounds 0 and 3). -/
def verbosityField : StructField :=
  ⟨"Verbosity", "|verbosity|v, .verbosity, VERBOSITY", intValueType "Verbosity" 0 3⟩

/-- A user struct with a field `Level` bound to the key `verbosity` as well. -/
def levelSchema : Schema where
  userType := [baseField,
    ⟨"Level", "|level|, .verbosity, LEVEL", intValueType "Level" 0 3⟩]
  baseType := [verbosityField]

/-- The flags after `app -v=2`. -/
def levelFlags : List Flag :=
  [⟨"verbosity", true, "2", "int", some "Verbosity"⟩,
   ⟨"level", false, "0", "int", some "Level"⟩]

/-- The store after the base configuration and then the user struct were bound. -/
def levelStore : Viper :=
  bindInStore
    (bindInStore Viper.new "verbosity" ⟨"verbosity", true, "2", "int", some "Verbosity"⟩
      (.str "1") "APP_VERBOSITY")
    "verbosity" ⟨"level", false, "0", "int", some "Level"⟩ (.str "0") "APP_LEVEL"

/-- The configuration when `load` starts: pflag has stored 2 in `Verbosity`. -/
def levelCfg : Cfg where
  user := [("Level", .int 0)]
  base := ("Verbosity", .int 2) :: baseValues "" false false

/-- The configuration file holds `verbosity = 3`. -/
def levelWorld : World := ⟨scenarioExt, fun _ => .ok [("verbosity", .int 3)]⟩

/-- The result of `load` after `app -v=2`. -/
def levelResult : LoadResult :=
  load levelWorld levelSchema [] (internalsOf "app" "APP" [] [] none) levelCfg "app.toml"
    levelFlags levelStore

/-! ### An extension parser that repeats a key -/

/-- A parser that assigns nothing and reports the key `custom.a` twice. -/
def repeatingParser : ExtraParser := fun cfg _ => (cfg, ["custom.a", "custom.a"], none)

/-- The configuration file holds the keys `custom.a` and `custom.b`, both routed to
the parser. -/
def repeatingWorld : World :=
  ⟨scenarioExt, fun _ => .ok [("custom.a", .str "1"), ("custom.b", .str "2")]⟩

/-- The result of `load` with the repeating parser. -/
def repeatingResult : LoadResult :=
  load repeatingWorld ⟨[baseField], []⟩ []
    (internalsOf "app" "APP" ["custom.a", "custom.b"] [] (some repeatingParser))
    ⟨[], baseValues "" false false⟩ "app.toml" [] Viper.new

/-! ### A configuration file that cannot be opened -/

/-- Reading the configuration file fails with an `*os.PathError` whose cause is
not that the file is missing (the file exists and cannot be read). -/
def unreadableWorld : World := ⟨scenarioExt, fun _ => .error (.pathError false)⟩

/-- The result of `load` when no file name was given and the default file cannot
be read. -/
def unreadableResult : LoadResult :=
  load unreadableWorld ⟨[baseField], []⟩ [] (internalsOf "app" "APP" [] [] none)
    ⟨[], baseValues "" false false⟩ "app.toml" [] Viper.new

/-! ### A field with a flag and an environment variable but no configuration key -/

/-- The struct of `TestPartialPrecedence` with
`TestParam string greenery:"test|testParam|, , TESTPARAM"`. -/
def partialSchema : Schema where
  userType := [baseField, ⟨"TestParam", "test|testParam|, , TESTPARAM", stringType⟩]
  baseType := []

/-- The record `createBindings` makes for `TestParam`. -/
def partialAdditional : List additionalStruct :=
  [⟨"TestParam", "test", "testParam", "", "TESTPARAM"⟩]

/-- The flags after `test --no-env`. -/
def partialFlags : List Flag :=
  [⟨"no-env", true, "true", "bool", some "NoEnv"⟩,
   ⟨"testParam", false, "default", "string", some "TestParam"⟩]

/-- The result of `runWrapper` after `test --no-env` when the variable
`PARTIAL_TESTPARAM` holds `value`.  The map `s_env` is empty: `doBind` records no
variable for a field without a configuration key.  No configuration file exists. -/
def partialRun (value : String) : OsEnv × Option LoadResult × Option GoErr :=
  runWrapper ⟨scenarioExt, fun _ => .error (.pathError true)⟩ partialSchema
    [("PARTIAL_TESTPARAM", value)] (internalsOf "partial" "PARTIAL" [] partialAdditional none)
    ⟨[("TestParam", .str "default")], baseValues "" false true⟩ partialFlags Viper.new
    (fun _ => none)

/-! ### A field with a configuration key and an environment variable but no flag -/

/-- The struct of `TestPartialPrecedence` with
`TestParam string greenery:"   , test.test-param, TESTPARAM"`. -/
def confEnvSchema : Schema where
  userType := [baseField, ⟨"TestParam", "   , test.test-param, TESTPARAM", stringType⟩]
  baseType := []

/-- The internals for that struct: `createBindings` records `TestParam` as an
additional variable. -/
def confEnvInternals : BaseInternals :=
  internalsOf "partial" "PARTIAL" [] [⟨"TestParam", "", "", "test.test-param", "TESTPARAM"⟩] none

/-- The configuration when `load` starts. -/
def confEnvCfg : Cfg := ⟨[("TestParam", .str "default")], baseValues "" false false⟩

/-- The configuration file holds `test-param = "cfg"` in the section `test`. -/
def confEnvWorld : World := ⟨scenarioExt, fun _ => .ok [("test.test-param", .str "cfg")]⟩

/-- The environment holds `PARTIAL_TESTPARAM=env`. -/
def confEnvEnv : OsEnv := [("PARTIAL_TESTPARAM", "env")]

/-! ### A field marked `custom` with a configuration key and an environment variable -/

/-- A struct type with `UnmarshalText`, which keeps the text it is given. -/
def specialType : FieldType :=
  ⟨.struct, "main.Special", "", false, none, some (fun _ s => (.other "main.Special" s, none))⟩

/-- A user struct with `Special Special greenery:"||custom, custom.special, SPECIAL"`. -/
def customSchema : Schema where
  userType := [baseField, ⟨"Special", "||custom, custom.special, SPECIAL", specialType⟩]
  baseType := []

/-- An extension parser that assigns `Special` from the value routed to it for the
key `custom.special` and reports every key it was given. -/
def customParser : ExtraParser := fun cfg keys =>
  let routed : GoVal := (assocGet keys "custom.special").getD .nil
  (⟨cfg.user.set "Special" (.other "main.Special" routed.fmtV), cfg.base⟩,
    keys.map Prod.fst, none)

/-- The internals for that struct. -/
def customInternals : BaseInternals :=
  internalsOf "app" "APP" ["custom.special"] [⟨"Special", "", "", "custom.special", "SPECIAL"⟩]
    (some customParser)

/-- The result of `load` when the configuration file holds `special = "cfg"` in the
section `custom` and the environment holds `APP_SPECIAL=env`. -/
def customResult : LoadResult :=
  load ⟨scenarioExt, fun _ => .ok [("custom.special", .str "cfg")]⟩ customSchema
    [("APP_SPECIAL", "env")] customInternals
    ⟨[("Special", .other "main.Special" "default")], baseValues "" false false⟩ "app.toml" []
    Viper.new

/-! ### A configuration file with a key that no field declares -/

/-- A user struct with `TestParam string greenery:"test|testParam|, test.test-param,"`. -/
def typoSchema : Schema where
  userType := [baseField, ⟨"TestParam", "test|testParam|, test.test-param,", stringType⟩]
  baseType := []

/-- The configuration file holds `test.test-param` and the unknown key `test.typo`. -/
def typoWorld : World :=
  ⟨scenarioExt, fun _ => .ok [("test.test-param", .str "cfg"), ("test.typo", .str "x")]⟩

/-- The flag of `TestParam`, not set on the command line. -/
def typoFlag : Flag := ⟨"testParam", false, "default", "string", some "TestParam"⟩

/-- The store after `doBind` bound the flag of `TestParam` (no environment variable). -/
def typoStore : Viper :=
  (Viper.new.BindPFlag "test.test-param" typoFlag).SetDefault "test.test-param" (.str "default")

/-- The configuration when `load` starts. -/
def typoCfg : Cfg := ⟨[("TestParam", .str "default")], baseValues "" false false⟩

/-! ### A configuration key written with an upper-case letter -/

/-- A user struct with `TestParam string greenery:"test|testParam|, test.Param,"`. -/
def upperSchema : Schema where
  userType := [baseField, ⟨"TestParam", "test|testParam|, test.Param,", stringType⟩]
  baseType := []

/-- The store after `doBind` bound the flag of `TestParam` to the key `test.Param`:
the store holds the key as `test.param`. -/
def upperStore : Viper :=
  (Viper.new.BindPFlag "test.Param" typoFlag).SetDefault "test.Param" (.str "default")

/-- The configuration file is there and holds no entry. -/
def upperWorld : World := ⟨scenarioExt, fun _ => .ok []⟩

/-! ### Flags of `flags.go` and the type `time.Duration` -/

/-- The flag `FlagEnum` of the tests, made for `a`, `b`, `c`. -/
def flagEnum : EnumValue :=
  ⟨⟨"a", some validateEnum, "FlagEnum", .strings ["a", "b", "c"]⟩⟩

/-- The flag `FlagCString` of the tests, validated by `UcFirstAndUpcase`. -/
def flagCString : CustomStringValue := ⟨"", some UcFirstAndUpcase, "FlagCString", .nil⟩

/-- The type `time.Duration`, an `int64`. -/
def durationType : FieldType := ⟨.int64, "time.Duration", "", false, none, none⟩

/-! ### Structs of `TestBadConfig` -/

/-- The verb `%q` for a text without characters that need escaping. -/
def quotePlain (s : String) : String :=
  String.singleton (Char.ofNat 34) ++ s ++ String.singleton (Char.ofNat 34)

/-- The type `[]string`. -/
def sliceStringType : FieldType := ⟨.sliceString, "[]string", "", false, none, none⟩
/-- The type `[]int`. -/
def sliceIntType : FieldType := ⟨.sliceInt, "[]int", "", false, none, none⟩
/-- The type `complex128`. -/
def complex128Type : FieldType := ⟨.other "complex128", "complex128", "", false, none, none⟩

/-- A field of a type without `Set`, `String` and `MarshalText`. -/
def plainField (name tag : String) (ty : FieldType) : BindField :=
  ⟨⟨name, tag, ty⟩, false, GoVal.fmtV, none⟩

/-- The command `test` with no flag yet. -/
def testCmd : Command := ⟨"test", [], []⟩

/-- The documentation of the struct of `TestBadConfig`: `TestParam`, `TestParam1` and
`TestParam2` are documented. -/
def badConfigDocs : List (String × String) :=
  [("TestParam", "a test parameter"), ("TestParam1", "a test parameter"),
   ("TestParam2", "a test parameter")]

/-- The embedded field `*BaseConfig` of a user struct, as `createBindings` sees it. -/
def baseBindField : BindField := ⟨baseField, false, GoVal.fmtV, none⟩

/-- The struct of the test `Conf variable, shadowing`, with `LogLevel string
greenery:"||none,,"`. -/
def shadowingFields : List BindField :=
  [baseBindField, plainField "LogLevel" "||none,," stringType]

/-- The same struct with an exported field without a `greenery` tag before `LogLevel`. -/
def untaggedFields : List BindField :=
  [baseBindField, plainField "Bad" "" stringType, plainField "LogLevel" "||none,," stringType]

/-! ### Fields of type `complex128` -/

/-- The struct of the test `TestConfig` of `user_cmds_test.go`, with `Special
complex128 greenery:"||custom, .special, "` (the field `Minimal` is left out). -/
def customComplexFields : List BindField :=
  [baseBindField, plainField "Special" "||custom, .special, " complex128Type]

/-- The struct of the test `unsupported type, but not declared as custom so generate
fail`, with `TestParam complex128 greenery:", .configvar,"`. -/
def configvarFields : List BindField :=
  [baseBindField, plainField "TestParam" ", .configvar," complex128Type]

/-- What `createBindings` returns for that struct, bound after a base configuration
whose fields are left out. -/
def configvarBound : BindResult :=
  createBindings scenarioExt quotePlain [] true configvarFields [("TestParam", .other "complex128" "(0+0i)")]
    Viper.new [] [] [] "PARTIAL"
    (createBindings scenarioExt quotePlain [] true [] [] Viper.new [] [] [] "PARTIAL" []).seenFields

/-- The result of `load` for that struct when the configuration file holds
`configvar = 1`. -/
def configvarResult : LoadResult :=
  load ⟨scenarioExt, fun _ => .ok [("configvar", .int 1)]⟩
    ⟨configvarFields.map (fun bf => bf.field), []⟩ []
    (internalsOf "partial" "PARTIAL" [] configvarBound.additional none)
    ⟨[("TestParam", .other "complex128" "(0+0i)")], baseValues "" false false⟩ "partial.toml" []
    configvarBound.vp

/-! ### The documentation of `TestConvertDocset` -/

/-- The section `baseSection` of `doc_test.go`. -/
def docTestBase : DocSection :=
  .base [("Use", "Use"), ("Short", "Short"), ("Long", "Long"), ("Example", "Example"),
    ("HelpFlag", "HelpFlag"), ("CmdFlags", "CmdFlags"), ("ConfigEnvMsg1", "ConfigEnvMsg1"),
    ("ConfigEnvMsg2", "ConfigEnvMsg2"), ("ConfigEnvMsg3", "ConfigEnvMsg3")]

/-- The section `helpSection` of `doc_test.go`. -/
def docTestHelp : DocSection :=
  .help [("Usage", "HUsage"), ("Aliases", "HAliases"), ("Examples", "HExamples"),
    ("AvailableCommands", "HAvailableCommands"), ("Flags", "HFlags"),
    ("GlobalFlags", "HGlobalFlags"), ("AdditionalHelpTopics", "HAdditionalHelpTopics"),
    ("ProvidesMoreInformationAboutACommand", "HProvidesMoreInformationAboutACommand")]

/-- The section `usageSection` of `doc_test.go`. -/
def docTestUsage : DocSection :=
  .usage [("usage1", ⟨"Use1", "Short1", "Long1", "Example1"⟩),
    ("usage2", ⟨"Use2", "Short2", "Long2", "Example2"⟩)]

/-- The section `cmdSection` of `doc_test.go`. -/
def docTestCmd : DocSection := .cmdline [("cmd1", "valuecmd1"), ("cmd2", "valuecmd2")]

/-- The section `cfgSection` of `doc_test.go`. -/
def docTestCfg : DocSection := .config [("cfg1", "valuecfg1"), ("cfg2", "valuecfg2")]

/-- The section `customSection` of `doc_test.go`. -/
def docTestCustom : DocSection := .custom [("k1", "v1"), ("k2", "v2")]

/-- The sections of `TestConvertDocset` in the standard order. -/
def docTestSections : List DocSection :=
  [docTestBase, docTestHelp, docTestUsage, docTestCmd, docTestCfg, docTestCustom]

/-- The value `docsetStruct` of `doc_test.go`. -/
def docsetStruct : DocSet where
  Use := "Use"
  Short := "Short"
  Long := "Long"
  Example := "Example"
  HelpFlag := "HelpFlag"
  CmdFlags := "CmdFlags"
  ConfigEnvMsg1 := "ConfigEnvMsg1"
  ConfigEnvMsg2 := "ConfigEnvMsg2"
  ConfigEnvMsg3 := "ConfigEnvMsg3"
  Help := some ⟨"HUsage", "HAliases", "HExamples", "HAvailableCommands", "HFlags",
    "HGlobalFlags", "HAdditionalHelpTopics", "HProvidesMoreInformationAboutACommand"⟩
  CmdLine := some [("cmd1", "valuecmd1"), ("cmd2", "valuecmd2")]
  ConfigFile := some [("cfg1", "valuecfg1"), ("cfg2", "valuecfg2")]
  Usage := some [("usage1", some ⟨"Use1", "Short1", "Long1", "Example1"⟩),
    ("usage2", some ⟨"Use2", "Short2", "Long2", "Example2"⟩)]
  Custom := some [("k1", "v1"), ("k2", "v2")]

/-! ### An extension parser that reports a key twice after all the keys -/

/-- A parser that assigns nothing and reports every key it was given, and the key
`custom.a` once more. -/
def thoroughParser : ExtraParser := fun cfg keys => (cfg, keys.map Prod.fst ++ ["custom.a"], none)

/-- The result of `load` with that parser, when the configuration file holds the keys
`custom.a` and `custom.b`, both routed to the parser. -/
def thoroughResult : LoadResult :=
  load repeatingWorld ⟨[baseField], []⟩ []
    (internalsOf "app" "APP" ["custom.a", "custom.b"] [] (some thoroughParser))
    ⟨[], baseValues "" false false⟩ "app.toml" [] Viper.new

/-- A system with the current directory `/home/user`. -/
def unixFolders : FolderEnv where
  getwd := ("/home/user", none)
  pathJoin := fun a b => a ++ "/" ++ b
  globalFolder := fun vendor app => "/home/user/.config/" ++ vendor ++ "/" ++ app
  systemFolder := fun vendor app => "/etc/xdg/" ++ vendor ++ "/" ++ app

/-! ### The documentation of `TestGetDocset` and of `TestMultilevel` -/

/-- The map `docs` of `TestGetDocset`, without the entry `verify`. -/
def docTestLanguages : List (String × Option DocSet) :=
  [("en", some { DocSet.empty with Use := "en" }),
   ("it", some { DocSet.empty with Use := "it" }),
   ("it_IT.UTF-8", some { DocSet.empty with Use := "it-full" })]

/-- A documentation in which the entry of `Usage` for the command `multiargs>subargs`
is nil, registered for the language `en`. -/
def nilUsageLanguages : List (String × Option DocSet) :=
  [("en", some { DocSet.empty with Use := "en", Usage := some [("multiargs>subargs", none)] })]

/-- The documentation of a language under a key of one character of two bytes. -/
def twoByteLanguages : List (String × Option DocSet) :=
  [("en", some { DocSet.empty with Use := "en" }),
   ("é", some { DocSet.empty with Use := "e-acute" })]

/-! ### The structs of `TestConfigInitDefault` with two fields for one key -/

/-- The documentation of the test `Conf variable, duplicate, only once in cfg file,
ok`. -/
def duplicateDocs : List (String × String) :=
  [(ConfigHeader, "Config generated while testing"), ("Test1", "same param doc"),
   ("Test2", "same param doc")]

/-- The line of a field `string` with the tag `||none, .param,`, by its value and its
documentation. -/
def paramLine (value doc : String) : cfgLine := ⟨"", doc, "\"" ++ value ++ "\"", "param", false⟩

/-! # Theorems -/

/-! ## Reading back a decimal rendering -/

theorem digitVal_digitChar (d : Nat) (h : d < 10) : digitVal (digitChar d) = some d := by
  interval_cases d <;> rfl

theorem digitChar_ne_special (d : Nat) (h : d < 10) :
    digitChar d ≠ '+' ∧ digitChar d ≠ '-' ∧ (1 ≤ d → digitChar d ≠ '0') := by
  interval_cases d <;> decide

theorem digitChar_ne_underscore (d : Nat) (h : d < 10) : digitChar d ≠ '_' := by
  interval_cases d <;> decide

theorem formatNatAux_head (fuel : Nat) : ∀ (m : Nat) (acc : List Char), m < fuel → 1 ≤ m →
    ∃ d rest, 1 ≤ d ∧ d < 10 ∧ formatNatAux fuel m acc = digitChar d :: rest := by
  induction fuel with
  | zero => intro m acc h; omega
  | succ fuel ih =>
    intro m acc h h1
    unfold formatNatAux
    by_cases hm : m < 10
    · exact ⟨m, acc, h1, hm, by simp [hm]⟩
    · simp only [hm, if_false]
      exact ih (m / 10) _ (by omega) (by omega)

theorem parseUintLoop_formatNatAux (maxVal : Nat) (hmax : maxVal ≤ maxUint64) (fuel : Nat) :
    ∀ (m : Nat) (acc : List Char), m < fuel → m ≤ maxVal →
      parseUintLoop true 10 (maxUint64 / 10 + 1) maxVal (formatNatAux fuel m acc) 0 false =
        parseUintLoop true 10 (maxUint64 / 10 + 1) maxVal acc m false := by
  induction fuel with
  | zero => intro m acc h; omega
  | succ fuel ih =>
    intro m acc h hm
    unfold formatNatAux
    by_cases h10 : m < 10
    · simp only [h10, if_true]
      rw [parseUintLoop, digitVal_digitChar m h10]
      have : ¬ (m ≥ 10) := by omega
      have h2 : ¬ (0 ≥ maxUint64 / 10 + 1) := by omega
      have h3 : ¬ (m > maxUint64 ∨ m > maxVal) := by omega
      simp only [digitChar_ne_underscore m h10, false_and, this, h2, h3, if_false, Nat.zero_mul,
        Nat.zero_add]
    · simp only [h10, if_false]
      rw [ih (m / 10) _ (by omega) (by omega)]
      rw [parseUintLoop, digitVal_digitChar (m % 10) (by omega)]
      have h1 : ¬ (m % 10 ≥ 10) := by omega
      have h2 : ¬ (m / 10 ≥ maxUint64 / 10 + 1) := by
        have : m / 10 ≤ maxUint64 / 10 := Nat.div_le_div_right (by omega)
        omega
      have h4 : m / 10 * 10 + m % 10 = m := by omega
      have h3 : ¬ (m > maxUint64 ∨ m > maxVal) := by omega
      simp only [digitChar_ne_underscore (m % 10) (by omega), false_and, h1, h2, h3, if_false, h4]

theorem formatNat_ne_nil (m : Nat) : formatNat m ≠ [] := by
  unfold formatNat formatNatAux
  by_cases h : m < 10
  · simp [h]
  · simp only [h, if_false]
    obtain ⟨d, rest, _, _, e⟩ := formatNatAux_head m (m / 10) [digitChar (m % 10)] (by omega) (by omega)
    rw [e]; simp

theorem basePrefix_of_ne (c : Char) (rest : List Char) (h : c ≠ '0') :
    basePrefix (c :: rest) = (10, c :: rest) := by
  unfold basePrefix
  split
  · rename_i heq
    simp only [List.cons.injEq] at heq
    exact absurd heq.1 h
  · rfl

theorem parseUintChars_formatNat (m : Nat) (hm : m ≤ maxUint64) :
    parseUintChars (formatNat m) 0 0 = (m, none) := by
  by_cases h0 : m = 0
  · subst h0; rfl
  · obtain ⟨d, rest, hd1, hd2, e⟩ := formatNatAux_head (m + 1) m [] (by omega) (by omega)
    have key := parseUintLoop_formatNatAux maxUint64 (le_refl _) (m + 1) m [] (by omega) hm
    have hc := (digitChar_ne_special d hd2).2.2 hd1
    unfold parseUintChars
    unfold formatNat at *
    rw [e] at key ⊢
    have : ¬ (2 ≤ 0 ∧ 0 ≤ 36) := by omega
    have hb : ¬ (0 > 64) := by omega
    simp only [this, if_false, if_true, basePrefix_of_ne _ _ hc, hb, intSize, decide_True]
    have e2 : (2:Nat) ^ 64 - 1 = maxUint64 := rfl
    rw [e2, key]
    simp [parseUintLoop]

theorem parseIntChars_formatInt (v : Int) (h1 : -(2:Int) ^ 63 ≤ v) (h2 : v < (2:Int) ^ 63) :
    parseInt (formatInt v) 0 0 = (v, none) := by
  unfold parseInt formatInt
  by_cases hneg : v < 0
  · simp only [hneg, if_true]
    have hm : v.natAbs ≤ maxUint64 := by unfold maxUint64; omega
    unfold parseIntChars
    simp only [intSize, true_or, or_true, if_true]
    rw [parseUintChars_formatNat _ hm]
    have hlt : ¬ (v.natAbs > 2 ^ (64 - 1)) := by omega
    have e : -((v.natAbs : Nat) : Int) = v := by omega
    simp only [hlt, and_false, and_self, not_true, not_false_eq_true, if_false, if_true, e,
      true_and, false_and]
  · simp only [hneg, if_false]
    have hm : v.natAbs ≤ maxUint64 := by unfold maxUint64; omega
    by_cases h0 : v = 0
    · subst h0; rfl
    · obtain ⟨d, rest, hd1, hd2, e⟩ := formatNatAux_head (v.natAbs + 1) v.natAbs [] (by omega) (by omega)
      have key := parseUintChars_formatNat _ hm
      unfold formatNat at key ⊢
      rw [e] at key ⊢
      unfold parseIntChars
      have hc := digitChar_ne_special d hd2
      simp only [hc.1, hc.2.1, false_or, or_false, if_false, key, intSize]
      have hlt : ¬ (v.natAbs ≥ 2 ^ (64 - 1)) := by omega
      have e : ((v.natAbs : Nat) : Int) = v := by omega
      simp only [hlt, and_false, and_self, not_true, not_false_eq_true, if_false, if_true, e,
        true_and, false_and]

theorem toInt64_int (v : Int) (h1 : -(2:Int) ^ 63 ≤ v) (h2 : v < (2:Int) ^ 63) :
    toInt64 (.int v) = v := by
  simp only [toInt64, toInt64E, toIntNE, wrapInt]
  omega

theorem toInt64_str_formatInt (v : Int) (h1 : -(2:Int) ^ 63 ≤ v) (h2 : v < (2:Int) ^ 63) :
    toInt64 (.str (formatInt v)) = v := by
  simp only [toInt64, toInt64E, toIntNE, parseIntChars_formatInt v h1 h2, wrapInt]
  omega

theorem wrapInt_range (bits : Nat) (hb : bits = 8 ∨ bits = 16 ∨ bits = 32) (v : Int) :
    -(2:Int) ^ 63 ≤ wrapInt bits v ∧ wrapInt bits v < (2:Int) ^ 63 ∧
    (wrapInt bits v = v ↔ (-(2:Int) ^ (bits - 1) ≤ v ∧ v < (2:Int) ^ (bits - 1))) := by
  rcases hb with h | h | h <;> subst h <;> simp only [wrapInt] <;> omega

theorem checkIntOverflow_spec (bits which : Nat) (ty : String)
    (hb : bits = 8 ∨ bits = 16 ∨ bits = 32) (key : String) (v : Int)
    (h1 : -(2:Int) ^ 63 ≤ v) (h2 : v < (2:Int) ^ 63)
    (src : GoVal) (hsrc : src = .int v ∨ src = .str (formatInt v)) :
    (toIntNE bits ty src).1 = wrapInt bits v ∧
    checkIntOverflow (toIntNE bits ty src).2 key which (toIntNE bits ty src).1 src =
      if -(2:Int) ^ (bits - 1) ≤ v ∧ v < (2:Int) ^ (bits - 1) then none
      else some (withErr key
        (.errorf (formatInt v ++ " would overflow an int" ++ formatInt which))) := by
  have hw := wrapInt_range bits hb v
  have e64 : toInt64 src = v := by
    rcases hsrc with h | h <;> subst h
    · exact toInt64_int v h1 h2
    · exact toInt64_str_formatInt v h1 h2
  have efmt : src.fmtV = formatInt v := by
    rcases hsrc with h | h <;> subst h <;> rfl
  have eto : toIntNE bits ty src = (wrapInt bits v, none) := by
    rcases hsrc with h | h <;> subst h
    · rfl
    · simp only [toIntNE, parseIntChars_formatInt v h1 h2]
  rw [eto]
  refine ⟨rfl, ?_⟩
  simp only [checkIntOverflow, e64, efmt, toInt64_int _ hw.1 hw.2.1]
  by_cases hr : -(2:Int) ^ (bits - 1) ≤ v ∧ v < (2:Int) ^ (bits - 1)
  · have := hw.2.2.2 hr
    simp [hr, this]
  · have : ¬ (wrapInt bits v = v) := fun h => hr (hw.2.2.1 h)
    have this2 : v ≠ wrapInt bits v := fun h => this h.symm
    simp [hr, this2]

theorem withErr_errorf_Error (key msg : String) (libText : GoErr → String) :
    (withErr key (.errorf msg)).Error libText = "Cannot convert flag value " ++ key ++ ": " ++ msg := by
  simp [withErr, GoErr.Error]

/-- C4: for N among 8, 16 and 32 and every v of the int64 range, given as an integer or as
its decimal string, `getInt8`/`getInt16`/`getInt32` return v and no error when
-2^(N-1) <= v < 2^(N-1), and otherwise an error whose message is
`Cannot convert flag value <key>: <v> would overflow an int<N>`. -/
theorem getIntN_overflow_checked (N : Nat) (g : String → GoVal → Int × Option GoErr)
    (hN : (N, g) ∈ [(8, getInt8), (16, getInt16), (32, getInt32)])
    (key : String) (v : Int) (hlo : -(2:Int) ^ 63 ≤ v) (hhi : v < (2:Int) ^ 63)
    (src : GoVal) (hsrc : src = .int v ∨ src = .str (formatInt v)) :
    ((-(2:Int) ^ (N - 1) ≤ v ∧ v < (2:Int) ^ (N - 1)) → g key src = (v, none)) ∧
    (¬ (-(2:Int) ^ (N - 1) ≤ v ∧ v < (2:Int) ^ (N - 1)) →
      ∃ e, (g key src).2 = some e ∧ ∀ libText : GoErr → String, e.Error libText =
        "Cannot convert flag value " ++ key ++ ": " ++ formatInt v ++
          " would overflow an int" ++ formatInt N) := by
  have main : ∀ ty, (hb : N = 8 ∨ N = 16 ∨ N = 32) →
      g key src = ((toIntNE N ty src).1,
        checkIntOverflow (toIntNE N ty src).2 key N (toIntNE N ty src).1 src) →
      ((-(2:Int) ^ (N - 1) ≤ v ∧ v < (2:Int) ^ (N - 1)) → g key src = (v, none)) ∧
      (¬ (-(2:Int) ^ (N - 1) ≤ v ∧ v < (2:Int) ^ (N - 1)) →
        ∃ e, (g key src).2 = some e ∧ ∀ libText : GoErr → String, e.Error libText =
          "Cannot convert flag value " ++ key ++ ": " ++ formatInt v ++
            " would overflow an int" ++ formatInt N) := by
    intro ty hb hg
    obtain ⟨e1, e2⟩ := checkIntOverflow_spec N N ty hb key v hlo hhi src hsrc
    have hw := wrapInt_range N hb v
    rw [hg, e2, e1]
    constructor
    · intro hr
      rw [if_pos hr, hw.2.2.2 hr]
    · intro hr
      rw [if_neg hr]
      refine ⟨_, rfl, fun libText => ?_⟩
      rw [withErr_errorf_Error]
      simp [String.append_assoc]
  simp only [List.mem_cons, Prod.mk.injEq, List.mem_singleton, List.not_mem_nil, or_false] at hN
  rcases hN with ⟨hn, hg⟩ | ⟨hn, hg⟩ | ⟨hn, hg⟩ <;> subst hn <;> subst hg
  · exact main "int8" (by simp) rfl
  · exact main "int16" (by simp) rfl
  · exact main "int32" (by simp) rfl

theorem getIntN_overflow_checked_witness :
    ((8, getInt8) ∈ [(8, getInt8), (16, getInt16), (32, getInt32)] ∧
      -(2:Int) ^ 63 ≤ 128 ∧ (128:Int) < (2:Int) ^ 63 ∧
      (GoVal.str "128" = .int 128 ∨ GoVal.str "128" = .str (formatInt 128))) ∧
    (((-(2:Int) ^ (8 - 1) ≤ 128 ∧ (128:Int) < (2:Int) ^ (8 - 1)) →
        getInt8 "int.int8" (.str "128") = (128, none)) ∧
      (¬ (-(2:Int) ^ (8 - 1) ≤ 128 ∧ (128:Int) < (2:Int) ^ (8 - 1)) →
        ∃ e, (getInt8 "int.int8" (.str "128")).2 = some e ∧
          ∀ libText : GoErr → String, e.Error libText =
            "Cannot convert flag value " ++ "int.int8" ++ ": " ++ formatInt 128 ++
              " would overflow an int" ++ formatInt (8 : Nat))) :=
  ⟨⟨by simp, by norm_num, by norm_num, Or.inr (by decide)⟩,
    getIntN_overflow_checked 8 getInt8 (by simp) "int.int8" 128 (by norm_num) (by norm_num)
      (.str "128") (Or.inr (by decide))⟩

theorem getUintN_core (bits which : Nat) (ty : String)
    (hb : bits = 8 ∨ bits = 16 ∨ bits = 32) (key : String) (v : Int)
    (h1 : -(2:Int) ^ 63 ≤ v) (h2 : v < (2:Int) ^ 63) :
    ((toUintNE bits ty (.int v)).1,
      checkUIntOverflow (toUintNE bits ty (.int v)).2 key which (toUintNE bits ty (.int v)).1
        (.int v)) =
      if v < 0 then (0, some (withErr key (.cast .negative)))
      else if v < (2:Int) ^ bits then (v, none)
      else (wrapUint bits v, some (withErr key
        (.errorf (formatInt v ++ " would overflow an uint" ++ formatInt which)))) := by
  by_cases hneg : v < 0
  · simp [toUintNE, hneg, checkUIntOverflow]
  · have e64 : toUint64 (.int v) = v := by
      simp only [toUint64, toUint64E, toUintNE, hneg, if_false, wrapUint]
      omega
    have hw : 0 ≤ wrapUint bits v ∧ wrapUint bits v < (2:Int) ^ 63 ∧
        (wrapUint bits v = v ↔ v < (2:Int) ^ bits) := by
      rcases hb with h | h | h <;> subst h <;> simp only [wrapUint] <;> omega
    have ec : toUint64 (.int (wrapUint bits v)) = wrapUint bits v := by
      have : ¬ (wrapUint bits v < 0) := by omega
      simp only [toUint64, toUint64E, toUintNE, this, if_false]
      simp only [wrapUint]
      have := hw.2.1
      simp only [wrapUint] at this
      omega
    simp only [toUintNE, hneg, if_false, checkUIntOverflow, e64, ec, GoVal.fmtV]
    by_cases hr : v < (2:Int) ^ bits
    · have := hw.2.2.2 hr
      simp [hr, this]
    · have : ¬ (v = wrapUint bits v) := fun h => hr (hw.2.2.1 h.symm)
      simp [hr, this]

/-- C5: for N among 8, 16 and 32 and every v of the int64 range given as an integer,
`getUint8`/`getUint16`/`getUint32` return v and no error when 0 <= v < 2^N; when
v >= 2^N they return an error whose message is
`Cannot convert flag value <key>: <v> would overflow an uint<N>`; and every negative v
is refused with an error. -/
theorem getUintN_overflow_checked (N : Nat) (g : String → GoVal → Int × Option GoErr)
    (hN : (N, g) ∈ [(8, getUint8), (16, getUint16), (32, getUint32)])
    (key : String) (v : Int) (hlo : -(2:Int) ^ 63 ≤ v) (hhi : v < (2:Int) ^ 63) :
    ((0 ≤ v ∧ v < (2:Int) ^ N) → g key (.int v) = (v, none)) ∧
    ((2:Int) ^ N ≤ v →
      ∃ e, (g key (.int v)).2 = some e ∧ ∀ libText : GoErr → String, e.Error libText =
        "Cannot convert flag value " ++ key ++ ": " ++ formatInt v ++
          " would overflow an uint" ++ formatInt N) ∧
    (v < 0 → (g key (.int v)).2 = some (withErr key (.cast .negative))) := by
  have main : ∀ ty, (hb : N = 8 ∨ N = 16 ∨ N = 32) →
      g key (.int v) = ((toUintNE N ty (.int v)).1,
        checkUIntOverflow (toUintNE N ty (.int v)).2 key N (toUintNE N ty (.int v)).1 (.int v)) →
      ((0 ≤ v ∧ v < (2:Int) ^ N) → g key (.int v) = (v, none)) ∧
      ((2:Int) ^ N ≤ v →
        ∃ e, (g key (.int v)).2 = some e ∧ ∀ libText : GoErr → String, e.Error libText =
          "Cannot convert flag value " ++ key ++ ": " ++ formatInt v ++
            " would overflow an uint" ++ formatInt N) ∧
      (v < 0 → (g key (.int v)).2 = some (withErr key (.cast .negative))) := by
    intro ty hb hg
    rw [hg, getUintN_core N N ty hb key v hlo hhi]
    have hpos : (0:Int) < (2:Int) ^ N := by positivity
    refine ⟨?_, ?_, ?_⟩
    · intro hr
      rw [if_neg (by omega), if_pos hr.2]
    · intro hr
      rw [if_neg (by omega), if_neg (by omega)]
      refine ⟨_, rfl, fun libText => ?_⟩
      rw [withErr_errorf_Error]
      simp [String.append_assoc]
    · intro hr
      rw [if_pos hr]
  simp only [List.mem_cons, Prod.mk.injEq, List.mem_singleton, List.not_mem_nil, or_false] at hN
  rcases hN with ⟨hn, hg⟩ | ⟨hn, hg⟩ | ⟨hn, hg⟩ <;> subst hn <;> subst hg
  · exact main "uint8" (by simp) rfl
  · exact main "uint16" (by simp) rfl
  · exact main "uint32" (by simp) rfl

theorem getUintN_overflow_checked_witness :
    ((16, getUint16) ∈ [(8, getUint8), (16, getUint16), (32, getUint32)] ∧
      -(2:Int) ^ 63 ≤ 65536 ∧ (65536:Int) < (2:Int) ^ 63) ∧
    (((0 ≤ (65536:Int) ∧ (65536:Int) < (2:Int) ^ 16) →
        getUint16 "int.uint16" (.int 65536) = (65536, none)) ∧
      ((2:Int) ^ 16 ≤ 65536 →
        ∃ e, (getUint16 "int.uint16" (.int 65536)).2 = some e ∧
          ∀ libText : GoErr → String, e.Error libText =
            "Cannot convert flag value " ++ "int.uint16" ++ ": " ++ formatInt 65536 ++
              " would overflow an uint" ++ formatInt (16 : Nat)) ∧
      ((65536:Int) < 0 → (getUint16 "int.uint16" (.int 65536)).2 =
        some (withErr "int.uint16" (.cast .negative)))) :=
  ⟨⟨by simp, by norm_num, by norm_num⟩,
    getUintN_overflow_checked 16 getUint16 (by simp) "int.uint16" 65536 (by norm_num)
      (by norm_num)⟩

/-- C10: `parseTags` returns an error unless the tag is non-empty and splitting it on
`,` gives exactly three parts; when the number of parts is wrong the error names the
field, the number of parts found and the tag. -/
theorem parseTags_three_parts (name tag : String) :
    ((tag = "" ∨ (strSplit tag sepTag).length ≠ 3) → (parseTags name tag).err ≠ none) ∧
    (tag ≠ "" → (strSplit tag sepTag).length ≠ 3 →
      (parseTags name tag).err = some ("Invalid tag for " ++ name ++ ", found " ++
        formatInt ((strSplit tag sepTag).length : Nat) ++ " parts instead of 3 in " ++ tag)) := by
  constructor
  · intro h
    unfold parseTags
    by_cases h0 : tag = ""
    · simp [h0]
    · have h3 : (strSplit tag sepTag).length ≠ 3 := by
        rcases h with h | h
        · exact absurd h h0
        · exact h
      simp [h0, h3]
  · intro h0 h3
    unfold parseTags
    simp [h0, h3]

theorem parseTags_three_parts_witness :
    ("test|testParam|," ≠ "" ∧ (strSplit "test|testParam|," sepTag).length ≠ 3) ∧
    (parseTags "TestParam" "test|testParam|,").err =
      some ("Invalid tag for " ++ "TestParam" ++ ", found " ++
        formatInt ((strSplit "test|testParam|," sepTag).length : Nat) ++
        " parts instead of 3 in " ++ "test|testParam|,") :=
  ⟨⟨by decide, by decide⟩,
    (parseTags_three_parts "TestParam" "test|testParam|,").2 (by decide) (by decide)⟩

/-! ## Association lists and struct values -/

theorem assocGet_assocSet {β : Type} (l : List (String × β)) (k k' : String) (v : β) :
    assocGet (assocSet l k v) k' = if k = k' then some v else assocGet l k' := by
  induction l with
  | nil =>
    simp only [assocSet, assocGet]
  | cons p rest ih =>
    obtain ⟨a, b⟩ := p
    simp only [assocSet]
    by_cases h : a = k
    · subst h
      by_cases h2 : a = k' <;> simp [assocGet, h2]
    · simp only [h, if_false, assocGet, ih]
      by_cases h2 : a = k'
      · subst h2
        simp [h, Ne.symm h]
      · simp [h2]

theorem Struct.get_set_same (s : Struct) (k : String) (v : GoVal) : (s.set k v).get k = v := by
  simp [Struct.get, Struct.set, assocGet_assocSet]

theorem Struct.get_set_ne (s : Struct) (k k' : String) (v : GoVal) (h : k ≠ k') :
    (s.set k v).get k' = s.get k' := by
  simp [Struct.get, Struct.set, assocGet_assocSet, h]

/-! ## The main loop of `load`, field by field -/

theorem loadHelper_get_ne (ext : External) (env : OsEnv) (vp : Viper) (keys : List String)
    (x : StructField) (v : Struct) (n : String) (h : x.Name ≠ n) :
    (loadHelper ext env vp keys x v).1.get n = v.get n := by
  unfold loadHelper
  simp only
  split
  · split
    · rfl
    · exact Struct.get_set_ne _ _ _ _ h
  · rfl

theorem loadHelper_get_same (ext : External) (env : OsEnv) (vp : Viper) (keys : List String)
    (x : StructField) (v : Struct) :
    (loadHelper ext env vp keys x v).1.get x.Name = helperValue ext env vp x (v.get x.Name) := by
  unfold loadHelper helperValue
  simp only
  split
  · split
    · rfl
    · exact Struct.get_set_same _ _ _
  · rfl

theorem loadFields_frame (ext : External) (env : OsEnv) (vp : Viper)
    (baseType : List StructField) (noclobber : List (String × String)) (n : String) :
    ∀ (fields : List StructField) (cfg : Cfg) (keys : List String),
      (∀ x ∈ fields, x.Typ.isBasePtr = false → x.Name ≠ n) →
      (loadFields ext env vp baseType noclobber fields cfg keys).1.user.get n =
        cfg.user.get n := by
  intro fields
  induction fields with
  | nil => intro cfg keys _; rfl
  | cons x rest ih =>
    intro cfg keys h
    have hrest : ∀ y ∈ rest, y.Typ.isBasePtr = false → y.Name ≠ n :=
      fun y hy => h y (List.mem_cons_of_mem _ hy)
    rw [loadFields]
    cases hb : x.Typ.isBasePtr with
    | true =>
      simp only [if_true]
      rcases hlb : loadBaseFields ext env vp noclobber x.Name baseType cfg.base keys with
        ⟨b, k', e⟩
      cases e with
      | some err => rfl
      | none => exact ih _ _ hrest
    | false =>
      simp only [Bool.false_eq_true, if_false]
      have hxn : x.Name ≠ n := h x (List.mem_cons_self _ _) hb
      by_cases hl : (assocGet noclobber x.Name).isSome = true
      · simp only [hl, if_true]
        exact ih _ _ hrest
      · simp only [hl, if_false]
        have hfr := loadHelper_get_ne ext env vp keys x cfg.user n hxn
        rcases hlh : loadHelper ext env vp keys x cfg.user with ⟨u, k', e⟩
        rw [hlh] at hfr
        cases e with
        | some err => exact hfr
        | none =>
          simp only [Bool.false_eq_true, if_false]
          rw [ih _ _ hrest]
          exact hfr

theorem loadFields_value (ext : External) (env : OsEnv) (vp : Viper)
    (baseType : List StructField) (noclobber : List (String × String)) (x : StructField)
    (hx : x.Typ.isBasePtr = false) :
    ∀ (fields : List StructField) (cfg : Cfg) (keys : List String),
      x ∈ fields → (fields.map StructField.Name).Nodup →
      (loadFields ext env vp baseType noclobber fields cfg keys).2.2 = none →
      (loadFields ext env vp baseType noclobber fields cfg keys).1.user.get x.Name =
        if (assocGet noclobber x.Name).isSome then cfg.user.get x.Name
        else helperValue ext env vp x (cfg.user.get x.Name) := by
  intro fields
  induction fields with
  | nil => intro cfg keys hmem; exact absurd hmem (List.not_mem_nil _)
  | cons y rest ih =>
    intro cfg keys hmem hnd
    have hnd' : (rest.map StructField.Name).Nodup := (List.nodup_cons.mp hnd).2
    have hynot : y.Name ∉ rest.map StructField.Name := (List.nodup_cons.mp hnd).1
    -- either `x` is the head, or it is in the tail and the head has another name
    have hcase : (y = x ∧ ∀ z ∈ rest, z.Typ.isBasePtr = false → z.Name ≠ x.Name) ∨
        (x ∈ rest ∧ y.Name ≠ x.Name) := by
      rcases List.mem_cons.mp hmem with h | h
      · left
        refine ⟨h.symm, fun z hz _ hzn => hynot ?_⟩
        rw [← h, ← hzn]
        exact List.mem_map_of_mem _ hz
      · right
        refine ⟨h, fun hyn => hynot ?_⟩
        rw [hyn]
        exact List.mem_map_of_mem _ h
    rw [loadFields]
    rcases hcase with ⟨hyx, hfr⟩ | ⟨hxr, hyn⟩
    · subst hyx
      simp only [hx, Bool.false_eq_true, if_false]
      by_cases hl : (assocGet noclobber y.Name).isSome = true
      · simp only [hl, if_true]
        intro _
        exact loadFields_frame ext env vp baseType noclobber y.Name rest _ _ hfr
      · simp only [hl, if_false, Bool.false_eq_true]
        have hv := loadHelper_get_same ext env vp keys y cfg.user
        rcases hlh : loadHelper ext env vp keys y cfg.user with ⟨u, k', e⟩
        rw [hlh] at hv
        cases e with
        | some err => intro h; exact absurd h (by simp)
        | none =>
          simp only []
          intro _
          rw [loadFields_frame ext env vp baseType noclobber y.Name rest _ _ hfr]
          exact hv
    · cases hb : y.Typ.isBasePtr with
      | true =>
        simp only [if_true]
        rcases hlb : loadBaseFields ext env vp noclobber y.Name baseType cfg.base keys with
          ⟨b, k', e⟩
        cases e with
        | some err => intro h; exact absurd h (by simp)
        | none => exact ih _ _ hxr hnd'
      | false =>
        simp only [Bool.false_eq_true, if_false]
        by_cases hl : (assocGet noclobber y.Name).isSome = true
        · simp only [hl, if_true]
          exact ih _ _ hxr hnd'
        · simp only [hl, if_false]
          have hfr := loadHelper_get_ne ext env vp keys y cfg.user x.Name hyn
          rcases hlh : loadHelper ext env vp keys y cfg.user with ⟨u, k', e⟩
          rw [hlh] at hfr
          cases e with
          | some err => intro h; exact absurd h (by simp)
          | none =>
            simp only [Bool.false_eq_true, if_false]
            intro hok
            have := ih { user := u, base := cfg.base } k' hxr hnd' hok
            rw [this]
            simp only at hfr
            rw [hfr]

/-! ## The loop over the additional variables -/

theorem findField_of_mem (fields : List StructField) (x : StructField) (hx : x ∈ fields)
    (hnd : (fields.map StructField.Name).Nodup) : findField fields x.Name = some x := by
  induction fields with
  | nil => exact absurd hx (List.not_mem_nil _)
  | cons y rest ih =>
    have hynot : y.Name ∉ rest.map StructField.Name := (List.nodup_cons.mp hnd).1
    unfold findField
    rw [List.find?_cons]
    rcases List.mem_cons.mp hx with h | h
    · subst h
      simp
    · have hne : y.Name ≠ x.Name := by
        intro hyn
        apply hynot
        rw [hyn]
        exact List.mem_map_of_mem _ h
      simp only [hne, decide_False]
      exact ih h (List.nodup_cons.mp hnd).2

theorem setString_get_ne (ext : External) (env : OsEnv) (sch : Schema) (cfg : Cfg)
    (k v n : String) (h : k ≠ n) :
    (setString ext env sch cfg k v).1.user.get n = cfg.user.get n := by
  unfold setString
  split
  · exact Struct.get_set_ne _ _ _ _ h
  · split <;> rfl

theorem setString_get_same (ext : External) (env : OsEnv) (sch : Schema) (cfg : Cfg)
    (x : StructField) (v : String) (hf : findField sch.userType x.Name = some x) :
    (setString ext env sch cfg x.Name v).1.user.get x.Name =
      (assignFromString ext env x (cfg.user.get x.Name) x.Name v).1 := by
  unfold setString
  rw [hf]
  exact Struct.get_set_same _ _ _

theorem loadAdditional_frame (ext : External) (env : OsEnv) (sch : Schema) (uc : String)
    (noclobber : List (String × String)) (n : String) :
    ∀ (l : List additionalStruct) (cfg : Cfg) (sEnv : List (String × String)),
      (∀ vv ∈ l, vv.Name ≠ n) →
      (loadAdditional ext env sch uc noclobber l cfg sEnv).1.user.get n = cfg.user.get n := by
  intro l
  induction l with
  | nil => intro cfg sEnv _; rfl
  | cons vv rest ih =>
    intro cfg sEnv h
    have hrest : ∀ w ∈ rest, w.Name ≠ n := fun w hw => h w (List.mem_cons_of_mem _ hw)
    have hvv : vv.Name ≠ n := h vv (List.mem_cons_self _ _)
    have hset : ∀ s, (setString ext env sch cfg vv.Name s).1.user.get n = cfg.user.get n :=
      fun s => setString_get_ne ext env sch cfg vv.Name s n hvv
    rw [loadAdditional]
    generalize (if vv.Env ≠ "" then env.getenv (uc ++ "_" ++ vv.Env) else "") = evalue
    generalize (if vv.Env ≠ "" ∧ evalue ≠ "" then assocSet sEnv (uc ++ "_" ++ vv.Env) evalue
      else sEnv) = sEnv'
    have hstep : (match setString ext env sch cfg vv.Name evalue with
        | (cfg', some err) => (cfg', sEnv', some err)
        | (cfg', none) => loadAdditional ext env sch uc noclobber rest cfg' sEnv').1.user.get n =
          cfg.user.get n := by
      have := setString_get_ne ext env sch cfg vv.Name evalue n hvv
      rcases hs : setString ext env sch cfg vv.Name evalue with ⟨c, e⟩
      rw [hs] at this
      cases e with
      | some err => exact this
      | none => simp only []; rw [ih _ _ hrest]; exact this
    by_cases hc : vv.Cmdline = ""
    · simp only [hc, if_true]
      by_cases hw : evalue ≠ "" ∧ (assocGet noclobber vv.Name).isNone = true
      · simp only [hw, and_self, if_true, ne_eq, not_false_eq_true]
        exact hstep
      · simp only [hw, if_false]
        exact ih _ _ hrest
    · simp only [hc, if_false]
      by_cases hv : vv.Viper = ""
      · simp only [hv, if_true]
        by_cases hw : evalue ≠ "" ∧ (assocGet noclobber vv.Name).isNone = true
        · simp only [hw, and_self, if_true, ne_eq, not_false_eq_true]
          exact hstep
        · simp only [hw, if_false]
          exact ih _ _ hrest
      · simp only [hv, if_false]

theorem loadAdditional_value (ext : External) (env : OsEnv) (sch : Schema) (uc : String)
    (noclobber : List (String × String)) (x : StructField) (rec : additionalStruct)
    (hcmd : rec.Cmdline = "") (henv : rec.Env ≠ "")
    (hf : findField sch.userType x.Name = some x)
    (hl : (assocGet noclobber x.Name).isNone = true) :
    ∀ (l : List additionalStruct) (cfg : Cfg) (sEnv : List (String × String)),
      l.filter (fun vv => decide (vv.Name = x.Name)) = [rec] →
      (loadAdditional ext env sch uc noclobber l cfg sEnv).2.2 = none →
      (loadAdditional ext env sch uc noclobber l cfg sEnv).1.user.get x.Name =
        if env.getenv (uc ++ "_" ++ rec.Env) ≠ "" then
          (assignFromString ext env x (cfg.user.get x.Name) x.Name
            (env.getenv (uc ++ "_" ++ rec.Env))).1
        else cfg.user.get x.Name := by
  intro l
  induction l with
  | nil => intro cfg sEnv h; simp at h
  | cons vv rest ih =>
    intro cfg sEnv hfil
    by_cases hn : vv.Name = x.Name
    · -- this is the record of the field; no later record names it
      rw [List.filter_cons_of_pos (by simpa using hn)] at hfil
      have hvv : vv = rec := (List.cons.inj hfil).1
      have hrestnil : rest.filter (fun vv => decide (vv.Name = x.Name)) = [] :=
        (List.cons.inj hfil).2
      have hrest : ∀ w ∈ rest, w.Name ≠ x.Name := by
        intro w hw hwn
        have : w ∈ rest.filter (fun vv => decide (vv.Name = x.Name)) :=
          List.mem_filter.mpr ⟨hw, by simpa using hwn⟩
        rw [hrestnil] at this
        exact absurd this (List.not_mem_nil _)
      subst hvv
      rw [loadAdditional]
      simp only [hcmd, if_true, henv, ne_eq, not_false_eq_true, true_and, hn, hl, and_true]
      by_cases hev : env.getenv (uc ++ "_" ++ vv.Env) = ""
      · simp only [hev, not_true_eq_false, if_false]
        intro _
        exact loadAdditional_frame ext env sch uc noclobber x.Name rest _ _ hrest
      · simp only [hev, not_false_eq_true, if_true]
        have hsame := setString_get_same ext env sch cfg x
          (env.getenv (uc ++ "_" ++ vv.Env)) hf
        rcases hs : setString ext env sch cfg x.Name (env.getenv (uc ++ "_" ++ vv.Env)) with
          ⟨c, e⟩
        rw [hs] at hsame
        cases e with
        | some err => intro h; exact absurd h (by simp)
        | none =>
          simp only []
          intro _
          rw [loadAdditional_frame ext env sch uc noclobber x.Name rest _ _ hrest]
          exact hsame
    · rw [List.filter_cons_of_neg (by simpa using hn)] at hfil
      rw [loadAdditional]
      generalize (if vv.Env ≠ "" then env.getenv (uc ++ "_" ++ vv.Env) else "") = evalue
      generalize (if vv.Env ≠ "" ∧ evalue ≠ "" then assocSet sEnv (uc ++ "_" ++ vv.Env) evalue
        else sEnv) = sEnv'
      have hstep : (match setString ext env sch cfg vv.Name evalue with
          | (cfg', some err) => (cfg', sEnv', some err)
          | (cfg', none) => loadAdditional ext env sch uc noclobber rest cfg' sEnv').2.2 = none →
          (match setString ext env sch cfg vv.Name evalue with
          | (cfg', some err) => (cfg', sEnv', some err)
          | (cfg', none) =>
            loadAdditional ext env sch uc noclobber rest cfg' sEnv').1.user.get x.Name =
            if env.getenv (uc ++ "_" ++ rec.Env) ≠ "" then
              (assignFromString ext env x (cfg.user.get x.Name) x.Name
                (env.getenv (uc ++ "_" ++ rec.Env))).1
            else cfg.user.get x.Name := by
        have hfr := setString_get_ne ext env sch cfg vv.Name evalue x.Name hn
        rcases hs : setString ext env sch cfg vv.Name evalue with ⟨c, e⟩
        rw [hs] at hfr
        cases e with
        | some err => intro h; exact absurd h (by simp)
        | none =>
          simp only []
          intro hok
          rw [ih c sEnv' hfil hok]
          simp only at hfr
          rw [hfr]
      by_cases hc : vv.Cmdline = ""
      · simp only [hc, if_true]
        by_cases hw : evalue ≠ "" ∧ (assocGet noclobber vv.Name).isNone = true
        · simp only [hw, and_self, if_true, ne_eq, not_false_eq_true]
          exact hstep
        · simp only [hw, if_false]
          exact ih _ _ hfil
      · simp only [hc, if_false]
        by_cases hv : vv.Viper = ""
        · simp only [hv, if_true]
          by_cases hw : evalue ≠ "" ∧ (assocGet noclobber vv.Name).isNone = true
          · simp only [hw, and_self, if_true, ne_eq, not_false_eq_true]
            exact hstep
          · simp only [hw, if_false]
            exact ih _ _ hfil
        · simp only [hv, if_false]
          intro h
          exact absurd h (by simp)

theorem noclobberOf_none (flags : List Flag) (n : String)
    (h : ∀ fl ∈ flags, fl.greeneryVar ≠ some n) : assocGet (noclobberOf flags) n = none := by
  induction flags with
  | nil => rfl
  | cons fl rest ih =>
    have hrest := ih (fun f hf => h f (List.mem_cons_of_mem _ hf))
    have hfl := h fl (List.mem_cons_self _ _)
    unfold noclobberOf
    simp only
    split
    · split
      · rename_i ann hann
        rw [assocGet_assocSet]
        have : ann ≠ n := by
          intro hc
          apply hfl
          rw [hann, hc]
        simp [this, hrest]
      · exact hrest
    · exact hrest

theorem runExtraParser_frame (parser : Option ExtraParser) (cfg : Cfg)
    (otherKeys : List (String × GoVal)) (n : String)
    (hparser : ∀ parse, parser = some parse →
      ∀ c keys, (parse c keys).1.user.get n = c.user.get n) :
    (runExtraParser parser cfg otherKeys).1.user.get n = cfg.user.get n := by
  unfold runExtraParser
  split
  · cases parser with
    | none => rfl
    | some parse =>
      simp only
      have := hparser parse rfl cfg otherKeys
      rcases hp : parse cfg otherKeys with ⟨c, pr, e⟩
      rw [hp] at this
      simp only
      split <;> exact this
  · rfl

theorem readConfigFile_internals (w : World) (bcfg : BaseInternals) (cfgFile : String)
    (noCfg : Bool) (dflt : String) (vp : Viper) :
    let b := (readConfigFile w bcfg cfgFile noCfg dflt vp).2.2.1
    b.s_ucAppName = bcfg.s_ucAppName ∧ b.s_additionalEnv = bcfg.s_additionalEnv ∧
      b.s_extraParser = bcfg.s_extraParser ∧ b.s_extraWanted = bcfg.s_extraWanted ∧
      b.s_env = bcfg.s_env := by
  unfold readConfigFile
  cases noCfg with
  | true => simp
  | false =>
    simp only [Bool.false_eq_true, if_false]
    cases w.readInConfig (if cfgFile = "" then dflt else cfgFile) with
    | ok c => simp
    | error e =>
      simp only
      split
      · split <;> simp
      · simp

/-- C3, as amended: a field of the user struct that has no command-line exposure, is
not marked `custom`, has a configuration key and an environment suffix and is recorded
among the additional variables holds, after a successful `load`, the value assigned
from its environment variable when that variable is set and not empty, otherwise the
value assigned from the store when the store has a value for the key, and otherwise
the value it held when `load` started. -/
theorem load_additional_precedence (w : World) (sch : Schema) (env : OsEnv)
    (bcfg : BaseInternals) (cfg : Cfg) (dflt : String) (flags : List Flag) (vp : Viper)
    (x : StructField) (cobra k e : String)
    (hmem : x ∈ sch.userType) (hnb : x.Typ.isBasePtr = false)
    (hnd : (sch.userType.map StructField.Name).Nodup)
    (htag : parseTags x.Name x.Tag = ⟨cobra, k, e, none⟩) (hk : k ≠ "") (he : e ≠ "")
    (hcustom : hasSuffix cobra (String.singleton sepCmdParts ++ "custom") = false)
    (hrec : bcfg.s_additionalEnv.filter (fun vv => decide (vv.Name = x.Name)) =
      [⟨x.Name, "", "", k, e⟩])
    (hflags : ∀ fl ∈ flags, fl.greeneryVar ≠ some x.Name)
    (hparser : ∀ parse, bcfg.s_extraParser = some parse →
      ∀ c keys, (parse c keys).1.user.get x.Name = c.user.get x.Name)
    (hok : (load w sch env bcfg cfg dflt flags vp).err = none) :
    (load w sch env bcfg cfg dflt flags vp).cfg.user.get x.Name =
      (let store := storeAfterRead w bcfg cfg dflt vp
       let evalue := env.getenv (bcfg.s_ucAppName ++ "_" ++ e)
       let fromStore :=
         if store.Get env k = .nil then cfg.user.get x.Name
         else (assignFromStore w.ext env store x (cfg.user.get x.Name) k).1
       if evalue ≠ "" then (assignFromString w.ext env x fromStore x.Name evalue).1
       else fromStore) := by
  have hint := readConfigFile_internals w bcfg (cfg.base.get "ConfFile").asString
    (cfg.base.get "NoCfg").asBool dflt vp
  have hnc := noclobberOf_none flags x.Name hflags
  have hfind := findField_of_mem sch.userType x hmem hnd
  unfold load at hok ⊢
  unfold storeAfterRead
  dsimp only at hok hint ⊢
  rcases hr : readConfigFile w bcfg (cfg.base.get "ConfFile").asString
    (cfg.base.get "NoCfg").asBool dflt vp with ⟨nc, vp', bcfg', er⟩
  rw [hr] at hok hint
  obtain ⟨huc, hadd, hpar, _, _⟩ := hint
  cases er with
  | some err => simp at hok
  | none =>
    simp only at hok ⊢
    have hval := loadFields_value w.ext env vp' sch.baseType (noclobberOf flags) x hnb
      sch.userType cfg [] hmem hnd
    rcases hlf : loadFields w.ext env vp' sch.baseType (noclobberOf flags) sch.userType cfg []
      with ⟨cfg1, keys, e1⟩
    rw [hlf] at hok hval
    cases e1 with
    | some err => simp at hok
    | none =>
      simp only at hok ⊢
      have hv1 := hval rfl
      simp only [hnc, Option.isSome_none, Bool.false_eq_true, if_false] at hv1
      by_cases hbp : (sch.userType.any fun x => x.Typ.isBasePtr) = true
      · simp only [hbp, not_true_eq_false, if_false] at hok ⊢
        have hav := loadAdditional_value w.ext env sch bcfg'.s_ucAppName (noclobberOf flags) x
          ⟨x.Name, "", "", k, e⟩ rfl he hfind (by simp [hnc]) bcfg'.s_additionalEnv cfg1
          bcfg'.s_env (by rw [hadd]; exact hrec)
        rcases hla : loadAdditional w.ext env sch bcfg'.s_ucAppName (noclobberOf flags)
          bcfg'.s_additionalEnv cfg1 bcfg'.s_env with ⟨cfg2, sEnv, e2⟩
        rw [hla] at hok hav
        cases e2 with
        | some err => simp at hok
        | none =>
          simp only at hok ⊢
          have hv2 := hav rfl
          simp only at hv2
          have hfinal : cfg2.user.get x.Name =
              (if env.getenv (bcfg.s_ucAppName ++ "_" ++ e) ≠ "" then
                (assignFromString w.ext env x
                  (if vp'.Get env k = .nil then cfg.user.get x.Name
                    else (assignFromStore w.ext env vp' x (cfg.user.get x.Name) k).1)
                  x.Name (env.getenv (bcfg.s_ucAppName ++ "_" ++ e))).1
              else if vp'.Get env k = .nil then cfg.user.get x.Name
                else (assignFromStore w.ext env vp' x (cfg.user.get x.Name) k).1) := by
            rw [hv2, hv1, huc]
            have hhv : helperValue w.ext env vp' x (cfg.user.get x.Name) =
                if vp'.Get env k = .nil then cfg.user.get x.Name
                else (assignFromStore w.ext env vp' x (cfg.user.get x.Name) k).1 := by
              unfold helperValue
              simp only [htag, hk, hcustom, ne_eq, not_false_eq_true, Bool.false_eq_true,
                and_self, if_true]
            rw [hhv]
          cases nc with
          | true =>
            simp only [if_true]
            exact hfinal
          | false =>
            simp only [Bool.false_eq_true, if_false] at hok ⊢
            cases hck : checkKeys env vp' keys bcfg'.s_extraWanted vp'.AllKeys [] with
            | error v => rw [hck] at hok; simp at hok
            | ok otherKeys =>
              simp only
              rw [runExtraParser_frame _ _ _ _ (by rw [hpar]; exact hparser)]
              exact hfinal
      · simp only [hbp, not_false_eq_true, if_true] at hok
        simp at hok

/-! ## The check of the keys of the store -/

theorem checkKeys_error_iff (env : OsEnv) (vp : Viper) (viperKeys extraKeys : List String) :
    ∀ (l : List String) (acc : List (String × GoVal)),
      (∃ k, checkKeys env vp viperKeys extraKeys l acc = .error k) ↔
        ∃ k ∈ l, k ≠ "" ∧ k ∉ viperKeys ∧ k ∉ extraKeys := by
  intro l
  induction l with
  | nil =>
    intro acc
    simp [checkKeys]
  | cons v rest ih =>
    intro acc
    rw [checkKeys]
    by_cases h1 : v ∉ viperKeys ∧ v ≠ ""
    · simp only [h1, and_self, if_true, ne_eq, not_false_eq_true]
      by_cases h2 : v ∈ extraKeys
      · simp only [h2, if_true]
        rw [ih]
        constructor
        · rintro ⟨k, hk, hrest⟩
          exact ⟨k, List.mem_cons_of_mem _ hk, hrest⟩
        · rintro ⟨k, hk, hne, hnv, hnx⟩
          rcases List.mem_cons.mp hk with h | h
          · subst h; exact absurd h2 hnx
          · exact ⟨k, h, hne, hnv, hnx⟩
      · simp only [h2, if_false]
        constructor
        · intro _
          exact ⟨v, List.mem_cons_self _ _, h1.2, h1.1, h2⟩
        · intro _
          exact ⟨v, rfl⟩
    · simp only [h1, if_false]
      rw [ih]
      constructor
      · rintro ⟨k, hk, hrest⟩
        exact ⟨k, List.mem_cons_of_mem _ hk, hrest⟩
      · rintro ⟨k, hk, hne, hnv, hnx⟩
        rcases List.mem_cons.mp hk with h | h
        · subst h; exact absurd ⟨hnv, hne⟩ h1
        · exact ⟨k, h, hne, hnv, hnx⟩

theorem unprocessedErr_ne_invalid (upk processed : List String) (k : String) :
    unprocessedErr upk processed ≠
      .errorf ("Invalid key(s) in the configuration file: " ++ k) := by
  intro h
  unfold unprocessedErr at h
  have h2 := congrArg String.data (GoErr.errorf.inj h)
  simp only [String.data_append] at h2
  have h3 := congrArg List.head? h2
  simp at h3

theorem runExtraParser_ne_invalid (parser : Option ExtraParser) (cfg : Cfg)
    (otherKeys : List (String × GoVal)) (k : String) :
    (runExtraParser parser cfg otherKeys).2 ≠
      some (.errorf ("Invalid key(s) in the configuration file: " ++ k)) := by
  unfold runExtraParser
  split
  · cases parser with
    | none =>
      simp only
      intro h
      exact unprocessedErr_ne_invalid _ _ k (Option.some.inj h)
    | some parse =>
      simp only
      rcases parse cfg otherKeys with ⟨c, pr, e⟩
      simp only
      split
      · cases e <;> simp
      · intro h
        exact unprocessedErr_ne_invalid _ _ k (Option.some.inj h)
  · simp

/-- C6: when a configuration file was loaded and the merging of the values succeeded,
`load` fails with an `Invalid key(s) in the configuration file` error if and only if
the store has a non-empty key that is neither among the configuration keys seen while
merging nor among the keys registered for the extension parser, wherever the key
stands among the keys of the store. -/
theorem load_invalid_key_iff (w : World) (sch : Schema) (env : OsEnv) (bcfg : BaseInternals)
    (cfg : Cfg) (dflt : String) (flags : List Flag) (vp : Viper)
    (vp' : Viper) (bcfg' : BaseInternals) (cfg1 cfg2 : Cfg) (viperKeys : List String)
    (sEnv : List (String × String))
    (hread : readConfigFile w bcfg (cfg.base.get "ConfFile").asString
      (cfg.base.get "NoCfg").asBool dflt vp = (false, vp', bcfg', none))
    (hmerge : loadFields w.ext env vp' sch.baseType (noclobberOf flags) sch.userType cfg [] =
      (cfg1, viperKeys, none))
    (hbase : (sch.userType.any fun x => x.Typ.isBasePtr) = true)
    (hadd : loadAdditional w.ext env sch bcfg'.s_ucAppName (noclobberOf flags)
      bcfg'.s_additionalEnv cfg1 bcfg'.s_env = (cfg2, sEnv, none)) :
    (∃ k, (load w sch env bcfg cfg dflt flags vp).err =
        some (.errorf ("Invalid key(s) in the configuration file: " ++ k))) ↔
      ∃ k ∈ vp'.AllKeys, k ≠ "" ∧ k ∉ viperKeys ∧ k ∉ bcfg.s_extraWanted := by
  have hint := readConfigFile_internals w bcfg (cfg.base.get "ConfFile").asString
    (cfg.base.get "NoCfg").asBool dflt vp
  rw [hread] at hint
  obtain ⟨_, _, _, hwant, _⟩ := hint
  simp only at hwant
  rw [← hwant, ← checkKeys_error_iff env vp' viperKeys bcfg'.s_extraWanted vp'.AllKeys []]
  unfold load
  dsimp only
  rw [hread]
  simp only [hmerge, hbase, not_true_eq_false, if_false, hadd, Bool.false_eq_true]
  cases hck : checkKeys env vp' viperKeys bcfg'.s_extraWanted vp'.AllKeys [] with
  | error v =>
    simp only
    constructor
    · intro _; exact ⟨v, rfl⟩
    · intro _; exact ⟨v, rfl⟩
  | ok otherKeys =>
    simp only
    constructor
    · rintro ⟨k, hk⟩
      exact absurd hk (runExtraParser_ne_invalid _ _ _ k)
    · rintro ⟨k, hk⟩
      exact absurd hk (by simp)

theorem load_additional_precedence_witness :
    ((⟨"TestParam", "   , test.test-param, TESTPARAM", stringType⟩ : StructField) ∈
        confEnvSchema.userType ∧
      stringType.isBasePtr = false ∧
      (confEnvSchema.userType.map StructField.Name).Nodup ∧
      parseTags "TestParam" "   , test.test-param, TESTPARAM" =
        ⟨"", "test.test-param", "TESTPARAM", none⟩ ∧
      "test.test-param" ≠ "" ∧ "TESTPARAM" ≠ "" ∧
      hasSuffix "" (String.singleton sepCmdParts ++ "custom") = false ∧
      confEnvInternals.s_additionalEnv.filter (fun vv => decide (vv.Name = "TestParam")) =
        [⟨"TestParam", "", "", "test.test-param", "TESTPARAM"⟩] ∧
      (load confEnvWorld confEnvSchema confEnvEnv confEnvInternals confEnvCfg "partial.toml" []
        Viper.new).err = none) ∧
    (load confEnvWorld confEnvSchema confEnvEnv confEnvInternals confEnvCfg "partial.toml" []
        Viper.new).cfg.user.get "TestParam" =
      (let store := storeAfterRead confEnvWorld confEnvInternals confEnvCfg "partial.toml"
          Viper.new
       let evalue := confEnvEnv.getenv (confEnvInternals.s_ucAppName ++ "_" ++ "TESTPARAM")
       let fromStore :=
         if store.Get confEnvEnv "test.test-param" = .nil then confEnvCfg.user.get "TestParam"
         else (assignFromStore confEnvWorld.ext confEnvEnv store
           ⟨"TestParam", "   , test.test-param, TESTPARAM", stringType⟩
           (confEnvCfg.user.get "TestParam") "test.test-param").1
       if evalue ≠ "" then
         (assignFromString confEnvWorld.ext confEnvEnv
           ⟨"TestParam", "   , test.test-param, TESTPARAM", stringType⟩ fromStore "TestParam"
           evalue).1
       else fromStore) ∧
    (load confEnvWorld confEnvSchema confEnvEnv confEnvInternals confEnvCfg "partial.toml" []
        Viper.new).cfg.user.get "TestParam" = .str "env" :=
  ⟨⟨List.mem_cons_of_mem _ (List.mem_cons_self _ _), rfl, by decide, by decide, by decide,
      by decide, by decide, by decide, by decide⟩,
    load_additional_precedence confEnvWorld confEnvSchema confEnvEnv confEnvInternals confEnvCfg
      "partial.toml" [] Viper.new ⟨"TestParam", "   , test.test-param, TESTPARAM", stringType⟩
      "" "test.test-param" "TESTPARAM"
      (List.mem_cons_of_mem _ (List.mem_cons_self _ _)) rfl (by decide) (by decide) (by decide)
      (by decide) (by decide) (by decide) (fun fl hfl => absurd hfl (List.not_mem_nil _))
      (fun parse hp => by cases hp) (by decide),
    by decide⟩

/-- C3, counterexample: a field marked `custom` with the key `custom.special` and the
suffix `SPECIAL`; the environment variable is set to `env` and the file holds `cfg`.
`load` succeeds and the field holds the value of the file, assigned by the extension
parser after the environment override, not the value of the environment variable. -/
theorem load_custom_field_counterexample :
    customResult.err = none ∧
    OsEnv.getenv [("APP_SPECIAL", "env")] "APP_SPECIAL" = "env" ∧
    customResult.cfg.user.get "Special" = .other "main.Special" "cfg" ∧
    customResult.cfg.user.get "Special" ≠
      (assignFromString scenarioExt [("APP_SPECIAL", "env")]
        ⟨"Special", "||custom, custom.special, SPECIAL", specialType⟩
        (.other "main.Special" "default") "Special" "env").1 := by
  decide

theorem load_invalid_key_iff_witness :
    ((readConfigFile typoWorld (internalsOf "app" "APP" [] [] none)
        (typoCfg.base.get "ConfFile").asString (typoCfg.base.get "NoCfg").asBool "app.toml"
        typoStore =
        (false, { typoStore with config := [("test.test-param", .str "cfg"),
            ("test.typo", .str "x")] },
          { internalsOf "app" "APP" [] [] none with
            s_usedConf := "app.toml", s_loaded := true, s_cfgDir := "app.toml" }, none) ∧
      (typoSchema.userType.any fun x => x.Typ.isBasePtr) = true) ∧
    ((∃ k, (load typoWorld typoSchema [] (internalsOf "app" "APP" [] [] none) typoCfg "app.toml"
          [typoFlag] typoStore).err =
        some (.errorf ("Invalid key(s) in the configuration file: " ++ k))) ↔
      ∃ k ∈ ({ typoStore with config := [("test.test-param", .str "cfg"),
            ("test.typo", .str "x")] } : Viper).AllKeys,
        k ≠ "" ∧ k ∉ ["test.test-param"] ∧
          k ∉ (internalsOf "app" "APP" [] [] none).s_extraWanted) ∧
    (load typoWorld typoSchema [] (internalsOf "app" "APP" [] [] none) typoCfg "app.toml"
        [typoFlag] typoStore).err =
      some (.errorf "Invalid key(s) in the configuration file: test.typo")) ∧
    ((readConfigFile upperWorld (internalsOf "app" "APP" [] [] none)
        (typoCfg.base.get "ConfFile").asString (typoCfg.base.get "NoCfg").asBool "app.toml"
        upperStore =
        (false, upperStore.setConfig [],
          { internalsOf "app" "APP" [] [] none with
            s_usedConf := "app.toml", s_loaded := true, s_cfgDir := "app.toml" }, none) ∧
      (upperSchema.userType.any fun x => x.Typ.isBasePtr) = true ∧
      (parseTags "TestParam" "test|testParam|, test.Param,").vipername = "test.Param" ∧
      (upperStore.setConfig []).AllKeys = ["test.param"]) ∧
    ((∃ k, (load upperWorld upperSchema [] (internalsOf "app" "APP" [] [] none) typoCfg
          "app.toml" [typoFlag] upperStore).err =
        some (.errorf ("Invalid key(s) in the configuration file: " ++ k))) ↔
      ∃ k ∈ (upperStore.setConfig []).AllKeys,
        k ≠ "" ∧ k ∉ ["test.Param"] ∧
          k ∉ (internalsOf "app" "APP" [] [] none).s_extraWanted) ∧
    (load upperWorld upperSchema [] (internalsOf "app" "APP" [] [] none) typoCfg "app.toml"
        [typoFlag] upperStore).err =
      some (.errorf "Invalid key(s) in the configuration file: test.param")) :=
  ⟨⟨⟨rfl, rfl⟩,
    load_invalid_key_iff typoWorld typoSchema [] (internalsOf "app" "APP" [] [] none) typoCfg
      "app.toml" [typoFlag] typoStore
      { typoStore with config := [("test.test-param", .str "cfg"), ("test.typo", .str "x")] }
      { internalsOf "app" "APP" [] [] none with
        s_usedConf := "app.toml", s_loaded := true, s_cfgDir := "app.toml" }
      ⟨[("TestParam", .str "cfg")], baseValues "" false false⟩
      ⟨[("TestParam", .str "cfg")], baseValues "" false false⟩
      ["test.test-param"] [] rfl rfl rfl rfl,
    by decide⟩,
   ⟨⟨rfl, rfl, by decide, by decide⟩,
    load_invalid_key_iff upperWorld upperSchema [] (internalsOf "app" "APP" [] [] none) typoCfg
      "app.toml" [typoFlag] upperStore (upperStore.setConfig [])
      { internalsOf "app" "APP" [] [] none with
        s_usedConf := "app.toml", s_loaded := true, s_cfgDir := "app.toml" }
      ⟨[("TestParam", .str "default")], baseValues "" false false⟩
      ⟨[("TestParam", .str "default")], baseValues "" false false⟩
      ["test.Param"] [] rfl rfl rfl rfl,
    by decide⟩⟩

/-- C1, the code at the failing input: the fields `Single1EnvCfg` and `Single3EnvCfg`
share the key `singleenvcfg`; after `apple --single3envcfg cmd`, with no environment
variable set and `singleenvcfg = "cfg"` in the file, `load` succeeds and
`Single1EnvCfg`, whose own flag was not set, holds `cmd` and not `cfg`. -/
theorem load_shared_key_takes_other_flag :
    sharingResult.err = none ∧
    assocGet (noclobberOf sharingFlags) "Single1EnvCfg" = none ∧
    assocGet sharingResult.vp.config "singleenvcfg" = some (.str "cfg") ∧
    sharingResult.cfg.user.get "Single1EnvCfg" = .str "cmd" := by
  decide

/-- C2, the code at the failing input: the base field `Verbosity` holds 2 from
`-v=2` when `load` starts and its flag is recorded as changed, yet `load` assigns it 3
from the configuration file, because the key `verbosity` is bound in the store to the
flag of the user field `Level`, bound later. -/
theorem load_base_field_overwritten :
    (assocGet (noclobberOf levelFlags) "Verbosity").isSome = true ∧
    levelCfg.base.get "Verbosity" = .int 2 ∧
    levelResult.err = none ∧
    levelResult.cfg.base.get "Verbosity" = .int 3 := by
  decide

/-- C7, the code at the failing input: the keys `custom.a` and `custom.b` are routed
to the parser, which returns no error and reports `custom.a` twice; `load` returns no
error although `custom.b` was not processed. -/
theorem load_repeated_key_accepted :
    checkKeys [] repeatingResult.vp [] ["custom.a", "custom.b"] repeatingResult.vp.AllKeys [] =
      .ok [("custom.a", .str "1"), ("custom.b", .str "2")] ∧
    (repeatingParser ⟨[], baseValues "" false false⟩
      [("custom.a", .str "1"), ("custom.b", .str "2")]).2 = (["custom.a", "custom.a"], none) ∧
    unprocessedKeys [("custom.a", .str "1"), ("custom.b", .str "2")] ["custom.a", "custom.a"] =
      ["custom.b"] ∧
    repeatingResult.err = none :=
  ⟨rfl, rfl, by decide, by decide⟩

/-- C8, the code at the failing input: no-config mode is off, no file name was given
and reading the default file fails with a path error that is not a missing file;
`load` returns no error instead of `Could not parse config file`. -/
theorem load_unreadable_file_ignored :
    unreadableWorld.readInConfig "app.toml" = .error (.pathError false) ∧
    unreadableResult.err = none :=
  ⟨rfl, by decide⟩

/-- C9, the code at the failing input: with `--no-env` set, two runs that differ only
in the value of `PARTIAL_TESTPARAM` resolve `TestParam` to different values. -/
theorem runWrapper_noEnv_still_reads_env :
    (partialRun "a").2.2 = none ∧ (partialRun "b").2.2 = none ∧
    (partialRun "a").2.1.map (fun r => r.cfg.user.get "TestParam") = some (.str "a") ∧
    (partialRun "b").2.1.map (fun r => r.cfg.user.get "TestParam") = some (.str "b") := by
  decide

/-! ## Supporting facts: the layers of the store -/

theorem Viper.Get_changed_flag (vp : Viper) (env : OsEnv) (k : String) (f : Flag)
    (hf : assocGet vp.pflags (vp.lower k) = some f) (hc : f.Changed = true) :
    vp.Get env k = flagValue f := by
  unfold Viper.Get
  simp [hf, hc]

theorem Viper.Get_env (vp : Viper) (env : OsEnv) (k name : String)
    (hf : ∀ f, assocGet vp.pflags (vp.lower k) = some f → f.Changed = false)
    (he : assocGet vp.env (vp.lower k) = some name) (hv : env.getenv name ≠ "") :
    vp.Get env k = .str (env.getenv name) := by
  unfold Viper.Get
  dsimp only
  cases hp : assocGet vp.pflags (vp.lower k) with
  | none => simp [he, hv]
  | some f => simp [hf f hp, he, hv]

theorem Viper.Get_config (vp : Viper) (env : OsEnv) (k : String) (v : GoVal)
    (hf : ∀ f, assocGet vp.pflags (vp.lower k) = some f → f.Changed = false)
    (he : ∀ name, assocGet vp.env (vp.lower k) = some name → env.getenv name = "")
    (hcfg : assocGet vp.config (vp.lower k) = some v) (hv : v ≠ .nil) :
    vp.Get env k = v := by
  unfold Viper.Get
  dsimp only
  cases hp : assocGet vp.pflags (vp.lower k) with
  | none =>
    cases hen : assocGet vp.env (vp.lower k) with
    | none => simp [hcfg, hv]
    | some name => simp [he name hen, hcfg, hv]
  | some f =>
    cases hen : assocGet vp.env (vp.lower k) with
    | none => simp [hf f hp, hcfg, hv]
    | some name => simp [hf f hp, he name hen, hcfg, hv]

theorem Viper.Get_default (vp : Viper) (env : OsEnv) (k : String) (v : GoVal)
    (hf : ∀ f, assocGet vp.pflags (vp.lower k) = some f → f.Changed = false)
    (he : ∀ name, assocGet vp.env (vp.lower k) = some name → env.getenv name = "")
    (hcfg : assocGet vp.config (vp.lower k) = none)
    (hd : assocGet vp.defaults (vp.lower k) = some v) (hv : v ≠ .nil) :
    vp.Get env k = v := by
  unfold Viper.Get
  dsimp only
  cases hp : assocGet vp.pflags (vp.lower k) with
  | none =>
    cases hen : assocGet vp.env (vp.lower k) with
    | none => simp [hcfg, hd, hv]
    | some name => simp [he name hen, hcfg, hd, hv]
  | some f =>
    cases hen : assocGet vp.env (vp.lower k) with
    | none => simp [hf f hp, hcfg, hd, hv]
    | some name => simp [hf f hp, he name hen, hcfg, hd, hv]

/-! ## Supporting facts: reading the configuration file -/

theorem readConfigFile_noCfg (w : World) (bcfg : BaseInternals) (cfgFile dflt : String)
    (vp : Viper) : readConfigFile w bcfg cfgFile true dflt vp = (true, vp, bcfg, none) := by
  simp [readConfigFile]

theorem readConfigFile_failure (w : World) (bcfg : BaseInternals) (cfgFile dflt : String)
    (vp : Viper) (e : ReadErr)
    (h : w.readInConfig (if cfgFile = "" then dflt else cfgFile) = .error e) :
    ((e = .configFileNotFound ∨ ∃ b, e = .pathError b) → cfgFile ≠ "" →
      readConfigFile w bcfg cfgFile false dflt vp =
        (false, vp, bcfg, some (.withMessage (.read e) "Could not load config file."))) ∧
    ((e = .configFileNotFound ∨ ∃ b, e = .pathError b) → cfgFile = "" →
      readConfigFile w bcfg cfgFile false dflt vp =
        readConfigFile w bcfg cfgFile true dflt vp) ∧
    ((∃ msg, e = .other msg) →
      readConfigFile w bcfg cfgFile false dflt vp =
        (false, vp, bcfg,
          some (.withMessage (.read e) ("Could not parse config file " ++ cfgFile)))) := by
  refine ⟨?_, ?_, ?_⟩
  · intro he hc
    unfold readConfigFile
    simp only [Bool.false_eq_true, if_false]
    rw [h]
    rcases he with he | ⟨b, he⟩ <;> subst he <;> simp [hc]
  · intro he hc
    rw [readConfigFile_noCfg]
    unfold readConfigFile
    simp only [Bool.false_eq_true, if_false]
    rw [h]
    rcases he with he | ⟨b, he⟩ <;> subst he <;> simp [hc]
  · rintro ⟨msg, he⟩
    subst he
    unfold readConfigFile
    simp only [Bool.false_eq_true, if_false]
    rw [h]
    simp

/-! ## Supporting facts: the extension parser -/

theorem mem_unprocessedKeys (otherKeys : List (String × GoVal)) (processed : List String)
    (k : String) :
    k ∈ unprocessedKeys otherKeys processed ↔ k ∈ otherKeys.map Prod.fst ∧ k ∉ processed := by
  simp [unprocessedKeys, List.mem_filter]

theorem runExtraParser_unprocessed (parse : ExtraParser) (cfg cfg' : Cfg)
    (otherKeys : List (String × GoVal)) (processed : List String)
    (hp : parse cfg otherKeys = (cfg', processed, none))
    (hne : otherKeys.length ≠ 0) (hlen : processed.length ≠ otherKeys.length) :
    (runExtraParser (some parse) cfg otherKeys).2 =
      some (unprocessedErr (unprocessedKeys otherKeys processed) processed) := by
  unfold runExtraParser
  simp [hne, hp, hlen]

/-! ## Supporting facts: clearing the environment -/

theorem OsEnv.getenv_setenv (env : OsEnv) (k k' v : String) :
    (env.setenv k v).getenv k' = if k = k' then v else env.getenv k' := by
  unfold OsEnv.getenv OsEnv.setenv
  rw [assocGet_assocSet]
  by_cases h : k = k' <;> simp [h]

theorem clearEnv_getenv (l : List (String × String)) :
    ∀ (env : OsEnv) (k : String), (clearEnv l env).2 = none →
      (clearEnv l env).1.getenv k = if k ∈ l.map Prod.fst then "" else env.getenv k := by
  induction l with
  | nil => intro env k _; simp [clearEnv]
  | cons p rest ih =>
    intro env k
    obtain ⟨a, b⟩ := p
    rw [clearEnv]
    cases hf : setenvFails a with
    | true => simp
    | false =>
      simp only [Bool.false_eq_true, if_false]
      intro hok
      rw [ih _ k hok, OsEnv.getenv_setenv]
      by_cases h1 : k ∈ rest.map Prod.fst
      · simp [h1]
      · by_cases h2 : a = k
        · subst h2; simp
        · have : ¬ k = a := fun h => h2 h.symm
          simp [h1, h2, this]

/-! ## Supporting facts: fields of the user struct set on the command line or resolved
through the store -/

theorem noclobberOf_some (flags : List Flag) (n : String)
    (h : ∃ fl ∈ flags, fl.Changed = true ∧ fl.greeneryVar = some n) :
    (assocGet (noclobberOf flags) n).isSome = true := by
  induction flags with
  | nil =>
    obtain ⟨fl, hfl, _⟩ := h
    exact absurd hfl (List.not_mem_nil _)
  | cons fl rest ih =>
    obtain ⟨g, hg, hc, ha⟩ := h
    unfold noclobberOf
    simp only
    rcases List.mem_cons.mp hg with heq | hin
    · subst heq
      simp [hc, ha, assocGet_assocSet]
    · have hrest := ih ⟨g, hin, hc, ha⟩
      split
      · split
        · rename_i ann _
          rw [assocGet_assocSet]
          by_cases hann : ann = n
          · simp [hann]
          · simp [hann, hrest]
        · exact hrest
      · exact hrest

theorem loadAdditional_locked (ext : External) (env : OsEnv) (sch : Schema) (uc : String)
    (noclobber : List (String × String)) (n : String)
    (hl : (assocGet noclobber n).isSome = true) :
    ∀ (l : List additionalStruct) (cfg : Cfg) (sEnv : List (String × String)),
      (loadAdditional ext env sch uc noclobber l cfg sEnv).1.user.get n = cfg.user.get n := by
  intro l
  induction l with
  | nil => intro cfg sEnv; rfl
  | cons vv rest ih =>
    intro cfg sEnv
    rw [loadAdditional]
    generalize (if vv.Env ≠ "" then env.getenv (uc ++ "_" ++ vv.Env) else "") = evalue
    generalize (if vv.Env ≠ "" ∧ evalue ≠ "" then assocSet sEnv (uc ++ "_" ++ vv.Env) evalue
      else sEnv) = sEnv'
    have hstep : evalue ≠ "" ∧ (assocGet noclobber vv.Name).isNone = true →
        (match setString ext env sch cfg vv.Name evalue with
        | (cfg', some err) => (cfg', sEnv', some err)
        | (cfg', none) => loadAdditional ext env sch uc noclobber rest cfg' sEnv').1.user.get n =
          cfg.user.get n := by
      intro hw
      have hvv : vv.Name ≠ n := by
        intro heq
        rw [heq] at hw
        have h2 := hw.2
        cases hg : assocGet noclobber n with
        | none => rw [hg] at hl; simp at hl
        | some s => rw [hg] at h2; simp at h2
      have := setString_get_ne ext env sch cfg vv.Name evalue n hvv
      rcases hs : setString ext env sch cfg vv.Name evalue with ⟨c, e⟩
      rw [hs] at this
      cases e with
      | some err => exact this
      | none => simp only []; rw [ih]; exact this
    by_cases hc : vv.Cmdline = ""
    · simp only [hc, if_true]
      by_cases hw : evalue ≠ "" ∧ (assocGet noclobber vv.Name).isNone = true
      · simp only [hw, and_self, if_true, ne_eq, not_false_eq_true]
        exact hstep hw
      · simp only [hw, if_false]
        exact ih _ _
    · simp only [hc, if_false]
      by_cases hv : vv.Viper = ""
      · simp only [hv, if_true]
        by_cases hw : evalue ≠ "" ∧ (assocGet noclobber vv.Name).isNone = true
        · simp only [hw, and_self, if_true, ne_eq, not_false_eq_true]
          exact hstep hw
        · simp only [hw, if_false]
          exact ih _ _
      · simp only [hv, if_false]

theorem load_user_field_value (w : World) (sch : Schema) (env : OsEnv)
    (bcfg : BaseInternals) (cfg : Cfg) (dflt : String) (flags : List Flag) (vp : Viper)
    (x : StructField)
    (hmem : x ∈ sch.userType) (hnb : x.Typ.isBasePtr = false)
    (hnd : (sch.userType.map StructField.Name).Nodup)
    (hadd : (assocGet (noclobberOf flags) x.Name).isSome = true ∨
      ∀ vv ∈ bcfg.s_additionalEnv, vv.Name ≠ x.Name)
    (hparser : ∀ parse, bcfg.s_extraParser = some parse →
      ∀ c keys, (parse c keys).1.user.get x.Name = c.user.get x.Name)
    (hok : (load w sch env bcfg cfg dflt flags vp).err = none) :
    (load w sch env bcfg cfg dflt flags vp).cfg.user.get x.Name =
      if (assocGet (noclobberOf flags) x.Name).isSome then cfg.user.get x.Name
      else helperValue w.ext env (storeAfterRead w bcfg cfg dflt vp) x (cfg.user.get x.Name) := by
  have hint := readConfigFile_internals w bcfg (cfg.base.get "ConfFile").asString
    (cfg.base.get "NoCfg").asBool dflt vp
  unfold load at hok ⊢
  unfold storeAfterRead
  dsimp only at hok hint ⊢
  rcases hr : readConfigFile w bcfg (cfg.base.get "ConfFile").asString
    (cfg.base.get "NoCfg").asBool dflt vp with ⟨nc, vp', bcfg', er⟩
  rw [hr] at hok hint
  obtain ⟨_, haddeq, hpar, _, _⟩ := hint
  cases er with
  | some err => simp at hok
  | none =>
    simp only at hok ⊢
    have hval := loadFields_value w.ext env vp' sch.baseType (noclobberOf flags) x hnb
      sch.userType cfg [] hmem hnd
    rcases hlf : loadFields w.ext env vp' sch.baseType (noclobberOf flags) sch.userType cfg []
      with ⟨cfg1, keys, e1⟩
    rw [hlf] at hok hval
    cases e1 with
    | some err => simp at hok
    | none =>
      simp only at hok ⊢
      have hv1 := hval rfl
      by_cases hbp : (sch.userType.any fun x => x.Typ.isBasePtr) = true
      · simp only [hbp, not_true_eq_false, if_false] at hok ⊢
        have hav : (loadAdditional w.ext env sch bcfg'.s_ucAppName (noclobberOf flags)
            bcfg'.s_additionalEnv cfg1 bcfg'.s_env).1.user.get x.Name = cfg1.user.get x.Name := by
          rcases hadd with hl | hno
          · exact loadAdditional_locked _ _ _ _ _ _ hl _ _ _
          · exact loadAdditional_frame _ _ _ _ _ _ _ _ _ (by rw [haddeq]; exact hno)
        rcases hla : loadAdditional w.ext env sch bcfg'.s_ucAppName (noclobberOf flags)
          bcfg'.s_additionalEnv cfg1 bcfg'.s_env with ⟨cfg2, sEnv, e2⟩
        rw [hla] at hok hav
        cases e2 with
        | some err => simp at hok
        | none =>
          simp only at hok hav ⊢
          cases nc with
          | true =>
            simp only [if_true]
            rw [hav]; exact hv1
          | false =>
            simp only [Bool.false_eq_true, if_false] at hok ⊢
            cases hck : checkKeys env vp' keys bcfg'.s_extraWanted vp'.AllKeys [] with
            | error v => rw [hck] at hok; simp at hok
            | ok otherKeys =>
              simp only
              rw [runExtraParser_frame _ _ _ _ (by rw [hpar]; exact hparser), hav]
              exact hv1
      · simp only [hbp, not_false_eq_true, if_true] at hok
        simp at hok

/-! ## The flag types: bounds, ports, enumerations, custom strings -/

/-- C16. `IntValue.SetInt(d)` returns an error exactly when `d < min` or `d > max`;
when it succeeds `Value` is `d` (bounds and name kept), and when it fails the flag is
unchanged. -/
theorem intValue_setInt_bounds (i : IntValue) (d : Int) :
    ((i.SetInt d).2.isSome ↔ (d < i.min ∨ d > i.max)) ∧
    ((i.SetInt d).2 = none → (i.SetInt d).1 = { i with Value := d }) ∧
    ((i.SetInt d).2 ≠ none → (i.SetInt d).1 = i ∧ (i.SetInt d).1.Value = i.Value) := by
  unfold IntValue.SetInt
  by_cases h : d < i.min ∨ d > i.max
  · simp [h]
  · simp [h]

/-- C17. `PortValue.Set(e)` succeeds exactly when `e` is empty or `strconv.Atoi`
accepts `e` with a value between 0 and 65535; on success the port is that integer, 0
for the empty string. -/
theorem portValue_set_accepts (p : PortValue) (e : String) :
    ((p.Set e).2 = none ↔
      (e = "" ∨ ((atoi e).2 = none ∧ 0 ≤ (atoi e).1 ∧ (atoi e).1 ≤ 65535))) ∧
    ((p.Set e).2 = none → (p.Set e).1.val = if e = "" then 0 else (atoi e).1) := by
  unfold PortValue.Set PortValue.SetInt wrapUint
  by_cases he : e = ""
  · subst he
    simp
  · simp only [he, if_false, false_or]
    rcases hat : atoi e with ⟨v, err⟩
    cases err with
    | some x => simp
    | none =>
      simp only
      by_cases hr : v < 0 ∨ v > 65535
      · simp only [hr, if_true]
        constructor
        · constructor
          · intro h; cases h
          · rintro ⟨-, h1, h2⟩; omega
        · intro h; cases h
      · simp only [hr, if_false, true_and, true_iff, forall_const]
        constructor
        · omega
        · have h1 : 0 ≤ v := by omega
          have h2 : v < 65536 := by omega
          show v % (2:Int) ^ 16 = v
          norm_num
          exact Int.emod_eq_of_lt h1 h2

theorem validateEnum_mem (name s : String) (valid : List String) (s' : String)
    (h : validateEnum name s (.strings valid) = (s', none)) : s' ∈ valid ∧ s' = s := by
  unfold validateEnum at h
  by_cases hs : s ∈ valid
  · simp only [hs, if_true] at h
    cases h
    exact ⟨hs, rfl⟩
  · simp only [hs, if_false] at h
    cases h

/-- The invariant of an enumeration flag made for the values `valid`. -/
theorem customString_set_enum (valid : List String) (c : CustomStringValue)
    (hh : c.handler = some validateEnum) (hd : c.data = .strings valid) (hv : c.Value ∈ valid)
    (s : String) :
    (c.Set s).1.handler = some validateEnum ∧ (c.Set s).1.data = .strings valid ∧
      (c.Set s).1.Value ∈ valid := by
  unfold CustomStringValue.Set
  rw [hh]
  simp only
  rcases hr : validateEnum c.name s c.data with ⟨s', err⟩
  cases err with
  | some e => exact ⟨hh, hd, hv⟩
  | none =>
    rw [hd] at hr
    simp only
    exact ⟨trivial, hd, (validateEnum_mem _ _ _ _ hr).1⟩

theorem newDefaultCustomString_enum (libText : GoErr → String) (name set : String)
    (valid : List String) (c : CustomStringValue)
    (h : NewDefaultCustomStringValue libText name set (some validateEnum) (.strings valid) = .ok c) :
    c.handler = some validateEnum ∧ c.data = .strings valid ∧ c.Value ∈ valid := by
  unfold NewDefaultCustomStringValue at h
  simp only at h
  rcases hr : validateEnum name set (.strings valid) with ⟨s', err⟩
  rw [hr] at h
  cases err with
  | some e => cases h
  | none =>
    simp only at h
    cases h
    exact ⟨rfl, rfl, (validateEnum_mem _ _ _ _ hr).1⟩

theorem enumValue_calls_inv (valid : List String) (calls : List (Bool × String)) :
    ∀ e : EnumValue, e.handler = some validateEnum → e.data = .strings valid → e.Value ∈ valid →
      (calls.foldl (fun e c => if c.1 then (e.Set c.2).1 else (e.UnmarshalText c.2).1) e).Value
        ∈ valid := by
  induction calls with
  | nil => intro e _ _ hv; exact hv
  | cons c rest ih =>
    intro e hh hd hv
    rw [List.foldl_cons]
    have step := customString_set_enum valid e.toCustomStringValue hh hd hv c.2
    by_cases hc : c.1
    · simp only [hc, if_true]
      exact ih _ step.1 step.2.1 step.2.2
    · simp only [hc, if_false, Bool.false_eq_true]
      exact ih _ step.1 step.2.1 step.2.2

/-- C18. An `EnumValue` returned by `NewEnumValue` or `NewDefaultEnumValue` holds a
`Value` that is one of the valid strings given at creation, and so does the flag
after any sequence of `Set` (`true`) and `UnmarshalText` (`false`) calls, whether
they succeed or fail. -/
theorem enumValue_member_preserved (libText : GoErr → String) (name set : String)
    (valid : List String) (e : EnumValue)
    (hnew : NewEnumValue libText name valid = .ok e ∨
      NewDefaultEnumValue libText name set valid = .ok e)
    (calls : List (Bool × String)) :
    e.Value ∈ valid ∧
    (calls.foldl (fun e c => if c.1 then (e.Set c.2).1 else (e.UnmarshalText c.2).1) e).Value
      ∈ valid := by
  have hinv : e.handler = some validateEnum ∧ e.data = .strings valid ∧ e.Value ∈ valid := by
    rcases hnew with h | h
    · unfold NewEnumValue at h
      cases valid with
      | nil => cases h
      | cons first rest =>
        simp only at h
        rcases hc : NewDefaultCustomStringValue libText name first (some validateEnum)
          (.strings (first :: rest)) with msg | c
        · rw [hc] at h; cases h
        · rw [hc] at h
          cases h
          exact newDefaultCustomString_enum libText name first _ c hc
    · unfold NewDefaultEnumValue at h
      cases valid with
      | nil => cases h
      | cons first rest =>
        simp only at h
        rcases hc : NewDefaultCustomStringValue libText name set (some validateEnum)
          (.strings (first :: rest)) with msg | c
        · rw [hc] at h; cases h
        · rw [hc] at h
          cases h
          exact newDefaultCustomString_enum libText name set _ c hc
  exact ⟨hinv.2.2, enumValue_calls_inv valid calls e hinv.1 hinv.2.1 hinv.2.2⟩

theorem enumValue_member_preserved_witness :
    NewEnumValue (fun _ => "") "FlagEnum" ["a", "b", "c"] = .ok flagEnum ∧
    (flagEnum.Value ∈ ["a", "b", "c"] ∧
      ([(true, "hello"), (false, "c"), (true, "")].foldl
        (fun e c => if c.1 then (e.Set c.2).1 else (e.UnmarshalText c.2).1) flagEnum).Value
        ∈ ["a", "b", "c"]) ∧
    (flagEnum.Set "hello").2 = some (.errorf
      "Invalid value hello for variable FlagEnum, should be one of a, b, c.") ∧
    ((flagEnum.Set "hello").1.UnmarshalText "c").1.Value = "c" :=
  ⟨rfl,
    enumValue_member_preserved (fun _ => "") "FlagEnum" "" ["a", "b", "c"] flagEnum (Or.inl rfl)
      [(true, "hello"), (false, "c"), (true, "")],
    by decide, by decide⟩

/-- C19. `CustomStringValue.Set(s)` with the validation function `h`: when `h`
returns no error the string returned by `h(name, s, data)` is stored and no error is
returned; when `h` returns an error, `Set` returns that error and the flag is
unchanged. -/
theorem customString_set_handler (c : CustomStringValue) (h : CustomStringHandler)
    (hc : c.handler = some h) (s : String) :
    ((h c.name s c.data).2 = none →
      c.Set s = ({ c with Value := (h c.name s c.data).1 }, none)) ∧
    (∀ err, (h c.name s c.data).2 = some err → c.Set s = (c, some err)) := by
  unfold CustomStringValue.Set
  rw [hc]
  simp only
  rcases hr : h c.name s c.data with ⟨s', err⟩
  cases err with
  | some e => simp
  | none => simp

theorem customString_set_handler_witness :
    flagCString.handler = some UcFirstAndUpcase ∧
    (((UcFirstAndUpcase flagCString.name "Hello" flagCString.data).2 = none →
      flagCString.Set "Hello" =
        ({ flagCString with
            Value := (UcFirstAndUpcase flagCString.name "Hello" flagCString.data).1 }, none)) ∧
    (∀ err, (UcFirstAndUpcase flagCString.name "Hello" flagCString.data).2 = some err →
      flagCString.Set "Hello" = (flagCString, some err))) ∧
    (flagCString.Set "Hello").1.Value = "HELLO" ∧ (flagCString.Set "Hello").2 = none ∧
    (flagCString.Set "hello").1.Value = "" ∧
    (flagCString.Set "hello").2 = some (.errorf
      "Invalid string value hello for variable FlagCString, must have an uppercase first letter") :=
  ⟨rfl, customString_set_handler flagCString UcFirstAndUpcase rfl "Hello",
    by decide, by decide, by decide, by decide⟩

/-! ## The configuration key of a tag and fields of type `time.Duration` -/

theorem containsChar_iff (s : String) (c : Char) : containsChar s c = true ↔ 0 < countChar s c := by
  unfold containsChar countChar
  rw [List.count_pos_iff]
  simp

theorem hasPrefixChar_count (s : String) (c : Char) (h : hasPrefixChar s c = true) :
    0 < countChar s c := by
  unfold hasPrefixChar at h
  unfold countChar
  rcases hd : s.data with _ | ⟨x, rest⟩
  · rw [hd] at h; cases h
  · rw [hd] at h
    simp only [beq_iff_eq] at h
    subst h
    simp

theorem trimLeft_of_not_prefix (s : String) (c : Char) (h : hasPrefixChar s c = false) :
    trimLeft s c = s := by
  unfold hasPrefixChar at h
  unfold trimLeft
  rcases hd : s.data with _ | ⟨x, rest⟩
  · have : s = String.mk [] := by rw [← hd]
    rw [this]; rfl
  · rw [hd] at h
    have : s = String.mk (x :: rest) := by rw [← hd]
    rw [this]
    simp only at h
    simp only [List.dropWhile_cons, h, Bool.false_eq_true, if_false]

/-- C11, as the code has it: a tag of three parts whose second part, trimmed, is `p`
is accepted exactly when `p` is empty, or starts with `.` and has at most one `.` after
its leading `.` characters, or does not start with `.` and has exactly one `.`; the key
is `p` without its leading `.` characters.  A non-empty `p` without `.` and a `p` with more
than one `.` after its leading `.` characters are rejected with an `Invalid config file
tag` error. -/
theorem parseTags_key_accepted (name tag p : String) (h0 : tag ≠ "")
    (h3 : (strSplit tag sepTag).length = 3)
    (hp : p = trimSpace ((strSplit tag sepTag).getD 1 "")) :
    ((parseTags name tag).err = none ↔
      (p = "" ∨ (hasPrefixChar p sepKeyParts = true ∧ countChar (trimLeft p sepKeyParts) sepKeyParts ≤ 1) ∨
       (hasPrefixChar p sepKeyParts = false ∧ countChar p sepKeyParts = 1))) ∧
    ((parseTags name tag).err = none → (parseTags name tag).vipername = trimLeft p sepKeyParts) ∧
    (p ≠ "" → countChar p sepKeyParts = 0 →
      (parseTags name tag).err = some ("Invalid config file tag for '" ++ name ++ "', no " ++
        String.singleton sepKeyParts ++ " present in '" ++ p ++ "'")) ∧
    (1 < countChar (trimLeft p sepKeyParts) sepKeyParts →
      (parseTags name tag).err = some ("Invalid config file tag for '" ++ name ++
        "', more than two " ++ String.singleton sepKeyParts ++ " present in '" ++
        String.singleton sepKeyParts ++ trimLeft p sepKeyParts ++ "'")) := by
  have h3' : ¬ (strSplit tag sepTag).length ≠ 3 := by simp [h3]
  by_cases hpe : p = ""
  · have hres : parseTags name tag =
        ⟨trimSpace ((strSplit tag sepTag).getD 0 ""), p,
          trimSpace ((strSplit tag sepTag).getD 2 ""), none⟩ := by
      unfold parseTags
      simp only [h0, if_false, h3', ← hp, hpe, ne_eq, not_true_eq_false]
    rw [hres]
    subst hpe
    refine ⟨⟨fun _ => Or.inl rfl, fun _ => rfl⟩, ?_, fun h => absurd rfl h, ?_⟩
    · intro _
      show "" = trimLeft "" sepKeyParts
      decide
    · intro h; exact absurd h (by decide)
  · cases hpre : hasPrefixChar p sepKeyParts
    · have htl := trimLeft_of_not_prefix p sepKeyParts hpre
      rw [htl]
      cases hcon : containsChar p sepKeyParts
      · have hc0 : countChar p sepKeyParts = 0 := by
          have := (containsChar_iff p sepKeyParts).not.mp (by simp [hcon])
          omega
        have hres : parseTags name tag =
            ⟨"", "", "", some ("Invalid config file tag for '" ++ name ++ "', no " ++
              String.singleton sepKeyParts ++ " present in '" ++ p ++ "'")⟩ := by
          unfold parseTags
          simp only [h0, if_false, h3', ← hp, hpe, ne_eq, not_false_eq_true, if_true, hpre, hcon,
            Bool.not_false, Bool.and_self]
        rw [hres]
        refine ⟨⟨fun h => (by cases h), fun h => ?_⟩, fun h => (by cases h), fun _ _ => rfl,
          fun h => (by omega)⟩
        rcases h with h | h | h
        · exact absurd h hpe
        · cases h.1
        · omega
      · have hc1 : 0 < countChar p sepKeyParts := (containsChar_iff p sepKeyParts).mp hcon
        by_cases hgt : countChar p sepKeyParts > 1
        · have hres : parseTags name tag =
              ⟨"", "", "", some ("Invalid config file tag for '" ++ name ++
                "', more than two " ++ String.singleton sepKeyParts ++ " present in '" ++
                String.singleton sepKeyParts ++ p ++ "'")⟩ := by
            unfold parseTags
            simp only [h0, if_false, h3', ← hp, hpe, ne_eq, not_false_eq_true, if_true, hpre, hcon,
              Bool.not_false, Bool.not_true, Bool.and_false, Bool.false_eq_true, hgt]
          rw [hres]
          refine ⟨⟨fun h => (by cases h), fun h => ?_⟩, fun h => (by cases h),
            fun _ h => (by omega), fun _ => rfl⟩
          rcases h with h | h | h
          · exact absurd h hpe
          · cases h.1
          · omega
        · have hres : parseTags name tag =
              ⟨trimSpace ((strSplit tag sepTag).getD 0 ""), p,
                trimSpace ((strSplit tag sepTag).getD 2 ""), none⟩ := by
            unfold parseTags
            simp only [h0, if_false, h3', ← hp, hpe, ne_eq, not_false_eq_true, if_true, hpre, hcon,
              Bool.not_false, Bool.not_true, Bool.and_false, Bool.false_eq_true, hgt]
          rw [hres]
          refine ⟨⟨fun _ => Or.inr (Or.inr ⟨rfl, (by omega)⟩), fun _ => rfl⟩, fun _ => rfl,
            fun _ h => (by omega), fun h => (by omega)⟩
    · have hc1 : 0 < countChar p sepKeyParts := hasPrefixChar_count p sepKeyParts hpre
      by_cases hgt : countChar (trimLeft p sepKeyParts) sepKeyParts > 1
      · have hres : parseTags name tag =
            ⟨"", "", "", some ("Invalid config file tag for '" ++ name ++
              "', more than two " ++ String.singleton sepKeyParts ++ " present in '" ++
              String.singleton sepKeyParts ++ trimLeft p sepKeyParts ++ "'")⟩ := by
          unfold parseTags
          simp only [h0, if_false, h3', ← hp, hpe, ne_eq, not_false_eq_true, if_true, hpre,
            Bool.not_true, Bool.false_and, Bool.false_eq_true, hgt]
        rw [hres]
        refine ⟨⟨fun h => (by cases h), fun h => ?_⟩, fun h => (by cases h),
          fun _ h => (by omega), fun _ => rfl⟩
        rcases h with h | h | h
        · exact absurd h hpe
        · omega
        · cases h.1
      · have hres : parseTags name tag =
            ⟨trimSpace ((strSplit tag sepTag).getD 0 ""), trimLeft p sepKeyParts,
              trimSpace ((strSplit tag sepTag).getD 2 ""), none⟩ := by
          unfold parseTags
          simp only [h0, if_false, h3', ← hp, hpe, ne_eq, not_false_eq_true, if_true, hpre,
            Bool.not_true, Bool.false_and, Bool.false_eq_true, hgt]
        rw [hres]
        refine ⟨⟨fun _ => Or.inr (Or.inl ⟨rfl, (by omega)⟩), fun _ => rfl⟩, fun _ => rfl,
          fun _ h => (by omega), fun h => (by omega)⟩

theorem parseTags_key_accepted_witness :
    ("||none, .a.b," ≠ "" ∧ (strSplit "||none, .a.b," sepTag).length = 3 ∧
      ".a.b" = trimSpace ((strSplit "||none, .a.b," sepTag).getD 1 "")) ∧
    ((parseTags "TestParam" "||none, .a.b,").err = none →
      (parseTags "TestParam" "||none, .a.b,").vipername = trimLeft ".a.b" sepKeyParts) ∧
    (parseTags "TestParam" "||none, .a.b,").vipername = "a.b" :=
  ⟨⟨by decide, by decide, by decide⟩,
    (parseTags_key_accepted "TestParam" "||none, .a.b," ".a.b" (by decide) (by decide)
      (by decide)).2.1,
    by decide⟩

/-- C11 as stated fails: the second part `.a.b` contains more than one `.` and is
accepted, with the key `a.b`; so is `...leaf`, with the key `leaf`. -/
theorem parseTags_two_dots_counterexample :
    countChar ".a.b" sepKeyParts = 2 ∧
    parseTags "TestParam" "||none, .a.b," = ⟨"||none", "a.b", "", none⟩ ∧
    parseTags "TestParam" "||none, ...leaf," = ⟨"||none", "leaf", "", none⟩ := by
  decide

/-- C15, as the code has it: for a field of kind `int64`, `time.Duration` included,
`setField` reads the source as an integer, the number of nanoseconds.  A source that is
an integer `v` of the int64 range, or the decimal string of `v`, is assigned as `v`; a
string that `strconv.ParseInt(s, 0, 0)` rejects is refused with the error of `cast`
wrapped by `withErr`, and the field keeps its value. -/
theorem setField_duration_integer (ext : External) (env : OsEnv) (ft : FieldType)
    (hk : ft.kind = .int64) (cur : GoVal) (key : String) (vp : Option Viper) (arg src : GoVal)
    (hsrc : src = match vp with
      | some store => store.Get env key
      | none => arg) :
    (∀ v : Int, -(2:Int) ^ 63 ≤ v → v < (2:Int) ^ 63 →
      (src = .int v ∨ src = .str (formatInt v)) →
      setField ext env ft cur vp arg key = (.int v, none)) ∧
    (∀ s : String, src = .str s → (parseInt s 0 0).2 ≠ none →
      setField ext env ft cur vp arg key =
        (cur, some (withErr key (.cast (.unable (.str s) "int64"))))) := by
  have hset : setField ext env ft cur vp arg key =
      match (getInt64 key src).2 with
      | some e => (cur, some e)
      | none => (.int (getInt64 key src).1, none) := by
    cases vp with
    | none =>
      simp only at hsrc
      subst hsrc
      unfold setField
      simp only [hk]
    | some store =>
      simp only at hsrc
      subst hsrc
      unfold setField
      simp only [hk]
  rw [hset]
  constructor
  · intro v hlo hhi hv
    have h64 : toInt64E src = (v, none) := by
      rcases hv with h | h
      · rw [h]
        simp only [toInt64E, toIntNE, wrapInt]
        have : (v + 2 ^ (64 - 1)) % 2 ^ 64 - 2 ^ (64 - 1) = v := by omega
        rw [this]
      · rw [h]
        simp only [toInt64E, toIntNE, parseIntChars_formatInt v hlo hhi, wrapInt]
        have : (v + 2 ^ (64 - 1)) % 2 ^ 64 - 2 ^ (64 - 1) = v := by omega
        rw [this]
    simp only [getInt64, h64, Option.map_none']
  · intro s hs hbad
    have h64 : toInt64E src = (0, some (.unable (.str s) "int64")) := by
      rw [hs]
      simp only [toInt64E, toIntNE]
      rcases hp : parseInt s 0 0 with ⟨pv, perr⟩
      rw [hp] at hbad
      cases perr with
      | none => exact absurd rfl hbad
      | some e => rfl
    simp only [getInt64, h64, Option.map_some']

theorem setField_duration_integer_witness :
    durationType.kind = .int64 ∧
    (∀ v : Int, -(2:Int) ^ 63 ≤ v → v < (2:Int) ^ 63 →
      ((GoVal.str "115892045000000") = .int v ∨
        (GoVal.str "115892045000000") = .str (formatInt v)) →
      setField scenarioExt [] durationType (.int 0) none (.str "115892045000000") "Duration" =
        (.int v, none)) ∧
    setField scenarioExt [] durationType (.int 0) none (.str "115892045000000") "Duration" =
      (.int 115892045000000, none) ∧
    (parseInt "1h30m" 0 0).2 ≠ none ∧
    setField scenarioExt [] durationType (.int 7) none (.str "1h30m") "Duration" =
      (.int 7, some (withErr "Duration" (.cast (.unable (.str "1h30m") "int64")))) :=
  ⟨rfl,
    (setField_duration_integer scenarioExt [] durationType rfl (.int 0) "Duration" none
      (.str "115892045000000") (.str "115892045000000") rfl).1,
    by decide, by decide,
    (setField_duration_integer scenarioExt [] durationType rfl (.int 7) "Duration" none
      (.str "1h30m") (.str "1h30m") rfl).2 "1h30m" rfl (by decide)⟩

/-- The integer syntax that `setField` reads for a field of kind `int64` is the one of
`strconv.ParseInt` with base 0: a binary, octal or hexadecimal prefix and underscores
between the digits are read, so `0b101` is 5 nanoseconds and `1_000` is 1000, while
`1__000` and `0x` are refused. -/
theorem setField_duration_base_prefix :
    setField scenarioExt [] durationType (.int 7) none (.str "0b101") "Duration" =
      (.int 5, none) ∧
    setField scenarioExt [] durationType (.int 7) none (.str "1_000") "Duration" =
      (.int 1000, none) ∧
    setField scenarioExt [] durationType (.int 7) none (.str "-0x1F") "Duration" =
      (.int (-31), none) ∧
    setField scenarioExt [] durationType (.int 7) none (.str "017") "Duration" =
      (.int 15, none) ∧
    setField scenarioExt [] durationType (.int 7) none (.str "1__000") "Duration" =
      (.int 7, some (withErr "Duration" (.cast (.unable (.str "1__000") "int64")))) ∧
    setField scenarioExt [] durationType (.int 7) none (.str "0x") "Duration" =
      (.int 7, some (withErr "Duration" (.cast (.unable (.str "0x") "int64")))) := by
  decide

/-- C15 as stated fails: the strings `1h30m` and `45ms`, written in duration syntax,
are refused (the message of the test `Bad duration`), and the field keeps the value it
had instead of holding 5400000000000 or 45000000 nanoseconds. -/
theorem setField_duration_syntax_counterexample :
    setField scenarioExt [] durationType (.int 7) none (.str "1h30m") "Duration" =
      (.int 7, some (withErr "Duration" (.cast (.unable (.str "1h30m") "int64")))) ∧
    setField scenarioExt [] durationType (.int 7) none (.str "45ms") "Duration" =
      (.int 7, some (withErr "Duration" (.cast (.unable (.str "45ms") "int64")))) ∧
    (setField scenarioExt [] durationType (.int 7) none (.str "1h30m") "Duration").1 ≠
      .int 5400000000000 := by
  decide

/-! ## Making a flag (`doBind`) -/

theorem scalarFlagType_isSome_iff (k : Kind) : (scalarFlagType k).isSome = true ↔ k ∈ flagKinds := by
  cases k <;> simp [scalarFlagType, flagKinds]

theorem scalarFlagType_none_iff (k : Kind) : scalarFlagType k = none ↔ k ∉ flagKinds := by
  cases k <;> simp [scalarFlagType, flagKinds]

theorem find_name_none (l : List PFlag) (name : String)
    (h : ∀ g ∈ l, g.flag.Name ≠ name) : l.find? (fun g => g.flag.Name = name) = none := by
  rw [List.find?_eq_none]
  intro g hg
  simpa using h g hg

theorem any_name_false (l : List PFlag) (name : String)
    (h : ∀ g ∈ l, g.flag.Name ≠ name) : l.any (fun g => g.flag.Name = name) = false := by
  rw [List.any_eq_false]
  intro g hg
  simpa using h g hg

/-- Adding a flag whose name and shorthand are free succeeds, and the flag is then
found under its name. -/
theorem addFlag_free (cmd : Command) (fl : PFlag)
    (hname : ∀ g ∈ cmd.formal, g.flag.Name ≠ fl.flag.Name)
    (hshort : fl.Shorthand = "" ∨
      (fl.Shorthand.utf8ByteSize ≤ 1 ∧ assocGet cmd.shorthands fl.Shorthand = none)) :
    (addFlag cmd fl).2 = none ∧ (addFlag cmd fl).1.formal = cmd.formal ++ [fl] ∧
      (addFlag cmd fl).1.name = cmd.name := by
  unfold addFlag
  rw [any_name_false _ _ hname]
  simp only [Bool.false_eq_true, if_false]
  by_cases hs : fl.Shorthand = ""
  · simp [hs]
  · rcases hshort with h | ⟨h1, h2⟩
    · exact absurd h hs
    · have : ¬ fl.Shorthand.utf8ByteSize > 1 := by omega
      simp [hs, this, h2]

theorem lookup_append_self (l : List PFlag) (fl : PFlag)
    (hname : ∀ g ∈ l, g.flag.Name ≠ fl.flag.Name) :
    (l ++ [fl]).find? (fun g => g.flag.Name = fl.flag.Name) = some fl := by
  rw [List.find?_append, find_name_none _ _ hname]
  simp

theorem lookup_markHidden (l : List PFlag) (fl : PFlag)
    (hname : ∀ g ∈ l, g.flag.Name ≠ fl.flag.Name) :
    ((l ++ [fl]).map (fun g => if g.flag.Name = fl.flag.Name then { g with Hidden := true } else g)).find?
      (fun g => g.flag.Name = fl.flag.Name) = some { fl with Hidden := true } := by
  rw [List.map_append, List.find?_append]
  have : (l.map (fun g => if g.flag.Name = fl.flag.Name then { g with Hidden := true } else g)).find?
      (fun g => g.flag.Name = fl.flag.Name) = none := by
    rw [List.find?_eq_none]
    intro g hg
    rw [List.mem_map] at hg
    obtain ⟨g0, hg0, rfl⟩ := hg
    have := hname g0 hg0
    simp [this]
  rw [this]
  simp

theorem addFlag_lookup (cmd : Command) (fl : PFlag) (hidden : Bool)
    (hname : ∀ g ∈ cmd.formal, g.flag.Name ≠ fl.flag.Name)
    (hshort : fl.Shorthand = "" ∨
      (fl.Shorthand.utf8ByteSize ≤ 1 ∧ assocGet cmd.shorthands fl.Shorthand = none)) :
    (if hidden then markHidden (addFlag cmd fl).1 fl.flag.Name else (addFlag cmd fl).1).Lookup
      fl.flag.Name = some { fl with Hidden := fl.Hidden || hidden } := by
  have h := addFlag_free cmd fl hname hshort
  cases hidden
  · simp only [Bool.false_eq_true, if_false, Bool.or_false]
    unfold Command.Lookup
    rw [h.2.1]
    exact lookup_append_self _ _ hname
  · simp only [if_true, Bool.or_true]
    unfold Command.Lookup markHidden
    simp only
    rw [h.2.1]
    exact lookup_markHidden _ _ hname

theorem scalarFlagType_text (k : Kind) (ty : String) (h : scalarFlagType k = some ty) :
    ty = k.text := by
  cases k <;> simp [scalarFlagType] at h <;> simp [Kind.text, h]

/-- C14, as the code has it: for a documented field without `Set`, `doBind` makes the
flag when the type is one of the predeclared types string, bool, the floats and the
integers and the name and the shorthand are free in the flag set of the command; for a
type of one of these kinds that is not the predeclared type itself it fails with the
recovered panic of the type assertion, `Error while creating flag for variable ...:
interface conversion: ...`; for every other kind, a slice of string or of int included,
it fails with `Cannot create a flag for <field>/<kind>, unsupported type`. -/
theorem doBind_flag_kinds (quote : String → String) (osenv : OsEnv) (v : Viper) (cmd : Command)
    (bf : BindField) (cur : GoVal) (vipername viperenv varname name short : String)
    (env docs : List (String × String)) (appname doc : String)
    (hdoc : assocGet docs varname = some doc) (hset : bf.field.Typ.set = none) :
    (bf.field.Typ.kind ∈ flagKinds → bf.field.Typ.name = bf.field.Typ.kind.text →
      (∀ g ∈ cmd.formal, g.flag.Name ≠ name) →
      (short = "" ∨ short = "hidden" ∨
        (short.utf8ByteSize ≤ 1 ∧ assocGet cmd.shorthands short = none)) →
      (doBind quote osenv v cmd bf cur vipername viperenv varname name short env docs
        appname).2.2.2 = none ∧
      ∃ ty, scalarFlagType bf.field.Typ.kind = some ty ∧
        (doBind quote osenv v cmd bf cur vipername viperenv varname name short env docs
          appname).2.1.Lookup name =
          some ⟨⟨name, false, cur.fmtV, ty, none⟩, if short = "hidden" then "" else short, doc,
            decide (short = "hidden")⟩) ∧
    (bf.field.Typ.kind ∈ flagKinds → bf.field.Typ.name ≠ bf.field.Typ.kind.text →
      doBind quote osenv v cmd bf cur vipername viperenv varname name short env docs appname =
        (v, cmd, env, some (.errorf ("Error while creating flag for variable " ++ varname ++
          ": interface conversion: interface \x7b\x7d is *" ++ bf.field.Typ.name ++
          ", not *" ++ bf.field.Typ.kind.text)))) ∧
    (bf.field.Typ.kind ∉ flagKinds →
      doBind quote osenv v cmd bf cur vipername viperenv varname name short env docs appname =
        (v, cmd, env, some (.errorf ("Cannot create a flag for " ++ varname ++ "/" ++
          bf.field.Typ.kind.text ++ ", unsupported type")))) := by
  refine ⟨?_, ?_, ?_⟩
  · intro hk hpre hname hshort
    obtain ⟨ty, hty⟩ : ∃ ty, scalarFlagType bf.field.Typ.kind = some ty := by
      have := (scalarFlagType_isSome_iff _).mpr hk
      exact Option.isSome_iff_exists.mp this
    have hnm : bf.field.Typ.name = ty := by
      rw [hpre, scalarFlagType_text _ _ hty]
    let fl : PFlag :=
      ⟨⟨name, false, cur.fmtV, ty, none⟩, if short = "hidden" then "" else short, doc, false⟩
    have hname' : ∀ g ∈ cmd.formal, g.flag.Name ≠ fl.flag.Name := hname
    have hshort' : fl.Shorthand = "" ∨
        (fl.Shorthand.utf8ByteSize ≤ 1 ∧ assocGet cmd.shorthands fl.Shorthand = none) := by
      show (if short = "hidden" then "" else short) = "" ∨ _
      by_cases hh : short = "hidden"
      · left; simp [hh]
      · rcases hshort with h | h | h
        · left; simp [h]
        · exact absurd h hh
        · right
          show (if short = "hidden" then "" else short).utf8ByteSize ≤ 1 ∧
            assocGet cmd.shorthands (if short = "hidden" then "" else short) = none
          simp only [hh, if_false]
          exact h
    have hadd := addFlag_free cmd fl hname' hshort'
    have hlook := addFlag_lookup cmd fl (decide (short = "hidden")) hname' hshort'
    have hlook' : (if decide (short = "hidden") = true then markHidden (addFlag cmd fl).1 name
        else (addFlag cmd fl).1).Lookup name =
        some ⟨⟨name, false, cur.fmtV, ty, none⟩, if short = "hidden" then "" else short, doc,
          decide (short = "hidden")⟩ := by
      simpa [fl] using hlook
    rcases hr : addFlag cmd fl with ⟨cmd', pn⟩
    rw [hr] at hadd hlook'
    simp only at hadd hlook'
    have hpn : pn = none := hadd.1
    subst hpn
    refine ⟨?_, ty, hty, ?_⟩
    · unfold doBind
      simp only [hdoc, hset, hty, hnm, if_true, decide_eq_true_eq]
      rw [show (⟨⟨name, false, cur.fmtV, ty, none⟩, if short = "hidden" then "" else short, doc,
        false⟩ : PFlag) = fl from rfl, hr]
      simp only [decide_eq_true_eq] at hlook'
      simp only [hlook']
      by_cases hv : vipername = "" <;> by_cases he : viperenv = "" <;> simp [hv, he]
    · unfold doBind
      simp only [hdoc, hset, hty, hnm, if_true, decide_eq_true_eq]
      rw [show (⟨⟨name, false, cur.fmtV, ty, none⟩, if short = "hidden" then "" else short, doc,
        false⟩ : PFlag) = fl from rfl, hr]
      simp only [decide_eq_true_eq] at hlook'
      simp only [hlook']
      by_cases hv : vipername = "" <;> by_cases he : viperenv = "" <;> simp [hv, he, hlook']
  · intro hk hpre
    obtain ⟨ty, hty⟩ : ∃ ty, scalarFlagType bf.field.Typ.kind = some ty := by
      have := (scalarFlagType_isSome_iff _).mpr hk
      exact Option.isSome_iff_exists.mp this
    have htx := scalarFlagType_text _ _ hty
    have hnm : ¬ bf.field.Typ.name = ty := by
      rw [htx]; exact hpre
    unfold doBind
    simp only [hdoc, hset, hty, hnm, if_false]
    rw [htx]
  · intro hk
    have hty := (scalarFlagType_none_iff _).mpr hk
    unfold doBind
    simp only [hdoc, hset, hty]

theorem doBind_flag_kinds_witness :
    (assocGet badConfigDocs "TestParam" = some "a test parameter" ∧
      (plainField "TestParam" "test|testParam|,," stringType).field.Typ.set = none ∧
      (plainField "TestParam" "test|testParam|,," stringType).field.Typ.kind ∈ flagKinds ∧
      (plainField "TestParam" "test|testParam|,," stringType).field.Typ.name =
        (plainField "TestParam" "test|testParam|,," stringType).field.Typ.kind.text) ∧
    ((doBind quotePlain [] Viper.new testCmd (plainField "TestParam" "test|testParam|,," stringType)
        (.str "dflt") "" "" "TestParam" "testParam" "" [] badConfigDocs "BAD").2.2.2 = none ∧
      ∃ ty, scalarFlagType (plainField "TestParam" "test|testParam|,," stringType).field.Typ.kind
          = some ty ∧
        (doBind quotePlain [] Viper.new testCmd
          (plainField "TestParam" "test|testParam|,," stringType) (.str "dflt") "" "" "TestParam"
          "testParam" "" [] badConfigDocs "BAD").2.1.Lookup "testParam" =
          some ⟨⟨"testParam", false, (GoVal.str "dflt").fmtV, ty, none⟩,
            if "" = "hidden" then "" else "", "a test parameter", decide ("" = "hidden")⟩) ∧
    ((plainField "TestParam" "test|testParam|,," durationType).field.Typ.kind ∈ flagKinds ∧
      (plainField "TestParam" "test|testParam|,," durationType).field.Typ.name ≠
        (plainField "TestParam" "test|testParam|,," durationType).field.Typ.kind.text) ∧
    doBind quotePlain [] Viper.new testCmd (plainField "TestParam" "test|testParam|,," durationType)
        (.int 0) "" "" "TestParam" "testParam" "" [] badConfigDocs "BAD" =
      (Viper.new, testCmd, [], some (.errorf
        "Error while creating flag for variable TestParam: interface conversion: interface \x7b\x7d is *time.Duration, not *int64")) :=
  ⟨⟨rfl, rfl, by decide, rfl⟩,
    (doBind_flag_kinds quotePlain [] Viper.new testCmd
      (plainField "TestParam" "test|testParam|,," stringType) (.str "dflt") "" "" "TestParam"
      "testParam" "" [] badConfigDocs "BAD" "a test parameter" rfl rfl).1 (by decide) rfl
      (fun g hg => absurd hg (List.not_mem_nil g)) (Or.inl rfl),
    ⟨by decide, by decide⟩,
    (doBind_flag_kinds quotePlain [] Viper.new testCmd
      (plainField "TestParam" "test|testParam|,," durationType) (.int 0) "" "" "TestParam"
      "testParam" "" [] badConfigDocs "BAD" "a test parameter" rfl rfl).2.1 (by decide)
      (by decide)⟩

/-- C14 as stated fails: for a documented field of type `[]string` or `[]int` without
`Set`, `doBind` makes no flag and fails with `Cannot create a flag for TestParam/slice,
unsupported type`; and for a field of type `string` it fails when the command already
has a flag of the name (the test `duplicate binding`). -/
theorem doBind_slice_counterexample :
    (sliceStringType.set.isNone ∧ sliceIntType.set.isNone ∧
      assocGet badConfigDocs "TestParam" = some "a test parameter") ∧
    doBind quotePlain [] Viper.new testCmd (plainField "TestParam" "test|testParam|,," sliceStringType)
        (.other "[]string" "[]") "" "" "TestParam" "testParam" "" [] badConfigDocs "BAD" =
      (Viper.new, testCmd, [],
        some (.errorf "Cannot create a flag for TestParam/slice, unsupported type")) ∧
    doBind quotePlain [] Viper.new testCmd (plainField "TestParam" "test|testParam|,," sliceIntType)
        (.other "[]int" "[]") "" "" "TestParam" "testParam" "" [] badConfigDocs "BAD" =
      (Viper.new, testCmd, [],
        some (.errorf "Cannot create a flag for TestParam/slice, unsupported type")) ∧
    (doBind quotePlain [] Viper.new
        (doBind quotePlain [] Viper.new testCmd
          (plainField "TestParam1" "test|testParam|,," stringType) (.str "") "" "" "TestParam1"
          "testParam" "" [] badConfigDocs "BAD").2.1
        (plainField "TestParam2" "test|testParam|,," stringType) (.str "") "" "" "TestParam2"
        "testParam" "" [] badConfigDocs "BAD").2.2.2 =
      some (.errorf
        "Error while creating flag for variable TestParam2: test flag redefined: testParam") := by
  refine ⟨⟨rfl, rfl, rfl⟩, ?_, ?_, ?_⟩
  · rfl
  · rfl
  · decide

/-! ## Field collisions in `createBindings` -/

theorem bindFields_fails_of_seen (ext : External) (quote : String → String) (osenv : OsEnv)
    (docs : List (String × String)) (appname : String) (values : Struct) :
    ∀ (fields : List BindField) (seen : List String) (st : BindState),
      (∃ bf ∈ fields, bf.field.Name ∈ seen) →
      (bindFields ext quote osenv docs appname values fields seen st).2.2 ≠ none := by
  intro fields
  induction fields with
  | nil => intro seen st h; obtain ⟨bf, hbf, _⟩ := h; cases hbf
  | cons bf rest ih =>
    intro seen st h
    unfold bindFields
    by_cases hin : bf.field.Name ∈ seen
    · simp [hin]
    · simp only [hin, if_false]
      rcases hb : bindField ext quote osenv docs appname bf (values.get bf.field.Name) st with
        ⟨st', err⟩
      cases err with
      | some e => simp
      | none =>
        simp only
        apply ih
        obtain ⟨x, hx, hxs⟩ := h
        rcases List.mem_cons.mp hx with hx | hx
        · subst hx; exact absurd hxs hin
        · exact ⟨x, hx, List.mem_cons_of_mem _ hxs⟩

theorem bindFields_seen (ext : External) (quote : String → String) (osenv : OsEnv)
    (docs : List (String × String)) (appname : String) (values : Struct) :
    ∀ (fields : List BindField) (seen : List String) (st : BindState),
      (bindFields ext quote osenv docs appname values fields seen st).2.2 = none →
      (bindFields ext quote osenv docs appname values fields seen st).2.1 =
        (fields.map (fun bf => bf.field.Name)).reverse ++ seen := by
  intro fields
  induction fields with
  | nil => intro seen st _; rfl
  | cons bf rest ih =>
    intro seen st h
    unfold bindFields at h ⊢
    by_cases hin : bf.field.Name ∈ seen
    · simp [hin] at h
    · simp only [hin, if_false] at h ⊢
      rcases hb : bindField ext quote osenv docs appname bf (values.get bf.field.Name) st with
        ⟨st', err⟩
      rw [hb] at h
      cases err with
      | some e => simp at h
      | none =>
        simp only at h ⊢
        rw [ih _ _ h]
        simp

theorem bindFields_collision (ext : External) (quote : String → String) (osenv : OsEnv)
    (docs : List (String × String)) (appname : String) (values : Struct) (bf : BindField)
    (post : List BindField) :
    ∀ (pre : List BindField) (seen : List String) (st : BindState),
      (bindFields ext quote osenv docs appname values pre seen st).2.2 = none →
      bf.field.Name ∈ seen →
      (bindFields ext quote osenv docs appname values (pre ++ bf :: post) seen st).2.2 =
        some (collisionErr bf.field.Name) := by
  intro pre
  induction pre with
  | nil =>
    intro seen st _ hin
    simp only [List.nil_append]
    unfold bindFields
    simp [hin, collisionErr]
  | cons x rest ih =>
    intro seen st h hin
    simp only [List.cons_append]
    unfold bindFields at h ⊢
    by_cases hx : x.field.Name ∈ seen
    · simp [hx] at h
    · simp only [hx, if_false] at h ⊢
      rcases hb : bindField ext quote osenv docs appname x (values.get x.field.Name) st with
        ⟨st', err⟩
      rw [hb] at h
      cases err with
      | some e => simp at h
      | none =>
        simp only at h ⊢
        exact ih _ _ h (List.mem_cons_of_mem _ hin)

/-- C12, as the code has it.  `createBindings` fails whenever a field of the struct,
exported or not, has a name already recorded in `seenFields`; the error is the `Field
collision` error of that field when the fields before it bind without error (an
earlier field that fails gives its own error instead).  On success every field name
of the struct is recorded in `seenFields`, next to the names recorded before; hence
binding a user struct with the `seenFields` left by a successful binding of the base
configuration fails whenever a user field has the name of a base field. -/
theorem createBindings_collision (ext : External) (quote : String → String) (osenv : OsEnv)
    (fields : List BindField) (values : Struct) (vp : Viper) (p : List (String × Command))
    (env docs : List (String × String)) (appname : String) (seenFields : List String) :
    ((∃ bf ∈ fields, bf.field.Name ∈ seenFields) →
      ∀ implementsConfig : Bool,
        (createBindings ext quote osenv implementsConfig fields values vp p env docs appname
          seenFields).err ≠ none) ∧
    (∀ (pre post : List BindField) (bf : BindField), fields = pre ++ bf :: post →
      bf.field.Name ∈ seenFields →
      (createBindings ext quote osenv true pre values vp p env docs appname seenFields).err = none →
      (createBindings ext quote osenv true fields values vp p env docs appname seenFields).err =
        some (collisionErr bf.field.Name)) ∧
    ((createBindings ext quote osenv true fields values vp p env docs appname seenFields).err = none →
      (∀ bf ∈ fields, bf.field.Name ∈
        (createBindings ext quote osenv true fields values vp p env docs appname
          seenFields).seenFields) ∧
      (∀ n ∈ seenFields, n ∈
        (createBindings ext quote osenv true fields values vp p env docs appname
          seenFields).seenFields) ∧
      ∀ (userFields : List BindField) (userValues : Struct) (vp2 : Viper)
        (p2 : List (String × Command)) (env2 docs2 : List (String × String)) (appname2 : String),
        (∃ uf ∈ userFields, ∃ bf ∈ fields, uf.field.Name = bf.field.Name) →
        (createBindings ext quote osenv true userFields userValues vp2 p2 env2 docs2 appname2
          (createBindings ext quote osenv true fields values vp p env docs appname
            seenFields).seenFields).err ≠ none) := by
  have key : ∀ (fs : List BindField) (vals : Struct) (v : Viper) (q : List (String × Command))
      (e d : List (String × String)) (a : String) (seen : List String),
      (createBindings ext quote osenv true fs vals v q e d a seen).err =
        (bindFields ext quote osenv d a vals fs seen ⟨v, q, e, []⟩).2.2 ∧
      (createBindings ext quote osenv true fs vals v q e d a seen).seenFields =
        (bindFields ext quote osenv d a vals fs seen ⟨v, q, e, []⟩).2.1 := by
    intro fs vals v q e d a seen
    unfold createBindings
    simp only [not_true_eq_false, if_false]
    rcases bindFields ext quote osenv d a vals fs seen ⟨v, q, e, []⟩ with ⟨st, seen', err⟩
    cases err <;> exact ⟨rfl, rfl⟩
  have fails : ∀ (fs : List BindField) (vals : Struct) (v : Viper) (q : List (String × Command))
      (e d : List (String × String)) (a : String) (seen : List String),
      (∃ bf ∈ fs, bf.field.Name ∈ seen) → ∀ ic : Bool,
      (createBindings ext quote osenv ic fs vals v q e d a seen).err ≠ none := by
    intro fs vals v q e d a seen h ic
    cases ic
    · unfold createBindings
      simp
    · rw [(key fs vals v q e d a seen).1]
      exact bindFields_fails_of_seen ext quote osenv d a vals fs seen _ h
  refine ⟨fails fields values vp p env docs appname seenFields, ?_, ?_⟩
  · intro pre post bf hf hin hpre
    rw [(key _ _ _ _ _ _ _ _).1] at hpre ⊢
    rw [hf]
    exact bindFields_collision ext quote osenv docs appname values bf post pre seenFields _ hpre hin
  · intro hok
    have hs := (key fields values vp p env docs appname seenFields).2
    rw [(key _ _ _ _ _ _ _ _).1] at hok
    have hseen := bindFields_seen ext quote osenv docs appname values fields seenFields _ hok
    rw [hs, hseen]
    refine ⟨?_, ?_, ?_⟩
    · intro bf hbf
      apply List.mem_append_left
      rw [List.mem_reverse, List.mem_map]
      exact ⟨bf, hbf, rfl⟩
    · intro n hn
      exact List.mem_append_right _ hn
    · intro userFields userValues vp2 p2 env2 docs2 appname2 h
      apply fails
      obtain ⟨uf, huf, bf, hbf, hname⟩ := h
      refine ⟨uf, huf, ?_⟩
      apply List.mem_append_left
      rw [List.mem_reverse, List.mem_map]
      exact ⟨bf, hbf, hname.symm⟩

theorem createBindings_collision_witness :
    (∃ bf ∈ shadowingFields, bf.field.Name ∈ ["LogLevel"]) ∧
    (∀ implementsConfig : Bool,
      (createBindings scenarioExt quotePlain [] implementsConfig shadowingFields
        [("LogLevel", .str "")] Viper.new [] [] [] "PARTIAL" ["LogLevel"]).err ≠ none) ∧
    (createBindings scenarioExt quotePlain [] true shadowingFields
        [("LogLevel", .str "")] Viper.new [] [] [] "PARTIAL" ["LogLevel"]).err =
      some (.errorf ("Field collision on field LogLevel, " ++
        "user configurations cannot shadow base configuration fields")) :=
  ⟨⟨plainField "LogLevel" "||none,," stringType, by simp [shadowingFields], by simp [plainField]⟩,
    (createBindings_collision scenarioExt quotePlain [] shadowingFields [("LogLevel", .str "")]
      Viper.new [] [] [] "PARTIAL" ["LogLevel"]).1
      ⟨plainField "LogLevel" "||none,," stringType, by simp [shadowingFields],
        by simp [plainField]⟩,
    by decide⟩

/-- C12 as stated fails: the struct has the field `LogLevel`, whose name is already
recorded in `seenFields`, and `createBindings` fails with the error of the untagged
field before it, not with a `Field collision` error. -/
theorem createBindings_collision_counterexample :
    (∃ bf ∈ untaggedFields, bf.field.Name ∈ ["LogLevel"]) ∧
    (createBindings scenarioExt quotePlain [] true untaggedFields
        [("Bad", .str ""), ("LogLevel", .str "")] Viper.new [] [] [] "PARTIAL" ["LogLevel"]).err =
      some (.errorf "could not find a greenery tag for Bad") ∧
    (createBindings scenarioExt quotePlain [] true untaggedFields
        [("Bad", .str ""), ("LogLevel", .str "")] Viper.new [] [] [] "PARTIAL" ["LogLevel"]).err ≠
      some (collisionErr "LogLevel") :=
  ⟨⟨plainField "LogLevel" "||none,," stringType, by simp [untaggedFields], by simp [plainField]⟩,
    by decide, by decide⟩

/-! ## Type checks at bind time and the last branches of `setField` -/

theorem defensiveErr_withErr (key : String) (e : GoErr) : defensiveErr (withErr key e) = false := rfl

theorem checkIntOverflow_not_defensive (err : Option CastErr) (key : String) (which : Nat)
    (vc : Int) (v : GoVal) (e : GoErr) (h : checkIntOverflow err key which vc v = some e) :
    defensiveErr e = false := by
  unfold checkIntOverflow at h
  cases err with
  | some c => simp only at h; cases h; rfl
  | none =>
    simp only at h
    split at h
    · cases h; rfl
    · cases h

theorem checkUIntOverflow_not_defensive (err : Option CastErr) (key : String) (which : Nat)
    (vc : Int) (v : GoVal) (e : GoErr) (h : checkUIntOverflow err key which vc v = some e) :
    defensiveErr e = false := by
  unfold checkUIntOverflow at h
  cases err with
  | some c => simp only at h; cases h; rfl
  | none =>
    simp only at h
    split at h
    · cases h; rfl
    · cases h

theorem map_withErr_not_defensive (err : Option CastErr) (key : String) (e : GoErr)
    (h : err.map (fun c => withErr key (.cast c)) = some e) : defensiveErr e = false := by
  cases err with
  | none => cases h
  | some c => simp only [Option.map_some'] at h; cases h; rfl

theorem callUnmarshal_not_defensive (setter : Method) (cur v : GoVal) (key : String) (e : GoErr)
    (h : (callUnmarshal setter cur v key).2 = some e) : defensiveErr e = false := by
  unfold callUnmarshal at h
  cases v with
  | str s =>
    simp only at h
    rcases hs : setter cur s with ⟨nv, err⟩
    rw [hs] at h
    cases err with
    | some m => simp only at h; cases h; rfl
    | none => simp only at h; cases h
  | nil => simp only at h; cases h; simp [defensiveErr, String.data_append, List.isPrefixOf]
  | bool b => simp only at h; cases h; simp [defensiveErr, String.data_append, List.isPrefixOf]
  | int i => simp only at h; cases h; simp [defensiveErr, String.data_append, List.isPrefixOf]
  | other t x => simp only at h; cases h; simp [defensiveErr, String.data_append, List.isPrefixOf]

theorem getString_not_defensive (ext : External) (key : String) (v : GoVal) (e : GoErr)
    (h : (getString ext key v).2 = some e) : defensiveErr e = false := by
  unfold getString at h
  exact map_withErr_not_defensive _ key e h

theorem getBool_not_defensive (key : String) (v : GoVal) (e : GoErr)
    (h : (getBool key v).2 = some e) : defensiveErr e = false := by
  unfold getBool at h
  exact map_withErr_not_defensive _ key e h

theorem getFloat32_not_defensive (ext : External) (key : String) (v : GoVal) (e : GoErr)
    (h : (getFloat32 ext key v).2 = some e) : defensiveErr e = false := by
  unfold getFloat32 at h
  simp only at h
  split at h
  · simp only at h; cases h; rfl
  · exact map_withErr_not_defensive _ key e h

theorem getFloat64_not_defensive (ext : External) (key : String) (v : GoVal) (e : GoErr)
    (h : (getFloat64 ext key v).2 = some e) : defensiveErr e = false := by
  unfold getFloat64 at h
  exact map_withErr_not_defensive _ key e h

theorem getIntSlice_not_defensive (ext : External) (key : String) (v : GoVal) (e : GoErr)
    (h : (getIntSlice ext key v).2 = some e) : defensiveErr e = false := by
  unfold getIntSlice at h
  exact map_withErr_not_defensive _ key e h

theorem getStringSlice_not_defensive (ext : External) (key : String) (v : GoVal) (e : GoErr)
    (h : (getStringSlice ext key v).2 = some e) : defensiveErr e = false := by
  unfold getStringSlice at h
  exact map_withErr_not_defensive _ key e h

/-- The integer conversions of `conversions.go` never make an error of the last two
branches of `setField`. -/
theorem getIntegers_not_defensive (g : String → GoVal → Int × Option GoErr)
    (hg : g ∈ [getInt, getInt8, getInt16, getInt32, getInt64,
      getUint, getUint8, getUint16, getUint32, getUint64])
    (key : String) (v : GoVal) (e : GoErr) (h : (g key v).2 = some e) :
    defensiveErr e = false := by
  simp only [List.mem_cons, List.mem_singleton, List.not_mem_nil, or_false] at hg
  rcases hg with r | r | r | r | r | r | r | r | r | r <;> subst r
  · unfold getInt at h; exact map_withErr_not_defensive _ key e h
  · unfold getInt8 at h; exact checkIntOverflow_not_defensive _ _ _ _ _ e h
  · unfold getInt16 at h; exact checkIntOverflow_not_defensive _ _ _ _ _ e h
  · unfold getInt32 at h; exact checkIntOverflow_not_defensive _ _ _ _ _ e h
  · unfold getInt64 at h; exact map_withErr_not_defensive _ key e h
  · unfold getUint at h; exact map_withErr_not_defensive _ key e h
  · unfold getUint8 at h; exact checkUIntOverflow_not_defensive _ _ _ _ _ e h
  · unfold getUint16 at h; exact checkUIntOverflow_not_defensive _ _ _ _ _ e h
  · unfold getUint32 at h; exact checkUIntOverflow_not_defensive _ _ _ _ _ e h
  · unfold getUint64 at h; exact map_withErr_not_defensive _ key e h

/-- An error of the last two branches of `setField` is made only for a field of a
kind that has no other branch. -/
theorem setField_defensive (ext : External) (env : OsEnv) (ft : FieldType) (cur : GoVal)
    (vp : Option Viper) (v : GoVal) (key : String) (e : GoErr)
    (h : (setField ext env ft cur vp v key).2 = some e) (hd : defensiveErr e = true) :
    defensiveKind ft.kind = true := by
  have no : ∀ e' : GoErr, defensiveErr e' = false → e' = e → False := by
    intro e' h1 h2
    rw [h2, hd] at h1
    cases h1
  unfold setField at h
  cases hk : ft.kind <;> simp only [hk] at h <;> try rfl
  case string =>
    split at h
    · next _ e' hg =>
      exact (no e' (getString_not_defensive ext key _ e' (by rw [hg])) (by simpa using h)).elim
    · cases h
  case bool =>
    split at h
    · next _ e' hg =>
      exact (no e' (getBool_not_defensive key _ e' (by rw [hg])) (by simpa using h)).elim
    · cases h
  case float32 =>
    split at h
    · next e' hg =>
      exact (no e' (getFloat32_not_defensive ext key _ e' hg) (by simpa using h)).elim
    · cases h
  case float64 =>
    split at h
    · next e' hg =>
      exact (no e' (getFloat64_not_defensive ext key _ e' hg) (by simpa using h)).elim
    · cases h
  case sliceInt =>
    split at h
    · next e' hg =>
      exact (no e' (getIntSlice_not_defensive ext key _ e' hg) (by simpa using h)).elim
    · cases h
  case sliceString =>
    split at h
    · next e' hg =>
      exact (no e' (getStringSlice_not_defensive ext key _ e' hg) (by simpa using h)).elim
    · cases h
  case struct =>
    split at h
    · cases h
    · split at h
      · next setter _ =>
        exact (no e (callUnmarshal_not_defensive setter cur _ key e h) rfl).elim
      · simp only at h
        cases h
        simp [defensiveErr, String.data_append, List.isPrefixOf] at hd
  case ptr =>
    split at h
    · cases h
    · split at h
      · cases h
      · split at h
        · next setter _ =>
          exact (no e (callUnmarshal_not_defensive setter cur _ key e h) rfl).elim
        · simp only at h
          cases h
          simp [defensiveErr, String.data_append, List.isPrefixOf] at hd
  all_goals
    split at h
    · next e' hg =>
      exact (no e' (getIntegers_not_defensive _ (by simp) key _ e' hg) (by simpa using h)).elim
    · cases h

theorem assignFromStore_defensive (ext : External) (env : OsEnv) (vp : Viper) (x : StructField)
    (cur : GoVal) (key : String) (e : GoErr)
    (h : (assignFromStore ext env vp x cur key).2 = some e) (hd : defensiveErr e = true) :
    x.Typ.set = none ∧ isExported ext x.Name = true ∧ defensiveKind x.Typ.kind = true := by
  unfold assignFromStore at h
  cases hs : x.Typ.set with
  | some setter =>
    rw [hs] at h
    simp only at h
    cases hr : (setter cur (vp.GetString ext env key)).2 with
    | none => rw [hr] at h; cases h
    | some m =>
      rw [hr] at h
      simp only [Option.map_some'] at h
      cases h
      cases hd
  | none =>
    rw [hs] at h
    simp only at h
    by_cases hx : isExported ext x.Name = true
    · simp only [hx, not_true_eq_false, if_false] at h
      exact ⟨rfl, hx, setField_defensive ext env x.Typ cur (some vp) .nil key e h hd⟩
    · simp only [hx, not_false_eq_true, if_true] at h
      cases h
      simp [defensiveErr, String.data_append, List.isPrefixOf] at hd

theorem assignFromString_defensive (ext : External) (env : OsEnv) (x : StructField)
    (cur : GoVal) (k v : String) (e : GoErr)
    (h : (assignFromString ext env x cur k v).2 = some e) (hd : defensiveErr e = true) :
    x.Typ.set = none ∧ defensiveKind x.Typ.kind = true := by
  unfold assignFromString at h
  cases hs : x.Typ.set with
  | some setter =>
    rw [hs] at h
    simp only at h
    cases hr : (setter cur v).2 with
    | none => rw [hr] at h; cases h
    | some m =>
      rw [hr] at h
      simp only [Option.map_some'] at h
      cases h
      cases hd
  | none =>
    rw [hs] at h
    simp only at h
    exact ⟨rfl, setField_defensive ext env x.Typ cur none (.str v) k e h hd⟩

/-- What is known of a field at which `loadHelper` makes an error of the last two
branches of `setField`. -/
theorem loadHelper_defensive (ext : External) (env : OsEnv) (vp : Viper) (keys : List String)
    (x : StructField) (v : Struct) (e : GoErr)
    (h : (loadHelper ext env vp keys x v).2.2 = some e) (hd : defensiveErr e = true) :
    (parseTags x.Name x.Tag).vipername ≠ "" ∧ x.Typ.set = none ∧
      isExported ext x.Name = true ∧ defensiveKind x.Typ.kind = true := by
  unfold loadHelper at h
  simp only at h
  split at h
  · next hc =>
    split at h
    · cases h
    · simp only at h
      exact ⟨hc.1, assignFromStore_defensive ext env vp x _ _ e h hd⟩
  · cases h

theorem loadBaseFields_defensive (ext : External) (env : OsEnv) (vp : Viper)
    (noclobber : List (String × String)) (outerName : String) (e : GoErr)
    (hd : defensiveErr e = true) :
    ∀ (fields : List StructField) (v2 : Struct) (keys : List String),
      (loadBaseFields ext env vp noclobber outerName fields v2 keys).2.2 = some e →
      ∃ x ∈ fields, (parseTags x.Name x.Tag).vipername ≠ "" ∧ x.Typ.set = none ∧
        isExported ext x.Name = true ∧ defensiveKind x.Typ.kind = true := by
  intro fields
  induction fields with
  | nil => intro v2 keys h; cases h
  | cons x2 rest ih =>
    intro v2 keys h
    rw [loadBaseFields] at h
    by_cases hl : (assocGet noclobber outerName).isSome = true
    · simp only [hl, if_true] at h
      obtain ⟨x, hx, hp⟩ := ih _ _ h
      exact ⟨x, List.mem_cons_of_mem _ hx, hp⟩
    · simp only [hl, if_false] at h
      rcases hlh : loadHelper ext env vp keys x2 v2 with ⟨v2', k', err⟩
      rw [hlh] at h
      cases err with
      | some e' =>
        simp only at h
        cases h
        exact ⟨x2, List.mem_cons_self _ _,
          loadHelper_defensive ext env vp keys x2 v2 e (by rw [hlh]) hd⟩
      | none =>
        simp only at h
        obtain ⟨x, hx, hp⟩ := ih _ _ h
        exact ⟨x, List.mem_cons_of_mem _ hx, hp⟩

theorem loadFields_defensive (ext : External) (env : OsEnv) (vp : Viper)
    (baseType : List StructField) (noclobber : List (String × String)) (e : GoErr)
    (hd : defensiveErr e = true) :
    ∀ (fields : List StructField) (cfg : Cfg) (keys : List String),
      (loadFields ext env vp baseType noclobber fields cfg keys).2.2 = some e →
      ∃ x ∈ fields ++ baseType, (parseTags x.Name x.Tag).vipername ≠ "" ∧ x.Typ.set = none ∧
        isExported ext x.Name = true ∧ defensiveKind x.Typ.kind = true := by
  intro fields
  induction fields with
  | nil => intro cfg keys h; cases h
  | cons x rest ih =>
    intro cfg keys h
    have up : (∃ y ∈ rest ++ baseType, (parseTags y.Name y.Tag).vipername ≠ "" ∧
        y.Typ.set = none ∧ isExported ext y.Name = true ∧ defensiveKind y.Typ.kind = true) →
        ∃ y ∈ (x :: rest) ++ baseType, (parseTags y.Name y.Tag).vipername ≠ "" ∧
        y.Typ.set = none ∧ isExported ext y.Name = true ∧ defensiveKind y.Typ.kind = true := by
      rintro ⟨y, hy, hp⟩
      exact ⟨y, List.mem_cons_of_mem _ hy, hp⟩
    rw [loadFields] at h
    cases hb : x.Typ.isBasePtr with
    | true =>
      simp only [hb, if_true] at h
      rcases hlb : loadBaseFields ext env vp noclobber x.Name baseType cfg.base keys with
        ⟨b, k', err⟩
      rw [hlb] at h
      cases err with
      | some e' =>
        simp only at h
        cases h
        obtain ⟨y, hy, hp⟩ := loadBaseFields_defensive ext env vp noclobber x.Name e hd
          baseType cfg.base keys (by rw [hlb])
        exact ⟨y, List.mem_append_right _ hy, hp⟩
      | none =>
        simp only at h
        exact up (ih _ _ h)
    | false =>
      simp only [hb, Bool.false_eq_true, if_false] at h
      by_cases hl : (assocGet noclobber x.Name).isSome = true
      · simp only [hl, if_true] at h
        exact up (ih _ _ h)
      · simp only [hl, if_false, Bool.false_eq_true] at h
        rcases hlh : loadHelper ext env vp keys x cfg.user with ⟨u, k', err⟩
        rw [hlh] at h
        cases err with
        | some e' =>
          simp only at h
          cases h
          exact ⟨x, List.mem_append_left _ (List.mem_cons_self _ _),
            loadHelper_defensive ext env vp keys x cfg.user e (by rw [hlh]) hd⟩
        | none =>
          simp only at h
          exact up (ih _ _ h)

theorem setString_defensive (ext : External) (env : OsEnv) (sch : Schema) (cfg : Cfg)
    (k v : String) (e : GoErr) (h : (setString ext env sch cfg k v).2 = some e)
    (hd : defensiveErr e = true) :
    ∃ x, (findField sch.userType k = some x ∨
        (findField sch.userType k = none ∧ findField sch.baseType k = some x)) ∧
      x.Typ.set = none ∧ defensiveKind x.Typ.kind = true := by
  unfold setString at h
  cases hu : findField sch.userType k with
  | some x =>
    rw [hu] at h
    simp only at h
    exact ⟨x, Or.inl rfl, assignFromString_defensive ext env x _ k v e h hd⟩
  | none =>
    rw [hu] at h
    simp only at h
    cases hbf : findField sch.baseType k with
    | some x =>
      rw [hbf] at h
      simp only at h
      exact ⟨x, Or.inr ⟨rfl, rfl⟩, assignFromString_defensive ext env x _ k v e h hd⟩
    | none =>
      rw [hbf] at h
      simp only at h
      cases h
      simp [defensiveErr, String.data_append, List.isPrefixOf] at hd

theorem loadAdditional_defensive (ext : External) (env : OsEnv) (sch : Schema) (uc : String)
    (noclobber : List (String × String)) (e : GoErr) (hd : defensiveErr e = true) :
    ∀ (additional : List additionalStruct) (cfg : Cfg) (sEnv : List (String × String)),
      (loadAdditional ext env sch uc noclobber additional cfg sEnv).2.2 = some e →
      ∃ vv ∈ additional, vv.Env ≠ "" ∧ ∃ x,
        (findField sch.userType vv.Name = some x ∨
          (findField sch.userType vv.Name = none ∧ findField sch.baseType vv.Name = some x)) ∧
        x.Typ.set = none ∧ defensiveKind x.Typ.kind = true := by
  intro additional
  induction additional with
  | nil => intro cfg sEnv h; cases h
  | cons vv rest ih =>
    intro cfg sEnv h
    have up : (∃ w ∈ rest, w.Env ≠ "" ∧ ∃ x,
        (findField sch.userType w.Name = some x ∨
          (findField sch.userType w.Name = none ∧ findField sch.baseType w.Name = some x)) ∧
        x.Typ.set = none ∧ defensiveKind x.Typ.kind = true) →
        ∃ w ∈ vv :: rest, w.Env ≠ "" ∧ ∃ x,
        (findField sch.userType w.Name = some x ∨
          (findField sch.userType w.Name = none ∧ findField sch.baseType w.Name = some x)) ∧
        x.Typ.set = none ∧ defensiveKind x.Typ.kind = true := by
      rintro ⟨w, hw, hp⟩
      exact ⟨w, List.mem_cons_of_mem _ hw, hp⟩
    rw [loadAdditional] at h
    generalize hev : (if vv.Env ≠ "" then env.getenv (uc ++ "_" ++ vv.Env) else "") = evalue at h
    generalize (if vv.Env ≠ "" ∧ evalue ≠ "" then assocSet sEnv (uc ++ "_" ++ vv.Env) evalue
      else sEnv) = sEnv' at h
    have henv : evalue ≠ "" → vv.Env ≠ "" := by
      intro hne henv
      apply hne
      rw [← hev]
      simp [henv]
    have setCase : evalue ≠ "" →
        (match setString ext env sch cfg vv.Name evalue with
          | (cfg', some err) => (cfg', sEnv', some err)
          | (cfg', none) => loadAdditional ext env sch uc noclobber rest cfg' sEnv').2.2 = some e →
        ∃ w ∈ vv :: rest, w.Env ≠ "" ∧ ∃ x,
          (findField sch.userType w.Name = some x ∨
            (findField sch.userType w.Name = none ∧ findField sch.baseType w.Name = some x)) ∧
          x.Typ.set = none ∧ defensiveKind x.Typ.kind = true := by
      intro hne h'
      rcases hs : setString ext env sch cfg vv.Name evalue with ⟨cfg', err⟩
      rw [hs] at h'
      cases err with
      | some e' =>
        simp only at h'
        cases h'
        exact ⟨vv, List.mem_cons_self _ _, henv hne,
          setString_defensive ext env sch cfg vv.Name evalue e (by rw [hs]) hd⟩
      | none =>
        simp only at h'
        exact up (ih _ _ h')
    by_cases hc : vv.Cmdline = ""
    · simp only [hc, if_true] at h
      by_cases hcond : evalue ≠ "" ∧ (assocGet noclobber vv.Name).isNone = true
      · simp only [hcond, and_self, if_true, ne_eq, not_false_eq_true] at h
        exact setCase hcond.1 h
      · simp only [hcond, if_false] at h
        exact up (ih _ _ h)
    · simp only [hc, if_false] at h
      by_cases hv : vv.Viper = ""
      · simp only [hv, if_true] at h
        by_cases hcond : evalue ≠ "" ∧ (assocGet noclobber vv.Name).isNone = true
        · simp only [hcond, and_self, if_true, ne_eq, not_false_eq_true] at h
          exact setCase hcond.1 h
        · simp only [hcond, if_false] at h
          exact up (ih _ _ h)
      · simp only [hv, if_false] at h
        cases h
        simp [defensiveErr, String.data_append, List.isPrefixOf] at hd

theorem readConfigFile_not_defensive (w : World) (bcfg : BaseInternals) (cfgFile : String)
    (noCfg : Bool) (dflt : String) (vp : Viper) (e : GoErr)
    (h : (readConfigFile w bcfg cfgFile noCfg dflt vp).2.2.2 = some e) :
    defensiveErr e = false := by
  unfold readConfigFile at h
  cases noCfg with
  | true => simp at h
  | false =>
    simp only [Bool.false_eq_true, if_false] at h
    cases hr : w.readInConfig (if cfgFile = "" then dflt else cfgFile) with
    | ok c => rw [hr] at h; simp at h
    | error r =>
      rw [hr] at h
      simp only at h
      split at h
      · split at h
        · simp only at h; cases h; rfl
        · simp at h
      · simp only at h; cases h; rfl

theorem runExtraParser_not_defensive (parser : Option ExtraParser) (cfg : Cfg)
    (otherKeys : List (String × GoVal)) (e : GoErr)
    (h : (runExtraParser parser cfg otherKeys).2 = some e) : defensiveErr e = false := by
  unfold runExtraParser at h
  split at h
  · cases parser with
    | none =>
      simp only at h
      cases h
      simp [unprocessedErr, defensiveErr, String.data_append, List.isPrefixOf]
    | some parse =>
      simp only at h
      rcases hp : parse cfg otherKeys with ⟨cfg', processed, err⟩
      rw [hp] at h
      simp only at h
      split at h
      · cases err with
        | none => simp at h
        | some m => simp only [Option.map_some'] at h; cases h; rfl
      · simp only at h
        cases h
        simp [unprocessedErr, defensiveErr, String.data_append, List.isPrefixOf]
  · cases h

/-- An error of the last two branches of `setField` that `load` returns was made at
a field that the main loop reads from the store, or at a field that an additional
record with an environment variable names. -/
theorem load_defensive (w : World) (sch : Schema) (env : OsEnv) (bcfg : BaseInternals) (cfg : Cfg)
    (dflt : String) (flags : List Flag) (vp : Viper) (e : GoErr)
    (hbase : (sch.userType.any fun x => x.Typ.isBasePtr) = true)
    (h : (load w sch env bcfg cfg dflt flags vp).err = some e) (hd : defensiveErr e = true) :
    (∃ x ∈ sch.userType ++ sch.baseType, (parseTags x.Name x.Tag).vipername ≠ "" ∧
        x.Typ.set = none ∧ isExported w.ext x.Name = true ∧ defensiveKind x.Typ.kind = true) ∨
    (∃ vv ∈ bcfg.s_additionalEnv, vv.Env ≠ "" ∧ ∃ x,
        (findField sch.userType vv.Name = some x ∨
          (findField sch.userType vv.Name = none ∧ findField sch.baseType vv.Name = some x)) ∧
        x.Typ.set = none ∧ defensiveKind x.Typ.kind = true) := by
  have no : ∀ e' : GoErr, defensiveErr e' = false → e' = e → False := by
    intro e' h1 h2
    rw [h2, hd] at h1
    cases h1
  have hint := readConfigFile_internals w bcfg (cfg.base.get "ConfFile").asString
    (cfg.base.get "NoCfg").asBool dflt vp
  have hrd := readConfigFile_not_defensive w bcfg (cfg.base.get "ConfFile").asString
    (cfg.base.get "NoCfg").asBool dflt vp
  unfold load at h
  dsimp only at h
  rcases hread : readConfigFile w bcfg (cfg.base.get "ConfFile").asString
    (cfg.base.get "NoCfg").asBool dflt vp with ⟨noCfg', vp', bcfg', rerr⟩
  rw [hread] at h hint hrd
  simp only at hint hrd
  cases rerr with
  | some re =>
    simp only at h
    cases h
    exact (no e (hrd e rfl) rfl).elim
  | none =>
    simp only at h
    rcases hlf : loadFields w.ext env vp' sch.baseType (noclobberOf flags) sch.userType cfg [] with
      ⟨cfg1, viperKeys, lerr⟩
    rw [hlf] at h
    cases lerr with
    | some le =>
      simp only at h
      cases h
      left
      exact loadFields_defensive w.ext env vp' sch.baseType (noclobberOf flags) e hd
        sch.userType cfg [] (by rw [hlf])
    | none =>
      simp only [hbase, not_true_eq_false, if_false] at h
      rcases hla : loadAdditional w.ext env sch bcfg'.s_ucAppName (noclobberOf flags)
        bcfg'.s_additionalEnv cfg1 bcfg'.s_env with ⟨cfg2, sEnv, aerr⟩
      rw [hla] at h
      cases aerr with
      | some ae =>
        simp only at h
        cases h
        right
        have := loadAdditional_defensive w.ext env sch bcfg'.s_ucAppName (noclobberOf flags) e hd
          bcfg'.s_additionalEnv cfg1 bcfg'.s_env (by rw [hla])
        rw [hint.2.1] at this
        exact this
      | none =>
        simp only at h
        split at h
        · cases h
        · split at h
          · simp only at h
            cases h
            simp [defensiveErr, String.data_append, List.isPrefixOf] at hd
          · next otherKeys _ =>
            rcases hp : runExtraParser bcfg'.s_extraParser cfg2 otherKeys with ⟨cfg3, perr⟩
            rw [hp] at h
            simp only at h
            exact (no e (runExtraParser_not_defensive bcfg'.s_extraParser cfg2 otherKeys e
              (by rw [hp]; exact h)) rfl).elim

theorem splitChars_ne_nil (sep : Char) (cs : List Char) : splitChars sep cs ≠ [] := by
  cases cs with
  | nil => simp [splitChars]
  | cons c rest =>
    unfold splitChars
    split
    · simp
    · split <;> simp

theorem strSplit_cons (s : String) (sep : Char) :
    ∃ rest, strSplit s sep = (strSplit s sep).headD "" :: rest := by
  unfold strSplit
  rcases h : splitChars sep s.data with _ | ⟨p, ps⟩
  · exact absurd h (splitChars_ne_nil sep s.data)
  · exact ⟨ps.map String.mk, by simp⟩

theorem doBind_rejects (quote : String → String) (osenv : OsEnv) (v : Viper) (cmd : Command)
    (bf : BindField) (cur : GoVal) (vipername viperenv varname name short : String)
    (env docs : List (String × String)) (appname : String)
    (hset : bf.field.Typ.set = none) (hk : bf.field.Typ.kind ∉ flagKinds) :
    (doBind quote osenv v cmd bf cur vipername viperenv varname name short env docs
      appname).2.2.2 ≠ none := by
  have hty := (scalarFlagType_none_iff _).mpr hk
  unfold doBind
  cases hd : assocGet docs varname with
  | none => simp
  | some doc => simp [hset, hty]

/-- A field with a configuration key or an environment variable, a command-line part
that is not empty and whose first stanza is not `custom`, and a type without `Set`
that is neither of a scalar kind nor accepted by the check for `none` is refused. -/
theorem bindField_rejects (ext : External) (quote : String → String) (osenv : OsEnv)
    (docs : List (String × String)) (appname : String) (bf : BindField) (cur : GoVal)
    (st : BindState)
    (hbase : bf.field.Typ.isBasePtr = false) (hexp : isExported ext bf.field.Name = true)
    (hkey : (parseTags bf.field.Name bf.field.Tag).vipername ≠ "" ∨
      (parseTags bf.field.Name bf.field.Tag).viperenv ≠ "")
    (hunch : uncheckedCobra (parseTags bf.field.Name bf.field.Tag).cobra = false)
    (hset : bf.field.Typ.set = none) (hk : bf.field.Typ.kind ∉ flagKinds)
    (hcfg : cfgKindOk bf = false) :
    (bindField ext quote osenv docs appname bf cur st).2 ≠ none := by
  unfold bindField
  simp only [hbase, Bool.false_eq_true, if_false, hexp, not_true_eq_false]
  generalize ht : parseTags bf.field.Name bf.field.Tag = t at hkey hunch
  cases hte : t.err with
  | some msg => simp
  | none =>
    simp only
    by_cases henv : t.viperenv ≠ "" ∧ ¬ envKindOk bf.field.Typ = true
    · simp [henv]
    · simp only [henv, if_false]
      unfold uncheckedCobra at hunch
      simp only [Bool.or_eq_false_iff, decide_eq_false_iff_not] at hunch
      obtain ⟨hc, hcust⟩ := hunch
      simp only [hc, false_and, if_false]
      obtain ⟨rest, hsp⟩ := strSplit_cons t.cobra sepMultipleCmds
      rw [hsp]
      generalize (strSplit t.cobra sepMultipleCmds).headD "" = cc at hcust
      unfold bindStanzas
      simp only [gt_iff_lt, lt_self_iff_false, false_and, if_false]
      split_ifs
      all_goals first
        | (simp; done)
        | (exfalso; simp_all; done)
        | (split
           · simp
           · split
             · simp
             · rename_i hdb
               exact absurd (by rw [hdb])
                 (doBind_rejects quote osenv _ _ bf cur _ _ _ _ _ _ docs appname hset hk))

theorem bindFields_fails_of_field (ext : External) (quote : String → String) (osenv : OsEnv)
    (docs : List (String × String)) (appname : String) (values : Struct) (bf : BindField)
    (hbf : ∀ (cur : GoVal) (st : BindState),
      (bindField ext quote osenv docs appname bf cur st).2 ≠ none) :
    ∀ (fields : List BindField) (seen : List String) (st : BindState), bf ∈ fields →
      (bindFields ext quote osenv docs appname values fields seen st).2.2 ≠ none := by
  intro fields
  induction fields with
  | nil => intro seen st h; cases h
  | cons x rest ih =>
    intro seen st h
    unfold bindFields
    by_cases hin : x.field.Name ∈ seen
    · simp [hin]
    · simp only [hin, if_false]
      rcases hb : bindField ext quote osenv docs appname x (values.get x.field.Name) st with
        ⟨st', err⟩
      cases err with
      | some e => simp
      | none =>
        simp only
        rcases List.mem_cons.mp h with hx | hx
        · subst hx
          exact absurd (by rw [hb]) (hbf (values.get bf.field.Name) st)
        · exact ih _ _ hx

theorem createBindings_eq (ext : External) (quote : String → String) (osenv : OsEnv)
    (fields : List BindField) (values : Struct) (vp : Viper) (p : List (String × Command))
    (env docs : List (String × String)) (appname : String) (seen : List String) :
    (createBindings ext quote osenv true fields values vp p env docs appname seen).err =
      (bindFields ext quote osenv docs appname values fields seen ⟨vp, p, env, []⟩).2.2 ∧
    (createBindings ext quote osenv true fields values vp p env docs appname seen).seenFields =
      (bindFields ext quote osenv docs appname values fields seen ⟨vp, p, env, []⟩).2.1 ∧
    ∀ vv ∈ (createBindings ext quote osenv true fields values vp p env docs appname
        seen).additional,
      vv ∈ (bindFields ext quote osenv docs appname values fields seen ⟨vp, p, env, []⟩).1.additional := by
  unfold createBindings
  simp only [not_true_eq_false, if_false]
  rcases bindFields ext quote osenv docs appname values fields seen ⟨vp, p, env, []⟩ with
    ⟨st, seen', err⟩
  cases err with
  | none => exact ⟨rfl, rfl, fun vv h => h⟩
  | some e => exact ⟨rfl, rfl, fun vv h => absurd h (List.not_mem_nil vv)⟩

theorem bindFields_each (ext : External) (quote : String → String) (osenv : OsEnv)
    (docs : List (String × String)) (appname : String) (values : Struct) :
    ∀ (fields : List BindField) (seen : List String) (st : BindState),
      (bindFields ext quote osenv docs appname values fields seen st).2.2 = none →
      ∀ bf ∈ fields, ∃ (cur : GoVal) (st' : BindState),
        (bindField ext quote osenv docs appname bf cur st').2 = none := by
  intro fields
  induction fields with
  | nil => intro seen st _ bf hbf; cases hbf
  | cons x rest ih =>
    intro seen st h bf hbf
    unfold bindFields at h
    by_cases hin : x.field.Name ∈ seen
    · simp [hin] at h
    · simp only [hin, if_false] at h
      rcases hb : bindField ext quote osenv docs appname x (values.get x.field.Name) st with
        ⟨st', err⟩
      rw [hb] at h
      cases err with
      | some e => simp at h
      | none =>
        simp only at h
        rcases List.mem_cons.mp hbf with hx | hx
        · subst hx
          exact ⟨values.get bf.field.Name, st, by rw [hb]⟩
        · exact ih _ _ h bf hx

theorem bindFields_nodup (ext : External) (quote : String → String) (osenv : OsEnv)
    (docs : List (String × String)) (appname : String) (values : Struct) :
    ∀ (fields : List BindField) (seen : List String) (st : BindState),
      (bindFields ext quote osenv docs appname values fields seen st).2.2 = none →
      (fields.map (fun bf => bf.field.Name)).Nodup ∧ ∀ bf ∈ fields, bf.field.Name ∉ seen := by
  intro fields
  induction fields with
  | nil => intro seen st _; exact ⟨List.nodup_nil, fun bf h => by cases h⟩
  | cons x rest ih =>
    intro seen st h
    unfold bindFields at h
    by_cases hin : x.field.Name ∈ seen
    · simp [hin] at h
    · simp only [hin, if_false] at h
      rcases hb : bindField ext quote osenv docs appname x (values.get x.field.Name) st with
        ⟨st', err⟩
      rw [hb] at h
      cases err with
      | some e => simp at h
      | none =>
        simp only at h
        obtain ⟨hnd, hnot⟩ := ih _ _ h
        refine ⟨?_, ?_⟩
        · rw [List.map_cons, List.nodup_cons]
          refine ⟨?_, hnd⟩
          intro hmem
          rw [List.mem_map] at hmem
          obtain ⟨y, hy, hyn⟩ := hmem
          exact hnot y hy (by rw [hyn]; exact List.mem_cons_self _ _)
        · intro bf hbf
          rcases List.mem_cons.mp hbf with hx | hx
          · subst hx; exact hin
          · intro hs
            exact hnot bf hx (List.mem_cons_of_mem _ hs)

theorem annotate_additional (st : BindState) (cmdName name vipername varname : String) :
    (annotate st cmdName name vipername varname).additional = st.additional := by
  unfold annotate
  split <;> rfl

theorem bindStanzas_records (quote : String → String) (osenv : OsEnv)
    (docs : List (String × String)) (appname : String) (bf : BindField) (cur : GoVal)
    (viperenv : String) :
    ∀ (stanzas : List String) (ic : Nat) (vipername : String) (checked : Bool) (st : BindState),
      ∀ vv ∈ (bindStanzas quote osenv docs appname bf cur viperenv stanzas ic vipername checked
          st).1.additional,
        vv ∈ st.additional ∨ (vv.Name = bf.field.Name ∧ vv.Env = viperenv) := by
  intro stanzas
  induction stanzas with
  | nil => intro ic vipername checked st vv h; exact Or.inl h
  | cons cc rest ih =>
    intro ic vipername checked st vv h
    have grow : ∀ (ic' : Nat) (vn : String) (ch : Bool) (r : additionalStruct),
        r.Name = bf.field.Name → r.Env = viperenv →
        vv ∈ (bindStanzas quote osenv docs appname bf cur viperenv rest ic' vn ch
          { st with additional := st.additional ++ [r] }).1.additional →
        vv ∈ st.additional ∨ (vv.Name = bf.field.Name ∧ vv.Env = viperenv) := by
      intro ic' vn ch r hn he hm
      rcases ih ic' vn ch _ vv hm with h1 | h1
      · simp only [List.mem_append, List.mem_singleton] at h1
        rcases h1 with h1 | h1
        · exact Or.inl h1
        · subst h1; exact Or.inr ⟨hn, he⟩
      · exact Or.inr h1
    unfold bindStanzas at h
    simp only at h
    split_ifs at h
    all_goals first
      | exact Or.inl h
      | exact ih _ _ _ _ vv h
      | exact grow _ _ _ _ rfl rfl h
      | skip
    all_goals
      split at h
      · first
        | exact Or.inl h
        | (simp only [List.mem_append, List.mem_singleton] at h
           rcases h with h | h
           · exact Or.inl h
           · subst h; exact Or.inr ⟨rfl, rfl⟩)
      · split at h
        · first
          | exact Or.inl h
          | (simp only [List.mem_append, List.mem_singleton] at h
             rcases h with h | h
             · exact Or.inl h
             · subst h; exact Or.inr ⟨rfl, rfl⟩)
        · rcases ih _ _ _ _ vv h with h1 | h1
          · rw [annotate_additional] at h1
            first
              | exact Or.inl h1
              | (simp only [List.mem_append, List.mem_singleton] at h1
                 rcases h1 with h1 | h1
                 · exact Or.inl h1
                 · subst h1; exact Or.inr ⟨rfl, rfl⟩)
          · exact Or.inr h1

theorem bindField_records (ext : External) (quote : String → String) (osenv : OsEnv)
    (docs : List (String × String)) (appname : String) (bf : BindField) (cur : GoVal)
    (st : BindState) :
    ∀ vv ∈ (bindField ext quote osenv docs appname bf cur st).1.additional,
      vv ∈ st.additional ∨
        (vv.Name = bf.field.Name ∧ vv.Env = (parseTags bf.field.Name bf.field.Tag).viperenv ∧
          bf.field.Typ.isBasePtr = false ∧ isExported ext bf.field.Name = true) := by
  intro vv h
  unfold bindField at h
  cases hb : bf.field.Typ.isBasePtr with
  | true => simp only [hb, if_true] at h; exact Or.inl h
  | false =>
    simp only [hb, Bool.false_eq_true, if_false] at h
    cases hx : isExported ext bf.field.Name with
    | false => simp only [hx, Bool.false_eq_true, not_false_eq_true, if_true] at h; exact Or.inl h
    | true =>
      simp only [hx, not_true_eq_false, if_false] at h
      split at h
      · exact Or.inl h
      · split_ifs at h
        · exact Or.inl h
        · simp only [List.mem_append, List.mem_singleton] at h
          rcases h with h | h
          · exact Or.inl h
          · subst h; exact Or.inr ⟨rfl, rfl, rfl, rfl⟩
        · rcases bindStanzas_records quote osenv docs appname bf cur _ _ _ _ _ _ vv h with h1 | h1
          · exact Or.inl h1
          · exact Or.inr ⟨h1.1, h1.2, rfl, rfl⟩

theorem bindFields_records (ext : External) (quote : String → String) (osenv : OsEnv)
    (docs : List (String × String)) (appname : String) (values : Struct) :
    ∀ (fields : List BindField) (seen : List String) (st : BindState),
      ∀ vv ∈ (bindFields ext quote osenv docs appname values fields seen st).1.additional,
        vv ∈ st.additional ∨ ∃ bf ∈ fields,
          vv.Name = bf.field.Name ∧ vv.Env = (parseTags bf.field.Name bf.field.Tag).viperenv ∧
            bf.field.Typ.isBasePtr = false ∧ isExported ext bf.field.Name = true := by
  intro fields
  induction fields with
  | nil => intro seen st vv h; exact Or.inl h
  | cons x rest ih =>
    intro seen st vv h
    unfold bindFields at h
    by_cases hin : x.field.Name ∈ seen
    · simp only [hin, if_true] at h; exact Or.inl h
    · simp only [hin, if_false] at h
      have hrec := bindField_records ext quote osenv docs appname x (values.get x.field.Name) st vv
      rcases hb : bindField ext quote osenv docs appname x (values.get x.field.Name) st with
        ⟨st', err⟩
      rw [hb] at h hrec
      have fromHead : vv ∈ st'.additional →
          vv ∈ st.additional ∨ ∃ bf ∈ x :: rest,
            vv.Name = bf.field.Name ∧
              vv.Env = (parseTags bf.field.Name bf.field.Tag).viperenv ∧
              bf.field.Typ.isBasePtr = false ∧ isExported ext bf.field.Name = true := by
        intro hm
        rcases hrec hm with h1 | h1
        · exact Or.inl h1
        · exact Or.inr ⟨x, List.mem_cons_self _ _, h1⟩
      cases err with
      | some e => exact fromHead h
      | none =>
        simp only at h
        rcases ih _ _ vv h with h1 | ⟨bf, hbf, hp⟩
        · exact fromHead h1
        · exact Or.inr ⟨bf, List.mem_cons_of_mem _ hbf, hp⟩

theorem findField_unique (fields : List StructField) (x : StructField)
    (hnd : (fields.map StructField.Name).Nodup) (hx : x ∈ fields) :
    findField fields x.Name = some x := by
  induction fields with
  | nil => cases hx
  | cons y rest ih =>
    unfold findField
    rw [List.map_cons, List.nodup_cons] at hnd
    rcases List.mem_cons.mp hx with h | h
    · subst h
      simp [List.find?]
    · have hne : y.Name ≠ x.Name := by
        intro he
        apply hnd.1
        rw [he]
        exact List.mem_map_of_mem _ h
      simp only [List.find?, hne, decide_False]
      exact ih hnd.2 h

theorem findField_mem (fields : List StructField) (k : String) (x : StructField)
    (h : findField fields k = some x) : x ∈ fields ∧ x.Name = k := by
  unfold findField at h
  exact ⟨List.mem_of_find?_eq_some h, by simpa using List.find?_some h⟩

theorem defensiveKind_unsupported (bf : BindField)
    (hd : defensiveKind bf.field.Typ.kind = true) :
    bf.field.Typ.kind ∉ flagKinds ∧ cfgKindOk bf = false := by
  unfold cfgKindOk
  cases hk : bf.field.Typ.kind <;> rw [hk] at hd <;> simp [defensiveKind, flagKinds] at hd ⊢

theorem unsupported_cfgKind (bf : BindField) (hset : bf.field.Typ.set = none)
    (hk : bf.field.Typ.kind ∉ flagKinds) (hsi : bf.field.Typ.kind ≠ .sliceInt)
    (hss : bf.field.Typ.kind ≠ .sliceString)
    (hm : ¬ (bf.field.Typ.unmarshalText.isSome = true ∧ bf.marshalText = true)) :
    cfgKindOk bf = false := by
  unfold cfgKindOk
  cases hkind : bf.field.Typ.kind <;> rw [hkind] at hk hsi hss <;>
    simp [flagKinds, scalarFlagType, hset] at hk hsi hss ⊢
  all_goals
    intro h1
    cases h2 : bf.marshalText with
    | false => rfl
    | true => exact absurd ⟨h1, h2⟩ hm

/-- C13, as the code has it.  First part: `createBindings` fails for every struct
with an exported field that has a configuration key or an environment suffix, a
command-line part that is not empty and whose first stanza is not `custom`, and a type
that has no `Set`, is of no scalar kind, is no slice of `int` or of `string` and has not
both `UnmarshalText` and `MarshalText`.  Second part: when the base configuration and
the user struct were bound without error, an error of the last two branches of
`setField` that `load` returns was made at a field that has a configuration key or an
environment suffix and whose command-line part is empty or starts with a `custom`
stanza. -/
theorem createBindings_type_checks (ext : External) (quote : String → String) :
    (∀ (osenv : OsEnv) (fields : List BindField) (values : Struct) (vp : Viper)
      (p : List (String × Command)) (env docs : List (String × String)) (appname : String)
      (seenFields : List String) (implementsConfig : Bool) (bf : BindField),
      bf ∈ fields → bf.field.Typ.isBasePtr = false → isExported ext bf.field.Name = true →
      ((parseTags bf.field.Name bf.field.Tag).vipername ≠ "" ∨
        (parseTags bf.field.Name bf.field.Tag).viperenv ≠ "") →
      uncheckedCobra (parseTags bf.field.Name bf.field.Tag).cobra = false →
      bf.field.Typ.set = none → bf.field.Typ.kind ∉ flagKinds →
      bf.field.Typ.kind ≠ .sliceInt → bf.field.Typ.kind ≠ .sliceString →
      ¬ (bf.field.Typ.unmarshalText.isSome = true ∧ bf.marshalText = true) →
      (createBindings ext quote osenv implementsConfig fields values vp p env docs appname
        seenFields).err ≠ none) ∧
    (∀ (osenvB osenvU : OsEnv) (baseFields userFields : List BindField)
      (baseValues userValues : Struct) (vpB vpU : Viper) (pB pU : List (String × Command))
      (envB envU docsB docsU : List (String × String)) (appB appU : String)
      (seenFields : List String),
      (createBindings ext quote osenvB true baseFields baseValues vpB pB envB docsB appB
        seenFields).err = none →
      (createBindings ext quote osenvU true userFields userValues vpU pU envU docsU appU
        (createBindings ext quote osenvB true baseFields baseValues vpB pB envB docsB appB
          seenFields).seenFields).err = none →
      (∀ bf ∈ userFields ++ baseFields, bf.field.Typ.isBasePtr = true →
        bf.field.Typ.kind = .ptr) →
      ∀ (w : World) (sch : Schema) (env : OsEnv) (bcfg : BaseInternals) (cfg : Cfg)
        (dflt : String) (flags : List Flag) (vp : Viper) (e : GoErr),
        w.ext = ext → sch.userType = userFields.map (fun bf => bf.field) →
        sch.baseType = baseFields.map (fun bf => bf.field) →
        (sch.userType.any fun x => x.Typ.isBasePtr) = true →
        (∀ vv ∈ bcfg.s_additionalEnv,
          vv ∈ (createBindings ext quote osenvB true baseFields baseValues vpB pB envB docsB appB
              seenFields).additional ∨
          vv ∈ (createBindings ext quote osenvU true userFields userValues vpU pU envU docsU appU
              (createBindings ext quote osenvB true baseFields baseValues vpB pB envB docsB appB
                seenFields).seenFields).additional) →
        (load w sch env bcfg cfg dflt flags vp).err = some e → defensiveErr e = true →
        ∃ bf ∈ userFields ++ baseFields,
          bf.field.Typ.set = none ∧ defensiveKind bf.field.Typ.kind = true ∧
          ((parseTags bf.field.Name bf.field.Tag).vipername ≠ "" ∨
            (parseTags bf.field.Name bf.field.Tag).viperenv ≠ "") ∧
          uncheckedCobra (parseTags bf.field.Name bf.field.Tag).cobra = true) := by
  constructor
  · intro osenv fields values vp p env docs appname seenFields ic bf hbf hbase hexp hkey hunch
      hset hk hsi hss hm
    cases ic
    · unfold createBindings
      simp
    · rw [(createBindings_eq ext quote osenv fields values vp p env docs appname seenFields).1]
      apply bindFields_fails_of_field ext quote osenv docs appname values bf ?_ fields _ _ hbf
      intro cur st
      exact bindField_rejects ext quote osenv docs appname bf cur st hbase hexp hkey hunch hset hk
        (unsupported_cfgKind bf hset hk hsi hss hm)
  · intro osenvB osenvU baseFields userFields baseValues userValues vpB vpU pB pU envB envU
      docsB docsU appB appU seenFields hB hU hptr w sch env bcfg cfg dflt flags vp e hext hut hbt
      hany hadd herr hd
    obtain ⟨eB, sB, aB⟩ := createBindings_eq ext quote osenvB baseFields baseValues vpB pB envB
      docsB appB seenFields
    obtain ⟨eU, _, aU⟩ := createBindings_eq ext quote osenvU userFields userValues vpU pU envU
      docsU appU
      (createBindings ext quote osenvB true baseFields baseValues vpB pB envB docsB appB
        seenFields).seenFields
    rw [eB] at hB
    rw [eU] at hU
    -- every bound field with a key or a variable and an unsupported type is unchecked
    have unchecked : ∀ bf ∈ userFields ++ baseFields, bf.field.Typ.isBasePtr = false →
        isExported ext bf.field.Name = true →
        ((parseTags bf.field.Name bf.field.Tag).vipername ≠ "" ∨
          (parseTags bf.field.Name bf.field.Tag).viperenv ≠ "") →
        bf.field.Typ.set = none → defensiveKind bf.field.Typ.kind = true →
        uncheckedCobra (parseTags bf.field.Name bf.field.Tag).cobra = true := by
      intro bf hbf hbase hexp hkey hset hdk
      have hbound : ∃ (docs : List (String × String)) (app : String) (osenv : OsEnv) (cur : GoVal)
          (st : BindState), (bindField ext quote osenv docs app bf cur st).2 = none := by
        rcases List.mem_append.mp hbf with h | h
        · obtain ⟨cur, st, hs⟩ := bindFields_each ext quote osenvU docsU appU userValues
            userFields _ _ hU bf h
          exact ⟨docsU, appU, osenvU, cur, st, hs⟩
        · obtain ⟨cur, st, hs⟩ := bindFields_each ext quote osenvB docsB appB baseValues
            baseFields _ _ hB bf h
          exact ⟨docsB, appB, osenvB, cur, st, hs⟩
      obtain ⟨docs, app, osenv, cur, st, hs⟩ := hbound
      by_contra hun
      have hun' : uncheckedCobra (parseTags bf.field.Name bf.field.Tag).cobra = false := by
        simpa using hun
      have hu := defensiveKind_unsupported bf hdk
      exact bindField_rejects ext quote osenv docs app bf cur st hbase hexp hkey hun' hset hu.1
        hu.2 hs
    have notBase : ∀ bf ∈ userFields ++ baseFields, defensiveKind bf.field.Typ.kind = true →
        bf.field.Typ.isBasePtr = false := by
      intro bf hbf hdk
      cases hb : bf.field.Typ.isBasePtr with
      | false => rfl
      | true =>
        rw [hptr bf hbf hb] at hdk
        cases hdk
    rcases load_defensive w sch env bcfg cfg dflt flags vp e hany herr hd with
      ⟨x, hx, hvn, hset, hexp, hdk⟩ | ⟨vv, hvv, henv, x, hfind, hset, hdk⟩
    · rw [hut, hbt, ← List.map_append, List.mem_map] at hx
      obtain ⟨bf, hbf, rfl⟩ := hx
      rw [hext] at hexp
      exact ⟨bf, hbf, hset, hdk, Or.inl hvn,
        unchecked bf hbf (notBase bf hbf hdk) hexp (Or.inl hvn) hset hdk⟩
    · have ndU := bindFields_nodup ext quote osenvU docsU appU userValues userFields _ _ hU
      have ndB := bindFields_nodup ext quote osenvB docsB appB baseValues baseFields _ _ hB
      have seenB := bindFields_seen ext quote osenvB docsB appB baseValues baseFields seenFields
        _ hB
      have mapName : ∀ l : List BindField,
          (l.map (fun bf => bf.field)).map StructField.Name = l.map (fun bf => bf.field.Name) := by
        intro l; simp [List.map_map, Function.comp]
      -- the record comes from a field of one of the two structs
      have hsrc : ∃ bf, (bf ∈ userFields ∨ bf ∈ baseFields) ∧ vv.Name = bf.field.Name ∧
          vv.Env = (parseTags bf.field.Name bf.field.Tag).viperenv ∧
          bf.field.Typ.isBasePtr = false ∧ isExported ext bf.field.Name = true := by
        rcases hadd vv hvv with h | h
        · rcases bindFields_records ext quote osenvB docsB appB baseValues baseFields _ _ vv
            (aB vv h) with h1 | ⟨bf, hbf, hp⟩
          · cases h1
          · exact ⟨bf, Or.inr hbf, hp⟩
        · rcases bindFields_records ext quote osenvU docsU appU userValues userFields _ _ vv
            (aU vv h) with h1 | ⟨bf, hbf, hp⟩
          · cases h1
          · exact ⟨bf, Or.inl hbf, hp⟩
      obtain ⟨bf, hwhere, hname, henvEq, hbase, hexp⟩ := hsrc
      have hkey : (parseTags bf.field.Name bf.field.Tag).vipername ≠ "" ∨
          (parseTags bf.field.Name bf.field.Tag).viperenv ≠ "" := by
        right; rw [← henvEq]; exact henv
      -- the field that `setString` finds is that field
      have hx : x = bf.field := by
        rcases hwhere with hu | hb
        · have hfu : findField sch.userType vv.Name = some bf.field := by
            rw [hname, hut]
            apply findField_unique
            · rw [mapName]; exact ndU.1
            · exact List.mem_map_of_mem _ hu
          rcases hfind with h | ⟨h, _⟩
          · rw [hfu] at h; cases h; rfl
          · rw [hfu] at h; cases h
        · rcases hfind with h | ⟨_, h⟩
          · exfalso
            obtain ⟨hxm, hxn⟩ := findField_mem _ _ _ h
            rw [hut, List.mem_map] at hxm
            obtain ⟨uf, huf, rfl⟩ := hxm
            apply ndU.2 uf huf
            rw [sB, seenB]
            apply List.mem_append_left
            rw [List.mem_reverse, List.mem_map]
            exact ⟨bf, hb, by rw [hxn, hname]⟩
          · have hfb : findField sch.baseType vv.Name = some bf.field := by
              rw [hname, hbt]
              apply findField_unique
              · rw [mapName]; exact ndB.1
              · exact List.mem_map_of_mem _ hb
            rw [hfb] at h; cases h; rfl
      subst hx
      have hbf : bf ∈ userFields ++ baseFields := by
        rcases hwhere with h | h
        · exact List.mem_append_left _ h
        · exact List.mem_append_right _ h
      exact ⟨bf, hbf, hset, hdk, hkey, unchecked bf hbf hbase hexp hkey hset hdk⟩

/-- C13 as stated fails: the field `Special` has a configuration key and the type
`complex128`, which has no `Set`, is of no scalar kind, is no slice and has no
`UnmarshalText`, and `createBindings` takes it, marked `custom`, without error. -/
theorem createBindings_custom_counterexample :
    (parseTags "Special" "||custom, .special, ").vipername = "special" ∧
    complex128Type.set.isNone ∧ complex128Type.unmarshalText.isNone ∧
    complex128Type.kind ∉ flagKinds ∧ complex128Type.kind ≠ .sliceInt ∧
    complex128Type.kind ≠ .sliceString ∧
    (createBindings scenarioExt quotePlain [] true customComplexFields
      [("Special", .other "complex128" "(0+0i)")] Viper.new [] [] [] "APP" []).err = none ∧
    (createBindings scenarioExt quotePlain [] true customComplexFields
      [("Special", .other "complex128" "(0+0i)")] Viper.new [] [] [] "APP" []).additional =
      [⟨"Special", "", "", "special", ""⟩] := by
  refine ⟨by decide, rfl, rfl, by decide, by decide, by decide, by decide, by decide⟩

theorem createBindings_type_checks_witness :
    (configvarBound.err = none ∧
      configvarResult.err = some (.errorf
        "Unsupported type complex128 for configvar, custom flag requiring custom deserialization?: 1") ∧
      defensiveErr (.errorf
        "Unsupported type complex128 for configvar, custom flag requiring custom deserialization?: 1")
        = true) ∧
    ∃ bf ∈ configvarFields ++ [],
      bf.field.Typ.set = none ∧ defensiveKind bf.field.Typ.kind = true ∧
      ((parseTags bf.field.Name bf.field.Tag).vipername ≠ "" ∨
        (parseTags bf.field.Name bf.field.Tag).viperenv ≠ "") ∧
      uncheckedCobra (parseTags bf.field.Name bf.field.Tag).cobra = true :=
  ⟨⟨by decide, by decide, by decide⟩,
    (createBindings_type_checks scenarioExt quotePlain).2 [] [] [] configvarFields []
      [("TestParam", .other "complex128" "(0+0i)")] Viper.new Viper.new [] [] [] [] [] []
      "PARTIAL" "PARTIAL" [] (by decide) (by decide) (by decide)
      ⟨scenarioExt, fun _ => .ok [("configvar", .int 1)]⟩
      ⟨configvarFields.map (fun bf => bf.field), []⟩ []
      (internalsOf "partial" "PARTIAL" [] configvarBound.additional none)
      ⟨[("TestParam", .other "complex128" "(0+0i)")], baseValues "" false false⟩ "partial.toml" []
      configvarBound.vp
      (.errorf
        "Unsupported type complex128 for configvar, custom flag requiring custom deserialization?: 1")
      rfl rfl rfl (by decide) (by decide) (by decide) (by decide)⟩

/-! ## Parsing a documentation list (`ConvertDocs`) -/

theorem lineAt_at_length (pre : List String) (x : String) (rest : List String) :
    lineAt (pre ++ x :: rest) pre.length = .ok x := by
  unfold lineAt
  have h : (pre ++ x :: rest)[pre.length]? = some x := by
    induction pre with
    | nil => simp
    | cons a t ih => simpa using ih
  rw [h]

theorem lineAt_at_length_add (pre mid : List String) (x : String) (rest : List String) (n : Nat)
    (hn : n = pre.length + mid.length) :
    lineAt (pre ++ (mid ++ x :: rest)) n = .ok x := by
  subst hn
  rw [← List.append_assoc, ← List.length_append]
  exact lineAt_at_length (pre ++ mid) x rest

theorem flattenPairs_length (pairs : List (String × String)) :
    (flattenPairs pairs).length = 2 * pairs.length := by
  induction pairs with
  | nil => rfl
  | cons p rest ih =>
    obtain ⟨k, v⟩ := p
    simp only [flattenPairs, List.length_cons, ih]
    omega

theorem flattenUsage_length (entries : List (String × CmdHelp)) :
    (flattenUsage entries).length = 5 * entries.length := by
  induction entries with
  | nil => rfl
  | cons p rest ih =>
    obtain ⟨k, c⟩ := p
    simp only [flattenUsage, List.length_cons, ih]
    omega

/-- The loop of `helperBaseCmd` on a closed section: the names are among the names
of the base section and were not met before. -/
theorem helperBaseLoop_section (post : List String) :
    ∀ (pairs : List (String × String)) (pre : List String) (found : List (String × Nat))
      (langDoc : DocSet) (fuel : Nat),
      (pairs.map Prod.fst).Nodup → (∀ p ∈ pairs, p.1 ∈ baseKeys) →
      (∀ p ∈ pairs, (assocGet found p.1).getD 0 = 0) → pairs.length < fuel →
      helperBaseLoop (pre ++ (flattenPairs pairs ++ BaseDelimiter :: post))
          (pre ++ (flattenPairs pairs ++ BaseDelimiter :: post)).length fuel pre.length found
          langDoc =
        .ok (pairs.foldl (fun d p => d.setBase p.1 p.2) langDoc,
          pre.length + 2 * pairs.length + 1) := by
  intro pairs
  induction pairs with
  | nil =>
    intro pre found langDoc fuel _ _ _ hf
    obtain ⟨f, rfl⟩ : ∃ f, fuel = f + 1 := ⟨fuel - 1, by simp at hf; omega⟩
    unfold helperBaseLoop
    simp only [flattenPairs, List.nil_append, lineAt_at_length, List.length_append,
      List.length_cons, if_true, List.foldl_nil, List.length_nil]
    simp
  | cons p ps ih =>
    intro pre found langDoc fuel hnd hkeys hfound hf
    obtain ⟨k, v⟩ := p
    obtain ⟨f, rfl⟩ : ∃ f, fuel = f + 1 := ⟨fuel - 1, by simp at hf; omega⟩
    have hk : k ∈ baseKeys := hkeys (k, v) (List.mem_cons_self _ _)
    have hkd : k ≠ BaseDelimiter := by
      intro h; rw [h] at hk; revert hk; decide
    have hfk : (assocGet found k).getD 0 = 0 := hfound (k, v) (List.mem_cons_self _ _)
    rw [List.map_cons, List.nodup_cons] at hnd
    have e1 : lineAt (pre ++ (flattenPairs ((k, v) :: ps) ++ BaseDelimiter :: post)) pre.length
        = .ok k := by
      simp only [flattenPairs, List.cons_append]
      exact lineAt_at_length pre k _
    have e2 : lineAt (pre ++ (flattenPairs ((k, v) :: ps) ++ BaseDelimiter :: post))
        (pre.length + 1) = .ok v := by
      simp only [flattenPairs, List.cons_append]
      exact lineAt_at_length_add pre [k] v _ _ (by simp)
    have e3 : pre ++ (flattenPairs ((k, v) :: ps) ++ BaseDelimiter :: post) =
        (pre ++ [k, v]) ++ (flattenPairs ps ++ BaseDelimiter :: post) := by
      simp [flattenPairs]
    have hlen : (pre ++ (flattenPairs ((k, v) :: ps) ++ BaseDelimiter :: post)).length =
        pre.length + 2 * ps.length + 3 + post.length := by
      simp only [List.length_append, List.length_cons, flattenPairs, flattenPairs_length]
      omega
    unfold helperBaseLoop
    rw [e1, e2]
    have hlt : pre.length < (pre ++ (flattenPairs ((k, v) :: ps) ++ BaseDelimiter :: post)).length := by
      rw [hlen]; omega
    have hne : ¬ pre.length =
        (pre ++ (flattenPairs ((k, v) :: ps) ++ BaseDelimiter :: post)).length - 1 := by
      rw [hlen]; omega
    simp only [hlt, if_true, hkd, if_false, hne, hk, hfk, gt_iff_lt, lt_self_iff_false]
    have hrec := ih (pre ++ [k, v]) (assocSet found k pre.length) (langDoc.setBase k v) f hnd.2
      (fun p hp => hkeys p (List.mem_cons_of_mem _ hp))
      (by
        intro p hp
        have hpk : k ≠ p.1 := by
          intro h
          apply hnd.1
          rw [h]
          exact List.mem_map.mpr ⟨p, hp, rfl⟩
        rw [assocGet_assocSet, if_neg hpk]
        exact hfound p (List.mem_cons_of_mem _ hp))
      (by simp at hf ⊢; omega)
    rw [← e3] at hrec
    have hl2 : (pre ++ [k, v]).length = pre.length + 2 := by simp
    rw [hl2] at hrec
    rw [hrec]
    simp only [List.foldl_cons, List.length_cons]
    congr 2
    omega

/-- The loop of `helperHelp` on a closed section. -/
theorem helperHelpLoop_section (post : List String) :
    ∀ (pairs : List (String × String)) (pre : List String) (found : List (String × Nat))
      (hStrings : HelpStrings) (fuel : Nat),
      (pairs.map Prod.fst).Nodup → (∀ p ∈ pairs, p.1 ∈ helpKeys) →
      (∀ p ∈ pairs, (assocGet found p.1).getD 0 = 0) → pairs.length < fuel →
      helperHelpLoop (pre ++ (flattenPairs pairs ++ HelpDelimiter :: post))
          (pre ++ (flattenPairs pairs ++ HelpDelimiter :: post)).length fuel pre.length found
          hStrings =
        .ok (pairs.foldl (fun h p => h.set p.1 p.2) hStrings,
          pre.length + 2 * pairs.length + 1) := by
  intro pairs
  induction pairs with
  | nil =>
    intro pre found hStrings fuel _ _ _ hf
    obtain ⟨f, rfl⟩ : ∃ f, fuel = f + 1 := ⟨fuel - 1, by simp at hf; omega⟩
    unfold helperHelpLoop
    simp only [flattenPairs, List.nil_append, lineAt_at_length, List.length_append,
      List.length_cons, if_true, List.foldl_nil, List.length_nil]
    simp
  | cons p ps ih =>
    intro pre found hStrings fuel hnd hkeys hfound hf
    obtain ⟨k, v⟩ := p
    obtain ⟨f, rfl⟩ : ∃ f, fuel = f + 1 := ⟨fuel - 1, by simp at hf; omega⟩
    have hk : k ∈ helpKeys := hkeys (k, v) (List.mem_cons_self _ _)
    have hkd : k ≠ HelpDelimiter := by
      intro h; rw [h] at hk; revert hk; decide
    have hfk : (assocGet found k).getD 0 = 0 := hfound (k, v) (List.mem_cons_self _ _)
    rw [List.map_cons, List.nodup_cons] at hnd
    have e1 : lineAt (pre ++ (flattenPairs ((k, v) :: ps) ++ HelpDelimiter :: post)) pre.length
        = .ok k := by
      simp only [flattenPairs, List.cons_append]
      exact lineAt_at_length pre k _
    have e2 : lineAt (pre ++ (flattenPairs ((k, v) :: ps) ++ HelpDelimiter :: post))
        (pre.length + 1) = .ok v := by
      simp only [flattenPairs, List.cons_append]
      exact lineAt_at_length_add pre [k] v _ _ (by simp)
    have e3 : pre ++ (flattenPairs ((k, v) :: ps) ++ HelpDelimiter :: post) =
        (pre ++ [k, v]) ++ (flattenPairs ps ++ HelpDelimiter :: post) := by
      simp [flattenPairs]
    have hlen : (pre ++ (flattenPairs ((k, v) :: ps) ++ HelpDelimiter :: post)).length =
        pre.length + 2 * ps.length + 3 + post.length := by
      simp only [List.length_append, List.length_cons, flattenPairs, flattenPairs_length]
      omega
    unfold helperHelpLoop
    rw [e1, e2]
    have hlt : pre.length < (pre ++ (flattenPairs ((k, v) :: ps) ++ HelpDelimiter :: post)).length := by
      rw [hlen]; omega
    have hne : ¬ pre.length =
        (pre ++ (flattenPairs ((k, v) :: ps) ++ HelpDelimiter :: post)).length - 1 := by
      rw [hlen]; omega
    simp only [hlt, if_true, hkd, if_false, hne, hk, hfk, gt_iff_lt, lt_self_iff_false]
    have hrec := ih (pre ++ [k, v]) (assocSet found k pre.length) (hStrings.set k v) f hnd.2
      (fun p hp => hkeys p (List.mem_cons_of_mem _ hp))
      (by
        intro p hp
        have hpk : k ≠ p.1 := by
          intro h
          apply hnd.1
          rw [h]
          exact List.mem_map.mpr ⟨p, hp, rfl⟩
        rw [assocGet_assocSet, if_neg hpk]
        exact hfound p (List.mem_cons_of_mem _ hp))
      (by simp at hf ⊢; omega)
    rw [← e3] at hrec
    have hl2 : (pre ++ [k, v]).length = pre.length + 2 := by simp
    rw [hl2] at hrec
    rw [hrec]
    simp only [List.foldl_cons, List.length_cons]
    congr 2
    omega

/-- The loop of `usageHelp` on a closed section. -/
theorem usageHelpLoop_section (post : List String) :
    ∀ (entries : List (String × CmdHelp)) (pre : List String) (seen : List (String × Nat))
      (cmds : List (String × Option CmdHelp)) (fuel : Nat),
      (entries.map Prod.fst).Nodup → (∀ e ∈ entries, e.1 ≠ UsageDelimiter) →
      (∀ e ∈ entries, assocGet seen e.1 = none) → entries.length < fuel →
      usageHelpLoop (pre ++ (flattenUsage entries ++ UsageDelimiter :: post))
          (pre ++ (flattenUsage entries ++ UsageDelimiter :: post)).length fuel pre.length seen
          cmds =
        .ok (entries.foldl (fun m e => assocSet m e.1 (some e.2)) cmds,
          pre.length + 5 * entries.length + 1) := by
  intro entries
  induction entries with
  | nil =>
    intro pre seen cmds fuel _ _ _ hf
    obtain ⟨f, rfl⟩ : ∃ f, fuel = f + 1 := ⟨fuel - 1, by simp at hf; omega⟩
    unfold usageHelpLoop
    simp only [flattenUsage, List.nil_append, lineAt_at_length, List.length_append,
      List.length_cons, if_true, List.foldl_nil, List.length_nil]
    simp
  | cons p ps ih =>
    intro pre seen cmds fuel hnd hkeys hseen hf
    obtain ⟨k, c⟩ := p
    obtain ⟨f, rfl⟩ : ∃ f, fuel = f + 1 := ⟨fuel - 1, by simp at hf; omega⟩
    have hkd : k ≠ UsageDelimiter := hkeys (k, c) (List.mem_cons_self _ _)
    have hsk : assocGet seen k = none := hseen (k, c) (List.mem_cons_self _ _)
    rw [List.map_cons, List.nodup_cons] at hnd
    have e0 : pre ++ (flattenUsage ((k, c) :: ps) ++ UsageDelimiter :: post) =
        pre ++ ([] ++ k :: ([c.Use, c.Short, c.Long, c.Example] ++
          (flattenUsage ps ++ UsageDelimiter :: post))) := by
      simp [flattenUsage]
    have e1 : lineAt (pre ++ (flattenUsage ((k, c) :: ps) ++ UsageDelimiter :: post)) pre.length
        = .ok k := by
      rw [e0]; exact lineAt_at_length_add pre [] k _ _ (by simp)
    have e2 : lineAt (pre ++ (flattenUsage ((k, c) :: ps) ++ UsageDelimiter :: post))
        (pre.length + 1) = .ok c.Use := by
      simp only [flattenUsage, List.cons_append]
      exact lineAt_at_length_add pre [k] c.Use _ _ (by simp)
    have e3 : lineAt (pre ++ (flattenUsage ((k, c) :: ps) ++ UsageDelimiter :: post))
        (pre.length + 2) = .ok c.Short := by
      simp only [flattenUsage, List.cons_append]
      exact lineAt_at_length_add pre [k, c.Use] c.Short _ _ (by simp)
    have e4 : lineAt (pre ++ (flattenUsage ((k, c) :: ps) ++ UsageDelimiter :: post))
        (pre.length + 3) = .ok c.Long := by
      simp only [flattenUsage, List.cons_append]
      exact lineAt_at_length_add pre [k, c.Use, c.Short] c.Long _ _ (by simp)
    have e5 : lineAt (pre ++ (flattenUsage ((k, c) :: ps) ++ UsageDelimiter :: post))
        (pre.length + 4) = .ok c.Example := by
      simp only [flattenUsage, List.cons_append]
      exact lineAt_at_length_add pre [k, c.Use, c.Short, c.Long] c.Example _ _ (by simp)
    have e6 : pre ++ (flattenUsage ((k, c) :: ps) ++ UsageDelimiter :: post) =
        (pre ++ [k, c.Use, c.Short, c.Long, c.Example]) ++
          (flattenUsage ps ++ UsageDelimiter :: post) := by
      simp [flattenUsage]
    have hlen : (pre ++ (flattenUsage ((k, c) :: ps) ++ UsageDelimiter :: post)).length =
        pre.length + 5 * ps.length + 6 + post.length := by
      simp only [List.length_append, List.length_cons, flattenUsage, flattenUsage_length]
      omega
    unfold usageHelpLoop
    rw [e1, e2, e3, e4, e5]
    have hlt : pre.length < (pre ++ (flattenUsage ((k, c) :: ps) ++ UsageDelimiter :: post)).length := by
      rw [hlen]; omega
    have hne : ¬ pre.length + 4 ≥
        (pre ++ (flattenUsage ((k, c) :: ps) ++ UsageDelimiter :: post)).length := by
      rw [hlen]; omega
    simp only [hlt, if_true, hkd, if_false, hne, hsk]
    have hrec := ih (pre ++ [k, c.Use, c.Short, c.Long, c.Example]) (assocSet seen k pre.length)
      (assocSet cmds k (some c)) f hnd.2
      (fun p hp => hkeys p (List.mem_cons_of_mem _ hp))
      (by
        intro p hp
        have hpk : k ≠ p.1 := by
          intro h
          apply hnd.1
          rw [h]
          exact List.mem_map.mpr ⟨p, hp, rfl⟩
        rw [assocGet_assocSet, if_neg hpk]
        exact hseen p (List.mem_cons_of_mem _ hp))
      (by simp at hf ⊢; omega)
    rw [← e6] at hrec
    have hl2 : (pre ++ [k, c.Use, c.Short, c.Long, c.Example]).length = pre.length + 5 := by simp
    rw [hl2] at hrec
    rw [hrec]
    simp only [List.foldl_cons, List.length_cons]
    congr 2
    omega

/-- The loop of `mapMap` on a closed section of the kind `what`, whose delimiter is
`delim`. -/
theorem mapMapLoop_section (what delim : String)
    (hw : (what, delim) ∈ [("cmd", CmdlineDelimiter), ("config", ConfigDelimiter),
      ("custom", CustomDelimiter)]) (post : List String) :
    ∀ (pairs : List (String × String)) (pre : List String) (seen : List (String × Nat))
      (mStrings : List (String × String)) (fuel : Nat),
      (pairs.map Prod.fst).Nodup → (∀ p ∈ pairs, p.1 ≠ "" ∧ p.1 ≠ delim) →
      (∀ p ∈ pairs, assocGet seen p.1 = none) → pairs.length < fuel →
      mapMapLoop (pre ++ (flattenPairs pairs ++ delim :: post))
          (pre ++ (flattenPairs pairs ++ delim :: post)).length what fuel pre.length seen
          mStrings =
        .ok (pairs.foldl (fun m p => assocSet m p.1 p.2) mStrings,
          pre.length + 2 * pairs.length + 1) := by
  intro pairs
  induction pairs with
  | nil =>
    intro pre seen mStrings fuel _ _ _ hf
    obtain ⟨f, rfl⟩ : ∃ f, fuel = f + 1 := ⟨fuel - 1, by simp at hf; omega⟩
    unfold mapMapLoop
    simp only [flattenPairs, List.nil_append, lineAt_at_length, List.length_append,
      List.length_cons, List.foldl_nil, List.length_nil]
    simp only [List.mem_cons, Prod.mk.injEq, List.mem_singleton, List.not_mem_nil, or_false] at hw
    rcases hw with ⟨h1, h2⟩ | ⟨h1, h2⟩ | ⟨h1, h2⟩ <;> subst h1 <;> subst h2 <;>
      simp [CmdlineDelimiter, ConfigDelimiter, CustomDelimiter]
  | cons p ps ih =>
    intro pre seen mStrings fuel hnd hkeys hseen hf
    obtain ⟨k, v⟩ := p
    obtain ⟨f, rfl⟩ : ∃ f, fuel = f + 1 := ⟨fuel - 1, by simp at hf; omega⟩
    have hk := hkeys (k, v) (List.mem_cons_self _ _)
    have hsk : assocGet seen k = none := hseen (k, v) (List.mem_cons_self _ _)
    rw [List.map_cons, List.nodup_cons] at hnd
    have e1 : lineAt (pre ++ (flattenPairs ((k, v) :: ps) ++ delim :: post)) pre.length
        = .ok k := by
      simp only [flattenPairs, List.cons_append]
      exact lineAt_at_length pre k _
    have e2 : lineAt (pre ++ (flattenPairs ((k, v) :: ps) ++ delim :: post))
        (pre.length + 1) = .ok v := by
      simp only [flattenPairs, List.cons_append]
      exact lineAt_at_length_add pre [k] v _ _ (by simp)
    have e3 : pre ++ (flattenPairs ((k, v) :: ps) ++ delim :: post) =
        (pre ++ [k, v]) ++ (flattenPairs ps ++ delim :: post) := by
      simp [flattenPairs]
    have hlen : (pre ++ (flattenPairs ((k, v) :: ps) ++ delim :: post)).length =
        pre.length + 2 * ps.length + 3 + post.length := by
      simp only [List.length_append, List.length_cons, flattenPairs, flattenPairs_length]
      omega
    have hc1 : ¬ (what = "cmd" ∧ k = CmdlineDelimiter) := by
      simp only [List.mem_cons, Prod.mk.injEq, List.mem_singleton, List.not_mem_nil, or_false] at hw
      rcases hw with ⟨h1, h2⟩ | ⟨h1, h2⟩ | ⟨h1, h2⟩ <;> subst h1 <;> subst h2
      · exact fun h => hk.2 h.2
      · exact fun h => absurd h.1 (by decide)
      · exact fun h => absurd h.1 (by decide)
    have hc2 : ¬ (what = "config" ∧ k = ConfigDelimiter) := by
      simp only [List.mem_cons, Prod.mk.injEq, List.mem_singleton, List.not_mem_nil, or_false] at hw
      rcases hw with ⟨h1, h2⟩ | ⟨h1, h2⟩ | ⟨h1, h2⟩ <;> subst h1 <;> subst h2
      · exact fun h => absurd h.1 (by decide)
      · exact fun h => hk.2 h.2
      · exact fun h => absurd h.1 (by decide)
    have hc3 : ¬ (what = "custom" ∧ k = CustomDelimiter) := by
      simp only [List.mem_cons, Prod.mk.injEq, List.mem_singleton, List.not_mem_nil, or_false] at hw
      rcases hw with ⟨h1, h2⟩ | ⟨h1, h2⟩ | ⟨h1, h2⟩ <;> subst h1 <;> subst h2
      · exact fun h => absurd h.1 (by decide)
      · exact fun h => absurd h.1 (by decide)
      · exact fun h => hk.2 h.2
    unfold mapMapLoop
    rw [e1, e2]
    have hlt : pre.length < (pre ++ (flattenPairs ((k, v) :: ps) ++ delim :: post)).length := by
      rw [hlen]; omega
    have hne : ¬ pre.length =
        (pre ++ (flattenPairs ((k, v) :: ps) ++ delim :: post)).length - 1 := by
      rw [hlen]; omega
    simp only [hlt, if_true, hc1, hc2, hc3, if_false, hk.1, hne, hsk]
    have hrec := ih (pre ++ [k, v]) (assocSet seen k pre.length) (assocSet mStrings k v) f hnd.2
      (fun p hp => hkeys p (List.mem_cons_of_mem _ hp))
      (by
        intro p hp
        have hpk : k ≠ p.1 := by
          intro h
          apply hnd.1
          rw [h]
          exact List.mem_map.mpr ⟨p, hp, rfl⟩
        rw [assocGet_assocSet, if_neg hpk]
        exact hseen p (List.mem_cons_of_mem _ hp))
      (by simp at hf ⊢; omega)
    rw [← e3] at hrec
    have hl2 : (pre ++ [k, v]).length = pre.length + 2 := by simp
    rw [hl2] at hrec
    rw [hrec]
    simp only [List.foldl_cons, List.length_cons]
    congr 2
    omega

theorem assocGet_none_of_not_mem {β : Type} (l : List (String × β)) (k : String)
    (h : k ∉ l.map Prod.fst) : assocGet l k = none := by
  induction l with
  | nil => rfl
  | cons p rest ih =>
    obtain ⟨a, b⟩ := p
    simp only [List.map_cons, List.mem_cons, not_or] at h
    simp only [assocGet, Ne.symm h.1, if_false]
    exact ih h.2

theorem assocSet_append_new {β : Type} (l : List (String × β)) (k : String) (v : β)
    (h : k ∉ l.map Prod.fst) : assocSet l k v = l ++ [(k, v)] := by
  induction l with
  | nil => rfl
  | cons p rest ih =>
    obtain ⟨a, b⟩ := p
    simp only [List.map_cons, List.mem_cons, not_or] at h
    simp only [assocSet, Ne.symm h.1, if_false, List.cons_append, ih h.2]

/-- Assigning pairs with distinct new names to a map appends them. -/
theorem foldl_assocSet_nodup {β γ : Type} (f : γ → β) (pairs : List (String × γ)) :
    ∀ (m : List (String × β)), (pairs.map Prod.fst).Nodup →
      (∀ p ∈ pairs, p.1 ∉ m.map Prod.fst) →
      pairs.foldl (fun m p => assocSet m p.1 (f p.2)) m = m ++ pairs.map fun p => (p.1, f p.2) := by
  induction pairs with
  | nil => intro m _ _; simp
  | cons p ps ih =>
    intro m hnd hm
    rw [List.map_cons, List.nodup_cons] at hnd
    rw [List.foldl_cons, assocSet_append_new m p.1 (f p.2) (hm p (List.mem_cons_self _ _))]
    rw [ih _ hnd.2]
    · simp
    · intro q hq
      simp only [List.map_append, List.map_cons, List.map_nil, List.mem_append, List.mem_singleton,
        not_or]
      refine ⟨hm q (List.mem_cons_of_mem _ hq), ?_⟩
      intro h
      apply hnd.1
      rw [← h]
      exact List.mem_map.mpr ⟨q, hq, rfl⟩

theorem foldl_assocSet_pairs (pairs : List (String × String)) (h : (pairs.map Prod.fst).Nodup) :
    pairs.foldl (fun m p => assocSet m p.1 p.2) [] = pairs := by
  have := foldl_assocSet_nodup (fun (x : String) => x) pairs [] h (by simp)
  simpa using this

theorem foldl_assocSet_usage (entries : List (String × CmdHelp))
    (h : (entries.map Prod.fst).Nodup) :
    entries.foldl (fun m e => assocSet m e.1 (some e.2)) [] =
      entries.map fun e => (e.1, some e.2) := by
  have := foldl_assocSet_nodup (fun (x : CmdHelp) => some x) entries [] h (by simp)
  simpa using this

theorem listedOr_cons (ps : List (String × String)) (k v n x : String)
    (h : k ∉ ps.map Prod.fst) :
    listedOr ps n (if k = n then v else x) = listedOr ((k, v) :: ps) n x := by
  unfold listedOr
  by_cases hk : k = n
  · subst hk
    simp [assocGet, assocGet_none_of_not_mem ps k h]
  · simp [assocGet, hk]

theorem setBase_fields (d : DocSet) (k v : String) :
    d.setBase k v =
      { d with
        Use := if k = "Use" then v else d.Use
        Short := if k = "Short" then v else d.Short
        Long := if k = "Long" then v else d.Long
        Example := if k = "Example" then v else d.Example
        HelpFlag := if k = "HelpFlag" then v else d.HelpFlag
        CmdFlags := if k = "CmdFlags" then v else d.CmdFlags
        ConfigEnvMsg1 := if k = "ConfigEnvMsg1" then v else d.ConfigEnvMsg1
        ConfigEnvMsg2 := if k = "ConfigEnvMsg2" then v else d.ConfigEnvMsg2
        ConfigEnvMsg3 := if k = "ConfigEnvMsg3" then v else d.ConfigEnvMsg3 } := by
  unfold DocSet.setBase
  by_cases h1 : k = "Use"
  · subst h1; simp
  by_cases h2 : k = "Short"
  · subst h2; simp
  by_cases h3 : k = "Long"
  · subst h3; simp
  by_cases h4 : k = "Example"
  · subst h4; simp
  by_cases h5 : k = "HelpFlag"
  · subst h5; simp
  by_cases h6 : k = "ConfigEnvMsg1"
  · subst h6; simp
  by_cases h7 : k = "ConfigEnvMsg2"
  · subst h7; simp
  by_cases h8 : k = "ConfigEnvMsg3"
  · subst h8; simp
  by_cases h9 : k = "CmdFlags"
  · subst h9; simp
  simp [h1, h2, h3, h4, h5, h6, h7, h8, h9]

theorem setHelp_fields (h : HelpStrings) (k v : String) :
    h.set k v =
      ⟨if k = "Usage" then v else h.Usage, if k = "Aliases" then v else h.Aliases,
        if k = "Examples" then v else h.Examples,
        if k = "AvailableCommands" then v else h.AvailableCommands,
        if k = "Flags" then v else h.Flags, if k = "GlobalFlags" then v else h.GlobalFlags,
        if k = "AdditionalHelpTopics" then v else h.AdditionalHelpTopics,
        if k = "ProvidesMoreInformationAboutACommand" then v
          else h.ProvidesMoreInformationAboutACommand⟩ := by
  unfold HelpStrings.set
  by_cases h1 : k = "Usage"
  · subst h1; simp
  by_cases h2 : k = "Aliases"
  · subst h2; simp
  by_cases h3 : k = "Examples"
  · subst h3; simp
  by_cases h4 : k = "AvailableCommands"
  · subst h4; simp
  by_cases h5 : k = "Flags"
  · subst h5; simp
  by_cases h6 : k = "GlobalFlags"
  · subst h6; simp
  by_cases h7 : k = "AdditionalHelpTopics"
  · subst h7; simp
  by_cases h8 : k = "ProvidesMoreInformationAboutACommand"
  · subst h8; simp
  simp [h1, h2, h3, h4, h5, h6, h7, h8]

/-- The fields of the document set after the assignments of a base section. -/
theorem foldl_setBase (pairs : List (String × String)) :
    ∀ (d : DocSet), (pairs.map Prod.fst).Nodup →
      pairs.foldl (fun d p => d.setBase p.1 p.2) d =
        { d with
          Use := listedOr pairs "Use" d.Use
          Short := listedOr pairs "Short" d.Short
          Long := listedOr pairs "Long" d.Long
          Example := listedOr pairs "Example" d.Example
          HelpFlag := listedOr pairs "HelpFlag" d.HelpFlag
          CmdFlags := listedOr pairs "CmdFlags" d.CmdFlags
          ConfigEnvMsg1 := listedOr pairs "ConfigEnvMsg1" d.ConfigEnvMsg1
          ConfigEnvMsg2 := listedOr pairs "ConfigEnvMsg2" d.ConfigEnvMsg2
          ConfigEnvMsg3 := listedOr pairs "ConfigEnvMsg3" d.ConfigEnvMsg3 } := by
  induction pairs with
  | nil => intro d _; rfl
  | cons p ps ih =>
    intro d hnd
    obtain ⟨k, v⟩ := p
    rw [List.map_cons, List.nodup_cons] at hnd
    rw [List.foldl_cons, ih _ hnd.2, setBase_fields]
    simp only [listedOr_cons ps k v _ _ hnd.1]

/-- The fields of the help texts after the assignments of a help section. -/
theorem foldl_setHelp (pairs : List (String × String)) :
    ∀ (h : HelpStrings), (pairs.map Prod.fst).Nodup →
      pairs.foldl (fun h p => h.set p.1 p.2) h =
        ⟨listedOr pairs "Usage" h.Usage, listedOr pairs "Aliases" h.Aliases,
          listedOr pairs "Examples" h.Examples,
          listedOr pairs "AvailableCommands" h.AvailableCommands,
          listedOr pairs "Flags" h.Flags, listedOr pairs "GlobalFlags" h.GlobalFlags,
          listedOr pairs "AdditionalHelpTopics" h.AdditionalHelpTopics,
          listedOr pairs "ProvidesMoreInformationAboutACommand"
            h.ProvidesMoreInformationAboutACommand⟩ := by
  induction pairs with
  | nil => intro h _; rfl
  | cons p ps ih =>
    intro h hnd
    obtain ⟨k, v⟩ := p
    rw [List.map_cons, List.nodup_cons] at hnd
    rw [List.foldl_cons, ih _ hnd.2, setHelp_fields]
    simp only [listedOr_cons ps k v _ _ hnd.1]

theorem findSome_none_of_kind {α : Type} (g : DocSection → Option α) (k : SectionKind)
    (hg : ∀ s, s.kind ≠ k → g s = none) (rest : List DocSection)
    (h : k ∉ rest.map DocSection.kind) : rest.findSome? g = none := by
  rw [List.findSome?_eq_none_iff]
  intro x hx
  apply hg
  intro hk
  apply h
  rw [← hk]
  exact List.mem_map.mpr ⟨x, hx, rfl⟩

/-- The document set after the sections of a list were parsed one after the other. -/
theorem foldl_applySection (secs : List DocSection) :
    ∀ (d : DocSet), secs.all DocSection.wellFormed = true →
      (secs.map DocSection.kind).Nodup →
      secs.foldl applySection d = mergeSections d secs := by
  induction secs with
  | nil => intro d _ _; rfl
  | cons s rest ih =>
    intro d hwf hnd
    rw [List.map_cons, List.nodup_cons] at hnd
    rw [List.all_cons, Bool.and_eq_true] at hwf
    rw [List.foldl_cons, ih _ hwf.2 hnd.2]
    cases s with
    | base p =>
      have hb : rest.findSome? DocSection.basePairs = none :=
        findSome_none_of_kind _ .base (by intro s hs; cases s <;> first | rfl | exact absurd rfl hs)
          rest hnd.1
      have hp : (p.map Prod.fst).Nodup := by
        have := hwf.1
        simp only [DocSection.wellFormed, Bool.and_eq_true, decide_eq_true_eq] at this
        exact this.1
      simp only [applySection, foldl_setBase p d hp, mergeSections, List.findSome?_cons,
        DocSection.basePairs, DocSection.helpPairs, DocSection.usageEntries,
        DocSection.cmdlinePairs, DocSection.configPairs, DocSection.customPairs, hb,
        Option.getD_none, Option.getD_some, listedOr, assocGet]
    | help p =>
      have hb : rest.findSome? DocSection.helpPairs = none :=
        findSome_none_of_kind _ .help (by intro s hs; cases s <;> first | rfl | exact absurd rfl hs)
          rest hnd.1
      have hp : (p.map Prod.fst).Nodup := by
        have := hwf.1
        simp only [DocSection.wellFormed, Bool.and_eq_true, decide_eq_true_eq] at this
        exact this.1
      simp only [applySection, foldl_setHelp p _ hp, mergeSections, List.findSome?_cons,
        DocSection.basePairs, DocSection.helpPairs, DocSection.usageEntries,
        DocSection.cmdlinePairs, DocSection.configPairs, DocSection.customPairs, hb,
        HelpStrings.empty]
    | usage p =>
      have hb : rest.findSome? DocSection.usageEntries = none :=
        findSome_none_of_kind _ .usage (by intro s hs; cases s <;> first | rfl | exact absurd rfl hs)
          rest hnd.1
      have hp : (p.map Prod.fst).Nodup := by
        have := hwf.1
        simp only [DocSection.wellFormed, Bool.and_eq_true, decide_eq_true_eq] at this
        exact this.1
      simp only [applySection, foldl_assocSet_usage p hp, mergeSections, List.findSome?_cons,
        DocSection.basePairs, DocSection.helpPairs, DocSection.usageEntries,
        DocSection.cmdlinePairs, DocSection.configPairs, DocSection.customPairs, hb]
    | cmdline p =>
      have hb : rest.findSome? DocSection.cmdlinePairs = none :=
        findSome_none_of_kind _ .cmdline
          (by intro s hs; cases s <;> first | rfl | exact absurd rfl hs) rest hnd.1
      have hp : (p.map Prod.fst).Nodup := by
        have := hwf.1
        simp only [DocSection.wellFormed, Bool.and_eq_true, decide_eq_true_eq] at this
        exact this.1
      simp only [applySection, foldl_assocSet_pairs p hp, mergeSections, List.findSome?_cons,
        DocSection.basePairs, DocSection.helpPairs, DocSection.usageEntries,
        DocSection.cmdlinePairs, DocSection.configPairs, DocSection.customPairs, hb]
    | config p =>
      have hb : rest.findSome? DocSection.configPairs = none :=
        findSome_none_of_kind _ .config
          (by intro s hs; cases s <;> first | rfl | exact absurd rfl hs) rest hnd.1
      have hp : (p.map Prod.fst).Nodup := by
        have := hwf.1
        simp only [DocSection.wellFormed, Bool.and_eq_true, decide_eq_true_eq] at this
        exact this.1
      simp only [applySection, foldl_assocSet_pairs p hp, mergeSections, List.findSome?_cons,
        DocSection.basePairs, DocSection.helpPairs, DocSection.usageEntries,
        DocSection.cmdlinePairs, DocSection.configPairs, DocSection.customPairs, hb]
    | custom p =>
      have hb : rest.findSome? DocSection.customPairs = none :=
        findSome_none_of_kind _ .custom
          (by intro s hs; cases s <;> first | rfl | exact absurd rfl hs) rest hnd.1
      have hp : (p.map Prod.fst).Nodup := by
        have := hwf.1
        simp only [DocSection.wellFormed, Bool.and_eq_true, decide_eq_true_eq] at this
        exact this.1
      simp only [applySection, foldl_assocSet_pairs p hp, mergeSections, List.findSome?_cons,
        DocSection.basePairs, DocSection.helpPairs, DocSection.usageEntries,
        DocSection.cmdlinePairs, DocSection.configPairs, DocSection.customPairs, hb]

theorem lineAt_of_lt (docs : List String) (i : Nat) (h : i < docs.length) :
    lineAt docs i = .ok (docs.get ⟨i, h⟩) := by
  unfold lineAt
  rw [List.getElem?_eq_getElem h]
  rfl

/-- One pass of the loop of `ConvertDocs` over a well-formed section. -/
theorem convertLoop_section (udoc post pre : List String) (s : DocSection)
    (found : FoundSections) (langDoc : DocSet) (f : Nat)
    (hpre : pre ≠ []) (hu : udoc = pre ++ (s.lines ++ post))
    (hwf : s.wellFormed = true) (hfound : found.has s.kind = false) :
    convertLoop udoc udoc.length (f + 1) pre.length found langDoc =
      convertLoop udoc udoc.length f (pre.length + s.lines.length) (found.mark s.kind)
        (applySection langDoc s) := by
  have hne0 : pre.length ≠ 0 := by
    intro h; exact hpre (List.length_eq_zero.mp h)
  have hlen : udoc.length = pre.length + s.lines.length + post.length := by
    rw [hu]; simp only [List.length_append]; omega
  have hl1 : 0 < s.lines.length := by simp [DocSection.lines]
  have hlt : ¬ pre.length ≥ udoc.length := by omega
  have h0 : lineAt udoc pre.length = .ok s.kind.delimiter := by
    rw [hu]
    simp only [DocSection.lines, List.cons_append]
    exact lineAt_at_length pre _ _
  cases s with
  | base p =>
    simp only [DocSection.wellFormed, Bool.and_eq_true, decide_eq_true_eq, List.all_eq_true] at hwf
    have hu2 : udoc = (pre ++ [BaseDelimiter]) ++ (flattenPairs p ++ BaseDelimiter :: post) := by
      rw [hu]; simp [DocSection.lines, DocSection.kind, DocSection.body, SectionKind.delimiter]
    have hh := helperBaseLoop_section post p (pre ++ [BaseDelimiter]) [] langDoc (udoc.length + 1)
      hwf.1 hwf.2 (by intro q _; rfl)
      (by rw [hlen]; simp [DocSection.lines, DocSection.body, flattenPairs_length]; omega)
    rw [← hu2] at hh
    have hidx : (pre ++ [BaseDelimiter]).length + 2 * p.length + 1 =
        pre.length + (DocSection.base p).lines.length := by
      simp [DocSection.lines, DocSection.body, flattenPairs_length]; omega
    have hl2 : (pre ++ [BaseDelimiter]).length = pre.length + 1 := by simp
    rw [hidx, hl2] at hh
    simp only [DocSection.kind, SectionKind.delimiter, FoundSections.has] at h0 hfound
    rw [convertLoop]
    simp only [hlt, if_false, h0, hne0, hfound, helperBaseCmd, hh, if_true, Bool.false_eq_true]
    rfl
  | help p =>
    simp only [DocSection.wellFormed, Bool.and_eq_true, decide_eq_true_eq, List.all_eq_true] at hwf
    have hu2 : udoc = (pre ++ [HelpDelimiter]) ++ (flattenPairs p ++ HelpDelimiter :: post) := by
      rw [hu]; simp [DocSection.lines, DocSection.kind, DocSection.body, SectionKind.delimiter]
    have hh := helperHelpLoop_section post p (pre ++ [HelpDelimiter]) [] HelpStrings.empty (udoc.length + 1)
      hwf.1 hwf.2 (by intro q _; rfl)
      (by rw [hlen]; simp [DocSection.lines, DocSection.body, flattenPairs_length]; omega)
    rw [← hu2] at hh
    have hidx : (pre ++ [HelpDelimiter]).length + 2 * p.length + 1 =
        pre.length + (DocSection.help p).lines.length := by
      simp [DocSection.lines, DocSection.body, flattenPairs_length]; omega
    have hl2 : (pre ++ [HelpDelimiter]).length = pre.length + 1 := by simp
    rw [hidx, hl2] at hh
    simp only [DocSection.kind, SectionKind.delimiter, FoundSections.has] at h0 hfound
    have n1 : HelpDelimiter ≠ BaseDelimiter := by decide
    rw [convertLoop]
    simp only [hlt, if_false, h0, hne0, hfound, helperHelp, hh, if_true, Bool.false_eq_true, n1]
    rfl
  | usage p =>
    simp only [DocSection.wellFormed, Bool.and_eq_true, decide_eq_true_eq, List.all_eq_true] at hwf
    have hu2 : udoc = (pre ++ [UsageDelimiter]) ++ (flattenUsage p ++ UsageDelimiter :: post) := by
      rw [hu]; simp [DocSection.lines, DocSection.kind, DocSection.body, SectionKind.delimiter]
    have hh := usageHelpLoop_section post p (pre ++ [UsageDelimiter]) [] [] (udoc.length + 1)
      hwf.1 hwf.2 (by intro q _; rfl)
      (by rw [hlen]; simp [DocSection.lines, DocSection.body, flattenUsage_length]; omega)
    rw [← hu2] at hh
    have hidx : (pre ++ [UsageDelimiter]).length + 5 * p.length + 1 =
        pre.length + (DocSection.usage p).lines.length := by
      simp [DocSection.lines, DocSection.body, flattenUsage_length]; omega
    have hl2 : (pre ++ [UsageDelimiter]).length = pre.length + 1 := by simp
    rw [hidx, hl2] at hh
    simp only [DocSection.kind, SectionKind.delimiter, FoundSections.has] at h0 hfound
    have n1 : UsageDelimiter ≠ BaseDelimiter := by decide
    have n2 : UsageDelimiter ≠ HelpDelimiter := by decide
    rw [convertLoop]
    simp only [hlt, if_false, h0, hne0, hfound, usageHelp, hh, if_true, Bool.false_eq_true, n1, n2]
    rfl
  | cmdline p =>
    simp only [DocSection.wellFormed, Bool.and_eq_true, decide_eq_true_eq, List.all_eq_true] at hwf
    have hu2 : udoc = (pre ++ [CmdlineDelimiter]) ++ (flattenPairs p ++ CmdlineDelimiter :: post) := by
      rw [hu]; simp [DocSection.lines, DocSection.kind, DocSection.body, SectionKind.delimiter]
    have hh := mapMapLoop_section "cmd" CmdlineDelimiter (by simp) post p (pre ++ [CmdlineDelimiter]) [] [] (udoc.length + 1)
      hwf.1 hwf.2 (by intro q _; rfl)
      (by rw [hlen]; simp [DocSection.lines, DocSection.body, flattenPairs_length]; omega)
    rw [← hu2] at hh
    have hidx : (pre ++ [CmdlineDelimiter]).length + 2 * p.length + 1 =
        pre.length + (DocSection.cmdline p).lines.length := by
      simp [DocSection.lines, DocSection.body, flattenPairs_length]; omega
    have hl2 : (pre ++ [CmdlineDelimiter]).length = pre.length + 1 := by simp
    rw [hidx, hl2] at hh
    simp only [DocSection.kind, SectionKind.delimiter, FoundSections.has] at h0 hfound
    have n1 : CmdlineDelimiter ≠ BaseDelimiter := by decide
    have n2 : CmdlineDelimiter ≠ HelpDelimiter := by decide
    have n3 : CmdlineDelimiter ≠ UsageDelimiter := by decide
    rw [convertLoop]
    simp only [hlt, if_false, h0, hne0, hfound, mapMap, hh, if_true, Bool.false_eq_true, n1, n2, n3]
    rfl
  | config p =>
    simp only [DocSection.wellFormed, Bool.and_eq_true, decide_eq_true_eq, List.all_eq_true] at hwf
    have hu2 : udoc = (pre ++ [ConfigDelimiter]) ++ (flattenPairs p ++ ConfigDelimiter :: post) := by
      rw [hu]; simp [DocSection.lines, DocSection.kind, DocSection.body, SectionKind.delimiter]
    have hh := mapMapLoop_section "config" ConfigDelimiter (by simp) post p (pre ++ [ConfigDelimiter]) [] [] (udoc.length + 1)
      hwf.1 hwf.2 (by intro q _; rfl)
      (by rw [hlen]; simp [DocSection.lines, DocSection.body, flattenPairs_length]; omega)
    rw [← hu2] at hh
    have hidx : (pre ++ [ConfigDelimiter]).length + 2 * p.length + 1 =
        pre.length + (DocSection.config p).lines.length := by
      simp [DocSection.lines, DocSection.body, flattenPairs_length]; omega
    have hl2 : (pre ++ [ConfigDelimiter]).length = pre.length + 1 := by simp
    rw [hidx, hl2] at hh
    simp only [DocSection.kind, SectionKind.delimiter, FoundSections.has] at h0 hfound
    have n1 : ConfigDelimiter ≠ BaseDelimiter := by decide
    have n2 : ConfigDelimiter ≠ HelpDelimiter := by decide
    have n3 : ConfigDelimiter ≠ UsageDelimiter := by decide
    have n4 : ConfigDelimiter ≠ CmdlineDelimiter := by decide
    rw [convertLoop]
    simp only [hlt, if_false, h0, hne0, hfound, mapMap, hh, if_true, Bool.false_eq_true, n1, n2, n3, n4]
    rfl
  | custom p =>
    simp only [DocSection.wellFormed, Bool.and_eq_true, decide_eq_true_eq, List.all_eq_true] at hwf
    have hu2 : udoc = (pre ++ [CustomDelimiter]) ++ (flattenPairs p ++ CustomDelimiter :: post) := by
      rw [hu]; simp [DocSection.lines, DocSection.kind, DocSection.body, SectionKind.delimiter]
    have hh := mapMapLoop_section "custom" CustomDelimiter (by simp) post p (pre ++ [CustomDelimiter]) [] [] (udoc.length + 1)
      hwf.1 hwf.2 (by intro q _; rfl)
      (by rw [hlen]; simp [DocSection.lines, DocSection.body, flattenPairs_length]; omega)
    rw [← hu2] at hh
    have hidx : (pre ++ [CustomDelimiter]).length + 2 * p.length + 1 =
        pre.length + (DocSection.custom p).lines.length := by
      simp [DocSection.lines, DocSection.body, flattenPairs_length]; omega
    have hl2 : (pre ++ [CustomDelimiter]).length = pre.length + 1 := by simp
    rw [hidx, hl2] at hh
    simp only [DocSection.kind, SectionKind.delimiter, FoundSections.has] at h0 hfound
    have n1 : CustomDelimiter ≠ BaseDelimiter := by decide
    have n2 : CustomDelimiter ≠ HelpDelimiter := by decide
    have n3 : CustomDelimiter ≠ UsageDelimiter := by decide
    have n4 : CustomDelimiter ≠ CmdlineDelimiter := by decide
    have n5 : CustomDelimiter ≠ ConfigDelimiter := by decide
    rw [convertLoop]
    simp only [hlt, if_false, h0, hne0, hfound, mapMap, hh, if_true, Bool.false_eq_true, n1, n2, n3, n4, n5]
    rfl

/-- The loop of `ConvertDocs` over a list of well-formed sections of different kinds,
none of which was met before. -/
theorem convertLoop_sections (udoc post : List String) :
    ∀ (secs : List DocSection) (pre : List String) (found : FoundSections) (langDoc : DocSet)
      (fuel : Nat),
      pre ≠ [] → udoc = pre ++ (sectionLines secs ++ post) →
      secs.all DocSection.wellFormed = true → (secs.map DocSection.kind).Nodup →
      (∀ s ∈ secs, found.has s.kind = false) → secs.length ≤ fuel →
      convertLoop udoc udoc.length fuel pre.length found langDoc =
        convertLoop udoc udoc.length (fuel - secs.length)
          (pre.length + (sectionLines secs).length)
          (secs.foldl (fun f s => f.mark s.kind) found) (secs.foldl applySection langDoc) := by
  intro secs
  induction secs with
  | nil => intro pre found langDoc fuel _ _ _ _ _ _; rfl
  | cons s rest ih =>
    intro pre found langDoc fuel hpre hu hwf hnd hfound hfuel
    obtain ⟨f, rfl⟩ : ∃ f, fuel = f + 1 := ⟨fuel - 1, by simp at hfuel; omega⟩
    rw [List.map_cons, List.nodup_cons] at hnd
    rw [List.all_cons, Bool.and_eq_true] at hwf
    have hu1 : udoc = pre ++ (s.lines ++ (sectionLines rest ++ post)) := by
      rw [hu]; simp [sectionLines]
    rw [convertLoop_section udoc (sectionLines rest ++ post) pre s found langDoc f hpre hu1 hwf.1
      (hfound s (List.mem_cons_self _ _))]
    have hu2 : udoc = (pre ++ s.lines) ++ (sectionLines rest ++ post) := by
      rw [hu1]; simp
    have hrec := ih (pre ++ s.lines) (found.mark s.kind) (applySection langDoc s) f (by simp [hpre])
      hu2 hwf.2 hnd.2
      (by
        intro t ht
        have hne : t.kind ≠ s.kind := by
          intro h
          apply hnd.1
          rw [← h]
          exact List.mem_map.mpr ⟨t, ht, rfl⟩
        have hft := hfound t (List.mem_cons_of_mem _ ht)
        revert hne hft
        cases s.kind <;> cases t.kind <;> simp [FoundSections.has, FoundSections.mark])
      (by simp at hfuel; omega)
    rw [List.length_append] at hrec
    rw [hrec]
    simp only [List.foldl_cons, sectionLines, List.length_append, List.length_cons,
      Nat.add_sub_add_right, Nat.add_assoc]

/-- The flags of `ConvertDocs` after the sections of a list were parsed. -/
theorem has_foldl_mark (secs : List DocSection) :
    ∀ (found : FoundSections) (k : SectionKind),
      (secs.foldl (fun f s => f.mark s.kind) found).has k =
        (found.has k || decide (k ∈ secs.map DocSection.kind)) := by
  induction secs with
  | nil => intro found k; simp
  | cons s rest ih =>
    intro found k
    rw [List.foldl_cons, ih]
    cases hs : s.kind <;> cases k <;>
      simp [FoundSections.has, FoundSections.mark, hs, Bool.or_assoc]

/-- A pass of the loop of `ConvertDocs` at the delimiter of a kind whose flag is set. -/
theorem convertLoop_duplicate (udoc : List String) (l fuel i : Nat) (found : FoundSections)
    (langDoc : DocSet) (k : SectionKind) (h0 : i ≠ 0) (hl : i < l)
    (hline : lineAt udoc i = .ok k.delimiter) (hfound : found.has k = true) :
    convertLoop udoc l (fuel + 1) i found langDoc =
      .error (.errorf (duplicateSection k.text i)) := by
  have hlt : ¬ i ≥ l := by omega
  rw [convertLoop]
  cases k <;>
    simp only [SectionKind.delimiter, FoundSections.has, SectionKind.text] at hline hfound ⊢ <;>
    simp [hlt, hline, h0, hfound, BaseDelimiter, HelpDelimiter, UsageDelimiter, CmdlineDelimiter,
      ConfigDelimiter, CustomDelimiter]

theorem sectionLines_length_ge (secs : List DocSection) :
    2 * secs.length ≤ (sectionLines secs).length := by
  induction secs with
  | nil => simp [sectionLines]
  | cons s rest ih =>
    simp only [sectionLines, List.length_append, List.length_cons, DocSection.lines]
    omega

/-- The call of `ConvertDocs` on a version line, well-formed sections of different
kinds and the lines `post`: the loop comes to the first line of `post` with the
sections parsed. -/
theorem ConvertDocs_sections (secs : List DocSection) (post : List String)
    (hwf : secs.all DocSection.wellFormed = true) (hnd : (secs.map DocSection.kind).Nodup) :
    ConvertDocs (docLines secs ++ post) =
      convertLoop (docLines secs ++ post) (docLines secs ++ post).length
        ((docLines secs ++ post).length - secs.length) (docLines secs).length
        (secs.foldl (fun f s => f.mark s.kind) ⟨false, false, false, false, false, false⟩)
        (mergeSections DocSet.empty secs) := by
  have hu : docLines secs ++ post = ["1.0"] ++ (sectionLines secs ++ post) := by
    simp [docLines]
  have hlen : (docLines secs ++ post).length = 1 + (sectionLines secs).length + post.length := by
    rw [hu]; simp only [List.length_append, List.length_cons, List.length_nil]; omega
  have hge := sectionLines_length_ge secs
  have h0 : lineAt (docLines secs ++ post) 0 = .ok "1.0" := by
    rw [hu]; simp [lineAt]
  unfold ConvertDocs
  rw [convertLoop]
  have hlt : ¬ 0 ≥ (docLines secs ++ post).length := by rw [hlen]; omega
  simp only [hlt, if_false, h0, if_true, ne_eq, not_true_eq_false]
  have := convertLoop_sections (docLines secs ++ post) post secs ["1.0"]
    ⟨false, false, false, false, false, false⟩ DocSet.empty (docLines secs ++ post).length
    (by simp) hu hwf hnd (by intro s _; cases s <;> rfl) (by rw [hlen]; omega)
  rw [foldl_applySection secs _ hwf hnd] at this
  simp only [List.length_cons, List.length_nil, Nat.zero_add] at this
  rw [this]
  congr 1
  simp [docLines]
  omega

/-- The loop of `helperBaseCmd` ends normally, at an index that is not before the one
it started from. -/
theorem helperBaseLoop_total (docs : List String) (l : Nat) (hl : l ≤ docs.length) :
    ∀ (fuel i : Nat) (found : List (String × Nat)) (langDoc : DocSet),
      l + 1 ≤ i + fuel → 1 ≤ fuel →
      endsNormally (helperBaseLoop docs l fuel i found langDoc) = true ∧
      ∀ v j, helperBaseLoop docs l fuel i found langDoc = .ok (v, j) → i ≤ j := by
  intro fuel
  induction fuel with
  | zero => intro i found langDoc _ h; omega
  | succ f ih =>
    intro i found langDoc hf _
    rw [helperBaseLoop]
    by_cases hi : i < l
    · rw [if_pos hi, lineAt_of_lt docs i (by omega)]
      simp only
      split_ifs with h1 h2 h3 h4
      · exact ⟨rfl, fun v j h => by cases h; omega⟩
      · exact ⟨rfl, fun v j h => by cases h⟩
      · exact ⟨rfl, fun v j h => by cases h⟩
      · rw [lineAt_of_lt docs (i + 1) (by omega)]
        simp only
        have := ih (i + 2) (assocSet found (docs.get ⟨i, by omega⟩) i)
          (langDoc.setBase (docs.get ⟨i, by omega⟩) (docs.get ⟨i + 1, by omega⟩))
          (by omega) (by omega)
        exact ⟨this.1, fun v j h => by have := this.2 v j h; omega⟩
      · exact ⟨rfl, fun v j h => by cases h⟩
    · rw [if_neg hi]
      exact ⟨rfl, fun v j h => by cases h; omega⟩

/-- The loop of `helperHelp` ends normally, at an index that is not before the one it
started from. -/
theorem helperHelpLoop_total (docs : List String) (l : Nat) (hl : l ≤ docs.length) :
    ∀ (fuel i : Nat) (found : List (String × Nat)) (hStrings : HelpStrings),
      l + 1 ≤ i + fuel → 1 ≤ fuel →
      endsNormally (helperHelpLoop docs l fuel i found hStrings) = true ∧
      ∀ v j, helperHelpLoop docs l fuel i found hStrings = .ok (v, j) → i ≤ j := by
  intro fuel
  induction fuel with
  | zero => intro i found hStrings _ h; omega
  | succ f ih =>
    intro i found hStrings hf _
    rw [helperHelpLoop]
    by_cases hi : i < l
    · rw [if_pos hi, lineAt_of_lt docs i (by omega)]
      simp only
      split_ifs with h1 h2 h3 h4
      · exact ⟨rfl, fun v j h => by cases h; omega⟩
      · exact ⟨rfl, fun v j h => by cases h⟩
      · exact ⟨rfl, fun v j h => by cases h⟩
      · rw [lineAt_of_lt docs (i + 1) (by omega)]
        simp only
        have := ih (i + 2) (assocSet found (docs.get ⟨i, by omega⟩) i)
          (hStrings.set (docs.get ⟨i, by omega⟩) (docs.get ⟨i + 1, by omega⟩))
          (by omega) (by omega)
        exact ⟨this.1, fun v j h => by have := this.2 v j h; omega⟩
      · exact ⟨rfl, fun v j h => by cases h⟩
    · rw [if_neg hi]
      exact ⟨rfl, fun v j h => by cases h; omega⟩

/-- The loop of `usageHelp` ends normally, at an index that is not before the one it
started from. -/
theorem usageHelpLoop_total (docs : List String) (l : Nat) (hl : l ≤ docs.length) :
    ∀ (fuel i : Nat) (seen : List (String × Nat)) (cmds : List (String × Option CmdHelp)),
      l + 1 ≤ i + fuel → 1 ≤ fuel →
      endsNormally (usageHelpLoop docs l fuel i seen cmds) = true ∧
      ∀ v j, usageHelpLoop docs l fuel i seen cmds = .ok (v, j) → i ≤ j := by
  intro fuel
  induction fuel with
  | zero => intro i seen cmds _ h; omega
  | succ f ih =>
    intro i seen cmds hf _
    rw [usageHelpLoop]
    by_cases hi : i < l
    · rw [if_pos hi, lineAt_of_lt docs i (by omega)]
      simp only
      split_ifs with h1 h2
      · exact ⟨rfl, fun v j h => by cases h; omega⟩
      · cases hs : assocGet seen (docs.get ⟨i, by omega⟩) <;>
          exact ⟨rfl, fun v j h => by cases h⟩
      · cases hs : assocGet seen (docs.get ⟨i, by omega⟩) with
        | some previous => exact ⟨rfl, fun v j h => by cases h⟩
        | none =>
          simp only
          rw [lineAt_of_lt docs (i + 1) (by omega), lineAt_of_lt docs (i + 2) (by omega),
            lineAt_of_lt docs (i + 3) (by omega), lineAt_of_lt docs (i + 4) (by omega)]
          simp only
          have := ih (i + 5) (assocSet seen (docs.get ⟨i, by omega⟩) i)
            (assocSet cmds (docs.get ⟨i, by omega⟩)
              (some ⟨docs.get ⟨i + 1, by omega⟩, docs.get ⟨i + 2, by omega⟩,
                docs.get ⟨i + 3, by omega⟩, docs.get ⟨i + 4, by omega⟩⟩))
            (by omega) (by omega)
          exact ⟨this.1, fun v j h => by have := this.2 v j h; omega⟩
    · rw [if_neg hi]
      exact ⟨rfl, fun v j h => by cases h; omega⟩

/-- The loop of `mapMap` ends normally, at an index that is not before the one it
started from. -/
theorem mapMapLoop_total (docs : List String) (l : Nat) (what : String) (hl : l ≤ docs.length) :
    ∀ (fuel i : Nat) (seen : List (String × Nat)) (mStrings : List (String × String)),
      l + 1 ≤ i + fuel → 1 ≤ fuel →
      endsNormally (mapMapLoop docs l what fuel i seen mStrings) = true ∧
      ∀ v j, mapMapLoop docs l what fuel i seen mStrings = .ok (v, j) → i ≤ j := by
  intro fuel
  induction fuel with
  | zero => intro i seen mStrings _ h; omega
  | succ f ih =>
    intro i seen mStrings hf _
    rw [mapMapLoop]
    by_cases hi : i < l
    · rw [if_pos hi, lineAt_of_lt docs i (by omega)]
      simp only
      split_ifs with h1 h2 h3 h4 h5
      · exact ⟨rfl, fun v j h => by cases h; omega⟩
      · exact ⟨rfl, fun v j h => by cases h; omega⟩
      · exact ⟨rfl, fun v j h => by cases h; omega⟩
      · exact ⟨rfl, fun v j h => by cases h⟩
      · cases hs : assocGet seen (docs.get ⟨i, by omega⟩) <;>
          exact ⟨rfl, fun v j h => by cases h⟩
      · cases hs : assocGet seen (docs.get ⟨i, by omega⟩) with
        | some previous => exact ⟨rfl, fun v j h => by cases h⟩
        | none =>
          simp only
          rw [lineAt_of_lt docs (i + 1) (by omega)]
          simp only
          have := ih (i + 2) (assocSet seen (docs.get ⟨i, by omega⟩) i)
            (assocSet mStrings (docs.get ⟨i, by omega⟩) (docs.get ⟨i + 1, by omega⟩))
            (by omega) (by omega)
          exact ⟨this.1, fun v j h => by have := this.2 v j h; omega⟩
    · rw [if_neg hi]
      exact ⟨rfl, fun v j h => by cases h; omega⟩

theorem endsNormally_error {α β : Type} (e : DocErr)
    (h : endsNormally (.error e : Except DocErr α) = true) :
    endsNormally (.error e : Except DocErr β) = true := by
  cases e <;> simp_all [endsNormally]

/-- The loop of `ConvertDocs` ends normally. -/
theorem convertLoop_total (udoc : List String) :
    ∀ (fuel i : Nat) (found : FoundSections) (langDoc : DocSet),
      udoc.length + 1 ≤ i + fuel → 1 ≤ fuel →
      endsNormally (convertLoop udoc udoc.length fuel i found langDoc) = true := by
  intro fuel
  induction fuel with
  | zero => intro i found langDoc _ h; omega
  | succ f ih =>
    intro i found langDoc hf _
    rw [convertLoop]
    by_cases hi : i ≥ udoc.length
    · rw [if_pos hi]; rfl
    · rw [if_neg hi, lineAt_of_lt udoc i (by omega)]
      simp only
      have hb := helperBaseLoop_total udoc udoc.length (le_refl _) (udoc.length + 1) (i + 1) []
        langDoc (by omega) (by omega)
      have hh := helperHelpLoop_total udoc udoc.length (le_refl _) (udoc.length + 1) (i + 1) []
        HelpStrings.empty (by omega) (by omega)
      have hus := usageHelpLoop_total udoc udoc.length (le_refl _) (udoc.length + 1) (i + 1) []
        [] (by omega) (by omega)
      have hm := fun what => mapMapLoop_total udoc udoc.length what (le_refl _)
        (udoc.length + 1) (i + 1) [] [] (by omega) (by omega)
      split_ifs
      · rfl
      · exact ih _ _ _ (by omega) (by omega)
      · rfl
      · unfold helperBaseCmd
        rcases hres : helperBaseLoop udoc udoc.length (udoc.length + 1) (i + 1) [] langDoc with e | ⟨v, j⟩
        · rw [hres] at hb
          exact endsNormally_error e hb.1
        · exact ih j _ _ (by have := hb.2 v j hres; omega) (by omega)
      · rfl
      · unfold helperHelp
        rcases hres : helperHelpLoop udoc udoc.length (udoc.length + 1) (i + 1) [] HelpStrings.empty with e | ⟨v, j⟩
        · rw [hres] at hh
          exact endsNormally_error e hh.1
        · exact ih j _ _ (by have := hh.2 v j hres; omega) (by omega)
      · rfl
      · unfold usageHelp
        rcases hres : usageHelpLoop udoc udoc.length (udoc.length + 1) (i + 1) [] [] with e | ⟨v, j⟩
        · rw [hres] at hus
          exact endsNormally_error e hus.1
        · exact ih j _ _ (by have := hus.2 v j hres; omega) (by omega)
      · rfl
      · have hw := hm "cmd"
        unfold mapMap
        rcases hres : mapMapLoop udoc udoc.length "cmd" (udoc.length + 1) (i + 1) [] [] with e | ⟨v, j⟩
        · rw [hres] at hw
          exact endsNormally_error e hw.1
        · exact ih j _ _ (by have := hw.2 v j hres; omega) (by omega)
      · rfl
      · have hw := hm "config"
        unfold mapMap
        rcases hres : mapMapLoop udoc udoc.length "config" (udoc.length + 1) (i + 1) [] [] with e | ⟨v, j⟩
        · rw [hres] at hw
          exact endsNormally_error e hw.1
        · exact ih j _ _ (by have := hw.2 v j hres; omega) (by omega)
      · rfl
      · have hw := hm "custom"
        unfold mapMap
        rcases hres : mapMapLoop udoc udoc.length "custom" (udoc.length + 1) (i + 1) [] [] with e | ⟨v, j⟩
        · rw [hres] at hw
          exact endsNormally_error e hw.1
        · exact ih j _ _ (by have := hw.2 v j hres; omega) (by omega)
      · rfl

theorem findSome_of_mem {α : Type} (g : DocSection → Option α) (s : DocSection) (x : α)
    (hg : ∀ t, t.kind ≠ s.kind → g t = none) (hs : g s = some x) :
    ∀ (secs : List DocSection), (secs.map DocSection.kind).Nodup → s ∈ secs →
      secs.findSome? g = some x := by
  intro secs
  induction secs with
  | nil => intro _ h; cases h
  | cons t rest ih =>
    intro hnd hmem
    rw [List.map_cons, List.nodup_cons] at hnd
    rw [List.findSome?_cons]
    rcases List.mem_cons.mp hmem with rfl | hrest
    · rw [hs]
    · have hne : t.kind ≠ s.kind := by
        intro h
        apply hnd.1
        rw [h]
        exact List.mem_map.mpr ⟨s, hrest, rfl⟩
      rw [hg t hne]
      exact ih hnd.2 hrest

theorem findSome_perm {α : Type} (g : DocSection → Option α) (k : SectionKind)
    (hg : ∀ t, t.kind ≠ k → g t = none) (secs secs' : List DocSection)
    (hnd : (secs.map DocSection.kind).Nodup) (hperm : secs'.Perm secs) :
    secs'.findSome? g = secs.findSome? g := by
  have hnd' : (secs'.map DocSection.kind).Nodup := (hperm.map _).nodup_iff.mpr hnd
  rcases h : secs.findSome? g with _ | x
  · rw [List.findSome?_eq_none_iff] at h ⊢
    intro t ht
    exact h t (hperm.mem_iff.mp ht)
  · obtain ⟨s, hs, hx⟩ := List.exists_of_findSome?_eq_some h
    have hk : s.kind = k := by
      by_contra hne
      rw [hg s hne] at hx
      cases hx
    exact findSome_of_mem g s x (fun t ht => hg t (by rw [← hk]; exact ht)) hx secs' hnd'
      (hperm.mem_iff.mpr hs)

/-- The document set that sections of different kinds describe does not depend on
their order. -/
theorem mergeSections_perm (d : DocSet) (secs secs' : List DocSection)
    (hnd : (secs.map DocSection.kind).Nodup) (hperm : secs'.Perm secs) :
    mergeSections d secs' = mergeSections d secs := by
  have h1 := findSome_perm DocSection.basePairs .base
    (by intro t ht; cases t <;> first | rfl | exact absurd rfl ht) secs secs' hnd hperm
  have h2 := findSome_perm DocSection.helpPairs .help
    (by intro t ht; cases t <;> first | rfl | exact absurd rfl ht) secs secs' hnd hperm
  have h3 := findSome_perm DocSection.usageEntries .usage
    (by intro t ht; cases t <;> first | rfl | exact absurd rfl ht) secs secs' hnd hperm
  have h4 := findSome_perm DocSection.cmdlinePairs .cmdline
    (by intro t ht; cases t <;> first | rfl | exact absurd rfl ht) secs secs' hnd hperm
  have h5 := findSome_perm DocSection.configPairs .config
    (by intro t ht; cases t <;> first | rfl | exact absurd rfl ht) secs secs' hnd hperm
  have h6 := findSome_perm DocSection.customPairs .custom
    (by intro t ht; cases t <;> first | rfl | exact absurd rfl ht) secs secs' hnd hperm
  simp only [mergeSections, h1, h2, h3, h4, h5, h6]

/-- C20. For every list made of the version line `1.0` followed by at most one
well-formed, delimiter-closed section of each kind, in any order, `ConvertDocs`
succeeds, and the document set does not depend on the order: it is the one that the
sections describe.  It holds what each section lists: the texts of a base section in
the fields of their names, the texts of a help section in `Help`, the commands of a
usage section in `Usage`, the pairs of a command-line, config or custom section in
`CmdLine`, `ConfigFile` or `Custom`; and the field of a section that is not given is
nil. -/
theorem convertDocs_any_order (secs secs' : List DocSection)
    (hwf : secs.all DocSection.wellFormed = true)
    (hnd : (secs.map DocSection.kind).Nodup) (hperm : secs'.Perm secs) :
    ConvertDocs (docLines secs') = .ok (docSetOf secs) ∧
    (∀ p, DocSection.base p ∈ secs →
      (docSetOf secs).Use = listedOr p "Use" "" ∧
      (docSetOf secs).Short = listedOr p "Short" "" ∧
      (docSetOf secs).Long = listedOr p "Long" "" ∧
      (docSetOf secs).Example = listedOr p "Example" "" ∧
      (docSetOf secs).HelpFlag = listedOr p "HelpFlag" "" ∧
      (docSetOf secs).CmdFlags = listedOr p "CmdFlags" "" ∧
      (docSetOf secs).ConfigEnvMsg1 = listedOr p "ConfigEnvMsg1" "" ∧
      (docSetOf secs).ConfigEnvMsg2 = listedOr p "ConfigEnvMsg2" "" ∧
      (docSetOf secs).ConfigEnvMsg3 = listedOr p "ConfigEnvMsg3" "") ∧
    (∀ p, DocSection.help p ∈ secs →
      (docSetOf secs).Help =
        some ⟨listedOr p "Usage" "", listedOr p "Aliases" "", listedOr p "Examples" "",
          listedOr p "AvailableCommands" "", listedOr p "Flags" "",
          listedOr p "GlobalFlags" "", listedOr p "AdditionalHelpTopics" "",
          listedOr p "ProvidesMoreInformationAboutACommand" ""⟩) ∧
    (∀ es, DocSection.usage es ∈ secs →
      (docSetOf secs).Usage = some (es.map fun e => (e.1, some e.2))) ∧
    (∀ p, DocSection.cmdline p ∈ secs → (docSetOf secs).CmdLine = some p) ∧
    (∀ p, DocSection.config p ∈ secs → (docSetOf secs).ConfigFile = some p) ∧
    (∀ p, DocSection.custom p ∈ secs → (docSetOf secs).Custom = some p) ∧
    (SectionKind.base ∉ secs.map DocSection.kind →
      (docSetOf secs).Use = "" ∧ (docSetOf secs).Short = "" ∧ (docSetOf secs).Long = "" ∧
      (docSetOf secs).Example = "" ∧ (docSetOf secs).HelpFlag = "" ∧
      (docSetOf secs).CmdFlags = "" ∧ (docSetOf secs).ConfigEnvMsg1 = "" ∧
      (docSetOf secs).ConfigEnvMsg2 = "" ∧ (docSetOf secs).ConfigEnvMsg3 = "") ∧
    (SectionKind.help ∉ secs.map DocSection.kind → (docSetOf secs).Help = none) ∧
    (SectionKind.usage ∉ secs.map DocSection.kind → (docSetOf secs).Usage = none) ∧
    (SectionKind.cmdline ∉ secs.map DocSection.kind → (docSetOf secs).CmdLine = none) ∧
    (SectionKind.config ∉ secs.map DocSection.kind → (docSetOf secs).ConfigFile = none) ∧
    (SectionKind.custom ∉ secs.map DocSection.kind → (docSetOf secs).Custom = none) := by
  have hnd' : (secs'.map DocSection.kind).Nodup := (hperm.map _).nodup_iff.mpr hnd
  have hwf' : secs'.all DocSection.wellFormed = true := by
    rw [List.all_eq_true] at hwf ⊢
    intro t ht
    exact hwf t (hperm.mem_iff.mp ht)
  refine ⟨?_, ?_, ?_, ?_, ?_, ?_, ?_, ?_, ?_, ?_, ?_, ?_, ?_⟩
  · have h := ConvertDocs_sections secs' [] hwf' hnd'
    rw [List.append_nil] at h
    rw [h, mergeSections_perm DocSet.empty secs secs' hnd hperm]
    have hge := sectionLines_length_ge secs'
    have hlen : (docLines secs').length = 1 + (sectionLines secs').length := by
      simp [docLines]; omega
    obtain ⟨f, hf⟩ : ∃ f, (docLines secs').length - secs'.length = f + 1 :=
      ⟨(docLines secs').length - secs'.length - 1, by omega⟩
    rw [hf, convertLoop]
    simp [docSetOf]
  · intro p hp
    have h := findSome_of_mem DocSection.basePairs (.base p) p
      (by intro t ht; cases t <;> first | rfl | exact absurd rfl ht) rfl secs hnd hp
    simp [docSetOf, mergeSections, h, DocSet.empty]
  · intro p hp
    have h := findSome_of_mem DocSection.helpPairs (.help p) p
      (by intro t ht; cases t <;> first | rfl | exact absurd rfl ht) rfl secs hnd hp
    simp [docSetOf, mergeSections, h]
  · intro p hp
    have h := findSome_of_mem DocSection.usageEntries (.usage p) p
      (by intro t ht; cases t <;> first | rfl | exact absurd rfl ht) rfl secs hnd hp
    simp [docSetOf, mergeSections, h]
  · intro p hp
    have h := findSome_of_mem DocSection.cmdlinePairs (.cmdline p) p
      (by intro t ht; cases t <;> first | rfl | exact absurd rfl ht) rfl secs hnd hp
    simp [docSetOf, mergeSections, h]
  · intro p hp
    have h := findSome_of_mem DocSection.configPairs (.config p) p
      (by intro t ht; cases t <;> first | rfl | exact absurd rfl ht) rfl secs hnd hp
    simp [docSetOf, mergeSections, h]
  · intro p hp
    have h := findSome_of_mem DocSection.customPairs (.custom p) p
      (by intro t ht; cases t <;> first | rfl | exact absurd rfl ht) rfl secs hnd hp
    simp [docSetOf, mergeSections, h]
  · intro hk
    have h := findSome_none_of_kind DocSection.basePairs .base
      (by intro t ht; cases t <;> first | rfl | exact absurd rfl ht) secs hk
    simp [docSetOf, mergeSections, h, DocSet.empty, listedOr, assocGet]
  · intro hk
    have h := findSome_none_of_kind DocSection.helpPairs .help
      (by intro t ht; cases t <;> first | rfl | exact absurd rfl ht) secs hk
    simp [docSetOf, mergeSections, h, DocSet.empty]
  · intro hk
    have h := findSome_none_of_kind DocSection.usageEntries .usage
      (by intro t ht; cases t <;> first | rfl | exact absurd rfl ht) secs hk
    simp [docSetOf, mergeSections, h, DocSet.empty]
  · intro hk
    have h := findSome_none_of_kind DocSection.cmdlinePairs .cmdline
      (by intro t ht; cases t <;> first | rfl | exact absurd rfl ht) secs hk
    simp [docSetOf, mergeSections, h, DocSet.empty]
  · intro hk
    have h := findSome_none_of_kind DocSection.configPairs .config
      (by intro t ht; cases t <;> first | rfl | exact absurd rfl ht) secs hk
    simp [docSetOf, mergeSections, h, DocSet.empty]
  · intro hk
    have h := findSome_none_of_kind DocSection.customPairs .custom
      (by intro t ht; cases t <;> first | rfl | exact absurd rfl ht) secs hk
    simp [docSetOf, mergeSections, h, DocSet.empty]

/-- C20 at the sections of `TestConvertDocset`, in the standard order and in the
opposite order: the result is `docsetStruct`. -/
theorem convertDocs_any_order_witness :
    docTestSections.all DocSection.wellFormed = true ∧
    (docTestSections.map DocSection.kind).Nodup ∧
    docTestSections.reverse.Perm docTestSections ∧
    ConvertDocs (docLines docTestSections.reverse) = .ok docsetStruct ∧
    ConvertDocs (docLines docTestSections) = .ok docsetStruct :=
  ⟨by decide, by decide, List.reverse_perm _,
    (convertDocs_any_order docTestSections docTestSections.reverse (by decide) (by decide)
      (List.reverse_perm _)).1,
    (convertDocs_any_order docTestSections docTestSections (by decide) (by decide)
      (List.Perm.refl _)).1⟩

/-- C21. When a delimiter opens a section of a kind of which a section was parsed
already, `ConvertDocs` returns the error `duplicate <kind> section` with the index of
that delimiter: for a list that starts with the version line and well-formed sections
of different kinds followed by the delimiter of one of them, whatever comes after it;
and in general for every pass of the loop of `ConvertDocs` that starts at the
delimiter of a kind whose flag is set. -/
theorem convertDocs_duplicate_section (secs : List DocSection) (post : List String)
    (k : SectionKind) (hwf : secs.all DocSection.wellFormed = true)
    (hnd : (secs.map DocSection.kind).Nodup) (hk : k ∈ secs.map DocSection.kind) :
    ConvertDocs (docLines secs ++ k.delimiter :: post) =
      .error (.errorf (duplicateSection k.text (docLines secs).length)) ∧
    ∀ (udoc : List String) (l fuel i : Nat) (found : FoundSections) (langDoc : DocSet),
      i ≠ 0 → i < l → lineAt udoc i = .ok k.delimiter → found.has k = true →
      convertLoop udoc l (fuel + 1) i found langDoc =
        .error (.errorf (duplicateSection k.text i)) := by
  refine ⟨?_, fun udoc l fuel i found langDoc h0 hl hline hfound =>
    convertLoop_duplicate udoc l fuel i found langDoc k h0 hl hline hfound⟩
  rw [ConvertDocs_sections secs (k.delimiter :: post) hwf hnd]
  have hge := sectionLines_length_ge secs
  have hlen : (docLines secs ++ k.delimiter :: post).length =
      (docLines secs).length + 1 + post.length := by
    simp only [List.length_append, List.length_cons]; omega
  have hdl : (docLines secs).length = 1 + (sectionLines secs).length := by
    simp [docLines]; omega
  obtain ⟨f, hf⟩ : ∃ f, (docLines secs ++ k.delimiter :: post).length - secs.length = f + 1 :=
    ⟨(docLines secs ++ k.delimiter :: post).length - secs.length - 1, by omega⟩
  rw [hf]
  apply convertLoop_duplicate
  · omega
  · omega
  · exact lineAt_at_length _ _ _
  · rw [has_foldl_mark]
    simp [hk]

/-- C21 at the list `Duplicate 6` of `TestConvertDocset`: the six sections, then the
custom section once more. -/
theorem convertDocs_duplicate_section_witness :
    docTestSections.all DocSection.wellFormed = true ∧
    (docTestSections.map DocSection.kind).Nodup ∧
    SectionKind.custom ∈ docTestSections.map DocSection.kind ∧
    ConvertDocs (docLines docTestSections ++
        CustomDelimiter :: ["k1", "v1", "k2", "v2", CustomDelimiter]) =
      .error (.errorf "Documentation parse error: duplicate custom section at line 69") :=
  ⟨by decide, by decide, by decide,
    (convertDocs_duplicate_section docTestSections ["k1", "v1", "k2", "v2", CustomDelimiter]
      .custom (by decide) (by decide) (by decide)).1⟩

/-- C30. `ConvertDocs` is total: for every list of strings it returns a document set
or an error; it does not panic on an index outside the list, and the iterations it is
given are enough.  Each of the section helpers `helperBaseCmd`, `helperHelp`,
`usageHelp` and `mapMap`, called with the length of the list, likewise ends with a
result or with an error it returns, and the index it returns is not before the one it
was called with, which is the one after the opening delimiter. -/
theorem ConvertDocs_total (udoc : List String) :
    ((∃ d, ConvertDocs udoc = .ok d) ∨ (∃ msg, ConvertDocs udoc = .error (.errorf msg))) ∧
    (∀ (langDoc : DocSet) (idx : Nat),
      endsNormally (helperBaseCmd langDoc udoc idx udoc.length) = true ∧
      ∀ d j, helperBaseCmd langDoc udoc idx udoc.length = .ok (d, j) → idx ≤ j) ∧
    (∀ (idx : Nat),
      endsNormally (helperHelp udoc idx udoc.length) = true ∧
      ∀ h j, helperHelp udoc idx udoc.length = .ok (h, j) → idx ≤ j) ∧
    (∀ (idx : Nat),
      endsNormally (usageHelp udoc idx udoc.length) = true ∧
      ∀ m j, usageHelp udoc idx udoc.length = .ok (m, j) → idx ≤ j) ∧
    (∀ (idx : Nat) (what : String),
      endsNormally (mapMap udoc idx udoc.length what) = true ∧
      ∀ m j, mapMap udoc idx udoc.length what = .ok (m, j) → idx ≤ j) := by
  refine ⟨?_, ?_, ?_, ?_, ?_⟩
  · have h := convertLoop_total udoc (udoc.length + 1) 0
      ⟨false, false, false, false, false, false⟩ DocSet.empty (by omega) (by omega)
    unfold ConvertDocs
    rcases hr : convertLoop udoc udoc.length (udoc.length + 1) 0
      ⟨false, false, false, false, false, false⟩ DocSet.empty with e | d
    · rw [hr] at h
      cases e with
      | errorf msg => exact Or.inr ⟨msg, rfl⟩
      | indexOutOfRange i len => simp [endsNormally] at h
      | outOfFuel => simp [endsNormally] at h
    · exact Or.inl ⟨d, rfl⟩
  · intro langDoc idx
    exact helperBaseLoop_total udoc udoc.length (le_refl _) _ _ _ _ (by omega) (by omega)
  · intro idx
    exact helperHelpLoop_total udoc udoc.length (le_refl _) _ _ _ _ (by omega) (by omega)
  · intro idx
    exact usageHelpLoop_total udoc udoc.length (le_refl _) _ _ _ _ (by omega) (by omega)
  · intro idx what
    exact mapMapLoop_total udoc udoc.length what (le_refl _) _ _ _ _ (by omega) (by omega)

/-! ## The base logger, ports, custom strings, the extension parser, the file name -/

theorem append_singleton_ne {α : Type} (l : List α) (x : α) : l ++ [x] ≠ l := by
  intro h
  have := congrArg List.length h
  simp at this

/-- C24, what the code does: a base logger writes a debug message and an info message
only at the level debug, a warning only at the levels debug and info, and an error at
every level.  So the logger made for the level `info` writes nothing for an info
message, and the logger made for the level `warn` writes nothing for a warning. -/
theorem baseLogger_drops_own_level (l : baseLogger) (w : List String) (s : String)
    (lf : List String) :
    ((l.DebugStructured s lf).w ≠ l.w ↔ l.level = debugLevel) ∧
    ((l.InfoStructured s lf).w ≠ l.w ↔ l.level = debugLevel) ∧
    ((l.WarnStructured s lf).w ≠ l.w ↔ l.level ≤ infoLevel) ∧
    (l.ErrorStructured s lf).w ≠ l.w ∧
    BasePrettyLogger "info" w = .ok ⟨w, infoLevel, ""⟩ ∧
    ((⟨w, infoLevel, ""⟩ : baseLogger).InfoStructured s lf).w = w ∧
    BasePrettyLogger "warn" w = .ok ⟨w, warnLevel, ""⟩ ∧
    ((⟨w, warnLevel, ""⟩ : baseLogger).WarnStructured s lf).w = w := by
  have hp : (l.doPrint s lf).w ≠ l.w := by
    unfold baseLogger.doPrint
    split_ifs <;> exact append_singleton_ne _ _
  refine ⟨?_, ?_, ?_, ?_, rfl, rfl, rfl, rfl⟩
  · unfold baseLogger.DebugStructured
    by_cases h : l.level = debugLevel
    · simp [h, hp]
    · simp [h]
  · unfold baseLogger.InfoStructured
    by_cases h : l.level = debugLevel
    · simp [h, hp]
    · have : l.level > debugLevel := by unfold debugLevel at h ⊢; omega
      simp [h, this]
  · unfold baseLogger.WarnStructured
    by_cases h : l.level ≤ infoLevel
    · have : ¬ l.level > infoLevel := by omega
      simp [h, this, hp]
    · have : l.level > infoLevel := by omega
      simp [h, this]
  · exact hp

/-- C25, what the code does: for an integer outside 0..65535 `SetInt` returns the
error and the value becomes the integer converted to `uint16`, whatever it was; the
port 80 becomes 4464 when 70000 is set. -/
theorem portValue_setInt_failure_assigns (p : PortValue) (i : Int) (h : i < 0 ∨ i > 65535) :
    (p.SetInt i).2 =
      some (.errorf ("Invalid port " ++ formatInt i ++
        ", must be an integer between 0 and 65535")) ∧
    (p.SetInt i).1.val = wrapUint 16 i ∧
    ((⟨80⟩ : PortValue).SetInt 70000).1.val = 4464 := by
  refine ⟨?_, rfl, by decide⟩
  simp [PortValue.SetInt, h]

/-- C25 at the port 80 and the integer 70000. -/
theorem portValue_setInt_failure_assigns_witness :
    ((70000 : Int) < 0 ∨ (70000 : Int) > 65535) ∧
    ((⟨80⟩ : PortValue).SetInt 70000).2 =
      some (.errorf "Invalid port 70000, must be an integer between 0 and 65535") ∧
    ((⟨80⟩ : PortValue).SetInt 70000).1.val = 4464 :=
  ⟨by decide, (portValue_setInt_failure_assigns ⟨80⟩ 70000 (by decide)).1,
    (portValue_setInt_failure_assigns ⟨80⟩ 70000 (by decide)).2.2⟩

/-- C26, what the code does: `NewDefaultCustomStringValue` accepts a nil validation
function and stores the default as given, and then `Set` and `UnmarshalText` call the
nil function, which is a run-time panic; the value is not set. -/
theorem customString_nil_handler_panics (libText : GoErr → String) (name set : String)
    (data : FlagData) (s : String) :
    ∃ c, NewDefaultCustomStringValue libText name set none data = .ok c ∧ c.Value = set ∧
      (c.Set s).2 = some (.panicked "invalid memory address or nil pointer dereference") ∧
      (c.UnmarshalText s).2 =
        some (.panicked "invalid memory address or nil pointer dereference") ∧
      (c.Set s).1.Value = set :=
  ⟨⟨set, none, name, data⟩, rfl, rfl, rfl, rfl, rfl⟩

/-- C27, the code at the failing input: the keys `custom.a` and `custom.b` are routed
to the parser, which returns no error and reports `custom.a`, `custom.b` and `custom.a`
once more; no routed key is left, and `load` fails with `Unprocessed key(s)`. -/
theorem load_complete_list_rejected :
    (thoroughParser ⟨[], baseValues "" false false⟩
      [("custom.a", .str "1"), ("custom.b", .str "2")]).2 =
        (["custom.a", "custom.b", "custom.a"], none) ∧
    unprocessedKeys [("custom.a", .str "1"), ("custom.b", .str "2")]
      ["custom.a", "custom.b", "custom.a"] = [] ∧
    thoroughResult.err =
      some (.errorf ("Unprocessed key(s) in the configuration file, needed custom processing " ++
        "for . The parser has processed: custom.a,custom.b,custom.a")) :=
  ⟨rfl, by decide, by decide⟩

/-- C28, what the code does: for a configuration file name that contains a path
separator `fileName` returns the empty string and no error, whatever the application
name and the location. -/
theorem fileName_with_separator_empty (fe : FolderEnv) (dname name location : String)
    (h : containsChar name pathSeparator = true) :
    fileName fe dname name location = ("", none) := by
  have hne : name ≠ "" := by
    intro h0
    rw [h0] at h
    revert h
    decide
  simp [fileName, hne, h]

/-- C28 at the name `/etc/app.toml`: the result is the empty string. -/
theorem fileName_with_separator_empty_witness :
    containsChar "/etc/app.toml" pathSeparator = true ∧
    fileName unixFolders "app" "/etc/app.toml" "cwd" = ("", none) ∧
    (fileName unixFolders "app" "" "cwd").1 = "/home/user/app.toml" :=
  ⟨by decide, fileName_with_separator_empty unixFolders "app" "/etc/app.toml" "cwd" (by decide),
    by decide⟩

/-! ## The records of the additional variables -/

theorem bindStanzas_oneSided (quote : String → String) (osenv : OsEnv)
    (docs : List (String × String)) (appname : String) (bf : BindField) (cur : GoVal)
    (viperenv : String) :
    ∀ (stanzas : List String) (ic : Nat) (vipername : String) (checked : Bool) (st : BindState),
      ∀ vv ∈ (bindStanzas quote osenv docs appname bf cur viperenv stanzas ic vipername checked
          st).1.additional,
        vv ∈ st.additional ∨ vv.oneSided = true := by
  intro stanzas
  induction stanzas with
  | nil => intro ic vipername checked st vv h; exact Or.inl h
  | cons cc rest ih =>
    intro ic vipername checked st vv h
    have grow : ∀ (ic' : Nat) (vn : String) (ch : Bool) (r : additionalStruct),
        r.oneSided = true →
        vv ∈ (bindStanzas quote osenv docs appname bf cur viperenv rest ic' vn ch
          { st with additional := st.additional ++ [r] }).1.additional →
        vv ∈ st.additional ∨ vv.oneSided = true := by
      intro ic' vn ch r hr hm
      rcases ih ic' vn ch _ vv hm with h1 | h1
      · simp only [List.mem_append, List.mem_singleton] at h1
        rcases h1 with h1 | h1
        · exact Or.inl h1
        · subst h1; exact Or.inr hr
      · exact Or.inr h1
    unfold bindStanzas at h
    simp only at h
    split_ifs at h
    all_goals first
      | exact Or.inl h
      | exact ih _ _ _ _ vv h
      | exact grow _ _ _ _ (by simp [additionalStruct.oneSided]) h
      | skip
    all_goals
      split at h
      · first
        | exact Or.inl h
        | (simp only [List.mem_append, List.mem_singleton] at h
           rcases h with h | h
           · exact Or.inl h
           · subst h; exact Or.inr (by simp [additionalStruct.oneSided]))
      · split at h
        · first
          | exact Or.inl h
          | (simp only [List.mem_append, List.mem_singleton] at h
             rcases h with h | h
             · exact Or.inl h
             · subst h; exact Or.inr (by simp [additionalStruct.oneSided]))
        · rcases ih _ _ _ _ vv h with h1 | h1
          · rw [annotate_additional] at h1
            first
              | exact Or.inl h1
              | (simp only [List.mem_append, List.mem_singleton] at h1
                 rcases h1 with h1 | h1
                 · exact Or.inl h1
                 · subst h1; exact Or.inr (by simp [additionalStruct.oneSided]))
          · exact Or.inr h1

theorem bindField_oneSided (ext : External) (quote : String → String) (osenv : OsEnv)
    (docs : List (String × String)) (appname : String) (bf : BindField) (cur : GoVal)
    (st : BindState) :
    ∀ vv ∈ (bindField ext quote osenv docs appname bf cur st).1.additional,
      vv ∈ st.additional ∨ vv.oneSided = true := by
  intro vv h
  unfold bindField at h
  cases hb : bf.field.Typ.isBasePtr with
  | true => simp only [hb, if_true] at h; exact Or.inl h
  | false =>
    simp only [hb, Bool.false_eq_true, if_false] at h
    cases hx : isExported ext bf.field.Name with
    | false => simp only [hx, Bool.false_eq_true, not_false_eq_true, if_true] at h; exact Or.inl h
    | true =>
      simp only [hx, not_true_eq_false, if_false] at h
      split at h
      · exact Or.inl h
      · split_ifs at h
        · exact Or.inl h
        · simp only [List.mem_append, List.mem_singleton] at h
          rcases h with h | h
          · exact Or.inl h
          · subst h; exact Or.inr (by simp [additionalStruct.oneSided])
        · exact bindStanzas_oneSided quote osenv docs appname bf cur _ _ _ _ _ _ vv h

theorem bindFields_oneSided (ext : External) (quote : String → String) (osenv : OsEnv)
    (docs : List (String × String)) (appname : String) (values : Struct) :
    ∀ (fields : List BindField) (seen : List String) (st : BindState),
      ∀ vv ∈ (bindFields ext quote osenv docs appname values fields seen st).1.additional,
        vv ∈ st.additional ∨ vv.oneSided = true := by
  intro fields
  induction fields with
  | nil => intro seen st vv h; exact Or.inl h
  | cons x rest ih =>
    intro seen st vv h
    unfold bindFields at h
    by_cases hin : x.field.Name ∈ seen
    · simp only [hin, if_true] at h; exact Or.inl h
    · simp only [hin, if_false] at h
      have hrec := bindField_oneSided ext quote osenv docs appname x (values.get x.field.Name) st vv
      rcases hb : bindField ext quote osenv docs appname x (values.get x.field.Name) st with
        ⟨st', err⟩
      rw [hb] at h hrec
      cases err with
      | some e => exact hrec h
      | none =>
        simp only at h
        rcases ih _ _ vv h with h1 | h1
        · exact hrec h1
        · exact Or.inr h1

/-- An error of the loop of `load` over records with an empty `Cmdline` or an empty
`Viper` is an error that `setString` returned for one of them. -/
theorem loadAdditional_error_source (ext : External) (env : OsEnv) (sch : Schema) (uc : String)
    (noclobber : List (String × String)) (e : GoErr) :
    ∀ (additional : List additionalStruct) (cfg : Cfg) (sEnv : List (String × String)),
      (∀ vv ∈ additional, vv.oneSided = true) →
      (loadAdditional ext env sch uc noclobber additional cfg sEnv).2.2 = some e →
      ∃ vv ∈ additional, ∃ cfg' v, (setString ext env sch cfg' vv.Name v).2 = some e := by
  intro additional
  induction additional with
  | nil => intro cfg sEnv _ h; cases h
  | cons vv rest ih =>
    intro cfg sEnv hall h
    have hvv : vv.Cmdline = "" ∨ vv.Viper = "" := by
      have := hall vv (List.mem_cons_self _ _)
      simpa [additionalStruct.oneSided] using this
    have hrest : ∀ w ∈ rest, w.oneSided = true := fun w hw => hall w (List.mem_cons_of_mem _ hw)
    have up : (∃ w ∈ rest, ∃ cfg' v, (setString ext env sch cfg' w.Name v).2 = some e) →
        ∃ w ∈ vv :: rest, ∃ cfg' v, (setString ext env sch cfg' w.Name v).2 = some e := by
      rintro ⟨w, hw, hp⟩
      exact ⟨w, List.mem_cons_of_mem _ hw, hp⟩
    rw [loadAdditional] at h
    generalize (if vv.Env ≠ "" then env.getenv (uc ++ "_" ++ vv.Env) else "") = evalue at h
    generalize (if vv.Env ≠ "" ∧ evalue ≠ "" then assocSet sEnv (uc ++ "_" ++ vv.Env) evalue
      else sEnv) = sEnv' at h
    have setCase :
        (match setString ext env sch cfg vv.Name evalue with
          | (cfg', some err) => (cfg', sEnv', some err)
          | (cfg', none) => loadAdditional ext env sch uc noclobber rest cfg' sEnv').2.2 = some e →
        ∃ w ∈ vv :: rest, ∃ cfg' v, (setString ext env sch cfg' w.Name v).2 = some e := by
      intro h'
      rcases hs : setString ext env sch cfg vv.Name evalue with ⟨cfg', err⟩
      rw [hs] at h'
      cases err with
      | some e' =>
        simp only at h'
        cases h'
        exact ⟨vv, List.mem_cons_self _ _, cfg, evalue, by rw [hs]⟩
      | none =>
        simp only at h'
        exact up (ih _ _ hrest h')
    by_cases hc : vv.Cmdline = ""
    · simp only [hc, if_true] at h
      by_cases hcond : evalue ≠ "" ∧ (assocGet noclobber vv.Name).isNone = true
      · simp only [hcond, and_self, if_true, ne_eq, not_false_eq_true] at h
        exact setCase h
      · simp only [hcond, if_false] at h
        exact up (ih _ _ hrest h)
    · simp only [hc, if_false] at h
      have hv : vv.Viper = "" := hvv.resolve_left hc
      simp only [hv, if_true] at h
      by_cases hcond : evalue ≠ "" ∧ (assocGet noclobber vv.Name).isNone = true
      · simp only [hcond, and_self, if_true, ne_eq, not_false_eq_true] at h
        exact setCase h
      · simp only [hcond, if_false] at h
        exact up (ih _ _ hrest h)

/-- C29. Every record of an additional variable that `createBindings` returns has an
empty `Cmdline` or an empty `Viper`.  Hence the loop of `load` over records that
`createBindings` returned does not come to the branch `Internal error, cmd & env both
not empty`: an error of that loop is an error that `setString` returned for one of the
records. -/
theorem createBindings_records_oneSided (ext : External) (quote : String → String)
    (osenv : OsEnv) (implementsConfig : Bool) (fields : List BindField) (values : Struct)
    (vp : Viper) (p : List (String × Command)) (env docs : List (String × String))
    (appname : String) (seenFields : List String) :
    (∀ vv ∈ (createBindings ext quote osenv implementsConfig fields values vp p env docs appname
        seenFields).additional, vv.Cmdline = "" ∨ vv.Viper = "") ∧
    ∀ (env' : OsEnv) (sch : Schema) (uc : String) (noclobber : List (String × String))
      (before after : List additionalStruct) (cfg : Cfg) (sEnv : List (String × String))
      (e : GoErr),
      (∀ vv ∈ before ++ after, vv.Cmdline = "" ∨ vv.Viper = "") →
      (loadAdditional ext env' sch uc noclobber
        (before ++ (createBindings ext quote osenv implementsConfig fields values vp p env docs
          appname seenFields).additional ++ after) cfg sEnv).2.2 = some e →
      ∃ (vv : additionalStruct) (cfg' : Cfg) (v : String),
        (setString ext env' sch cfg' vv.Name v).2 = some e := by
  have h1 : ∀ vv ∈ (createBindings ext quote osenv implementsConfig fields values vp p env docs
      appname seenFields).additional, vv.oneSided = true := by
    intro vv hvv
    unfold createBindings at hvv
    cases implementsConfig with
    | false => simp at hvv
    | true =>
      simp only [not_true_eq_false, if_false] at hvv
      have hrec := bindFields_oneSided ext quote osenv docs appname values fields seenFields
        ⟨vp, p, env, []⟩ vv
      rcases hb : bindFields ext quote osenv docs appname values fields seenFields
        ⟨vp, p, env, []⟩ with ⟨st, seen', err⟩
      rw [hb] at hvv hrec
      cases err with
      | some e => simp at hvv
      | none =>
        simp only at hvv
        rcases hrec hvv with h | h
        · simp at h
        · exact h
  refine ⟨fun vv hvv => by simpa [additionalStruct.oneSided] using h1 vv hvv, ?_⟩
  intro env' sch uc noclobber before after cfg sEnv e hother hload
  have hall : ∀ vv ∈ before ++ (createBindings ext quote osenv implementsConfig fields values vp
      p env docs appname seenFields).additional ++ after, vv.oneSided = true := by
    intro vv hvv
    simp only [List.mem_append] at hvv
    rcases hvv with (hvv | hvv) | hvv
    · simpa [additionalStruct.oneSided] using hother vv (List.mem_append_left _ hvv)
    · exact h1 vv hvv
    · simpa [additionalStruct.oneSided] using hother vv (List.mem_append_right _ hvv)
  obtain ⟨vv, _, cfg', v, hs⟩ :=
    loadAdditional_error_source ext env' sch uc noclobber e _ cfg sEnv hall hload
  exact ⟨vv, cfg', v, hs⟩

/-! ## Choosing the documentation of a language -/

theorem copyUsage_firstNil (usage : List (String × Option CmdHelp)) :
    copyUsage usage = match firstNil usage with
      | some k => .error k
      | none => .ok usage := by
  induction usage with
  | nil => rfl
  | cons p rest ih =>
    obtain ⟨k, v⟩ := p
    cases v with
    | none => rfl
    | some h =>
      simp only [copyUsage, firstNil, ih]
      cases firstNil rest <;> rfl

theorem utf8Len_pos (c : Char) : 1 ≤ utf8Len c := by
  unfold utf8Len
  simp only
  split_ifs <;> omega

theorem byteLen_gt_one_iff (lang : String) (h : asciiStart lang = true) :
    byteLen lang > 1 ↔ lang.length ≥ 2 := by
  obtain ⟨cs⟩ := lang
  unfold byteLen
  simp only [asciiStart, List.all_eq_true, decide_eq_true_eq] at h
  match cs, h with
  | [], _ => simp
  | [a], h =>
    have ha : a.toNat < 128 := h a (by simp)
    simp [utf8Len, ha]
  | a :: b :: rest, _ =>
    have h1 := utf8Len_pos a
    have h2 := utf8Len_pos b
    simp only [List.map_cons, List.sum_cons, String.length, List.length_cons]
    omega

theorem firstTwoBytes_ascii (lang : String) (h : asciiStart lang = true)
    (h2 : lang.length ≥ 2) : firstTwoBytes lang = some (firstTwoChars lang) := by
  obtain ⟨cs⟩ := lang
  simp only [asciiStart, List.all_eq_true, decide_eq_true_eq] at h
  match cs, h, h2 with
  | a :: b :: rest, h, _ =>
    have ha : a.toNat < 128 := h a (by simp)
    have hb : b.toNat < 128 := h b (by simp)
    simp [firstTwoBytes, firstTwoChars, utf8Len, ha, hb]

/-- The pair of variables `docs` and `foundLanguage` with which `getDocset` comes to
its copy: `chosen` of the definition, by the key of the claim. -/
theorem getDocset_by_key (documentation : List (String × Option DocSet))
    (lang defLang : String) (hascii : asciiStart lang = true) :
    getDocset documentation lang defLang =
      match docsetKey documentation lang defLang with
      | none =>
        (DocSet.empty, "",
          some (.errorf ("No docset present for the default language: " ++ defLang)))
      | some key =>
        match assocGet documentation key with
        | some (some docs) =>
          match firstNil (docs.Usage.getD []) with
          | some k =>
            (DocSet.empty, "",
              some (.errorf ("Nil CmdHelp entry for command " ++ k ++ " in language " ++ key)))
          | none => (docs.copy, key, none)
        | _ =>
          (DocSet.empty, "", some (.panicked "invalid memory address or nil pointer dereference"))
      := by
  have tail : ∀ (od : Option DocSet) (key : String),
      (match (some (od, key) : Option (Option DocSet × String)) with
        | none =>
          (DocSet.empty, "",
            some (GoErr.errorf ("No docset present for the default language: " ++ defLang)))
        | some (none, _) =>
          (DocSet.empty, "",
            some (GoErr.panicked "invalid memory address or nil pointer dereference"))
        | some (some docs, foundLanguage) =>
          match copyUsage (docs.Usage.getD []) with
          | .error k =>
            (DocSet.empty, "",
              some (GoErr.errorf
                ("Nil CmdHelp entry for command " ++ k ++ " in language " ++ foundLanguage)))
          | .ok usage =>
            (⟨docs.Use, docs.Short, docs.Long, docs.Example, docs.HelpFlag, docs.CmdFlags,
              docs.ConfigEnvMsg1, docs.ConfigEnvMsg2, docs.ConfigEnvMsg3,
              some (docs.Help.getD HelpStrings.empty), some (docs.CmdLine.getD []),
              some (docs.ConfigFile.getD []), some usage, some (docs.Custom.getD [])⟩,
              foundLanguage, none)) =
      match (some od : Option (Option DocSet)) with
      | some (some docs) =>
        match firstNil (docs.Usage.getD []) with
        | some k =>
          (DocSet.empty, "",
            some (GoErr.errorf ("Nil CmdHelp entry for command " ++ k ++ " in language " ++ key)))
        | none => (docs.copy, key, none)
      | _ =>
        (DocSet.empty, "",
          some (GoErr.panicked "invalid memory address or nil pointer dereference")) := by
    intro od key
    cases od with
    | none => rfl
    | some docs =>
      simp only [copyUsage_firstNil]
      cases firstNil (docs.Usage.getD []) <;> rfl
  have htwo : lang.length ≥ 2 → firstTwoChars lang ≠ "" := by
    intro h
    obtain ⟨cs⟩ := lang
    match cs, h with
    | a :: b :: rest, _ =>
      intro h0
      have := congrArg String.data h0
      simp [firstTwoChars] at this
  unfold getDocset docsetKey
  by_cases h1 : lang = ""
  · subst h1
    simp only [ne_eq, not_true_eq_false, if_false, false_and, if_true]
    have : ¬ ("".length ≥ 2) := by decide
    simp only [this, false_and, if_false]
    cases hd : assocGet documentation defLang with
    | none => rfl
    | some od =>
      simp only [Option.isSome_some, if_true]
      rw [hd]
      exact tail od defLang
  · simp only [ne_eq, h1, not_false_eq_true, if_true, true_and]
    cases hl : assocGet documentation lang with
    | some exact =>
      simp only [h1, if_false, Option.isSome_some, if_true]
      rw [hl]
      exact tail exact lang
    | none =>
      simp only [Option.isSome_none, Bool.false_eq_true, if_false]
      by_cases h2 : lang.length ≥ 2
      · have h2' : byteLen lang > 1 := (byteLen_gt_one_iff lang hascii).mpr h2
        simp only [h2, if_true, h2', true_and, firstTwoBytes_ascii lang hascii h2]
        cases ht : assocGet documentation (firstTwoChars lang) with
        | some sub =>
          simp only [htwo h2, if_false, Option.isSome_some, if_true]
          rw [ht]
          exact tail sub (firstTwoChars lang)
        | none =>
          simp only [if_true, Option.isSome_none, Bool.false_eq_true, if_false]
          cases hd : assocGet documentation defLang with
          | none => rfl
          | some od =>
            simp only [Option.isSome_some, if_true]
            rw [hd]
            exact tail od defLang
      · have h2' : ¬ byteLen lang > 1 := fun h => h2 ((byteLen_gt_one_iff lang hascii).mp h)
        simp only [h2, if_false, if_true, h2', false_and]
        cases hd : assocGet documentation defLang with
        | none => rfl
        | some od =>
          simp only [Option.isSome_some, if_true]
          rw [hd]
          exact tail od defLang

theorem firstNil_none_iff (usage : List (String × Option CmdHelp)) :
    firstNil usage = none ↔ ∀ e ∈ usage, e.2.isSome = true := by
  induction usage with
  | nil => simp [firstNil]
  | cons p rest ih =>
    obtain ⟨k, v⟩ := p
    cases v with
    | none => simp [firstNil]
    | some h => simp [firstNil, ih]

theorem firstNil_some_mem (usage : List (String × Option CmdHelp)) (k : String)
    (h : firstNil usage = some k) : (k, none) ∈ usage := by
  induction usage with
  | nil => cases h
  | cons p rest ih =>
    obtain ⟨k', v⟩ := p
    cases v with
    | none =>
      simp only [firstNil, Option.some.injEq] at h
      subst h
      exact List.mem_cons_self _ _
    | some c => exact List.mem_cons_of_mem _ (ih h)

/-- C22 as the code has it, for a language name `lang` whose first two characters are
ASCII characters, of one byte each.  `getDocset` uses the documentation registered
under `lang` when `lang` is not empty and that key exists; otherwise the one registered
under the first two characters of `lang` when `lang` has at least two and they are a
key; otherwise the one registered under the default language.  When no entry of
`Usage` of that documentation is nil, it returns a copy of it with the key that was
used as the name of the language; when an entry is nil the call fails with `Nil CmdHelp
entry for command ... in language ...`, naming a nil entry and the key; and the call
fails with `No docset present for the default language` when it has to fall back to a
default language that is not registered. -/
theorem getDocset_selects (documentation : List (String × Option DocSet))
    (lang defLang : String) (hascii : asciiStart lang = true) :
    (docsetKey documentation lang defLang = none →
      getDocset documentation lang defLang =
        (DocSet.empty, "",
          some (.errorf ("No docset present for the default language: " ++ defLang)))) ∧
    (∀ key docs, docsetKey documentation lang defLang = some key →
      assocGet documentation key = some (some docs) →
      ((∀ e ∈ docs.Usage.getD [], e.2.isSome = true) →
        getDocset documentation lang defLang = (docs.copy, key, none)) ∧
      (¬ (∀ e ∈ docs.Usage.getD [], e.2.isSome = true) →
        ∃ k, (k, none) ∈ docs.Usage.getD [] ∧
          getDocset documentation lang defLang =
            (DocSet.empty, "",
              some (.errorf ("Nil CmdHelp entry for command " ++ k ++ " in language " ++
                key))))) := by
  refine ⟨?_, ?_⟩
  · intro h
    rw [getDocset_by_key _ _ _ hascii, h]
  · intro key docs hkey hdocs
    refine ⟨?_, ?_⟩
    · intro hall
      rw [getDocset_by_key _ _ _ hascii, hkey]
      simp only [hdocs, (firstNil_none_iff _).mpr hall]
    · intro hnot
      rw [← firstNil_none_iff] at hnot
      rcases hf : firstNil (docs.Usage.getD []) with _ | k
      · exact absurd hf hnot
      · refine ⟨k, firstNil_some_mem _ k hf, ?_⟩
        rw [getDocset_by_key _ _ _ hascii, hkey]
        simp only [hdocs, hf]

/-- C22 at the documentation of `TestGetDocset`: for `it_` with the default `en` the
result is a copy of the documentation of `it`, with the name `it`. -/
theorem getDocset_selects_witness :
    asciiStart "it_" = true ∧ asciiStart "fr" = true ∧
    docsetKey docTestLanguages "it_" "en" = some "it" ∧
    assocGet docTestLanguages "it" = some (some { DocSet.empty with Use := "it" }) ∧
    getDocset docTestLanguages "it_" "en" =
      (({ DocSet.empty with Use := "it" } : DocSet).copy, "it", none) ∧
    getDocset docTestLanguages "fr" "de" =
      (DocSet.empty, "", some (.errorf "No docset present for the default language: de")) :=
  ⟨by decide, by decide, by decide, by decide,
    ((getDocset_selects docTestLanguages "it_" "en" (by decide)).2 "it"
      { DocSet.empty with Use := "it" } (by decide) (by decide)).1 (by decide),
    (getDocset_selects docTestLanguages "fr" "de" (by decide)).1 (by decide)⟩

/-- C22, a counterexample to the claim as stated: `en` is registered and is the
language asked for, but the call does not return a copy of its documentation with the
name `en`; it fails, because the entry of `Usage` for `multiargs>subargs` is nil. -/
theorem getDocset_nil_usage_counterexample :
    asciiStart "en" = true ∧
    docsetKey nilUsageLanguages "en" "en" = some "en" ∧
    (assocGet nilUsageLanguages "en").isSome = true ∧
    getDocset nilUsageLanguages "en" "en" =
      (DocSet.empty, "",
        some (.errorf "Nil CmdHelp entry for command multiargs>subargs in language en")) := by
  decide

/-- The test `len(lang) > 1` and the slice `lang[:2]` of `getDocset` count bytes: for
the name `éx`, whose first character has two bytes, the key looked up is `é` and
not the first two characters; and for `aé` the slice ends inside a character, no key
is equal to it and the default language is used. -/
theorem getDocset_two_bytes :
    byteLen "éx" = 3 ∧ firstTwoBytes "éx" = some "é" ∧ firstTwoChars "éx" = "éx" ∧
    getDocset twoByteLanguages "éx" "en" =
      (({ DocSet.empty with Use := "e-acute" } : DocSet).copy, "é", none) ∧
    firstTwoBytes "aé" = none ∧
    getDocset twoByteLanguages "aé" "en" =
      (({ DocSet.empty with Use := "en" } : DocSet).copy, "en", none) := by
  decide


/-! ## Two fields for one key of the configuration file -/

theorem emitLines_append (docs : List (String × String)) (l1 l2 : List cfgLine) :
    ∀ (st : EmitState),
      emitLines docs (l1 ++ l2) st =
        if (emitLines docs l1 st).2 = none then emitLines docs l2 (emitLines docs l1 st).1
        else emitLines docs l1 st := by
  induction l1 with
  | nil => intro st; simp [emitLines]
  | cons v rest ih =>
    intro st
    simp only [List.cons_append, emitLines]
    cases hs : assocGet st.seen v.cand with
    | none => exact ih _
    | some pValue =>
      simp only
      by_cases ha : pValue ≠ v.value
      · simp [ha]
      · by_cases hb : (assocGet st.seenDoc v.cand).getD "" ≠ v.doc
        · simp [ha, hb]
        · simp only [ha, hb, if_false]
          exact ih _

theorem emitLine_seen (docs : List (String × String)) (v : cfgLine) (st : EmitState) :
    (emitLine docs v st).seen = assocSet st.seen v.cand v.value ∧
    (emitLine docs v st).seenDoc = assocSet st.seenDoc v.cand v.doc := by
  unfold emitLine
  simp only
  split_ifs <;> exact ⟨rfl, rfl⟩

/-- Once a key is in the maps `seen` and `seenDoc`, the loop leaves its entries as
they are. -/
theorem emitLines_keeps (docs : List (String × String)) (c pv pd : String) :
    ∀ (l : List cfgLine) (st : EmitState),
      assocGet st.seen c = some pv → (assocGet st.seenDoc c).getD "" = pd →
      (emitLines docs l st).2 = none →
      assocGet (emitLines docs l st).1.seen c = some pv ∧
        (assocGet (emitLines docs l st).1.seenDoc c).getD "" = pd := by
  intro l
  induction l with
  | nil => intro st h1 h2 _; exact ⟨h1, h2⟩
  | cons v rest ih =>
    intro st h1 h2 hok
    simp only [emitLines] at hok ⊢
    cases hs : assocGet st.seen v.cand with
    | none =>
      simp only [hs] at hok ⊢
      have hne : v.cand ≠ c := by
        intro h
        rw [h, h1] at hs
        cases hs
      apply ih _ _ _ hok
      · rw [(emitLine_seen docs v st).1, assocGet_assocSet, if_neg hne]
        exact h1
      · rw [(emitLine_seen docs v st).2, assocGet_assocSet, if_neg hne]
        exact h2
    | some pValue =>
      simp only [hs] at hok ⊢
      by_cases ha : pValue ≠ v.value
      · simp [ha] at hok
      · by_cases hb : (assocGet st.seenDoc v.cand).getD "" ≠ v.doc
        · simp [ha, hb] at hok
        · simp only [ha, hb, if_false] at hok ⊢
          exact ih st h1 h2 hok

/-- After a line went through the loop without an error, the maps hold its value and
its documentation, or the equal ones of a line for the same key before it. -/
theorem emitLines_records (docs : List (String × String)) (x : cfgLine) (st : EmitState)
    (hok : (emitLines docs [x] st).2 = none) :
    assocGet (emitLines docs [x] st).1.seen x.cand = some x.value ∧
      (assocGet (emitLines docs [x] st).1.seenDoc x.cand).getD "" = x.doc := by
  simp only [emitLines] at hok ⊢
  cases hs : assocGet st.seen x.cand with
  | none =>
    simp only
    rw [(emitLine_seen docs x st).1, (emitLine_seen docs x st).2, assocGet_assocSet,
      assocGet_assocSet]
    simp
  | some pValue =>
    simp only [hs] at hok ⊢
    by_cases ha : pValue ≠ x.value
    · simp [ha] at hok
    · by_cases hb : (assocGet st.seenDoc x.cand).getD "" ≠ x.doc
      · simp [ha, hb] at hok
      · push_neg at ha hb
        simp only [ha, hb, ne_eq, not_true_eq_false, if_false]
        simp [emitLines, hs, ha, hb]

/-- The maps when the loop comes to a line `y` after a line `x` for the same key. -/
theorem emitLines_before_second (docs : List (String × String)) (pre mid : List cfgLine)
    (x : cfgLine) (st : EmitState) (hok : (emitLines docs (pre ++ x :: mid) st).2 = none) :
    assocGet (emitLines docs (pre ++ x :: mid) st).1.seen x.cand = some x.value ∧
      (assocGet (emitLines docs (pre ++ x :: mid) st).1.seenDoc x.cand).getD "" = x.doc := by
  have e : pre ++ x :: mid = pre ++ ([x] ++ mid) := by simp
  rw [e] at hok ⊢
  rw [emitLines_append] at hok ⊢
  by_cases h1 : (emitLines docs pre st).2 = none
  · rw [if_pos h1] at hok ⊢
    rw [emitLines_append] at hok ⊢
    by_cases h2 : (emitLines docs [x] (emitLines docs pre st).1).2 = none
    · rw [if_pos h2] at hok ⊢
      have hx := emitLines_records docs x _ h2
      exact emitLines_keeps docs x.cand x.value x.doc mid _ hx.1 hx.2 hok
    · rw [if_neg h2] at hok
      exact absurd hok h2
  · rw [if_neg h1] at hok
    exact absurd hok h1

/-- Every error of the loop is one of the two errors `More than one configuration
variable corresponds to config file variable`. -/
theorem emitLines_error_form (docs : List (String × String)) :
    ∀ (l : List cfgLine) (st : EmitState) (e : GoErr), (emitLines docs l st).2 = some e →
      ∃ v p, e = defaultsErr v p ∨ e = docLinesErr v p := by
  intro l
  induction l with
  | nil => intro st e h; cases h
  | cons v rest ih =>
    intro st e h
    simp only [emitLines] at h
    cases hs : assocGet st.seen v.cand with
    | none =>
      rw [hs] at h
      exact ih _ e h
    | some pValue =>
      rw [hs] at h
      simp only at h
      split_ifs at h with ha hb
      · simp only [Option.some.injEq] at h
        exact ⟨v, pValue, Or.inl h.symm⟩
      · simp only [Option.some.injEq] at h
        exact ⟨v, _, Or.inr h.symm⟩
      · exact ih _ e h

theorem cand_of_sameKey (x y : cfgLine) (h : x.sameKey y = true) :
    y.cand = x.cand ∧ y.parent = x.parent ∧ y.child = x.child := by
  simp only [cfgLine.sameKey, Bool.and_eq_true, decide_eq_true_eq] at h
  simp [cfgLine.cand, h.1, h.2]

/-- The loop at the second of two lines for one key. -/
theorem emitLines_second (docs : List (String × String)) (pre mid post : List cfgLine)
    (x y : cfgLine) (st : EmitState) (hkey : x.sameKey y = true)
    (hok : (emitLines docs (pre ++ x :: mid) st).2 = none) :
    emitLines docs (pre ++ x :: mid ++ y :: post) st =
      if x.value ≠ y.value then
        ((emitLines docs (pre ++ x :: mid) st).1, some (defaultsErr y x.value))
      else if x.doc ≠ y.doc then
        ((emitLines docs (pre ++ x :: mid) st).1, some (docLinesErr y x.doc))
      else emitLines docs post (emitLines docs (pre ++ x :: mid) st).1 := by
  have hinv := emitLines_before_second docs pre mid x st hok
  rw [emitLines_append, if_pos hok]
  rw [← (cand_of_sameKey x y hkey).1] at hinv
  simp only [emitLines, hinv.1, hinv.2]

/-- C23. When the sorted lines of `fileContents` hold two lines `x` and `y` for the
same key of the configuration file, `x` before `y`:
* if the two have the same rendered default and the same documentation, the result is
  the one for the lines without `y`, so the key is written once, for `x`;
* if the defaults differ, or the defaults are equal and the documentation differs,
  `fileContents` fails with a `More than one configuration variable corresponds to
  config file variable` error; when no line before `y` fails it is the error for this
  key, about the defaults in the first case and about the documentation in the
  second. -/
theorem fileContents_same_key (sortSlice : List cfgLine → List cfgLine)
    (docs : List (String × String)) (cfgVars pre mid post : List cfgLine) (x y : cfgLine)
    (hsort : sortSlice cfgVars = pre ++ x :: mid ++ y :: post) (hkey : x.sameKey y = true) :
    (x.value = y.value → x.doc = y.doc →
      fileContents sortSlice docs cfgVars =
        ((emitLines docs (pre ++ x :: mid ++ post) (emitStart docs)).1.confText,
          (emitLines docs (pre ++ x :: mid ++ post) (emitStart docs)).2)) ∧
    ((x.value ≠ y.value ∨ x.doc ≠ y.doc) →
      ∃ v p, (fileContents sortSlice docs cfgVars).2 = some (defaultsErr v p) ∨
        (fileContents sortSlice docs cfgVars).2 = some (docLinesErr v p)) ∧
    ((emitLines docs (pre ++ x :: mid) (emitStart docs)).2 = none →
      (x.value ≠ y.value →
        (fileContents sortSlice docs cfgVars).2 = some (defaultsErr y x.value)) ∧
      (x.value = y.value → x.doc ≠ y.doc →
        (fileContents sortSlice docs cfgVars).2 = some (docLinesErr y x.doc))) := by
  have third : (emitLines docs (pre ++ x :: mid) (emitStart docs)).2 = none →
      (x.value ≠ y.value →
        (fileContents sortSlice docs cfgVars).2 = some (defaultsErr y x.value)) ∧
      (x.value = y.value → x.doc ≠ y.doc →
        (fileContents sortSlice docs cfgVars).2 = some (docLinesErr y x.doc)) := by
    intro hok
    unfold fileContents
    simp only [hsort, emitLines_second docs pre mid post x y _ hkey hok]
    refine ⟨fun hv => ?_, fun hv hd => ?_⟩
    · simp [hv]
    · simp [hv, hd]
  refine ⟨?_, ?_, third⟩
  · intro hv hd
    unfold fileContents
    simp only [hsort]
    have hr := emitLines_append docs (pre ++ x :: mid) post (emitStart docs)
    have hl := emitLines_append docs (pre ++ x :: mid) (y :: post) (emitStart docs)
    by_cases hok : (emitLines docs (pre ++ x :: mid) (emitStart docs)).2 = none
    · rw [if_pos hok] at hr
      rw [emitLines_second docs pre mid post x y _ hkey hok, hr]
      simp [hv, hd]
    · rw [if_neg hok] at hr hl
      rw [hr, hl]
  · intro hdiff
    by_cases hok : (emitLines docs (pre ++ x :: mid) (emitStart docs)).2 = none
    · by_cases hv : x.value = y.value
      · have hd : x.doc ≠ y.doc := by
          rcases hdiff with h | h
          · exact absurd hv h
          · exact h
        exact ⟨y, x.doc, Or.inr ((third hok).2 hv hd)⟩
      · exact ⟨y, x.value, Or.inl ((third hok).1 hv)⟩
    · have hl := emitLines_append docs (pre ++ x :: mid) (y :: post) (emitStart docs)
      rw [if_neg hok] at hl
      rcases he : (emitLines docs (pre ++ x :: mid) (emitStart docs)).2 with _ | e
      · exact absurd he hok
      · obtain ⟨v, p, hvp⟩ := emitLines_error_form docs _ _ e he
        have hres : (fileContents sortSlice docs cfgVars).2 = some e := by
          unfold fileContents
          simp only [hsort]
          rw [hl]
          exact he
        refine ⟨v, p, ?_⟩
        rcases hvp with h | h
        · exact Or.inl (by rw [hres, h])
        · exact Or.inr (by rw [hres, h])

/-- C23 at the structs of `TestConfigInitDefault`: two fields with the tag `||none,
.param,`; with the same default and documentation the key is written once, and with
different defaults or different documentation the call fails with the message of the
test. -/
theorem fileContents_same_key_witness :
    fileContents id duplicateDocs
        [paramLine "same" "same param doc", paramLine "same" "same param doc"] =
      ("# Config generated while testing\n\n# same param doc\nparam = \"same\"\n", none) ∧
    (fileContents id []
        [paramLine "different" "same param doc", paramLine "same" "same param doc"]).2 =
      some (.errorf ("More than one configuration variable corresponds to config file " ++
        "variable .param with different defaults: \"same\" and \"different\" for example")) ∧
    (fileContents id []
        [paramLine "same" "different param doc", paramLine "same" "same param doc"]).2 =
      some (.errorf ("More than one configuration variable corresponds to config file " ++
        "variable .param with different doc lines: \"same param doc\" and " ++
        "\"different param doc\" for example")) :=
  ⟨((fileContents_same_key id duplicateDocs
      [paramLine "same" "same param doc", paramLine "same" "same param doc"] [] [] []
      (paramLine "same" "same param doc") (paramLine "same" "same param doc") rfl rfl).1
        rfl rfl).trans (by decide),
    ((fileContents_same_key id []
      [paramLine "different" "same param doc", paramLine "same" "same param doc"] [] [] []
      (paramLine "different" "same param doc") (paramLine "same" "same param doc") rfl rfl).2.2
        (by decide)).1 (by decide),
    ((fileContents_same_key id []
      [paramLine "same" "different param doc", paramLine "same" "same param doc"] [] [] []
      (paramLine "same" "different param doc") (paramLine "same" "same param doc") rfl rfl).2.2
        (by decide)).2 (by decide) (by decide)⟩

/-- C29 at the struct with `TestParam complex128 greenery:", .configvar,"`: the one
record that `createBindings` returns has no `Cmdline`. -/
theorem createBindings_records_oneSided_witness :
    configvarBound.additional = [⟨"TestParam", "", "", "configvar", ""⟩] ∧
    ∀ vv ∈ configvarBound.additional, vv.Cmdline = "" ∨ vv.Viper = "" :=
  ⟨by decide,
    (createBindings_records_oneSided scenarioExt quotePlain [] true configvarFields
      [("TestParam", .other "complex128" "(0+0i)")] Viper.new [] [] [] "PARTIAL"
      (createBindings scenarioExt quotePlain [] true [] [] Viper.new [] [] [] "PARTIAL"
        []).seenFields).1⟩

end Greenery
